import Mathlib

/-!
# TreeBillboardsApp: frame-resource ring, dirty propagation and draw submission

A shallow embedding of `Week7-2-TreeBillboardsApp.cpp`.

* `float` values are rationals (exact arithmetic); a 4x4 matrix is a Mathlib matrix over `ℚ`.
* Pointers are positions or keys: a `RenderItem*` is a position in `mAllRitems`, a
  `Material*` / `MeshGeometry*` is the key of the owning map, a `FrameResource*` is a position in
  `mFrameResources`.  Dereferencing a pointer that does not resolve yields `none`.
* `UINT` products are taken modulo `2^32`, `UINT64` sums modulo `2^64`; an `int` sum beyond
  `INT_MAX` is a failure.
* A step whose behaviour is undefined (a null or dangling pointer, an index past a buffer)
  yields `none`.
* `Update` reports whether it took the branch that waits for the GPU fence, `Draw` returns the
  command list it records and the fence value it signals.
* The `Waves` class is a parameter (`WavesModel`); the camera, the timer, the completed value of
  the GPU fence and the random numbers of a tick are its input (`TickInput`).
-/

namespace TreeBillboards

/-! ## Scalars, vectors, matrices -/

abbrev XMFLOAT4X4 := Matrix (Fin 4) (Fin 4) ℚ

structure XMFLOAT2 where
  x : ℚ
  y : ℚ
deriving DecidableEq

structure XMFLOAT3 where
  x : ℚ
  y : ℚ
  z : ℚ
deriving DecidableEq

structure XMFLOAT4 where
  x : ℚ
  y : ℚ
  z : ℚ
  w : ℚ
deriving DecidableEq

/-- The value of `MathHelper::Identity4x4()`. -/
def Identity4x4 : XMFLOAT4X4 := 1

/-- The value of `XMMatrixTranspose`. -/
def XMMatrixTranspose (M : XMFLOAT4X4) : XMFLOAT4X4 := M.transpose

/-- The value of `XMMatrixMultiply`. -/
def XMMatrixMultiply (A B : XMFLOAT4X4) : XMFLOAT4X4 := A * B

/-- The value of `XMMatrixInverse` in exact arithmetic (the zero matrix for a singular argument). -/
def XMMatrixInverse (M : XMFLOAT4X4) : XMFLOAT4X4 := (M.det)⁻¹ • M.adjugate

/-- The constant `gNumFrameResources`. -/
def gNumFrameResources : Int := 3

/-- The largest `int`; an `int` sum beyond it is undefined and modelled as a failure. -/
def INT_MAX : Int := 2147483647

/-- Wrap-around of a `UINT` (32 bit). -/
def wrapUINT (n : Nat) : Nat := n % 2 ^ 32

/-- Wrap-around of a `UINT64`. -/
def wrapUINT64 (n : Nat) : Nat := n % 2 ^ 64

/-! ## Data model -/

/-- The `struct RenderItem`; the defaults are the member initialisers of the source
(`UINT ObjCBIndex = -1` is `2^32 - 1`, `D3D_PRIMITIVE_TOPOLOGY_TRIANGLELIST` is `4`). -/
structure RenderItem where
  World : XMFLOAT4X4 := Identity4x4
  TexTransform : XMFLOAT4X4 := Identity4x4
  NumFramesDirty : Int := gNumFrameResources
  ObjCBIndex : Nat := 4294967295
  Mat : Option String := none
  Geo : Option String := none
  PrimitiveType : Nat := 4
  IndexCount : Nat := 0
  StartIndexLocation : Nat := 0
  BaseVertexLocation : Int := 0

/-- The `enum class RenderLayer : int`. -/
inductive RenderLayer where
  | Opaque
  | Transparent
  | AlphaTested
  | AlphaTestedTreeSprites
deriving DecidableEq, Repr

/-- The enumerator values: `Opaque = 0`, then `Transparent`, `AlphaTested`,
`AlphaTestedTreeSprites` in declaration order (`Count` is `4`). -/
def RenderLayer.toFin : RenderLayer → Fin 4
  | .Opaque => 0
  | .Transparent => 1
  | .AlphaTested => 2
  | .AlphaTestedTreeSprites => 3

/-- Modelled from the spec: the `Material` record of `d3dUtil.h`, which is not among the sources:
diffuse albedo, Fresnel term, roughness, texture transform, index into the texture-descriptor
table, slot index into the material-constant buffer and frames-dirty counter. -/
structure Material where
  Name : String := ""
  MatCBIndex : Nat
  DiffuseSrvHeapIndex : Nat
  NumFramesDirty : Int := gNumFrameResources
  DiffuseAlbedo : XMFLOAT4 := ⟨1, 1, 1, 1⟩
  FresnelR0 : XMFLOAT3 := ⟨1 / 100, 1 / 100, 1 / 100⟩
  Roughness : ℚ := 1 / 4
  MatTransform : XMFLOAT4X4 := Identity4x4

/-- Modelled from the spec: `ObjectConstants` of `FrameResource.h`, the per-item constant data. -/
structure ObjectConstants where
  World : XMFLOAT4X4 := Identity4x4
  TexTransform : XMFLOAT4X4 := Identity4x4

/-- Modelled from the spec: `MaterialConstants` of `d3dUtil.h`, the per-material constant data. -/
structure MaterialConstants where
  DiffuseAlbedo : XMFLOAT4 := ⟨1, 1, 1, 1⟩
  FresnelR0 : XMFLOAT3 := ⟨1 / 100, 1 / 100, 1 / 100⟩
  Roughness : ℚ := 1 / 4
  MatTransform : XMFLOAT4X4 := Identity4x4

/-- Modelled from the spec: a light descriptor of the pass constants (the fields the source
assigns). -/
structure Light where
  Strength : XMFLOAT3 := ⟨1 / 2, 1 / 2, 1 / 2⟩
  Direction : XMFLOAT3 := ⟨0, -1, 0⟩
  Position : XMFLOAT3 := ⟨0, 0, 0⟩
  SpotPower : ℚ := 64
deriving DecidableEq

/-- Modelled from the spec: `PassConstants` of `FrameResource.h`, the global per-frame data
(the fields the source reads or assigns). -/
structure PassConstants where
  View : XMFLOAT4X4 := Identity4x4
  InvView : XMFLOAT4X4 := Identity4x4
  Proj : XMFLOAT4X4 := Identity4x4
  InvProj : XMFLOAT4X4 := Identity4x4
  ViewProj : XMFLOAT4X4 := Identity4x4
  InvViewProj : XMFLOAT4X4 := Identity4x4
  EyePosW : XMFLOAT3 := ⟨0, 0, 0⟩
  RenderTargetSize : XMFLOAT2 := ⟨0, 0⟩
  InvRenderTargetSize : XMFLOAT2 := ⟨0, 0⟩
  NearZ : ℚ := 0
  FarZ : ℚ := 0
  TotalTime : ℚ := 0
  DeltaTime : ℚ := 0
  AmbientLight : XMFLOAT4 := ⟨0, 0, 0, 1⟩
  FogColor : XMFLOAT4 := ⟨7 / 10, 7 / 10, 7 / 10, 1⟩
  Lights : Fin 16 → Light := fun _ => {}

/-- Modelled from the spec: the `Vertex` of `FrameResource.h`: position, normal, texture
coordinate. -/
structure Vertex where
  Pos : XMFLOAT3 := ⟨0, 0, 0⟩
  Normal : XMFLOAT3 := ⟨0, 0, 0⟩
  TexC : XMFLOAT2 := ⟨0, 0⟩
deriving DecidableEq

/-- A GPU resource, identified by its GPU virtual address. -/
structure ID3D12Resource where
  GPUVirtualAddress : Nat
deriving DecidableEq

/-- Modelled from the spec: the `UploadBuffer<T>` of `UploadBuffer.h`, which is not among the
sources: a GPU-visible resource holding a fixed number of elements. -/
structure UploadBuffer (T : Type) where
  mUploadBuffer : ID3D12Resource
  mMappedData : List T

/-- The value of `UploadBuffer::Resource()`. -/
def UploadBuffer.Resource {T : Type} (b : UploadBuffer T) : ID3D12Resource := b.mUploadBuffer

/-- Modelled from the spec: `UploadBuffer::CopyData(elementIndex, data)` of `UploadBuffer.h`
stores `data` at `elementIndex`; an index past the buffer's bounds is a precondition violation
that fails at once and is never clamped. -/
def UploadBuffer.CopyData {T : Type} (b : UploadBuffer T) (elementIndex : Nat) (data : T) :
    Option (UploadBuffer T) :=
  if elementIndex < b.mMappedData.length then
    some { b with mMappedData := b.mMappedData.set elementIndex data }
  else none

/-- Modelled from the spec: the `FrameResource` of `FrameResource.h`: one slot of the ring with
its pass, material and object constant buffers, its dynamic wave vertex buffer and its fence. -/
structure FrameResource where
  CmdListAlloc : Nat := 0
  PassCB : UploadBuffer PassConstants
  MaterialCB : UploadBuffer MaterialConstants
  ObjectCB : UploadBuffer ObjectConstants
  WavesVB : UploadBuffer Vertex
  Fence : Nat := 0

/-- Modelled from the spec: a sub-mesh range of `d3dUtil.h`. -/
structure SubmeshGeometry where
  IndexCount : Nat := 0
  StartIndexLocation : Nat := 0
  BaseVertexLocation : Int := 0
deriving DecidableEq

/-- Modelled from the spec: the `MeshGeometry` of `d3dUtil.h`: a shared vertex buffer and index
buffer (null until created) and the named sub-mesh ranges. -/
structure MeshGeometry where
  Name : String := ""
  VertexBufferGPU : Option ID3D12Resource := none
  IndexBufferGPU : Option ID3D12Resource := none
  DrawArgs : List (String × SubmeshGeometry) := []

/-- Modelled from the spec: the `Camera` of `Camera.h` as far as the core reads it. -/
structure Camera where
  Position : XMFLOAT3 := ⟨0, 2, 0⟩
  View : XMFLOAT4X4 := Identity4x4
  Proj : XMFLOAT4X4 := Identity4x4

/-- Modelled from the spec: the interface of the `Waves` class (`Waves.h` is not among the
sources), taken as a parameter: fixed grid dimensions, position and normal by vertex index,
`Disturb` and `Update`. -/
structure WavesModel (W : Type) where
  RowCount : Int
  ColumnCount : Int
  VertexCount : Int
  Width : ℚ
  Depth : ℚ
  Position : W → Nat → XMFLOAT3
  Normal : W → Nat → XMFLOAT3
  Disturb : W → Int → Int → ℚ → W
  Update : W → ℚ → W

/-- The `GameTimer` values a tick reads. -/
structure GameTimer where
  DeltaTime : ℚ
  TotalTime : ℚ

/-- What one tick receives from outside the core: the timer, the camera that keyboard handling
produces, the value `mFence->GetCompletedValue()` reports, the completed value of the GPU fence
at the moment the tick starts to write into the selected slot (after the wait, if the tick
waits), and what the two calls of `MathHelper::Rand` and the call of `MathHelper::RandF` return
for their arguments. -/
structure TickInput where
  gt : GameTimer
  camera : Camera := {}
  completed : Nat := 0
  completedAtWrite : Nat := 0
  RandI : Int → Int → Int := fun a _ => a
  RandJ : Int → Int → Int := fun a _ => a
  RandR : ℚ → ℚ → ℚ := fun a _ => a

/-- The members of `TreeBillboardsApp` (and of its base `D3DApp`) that the core uses;
`t_base` is the function-local static of `UpdateWaves`. -/
structure TreeBillboardsApp (W : Type) where
  mFrameResources : List FrameResource
  mCurrFrameResource : Option Nat := none
  mCurrFrameResourceIndex : Int := 0
  mCbvSrvDescriptorSize : Nat := 32
  mSrvDescriptorHeap : Nat := 0
  mGeometries : List (String × MeshGeometry)
  mMaterials : List (String × Material)
  mWavesRitem : Option Nat := none
  mAllRitems : List RenderItem
  mRitemLayer : Fin 4 → List Nat
  mWaves : W
  mMainPassCB : PassConstants := {}
  mCamera : Camera := {}
  mCurrentFence : Nat := 0
  mCurrBackBuffer : Int := 0
  mClientWidth : Int := 800
  mClientHeight : Int := 600
  t_base : ℚ := 0

/-! ## Pointers and maps -/

/-- The element a key of a map points to. -/
def mapFind {α : Type} (k : String) : List (String × α) → Option α
  | [] => none
  | (k', v) :: rest => if k' = k then some v else mapFind k rest

/-- Store through a pointer to the element of a key. -/
def mapStore {α : Type} (k : String) (v : α) : List (String × α) → List (String × α)
  | [] => []
  | (k', v') :: rest => if k' = k then (k', v) :: rest else (k', v') :: mapStore k v rest

/-- A matrix with the entry `(i, j)` replaced. -/
def setEntry (M : XMFLOAT4X4) (i j : Fin 4) (v : ℚ) : XMFLOAT4X4 :=
  Matrix.of fun a b => if a = i ∧ b = j then v else M a b

/-- A sequence of `CopyData` calls, in order. -/
def UploadBuffer.CopyAll {T : Type} : List (Nat × T) → UploadBuffer T → Option (UploadBuffer T)
  | [], b => some b
  | (i, d) :: rest, b => (b.CopyData i d).bind (UploadBuffer.CopyAll rest)

variable {W : Type}

/-- The frame resource `mCurrFrameResource` points to. -/
def TreeBillboardsApp.currFrameResource (s : TreeBillboardsApp W) : Option (Nat × FrameResource) :=
  match s.mCurrFrameResource with
  | none => none
  | some cur => (s.mFrameResources[cur]?).map fun fr => (cur, fr)

/-- The list `mRitemLayer[(int)layer]`. -/
def TreeBillboardsApp.layer (s : TreeBillboardsApp W) (l : RenderLayer) : List Nat :=
  s.mRitemLayer l.toFin

/-! ## Update -/

/-- `OnKeyboardInput`: camera movement is an external collaborator; the tick input carries the
camera that `Walk`, `Strafe` and `UpdateViewMatrix` leave behind. -/
def OnKeyboardInput (s : TreeBillboardsApp W) (inp : TickInput) : TreeBillboardsApp W :=
  { s with mCamera := inp.camera }

/-- The body of `AnimateMaterials` on the water material. -/
def AnimateMaterials.scroll (gt : GameTimer) (waterMat : Material) : Material :=
  let tu := waterMat.MatTransform 3 0
  let tv := waterMat.MatTransform 3 1
  let tu := tu + (1 / 10) * gt.DeltaTime
  let tv := tv + (2 / 100) * gt.DeltaTime
  let tu := if tu ≥ 1 then tu - 1 else tu
  let tv := if tv ≥ 1 then tv - 1 else tv
  { waterMat with
    MatTransform := setEntry (setEntry waterMat.MatTransform 3 0 tu) 3 1 tv
    NumFramesDirty := gNumFrameResources }

/-- `AnimateMaterials`. -/
def AnimateMaterials (s : TreeBillboardsApp W) (gt : GameTimer) : Option (TreeBillboardsApp W) :=
  match mapFind "water" s.mMaterials with
  | none => none
  | some waterMat =>
    some { s with mMaterials := mapStore "water" (AnimateMaterials.scroll gt waterMat) s.mMaterials }

/-- The `ObjectConstants` that `UpdateObjectCBs` computes from a render item. -/
def objConstants (e : RenderItem) : ObjectConstants :=
  { World := XMMatrixTranspose e.World, TexTransform := XMMatrixTranspose e.TexTransform }

/-- The loop of `UpdateObjectCBs` over `mAllRitems`. -/
def UpdateObjectCBs.loop : List RenderItem → UploadBuffer ObjectConstants →
    Option (List RenderItem × UploadBuffer ObjectConstants)
  | [], currObjectCB => some ([], currObjectCB)
  | e :: rest, currObjectCB =>
    if e.NumFramesDirty > 0 then
      match currObjectCB.CopyData e.ObjCBIndex (objConstants e) with
      | none => none
      | some cb =>
        match UpdateObjectCBs.loop rest cb with
        | none => none
        | some (rest', cb') => some ({ e with NumFramesDirty := e.NumFramesDirty - 1 } :: rest', cb')
    else
      match UpdateObjectCBs.loop rest currObjectCB with
      | none => none
      | some (rest', cb') => some (e :: rest', cb')

/-- `UpdateObjectCBs`. -/
def UpdateObjectCBs (s : TreeBillboardsApp W) : Option (TreeBillboardsApp W) :=
  match s.currFrameResource with
  | none => none
  | some (cur, fr) =>
    match UpdateObjectCBs.loop s.mAllRitems fr.ObjectCB with
    | none => none
    | some (items, cb) =>
      some { s with
        mAllRitems := items
        mFrameResources := s.mFrameResources.set cur { fr with ObjectCB := cb } }

/-- The `MaterialConstants` that `UpdateMaterialCBs` computes from a material. -/
def matConstants (mat : Material) : MaterialConstants :=
  { DiffuseAlbedo := mat.DiffuseAlbedo
    FresnelR0 := mat.FresnelR0
    Roughness := mat.Roughness
    MatTransform := XMMatrixTranspose mat.MatTransform }

/-- The loop of `UpdateMaterialCBs` over `mMaterials`, in the traversal order of the map. -/
def UpdateMaterialCBs.loop : List (String × Material) → UploadBuffer MaterialConstants →
    Option (List (String × Material) × UploadBuffer MaterialConstants)
  | [], currMaterialCB => some ([], currMaterialCB)
  | (k, mat) :: rest, currMaterialCB =>
    if mat.NumFramesDirty > 0 then
      match currMaterialCB.CopyData mat.MatCBIndex (matConstants mat) with
      | none => none
      | some cb =>
        match UpdateMaterialCBs.loop rest cb with
        | none => none
        | some (rest', cb') =>
          some ((k, { mat with NumFramesDirty := mat.NumFramesDirty - 1 }) :: rest', cb')
    else
      match UpdateMaterialCBs.loop rest currMaterialCB with
      | none => none
      | some (rest', cb') => some ((k, mat) :: rest', cb')

/-- `UpdateMaterialCBs`. -/
def UpdateMaterialCBs (s : TreeBillboardsApp W) : Option (TreeBillboardsApp W) :=
  match s.currFrameResource with
  | none => none
  | some (cur, fr) =>
    match UpdateMaterialCBs.loop s.mMaterials fr.MaterialCB with
    | none => none
    | some (mats, cb) =>
      some { s with
        mMaterials := mats
        mFrameResources := s.mFrameResources.set cur { fr with MaterialCB := cb } }

/-- The assignment `Lights[i].field = value` on the light array. -/
def setLight (lights : Fin 16 → Light) (i : Fin 16) (f : Light → Light) : Fin 16 → Light :=
  Function.update lights i (f (lights i))

/-- The value `UpdateMainPassCB` leaves in `mMainPassCB`. -/
def UpdateMainPassCB.fill (s : TreeBillboardsApp W) (gt : GameTimer) : PassConstants :=
  let view := s.mCamera.View
  let proj := s.mCamera.Proj
  let viewProj := XMMatrixMultiply view proj
  let invView := XMMatrixInverse view
  let invProj := XMMatrixInverse proj
  let invViewProj := XMMatrixInverse viewProj
  let l := s.mMainPassCB.Lights
  let l := setLight l 0 fun x => { x with Direction := ⟨57735 / 100000, -57735 / 100000, 57735 / 100000⟩ }
  let l := setLight l 0 fun x => { x with Strength := ⟨12 / 10, 4 / 10, 4 / 10⟩ }
  let l := setLight l 1 fun x => { x with Direction := ⟨-57735 / 100000, -57735 / 100000, 57735 / 100000⟩ }
  let l := setLight l 1 fun x => { x with Strength := ⟨2 / 100, 2 / 100, 2 / 100⟩ }
  let l := setLight l 2 fun x => { x with Direction := ⟨0, -707 / 1000, -707 / 1000⟩ }
  let l := setLight l 2 fun x => { x with Strength := ⟨5 / 100, 5 / 100, 5 / 100⟩ }
  let l := setLight l 3 fun x => { x with Position := ⟨0, 10, 0⟩ }
  let l := setLight l 3 fun x => { x with Direction := ⟨0, 0, 0⟩ }
  let l := setLight l 2 fun x => { x with Strength := ⟨11 / 10, 0, 2 / 10⟩ }
  let l := setLight l 2 fun x => { x with SpotPower := 17 / 10 }
  let l := setLight l 4 fun x => { x with Position := ⟨0, 10, 0⟩ }
  let l := setLight l 4 fun x => { x with Strength := ⟨10001 / 10, 0, 1002 / 10⟩ }
  { s.mMainPassCB with
    View := XMMatrixTranspose view
    InvView := XMMatrixTranspose invView
    Proj := XMMatrixTranspose proj
    InvProj := XMMatrixTranspose invProj
    ViewProj := XMMatrixTranspose viewProj
    InvViewProj := XMMatrixTranspose invViewProj
    EyePosW := s.mCamera.Position
    RenderTargetSize := ⟨s.mClientWidth, s.mClientHeight⟩
    InvRenderTargetSize := ⟨1 / s.mClientWidth, 1 / s.mClientHeight⟩
    NearZ := 1
    FarZ := 1000
    TotalTime := gt.TotalTime
    DeltaTime := gt.DeltaTime
    AmbientLight := ⟨47 / 100, 47 / 100, 47 / 100, 12 / 10⟩
    Lights := l }

/-- `UpdateMainPassCB`. -/
def UpdateMainPassCB (s : TreeBillboardsApp W) (gt : GameTimer) : Option (TreeBillboardsApp W) :=
  let pc := UpdateMainPassCB.fill s gt
  match s.currFrameResource with
  | none => none
  | some (cur, fr) =>
    match fr.PassCB.CopyData 0 pc with
    | none => none
    | some cb =>
      some { s with
        mMainPassCB := pc
        mFrameResources := s.mFrameResources.set cur { fr with PassCB := cb } }

/-- The vertex `UpdateWaves` stores for the wave vertex `i`. -/
def UpdateWaves.vertex (wm : WavesModel W) (w : W) (i : Nat) : Vertex :=
  let pos := wm.Position w i
  { Pos := pos
    Normal := wm.Normal w i
    TexC := ⟨1 / 2 + pos.x / wm.Width, 1 / 2 - pos.z / wm.Depth⟩ }

/-- The `CopyData` calls of the vertex loop of `UpdateWaves`, `i = 0 .. VertexCount - 1`. -/
def UpdateWaves.writes (wm : WavesModel W) (w : W) : List (Nat × Vertex) :=
  (List.range wm.VertexCount.toNat).map fun i => (i, UpdateWaves.vertex wm w i)

/-- The random disturbance and the simulation step at the head of `UpdateWaves`: the new value
of `t_base` and the new wave state. -/
def UpdateWaves.simulate (wm : WavesModel W) (s : TreeBillboardsApp W) (inp : TickInput) : ℚ × W :=
  if inp.gt.TotalTime - s.t_base ≥ 1 / 4 then
    let i := inp.RandI 4 (wm.RowCount - 5)
    let j := inp.RandJ 4 (wm.ColumnCount - 5)
    let r := inp.RandR (2 / 10) (5 / 10)
    (s.t_base + 1 / 4, wm.Update (wm.Disturb s.mWaves i j r) inp.gt.DeltaTime)
  else
    (s.t_base, wm.Update s.mWaves inp.gt.DeltaTime)

/-- `UpdateWaves`. -/
def UpdateWaves (wm : WavesModel W) (s : TreeBillboardsApp W) (inp : TickInput) :
    Option (TreeBillboardsApp W) :=
  let sim := UpdateWaves.simulate wm s inp
  match s.currFrameResource with
  | none => none
  | some (cur, fr) =>
    match fr.WavesVB.CopyAll (UpdateWaves.writes wm sim.2) with
    | none => none
    | some currWavesVB =>
      match s.mWavesRitem.bind fun p => s.mAllRitems[p]? with
      | none => none
      | some ri =>
        match ri.Geo with
        | none => none
        | some g =>
          match mapFind g s.mGeometries with
          | none => none
          | some geo =>
            some { s with
              t_base := sim.1
              mWaves := sim.2
              mFrameResources := s.mFrameResources.set cur { fr with WavesVB := currWavesVB }
              mGeometries :=
                mapStore g { geo with VertexBufferGPU := some currWavesVB.Resource } s.mGeometries }

/-- The condition under which `Update` waits for the GPU:
`mCurrFrameResource->Fence != 0 && mFence->GetCompletedValue() < mCurrFrameResource->Fence`. -/
def Update.mustWait (fence completed : Nat) : Bool :=
  fence != 0 && decide (completed < fence)

/-- The index `Update` moves the ring to: `(mCurrFrameResourceIndex + 1) % gNumFrameResources`
on `int`. -/
def Update.nextIndex (i : Int) : Int := (i + 1).tmod gNumFrameResources

/-- `Update`: the new state, and whether the tick took the branch that waits for the GPU fence. -/
def Update (wm : WavesModel W) (s : TreeBillboardsApp W) (inp : TickInput) :
    Option (TreeBillboardsApp W × Bool) :=
  let s := OnKeyboardInput s inp
  if INT_MAX < s.mCurrFrameResourceIndex + 1 then none else
  let idx := Update.nextIndex s.mCurrFrameResourceIndex
  if idx < 0 then none else
  match s.mFrameResources[idx.toNat]? with
  | none => none
  | some fr =>
    let s := { s with mCurrFrameResourceIndex := idx, mCurrFrameResource := some idx.toNat }
    let waited := Update.mustWait fr.Fence inp.completed
    match AnimateMaterials s inp.gt with
    | none => none
    | some s =>
    match UpdateObjectCBs s with
    | none => none
    | some s =>
    match UpdateMaterialCBs s with
    | none => none
    | some s =>
    match UpdateMainPassCB s inp.gt with
    | none => none
    | some s =>
    match UpdateWaves wm s inp with
    | none => none
    | some s => some (s, waited)

/-! ## Draw -/

/-- The commands `Draw` records on the command list. -/
inductive Cmd where
  | Reset (alloc : Nat) (pso : String)
  | RSSetViewports
  | RSSetScissorRects
  | ResourceBarrier (backBuffer : Int) (toRenderTarget : Bool)
  | ClearRenderTargetView (color : XMFLOAT4)
  | ClearDepthStencilView
  | OMSetRenderTargets
  | SetDescriptorHeaps (heap : Nat)
  | SetGraphicsRootSignature
  | SetPipelineState (pso : String)
  | IASetVertexBuffers (vertexBuffer : ID3D12Resource)
  | IASetIndexBuffer (indexBuffer : ID3D12Resource)
  | IASetPrimitiveTopology (topology : Nat)
  | SetGraphicsRootDescriptorTable (rootParameterIndex : Nat) (handle : Nat)
  | SetGraphicsRootConstantBufferView (rootParameterIndex : Nat) (address : Nat)
  | DrawIndexedInstanced (IndexCountPerInstance InstanceCount StartIndexLocation : Nat)
      (BaseVertexLocation : Int) (StartInstanceLocation : Nat)
deriving DecidableEq

/-- The sizes `DrawRenderItems` gets from outside the sources:
`CalcConstantBufferByteSize(sizeof(ObjectConstants))` and
`CalcConstantBufferByteSize(sizeof(MaterialConstants))`, both `UINT`. -/
structure CBByteSizes where
  objCBByteSize : Nat := 256
  matCBByteSize : Nat := 256

/-- The body of the loop of `DrawRenderItems` for the render item `ri` points to. -/
def DrawRenderItems.item (s : TreeBillboardsApp W) (sz : CBByteSizes) (fr : FrameResource)
    (ri : Nat) : Option (List Cmd) :=
  match s.mAllRitems[ri]? with
  | none => none
  | some item =>
    match item.Geo.bind fun g => mapFind g s.mGeometries with
    | none => none
    | some geo =>
      match geo.VertexBufferGPU, geo.IndexBufferGPU with
      | some vb, some ib =>
        match item.Mat.bind fun m => mapFind m s.mMaterials with
        | none => none
        | some mat =>
          let tex := wrapUINT64 (s.mSrvDescriptorHeap + mat.DiffuseSrvHeapIndex * s.mCbvSrvDescriptorSize)
          let objCBAddress := wrapUINT64
            (fr.ObjectCB.Resource.GPUVirtualAddress + wrapUINT (item.ObjCBIndex * sz.objCBByteSize))
          let matCBAddress := wrapUINT64
            (fr.MaterialCB.Resource.GPUVirtualAddress + wrapUINT (mat.MatCBIndex * sz.matCBByteSize))
          some [ Cmd.IASetVertexBuffers vb, Cmd.IASetIndexBuffer ib,
                 Cmd.IASetPrimitiveTopology item.PrimitiveType,
                 Cmd.SetGraphicsRootDescriptorTable 0 tex,
                 Cmd.SetGraphicsRootConstantBufferView 1 objCBAddress,
                 Cmd.SetGraphicsRootConstantBufferView 3 matCBAddress,
                 Cmd.DrawIndexedInstanced item.IndexCount 1 item.StartIndexLocation
                   item.BaseVertexLocation 0 ]
      | _, _ => none

/-- The loop of `DrawRenderItems` over `ritems`. -/
def DrawRenderItems.loop (s : TreeBillboardsApp W) (sz : CBByteSizes) (fr : FrameResource) :
    List Nat → Option (List Cmd)
  | [] => some []
  | ri :: rest =>
    match DrawRenderItems.item s sz fr ri with
    | none => none
    | some cmds =>
      match DrawRenderItems.loop s sz fr rest with
      | none => none
      | some more => some (cmds ++ more)

/-- `DrawRenderItems`: the commands recorded for the list `ritems`. -/
def DrawRenderItems (s : TreeBillboardsApp W) (sz : CBByteSizes) (ritems : List Nat) :
    Option (List Cmd) :=
  match s.currFrameResource with
  | none => none
  | some (_, fr) => DrawRenderItems.loop s sz fr ritems

/-- The constant `SwapChainBufferCount` of `D3DApp`. -/
def SwapChainBufferCount : Int := 2

/-- What `Draw` hands to the command queue: the recorded command list and the fence value of
the `Signal` that follows it. -/
structure Submission where
  commands : List Cmd
  signal : Nat

/-- `Draw`. -/
def Draw (s : TreeBillboardsApp W) (sz : CBByteSizes) :
    Option (TreeBillboardsApp W × Submission) :=
  if INT_MAX < s.mCurrBackBuffer + 1 then none else
  match s.currFrameResource with
  | none => none
  | some (cur, fr) =>
    let head :=
      [ Cmd.Reset fr.CmdListAlloc "opaque", Cmd.RSSetViewports, Cmd.RSSetScissorRects,
        Cmd.ResourceBarrier s.mCurrBackBuffer true,
        Cmd.ClearRenderTargetView s.mMainPassCB.FogColor, Cmd.ClearDepthStencilView,
        Cmd.OMSetRenderTargets, Cmd.SetDescriptorHeaps s.mSrvDescriptorHeap,
        Cmd.SetGraphicsRootSignature,
        Cmd.SetGraphicsRootConstantBufferView 2 fr.PassCB.Resource.GPUVirtualAddress ]
    match DrawRenderItems s sz (s.layer RenderLayer.Opaque) with
    | none => none
    | some c1 =>
    match DrawRenderItems s sz (s.layer RenderLayer.AlphaTested) with
    | none => none
    | some c2 =>
    match DrawRenderItems s sz (s.layer RenderLayer.AlphaTestedTreeSprites) with
    | none => none
    | some c3 =>
    match DrawRenderItems s sz (s.layer RenderLayer.Transparent) with
    | none => none
    | some c4 =>
      let commands := head ++ c1 ++ [Cmd.SetPipelineState "alphaTested"] ++ c2 ++
        [Cmd.SetPipelineState "treeSprites"] ++ c3 ++
        [Cmd.SetPipelineState "transparent"] ++ c4 ++ [Cmd.ResourceBarrier s.mCurrBackBuffer false]
      let fence := wrapUINT64 (s.mCurrentFence + 1)
      some ({ s with
              mCurrBackBuffer := (s.mCurrBackBuffer + 1).tmod SwapChainBufferCount
              mCurrentFence := fence
              mFrameResources := s.mFrameResources.set cur { fr with Fence := fence } },
            { commands := commands, signal := fence })

/-! ## The dirty loops as write lists -/

/-- One pass of `UpdateObjectCBs` over a render item: the counter after the pass. -/
def tickItem (e : RenderItem) : RenderItem :=
  if e.NumFramesDirty > 0 then { e with NumFramesDirty := e.NumFramesDirty - 1 } else e

/-- The `CopyData` calls `UpdateObjectCBs` makes for a list of render items. -/
def objWrites (items : List RenderItem) : List (Nat × ObjectConstants) :=
  (items.filter fun e => decide (e.NumFramesDirty > 0)).map fun e => (e.ObjCBIndex, objConstants e)

/-- One pass of `UpdateMaterialCBs` over a material: the counter after the pass. -/
def tickMat (mat : Material) : Material :=
  if mat.NumFramesDirty > 0 then { mat with NumFramesDirty := mat.NumFramesDirty - 1 } else mat

/-- The `CopyData` calls `UpdateMaterialCBs` makes for the materials of a map. -/
def matWrites (mats : List (String × Material)) : List (Nat × MaterialConstants) :=
  (mats.filter fun e => decide (e.2.NumFramesDirty > 0)).map fun e =>
    (e.2.MatCBIndex, matConstants e.2)

/-! ## Well-formed states and runs -/

/-- The preconditions of `Update` that the construction of the scene establishes: three frame
resources, a ring index in range, a water material, constant buffers that hold every slot index
in use, a pass buffer with its single entry, a wave vertex buffer of `VertexCount` entries, and
a wave render item whose geometry exists. -/
def UpdateReady (wm : WavesModel W) (s : TreeBillboardsApp W) : Prop :=
  s.mFrameResources.length = 3 ∧
  (0 ≤ s.mCurrFrameResourceIndex ∧ s.mCurrFrameResourceIndex < 3) ∧
  (mapFind "water" s.mMaterials).isSome = true ∧
  (∀ fr ∈ s.mFrameResources,
    (∀ e ∈ s.mAllRitems, e.ObjCBIndex < fr.ObjectCB.mMappedData.length) ∧
    (∀ m ∈ s.mMaterials, m.2.MatCBIndex < fr.MaterialCB.mMappedData.length) ∧
    0 < fr.PassCB.mMappedData.length ∧
    wm.VertexCount.toNat ≤ fr.WavesVB.mMappedData.length) ∧
  (((s.mWavesRitem.bind fun p => s.mAllRitems[p]?).bind fun ri => ri.Geo).bind
    fun g => mapFind g s.mGeometries).isSome = true

instance (wm : WavesModel W) (s : TreeBillboardsApp W) : Decidable (UpdateReady wm s) := by
  unfold UpdateReady; infer_instance

/-- Consecutive `Update` ticks, one per input. -/
def runTicks (wm : WavesModel W) (s : TreeBillboardsApp W) :
    List TickInput → Option (TreeBillboardsApp W)
  | [] => some s
  | inp :: rest =>
    match Update wm s inp with
    | none => none
    | some r => runTicks wm r.1 rest

/-- Every slot of the ring that none of the next `n` ticks selects satisfies `holds`: the slots
still stale for an entity whose counter is `n` are among the next `n` to be selected. -/
def SlotsFresh (s : TreeBillboardsApp W) (n : Int) (holds : FrameResource → Prop) : Prop :=
  ∀ k : Nat, k < 3 →
    (∀ j : Int, 1 ≤ j → j ≤ n → (k : Int) ≠ (s.mCurrFrameResourceIndex + j) % 3) →
    ∀ fr, s.mFrameResources[k]? = some fr → holds fr

/-! ## A sample scene -/

/-- A wave grid of 2 x 2 vertices over a list of heights, which `Disturb` raises at one vertex
and `Update` leaves alone: the waves of the sample scene. -/
def sampleWaves : WavesModel (List ℚ) :=
  { RowCount := 2
    ColumnCount := 2
    VertexCount := 4
    Width := 1
    Depth := 1
    Position := fun w i => ⟨(i % 2 : Nat) - 1 / 2, w.getD i 0, 1 / 2 - (i / 2 : Nat)⟩
    Normal := fun _ _ => ⟨0, 1, 0⟩
    Disturb := fun w i j r => w.set (i * 2 + j).toNat (w.getD (i * 2 + j).toNat 0 + r)
    Update := fun w _ => w }

/-- A frame resource of the sample scene: one pass entry, two material entries, three object
entries and four wave vertices, at GPU addresses from `base` on. -/
def sampleFrameResource (base : Nat) : FrameResource :=
  { CmdListAlloc := base
    PassCB := ⟨⟨base + 4096⟩, [{}]⟩
    MaterialCB := ⟨⟨base + 8192⟩, [{}, {}]⟩
    ObjectCB := ⟨⟨base + 12288⟩, [{}, {}, {}]⟩
    WavesVB := ⟨⟨base + 16384⟩, [{}, {}, {}, {}]⟩ }

/-- A sample scene before its first tick: a land item, a box item and the water item, the grass
and the water material, three frame resources with fence `0`. -/
def sampleApp : TreeBillboardsApp (List ℚ) :=
  { mFrameResources :=
      [sampleFrameResource 65536, sampleFrameResource 131072, sampleFrameResource 196608]
    mGeometries :=
      [ ("waterGeo", { Name := "waterGeo", IndexBufferGPU := some ⟨1024⟩ }),
        ("landGeo",
          { Name := "landGeo", VertexBufferGPU := some ⟨2048⟩, IndexBufferGPU := some ⟨3072⟩ }) ]
    mMaterials :=
      [ ("grass", { Name := "grass", MatCBIndex := 0, DiffuseSrvHeapIndex := 0 }),
        ("water", { Name := "water", MatCBIndex := 1, DiffuseSrvHeapIndex := 1 }) ]
    mWavesRitem := some 2
    mAllRitems :=
      [ { ObjCBIndex := 1, Mat := some "grass", Geo := some "landGeo", IndexCount := 6 },
        { ObjCBIndex := 2, Mat := some "grass", Geo := some "landGeo", IndexCount := 36,
          StartIndexLocation := 6, BaseVertexLocation := 4 },
        { ObjCBIndex := 0, Mat := some "water", Geo := some "waterGeo", IndexCount := 6 } ]
    mRitemLayer := fun k => if k = 0 then [0, 1] else if k = 1 then [2] else []
    mWaves := [0, 0, 0, 0] }

/-- The input of a sample tick: a thirtieth of a second. -/
def sampleInput : TickInput := { gt := { DeltaTime := 1 / 30, TotalTime := 1 / 30 } }

/-- The sample scene inside a frame: slot `1` selected and the wave vertex buffer of that slot
bound to the water geometry, as `Update` leaves them. -/
def sampleAppInFrame : TreeBillboardsApp (List ℚ) :=
  { sampleApp with
    mCurrFrameResource := some 1
    mCurrFrameResourceIndex := 1
    mGeometries :=
      [ ("waterGeo",
          { Name := "waterGeo", VertexBufferGPU := some ⟨147456⟩, IndexBufferGPU := some ⟨1024⟩ }),
        ("landGeo",
          { Name := "landGeo", VertexBufferGPU := some ⟨2048⟩, IndexBufferGPU := some ⟨3072⟩ }) ] }

/-! ## Draw submissions and frames -/

/-- Whether a command is an indexed draw submission. -/
def Cmd.isDraw : Cmd → Bool
  | .DrawIndexedInstanced _ _ _ _ _ => true
  | _ => false

/-- The indexed draw submission of the render item a pointer refers to. -/
def drawOf (s : TreeBillboardsApp W) (ri : Nat) : Option Cmd :=
  (s.mAllRitems[ri]?).map fun item =>
    Cmd.DrawIndexedInstanced item.IndexCount 1 item.StartIndexLocation item.BaseVertexLocation 0

/-- A render-item pointer resolves for drawing: the item exists, its geometry exists and has a
vertex and an index buffer, and its material exists. -/
def itemResolves (s : TreeBillboardsApp W) (ri : Nat) : Bool :=
  match s.mAllRitems[ri]? with
  | none => false
  | some item =>
    (match item.Geo.bind fun g => mapFind g s.mGeometries with
      | none => false
      | some geo => geo.VertexBufferGPU.isSome && geo.IndexBufferGPU.isSome) &&
    (item.Mat.bind fun m => mapFind m s.mMaterials).isSome

/-- The preconditions of `Draw`: a back-buffer index in range, a current frame resource, and
layer lists whose pointers resolve. -/
def DrawReady (s : TreeBillboardsApp W) : Prop :=
  (0 ≤ s.mCurrBackBuffer ∧ s.mCurrBackBuffer < 2) ∧
  s.currFrameResource.isSome = true ∧ ∀ l : Fin 4, ∀ ri ∈ s.mRitemLayer l, itemResolves s ri = true

instance (s : TreeBillboardsApp W) : Decidable (DrawReady s) := by
  unfold DrawReady; infer_instance

/-- What one frame leaves in the history of a run: the slot its `Update` selected, whether that
`Update` waited, the completed value of the GPU fence when it began to write into the slot, and
the fence value its `Draw` recorded on the slot. -/
structure FrameRecord where
  slot : Nat
  waited : Bool
  completedAtWrite : Nat
  fence : Nat
deriving DecidableEq

/-- A run of frames, each an `Update` followed by a `Draw`: the final state and the history. -/
def runFrames (wm : WavesModel W) (sz : CBByteSizes) (s : TreeBillboardsApp W) :
    List TickInput → Option (TreeBillboardsApp W × List FrameRecord)
  | [] => some (s, [])
  | inp :: rest =>
    match Update wm s inp with
    | none => none
    | some (s1, waited) =>
      match s1.mCurrFrameResource, Draw s1 sz with
      | some slot, some (s2, sub) =>
        match runFrames wm sz s2 rest with
        | none => none
        | some (s3, recs) =>
          some (s3, { slot := slot, waited := waited, completedAtWrite := inp.completedAtWrite,
                      fence := sub.signal } :: recs)
      | _, _ => none

/-- The fence recorded by the most recent `Draw` of a history that used `slot`, and `init` when
no frame of the history used it. -/
def fenceHistory (slot : Nat) : Nat → List FrameRecord → Nat
  | init, [] => init
  | init, r :: rest => fenceHistory slot (if r.slot = slot then r.fence else init) rest

/-- The assumptions on the GPU along a run: within a tick the completed value of the fence does
not decrease between the check and the first write, and a tick that waits starts to write only
once the completed value has reached the fence of the slot it selected. -/
def GpuBehaves (wm : WavesModel W) (sz : CBByteSizes) :
    TreeBillboardsApp W → List TickInput → Prop
  | _, [] => True
  | s, inp :: rest =>
    inp.completed ≤ inp.completedAtWrite ∧
    (∀ fr, s.mFrameResources[(Update.nextIndex s.mCurrFrameResourceIndex).toNat]? = some fr →
      Update.mustWait fr.Fence inp.completed = true → fr.Fence ≤ inp.completedAtWrite) ∧
    ∀ r1 r2, Update wm s inp = some r1 → Draw r1.1 sz = some r2 → GpuBehaves wm sz r2.1 rest

/-- The fences of the ring are consistent with the fence counter of the application: no slot
fence exceeds it, and two different slots do not share a non-zero fence. -/
def FenceInv (s : TreeBillboardsApp W) : Prop :=
  (∀ (k : Nat) (fr : FrameResource), s.mFrameResources[k]? = some fr →
    fr.Fence ≤ s.mCurrentFence) ∧
  ∀ (j k : Nat) (a b : FrameResource), j ≠ k → s.mFrameResources[j]? = some a →
    s.mFrameResources[k]? = some b → a.Fence ≠ 0 → a.Fence ≠ b.Fence

/-- The fence stored on a slot of the ring (`0` for a slot that does not exist). -/
def slotFence (s : TreeBillboardsApp W) (k : Nat) : Nat :=
  ((s.mFrameResources[k]?).map fun fr => fr.Fence).getD 0

/-- Four sample inputs in which the GPU is idle at every check and has completed fence `4` when
the tick starts to write. -/
def sampleRun : List TickInput :=
  List.replicate 4 { gt := { DeltaTime := 1 / 30, TotalTime := 1 / 30 }, completedAtWrite := 4 }

/-- The sample scene inside a frame with one more opaque item, whose `ObjCBIndex` was never
assigned and still has the value `-1` of its member initialiser. -/
def sampleAppUnindexed : TreeBillboardsApp (List ℚ) :=
  { sampleAppInFrame with
    mAllRitems := sampleAppInFrame.mAllRitems ++
      [{ Mat := some "grass", Geo := some "landGeo", IndexCount := 6 }] }

/-! ## Disturbances of the wave grid -/

/-- The arguments `i`, `j`, `r` with which `UpdateWaves` calls `mWaves->Disturb` in this tick, if
it calls it: the branch `if((mTimer.TotalTime() - t_base) >= 0.25f)`. -/
def UpdateWaves.disturbArgs (wm : WavesModel W) (s : TreeBillboardsApp W) (inp : TickInput) :
    Option (Int × Int × ℚ) :=
  if inp.gt.TotalTime - s.t_base ≥ 1 / 4 then
    some (inp.RandI 4 (wm.RowCount - 5), inp.RandJ 4 (wm.ColumnCount - 5),
      inp.RandR (2 / 10) (5 / 10))
  else
    none

/-- Consecutive `Update` ticks together with the number of ticks among them in which
`UpdateWaves` called `Disturb`. -/
def runDisturbs (wm : WavesModel W) (s : TreeBillboardsApp W) :
    List TickInput → Option (TreeBillboardsApp W × Nat)
  | [] => some (s, 0)
  | inp :: rest =>
    match Update wm s inp with
    | none => none
    | some r =>
      match runDisturbs wm r.1 rest with
      | none => none
      | some (s', n) =>
        some (s', (if (UpdateWaves.disturbArgs wm s inp).isSome then 1 else 0) + n)

/-- A wave grid of 9 x 9 vertices over a list of heights: the smallest grid on which the
disturbed cell of `UpdateWaves` is determined. -/
def sampleWaves9 : WavesModel (List ℚ) :=
  { sampleWaves with RowCount := 9, ColumnCount := 9 }

/-- The input of a tick half a second after the start. -/
def sampleInputLate : TickInput := { gt := { DeltaTime := 1 / 30, TotalTime := 1 / 2 } }

/-- Two ticks at total times `0.2` and `0.3`. -/
def sampleTicksEarly : List TickInput :=
  [{ gt := { DeltaTime := 1 / 5, TotalTime := 1 / 5 } },
   { gt := { DeltaTime := 1 / 10, TotalTime := 3 / 10 } }]

/-! ## Geometry construction -/

/-- Modelled from the spec: a vertex of the mesh-generation utilities of `GeometryGenerator.h`,
which is not among the sources: position, normal, texture coordinate. -/
structure GeometryGenerator.Vertex where
  Position : XMFLOAT3 := ⟨0, 0, 0⟩
  Normal : XMFLOAT3 := ⟨0, 0, 0⟩
  TexC : XMFLOAT2 := ⟨0, 0⟩
deriving DecidableEq

/-- Modelled from the spec: the `MeshData` of `GeometryGenerator.h`: an array of vertices and a
triangle index list. -/
structure GeometryGenerator.MeshData where
  Vertices : List GeometryGenerator.Vertex := []
  Indices32 : List Nat := []
deriving DecidableEq

/-- Modelled from the spec: `MeshData::GetIndices16`, the index list narrowed to 16 bit. -/
def GeometryGenerator.MeshData.GetIndices16 (m : GeometryGenerator.MeshData) : List Nat :=
  m.Indices32.map fun i => i % 65536

/-- Conversion of a `UINT` to `int`. -/
def toINT (n : Nat) : Int := if n < 2 ^ 31 then (n : Int) else (n : Int) - 2 ^ 32

/-- What a geometry builder produces: the vertex array and the 16-bit index array it uploads,
and the `MeshGeometry` it stores into `mGeometries`. -/
structure BuiltGeometry where
  vertices : List Vertex
  indices : List Nat
  geo : MeshGeometry

/-- The eleven meshes `BuildBoxGeometry` generates, under the names of its local variables. -/
structure BoxMeshes where
  box : GeometryGenerator.MeshData
  cylinder : GeometryGenerator.MeshData
  sphere : GeometryGenerator.MeshData
  GEOsphere : GeometryGenerator.MeshData
  quad : GeometryGenerator.MeshData
  triPrism : GeometryGenerator.MeshData
  cone : GeometryGenerator.MeshData
  pyramid : GeometryGenerator.MeshData
  diamond : GeometryGenerator.MeshData
  wedge : GeometryGenerator.MeshData
  torus : GeometryGenerator.MeshData

/-- The vertex a copy loop of `BuildBoxGeometry` stores for a generated vertex. -/
def BuildBoxGeometry.vertex (v : GeometryGenerator.Vertex) : Vertex :=
  { Pos := v.Position, Normal := v.Normal, TexC := v.TexC }

/-- One copy loop of `BuildBoxGeometry`: the vertices of a mesh are stored at `vertices[k]`, the
`UINT` counter `k` running on from loop to loop. -/
def BuildBoxGeometry.copy (mesh : GeometryGenerator.MeshData) (acc : List Vertex × Nat) :
    List Vertex × Nat :=
  mesh.Vertices.foldl
    (fun a v => (a.1.set a.2 (BuildBoxGeometry.vertex v), wrapUINT (a.2 + 1))) acc

/-- `BuildBoxGeometry`, as a function of the generated meshes and of the two default buffers the
device creates. -/
def BuildBoxGeometry (m : BoxMeshes) (vb ib : ID3D12Resource) : BuiltGeometry :=
  let boxVertexOffset : Nat := 0
  let cylinderVertexOffset := wrapUINT (boxVertexOffset + wrapUINT m.box.Vertices.length)
  let sphereVertexOffset := wrapUINT (cylinderVertexOffset + wrapUINT m.cylinder.Vertices.length)
  let geoSphereVertexOffset := wrapUINT (sphereVertexOffset + wrapUINT m.sphere.Vertices.length)
  let quadVertexOffset := wrapUINT (geoSphereVertexOffset + wrapUINT m.GEOsphere.Vertices.length)
  let triPrismVertexOffset := wrapUINT (quadVertexOffset + wrapUINT m.quad.Vertices.length)
  let coneVertexOffset := wrapUINT (triPrismVertexOffset + wrapUINT m.triPrism.Vertices.length)
  let pyramidVertexOffset := wrapUINT (coneVertexOffset + wrapUINT m.cone.Vertices.length)
  let diamondVertexOffset := wrapUINT (pyramidVertexOffset + wrapUINT m.pyramid.Vertices.length)
  let wedgeVertexOffset := wrapUINT (diamondVertexOffset + wrapUINT m.diamond.Vertices.length)
  let torusVertexOffset := wrapUINT (wedgeVertexOffset + wrapUINT m.wedge.Vertices.length)
  let boxIndexOffset : Nat := 0
  let cylinderIndexOffset := wrapUINT (boxIndexOffset + wrapUINT m.box.Indices32.length)
  let sphereIndexOffset := wrapUINT (cylinderIndexOffset + wrapUINT m.cylinder.Indices32.length)
  let geoSphereIndexOffset := wrapUINT (sphereIndexOffset + wrapUINT m.sphere.Indices32.length)
  let quadIndexOffset := wrapUINT (geoSphereIndexOffset + wrapUINT m.GEOsphere.Indices32.length)
  let triPrismIndexOffset := wrapUINT (quadIndexOffset + wrapUINT m.quad.Indices32.length)
  let coneIndexOffset := wrapUINT (triPrismIndexOffset + wrapUINT m.triPrism.Indices32.length)
  let pyramidIndexOffset := wrapUINT (coneIndexOffset + wrapUINT m.cone.Indices32.length)
  let diamondIndexOffset := wrapUINT (pyramidIndexOffset + wrapUINT m.pyramid.Indices32.length)
  let wedgeIndexOffset := wrapUINT (diamondIndexOffset + wrapUINT m.diamond.Indices32.length)
  let torusIndexOffset := wrapUINT (wedgeIndexOffset + wrapUINT m.wedge.Indices32.length)
  let boxSubmesh : SubmeshGeometry :=
    { IndexCount := wrapUINT m.box.Indices32.length
      StartIndexLocation := boxIndexOffset
      BaseVertexLocation := toINT boxVertexOffset }
  let cylinderSubmesh : SubmeshGeometry :=
    { IndexCount := wrapUINT m.cylinder.Indices32.length
      StartIndexLocation := cylinderIndexOffset
      BaseVertexLocation := toINT cylinderVertexOffset }
  let sphereSubmesh : SubmeshGeometry :=
    { IndexCount := wrapUINT m.sphere.Indices32.length
      StartIndexLocation := sphereIndexOffset
      BaseVertexLocation := toINT sphereVertexOffset }
  let geoSphereSubmesh : SubmeshGeometry :=
    { IndexCount := wrapUINT m.GEOsphere.Indices32.length
      StartIndexLocation := geoSphereIndexOffset
      BaseVertexLocation := toINT geoSphereVertexOffset }
  let quadSubmesh : SubmeshGeometry :=
    { IndexCount := wrapUINT m.quad.Indices32.length
      StartIndexLocation := quadIndexOffset
      BaseVertexLocation := toINT quadVertexOffset }
  let triPrismSubmesh : SubmeshGeometry :=
    { IndexCount := wrapUINT m.triPrism.Indices32.length
      StartIndexLocation := triPrismIndexOffset
      BaseVertexLocation := toINT triPrismVertexOffset }
  let coneSubmesh : SubmeshGeometry :=
    { IndexCount := wrapUINT m.cone.Indices32.length
      StartIndexLocation := coneIndexOffset
      BaseVertexLocation := toINT coneVertexOffset }
  let pyramidSubmesh : SubmeshGeometry :=
    { IndexCount := wrapUINT m.pyramid.Indices32.length
      StartIndexLocation := pyramidIndexOffset
      BaseVertexLocation := toINT pyramidVertexOffset }
  let diamondSubmesh : SubmeshGeometry :=
    { IndexCount := wrapUINT m.diamond.Indices32.length
      StartIndexLocation := diamondIndexOffset
      BaseVertexLocation := toINT diamondVertexOffset }
  let wedgeSubmesh : SubmeshGeometry :=
    { IndexCount := wrapUINT m.wedge.Indices32.length
      StartIndexLocation := wedgeIndexOffset
      BaseVertexLocation := toINT wedgeVertexOffset }
  let torusSubmesh : SubmeshGeometry :=
    { IndexCount := wrapUINT m.torus.Indices32.length
      StartIndexLocation := torusIndexOffset
      BaseVertexLocation := toINT torusVertexOffset }
  let totalVertexCount := wrapUINT64 (
    m.box.Vertices.length +
    m.cylinder.Vertices.length +
    m.sphere.Vertices.length +
    m.GEOsphere.Vertices.length +
    m.quad.Vertices.length +
    m.triPrism.Vertices.length +
    m.cone.Vertices.length +
    m.pyramid.Vertices.length +
    m.diamond.Vertices.length +
    m.wedge.Vertices.length +
    m.torus.Vertices.length)
  let vertices : List Vertex := List.replicate totalVertexCount {}
  let k : Nat := 0
  let vk := BuildBoxGeometry.copy m.box (vertices, k)
  let vk := BuildBoxGeometry.copy m.cylinder vk
  let vk := BuildBoxGeometry.copy m.sphere vk
  let vk := BuildBoxGeometry.copy m.GEOsphere vk
  let vk := BuildBoxGeometry.copy m.quad vk
  let vk := BuildBoxGeometry.copy m.triPrism vk
  let vk := BuildBoxGeometry.copy m.cone vk
  let vk := BuildBoxGeometry.copy m.pyramid vk
  let vk := BuildBoxGeometry.copy m.diamond vk
  let vk := BuildBoxGeometry.copy m.wedge vk
  let vk := BuildBoxGeometry.copy m.torus vk
  let indices : List Nat := []
  let indices := indices ++ m.box.GetIndices16
  let indices := indices ++ m.cylinder.GetIndices16
  let indices := indices ++ m.sphere.GetIndices16
  let indices := indices ++ m.GEOsphere.GetIndices16
  let indices := indices ++ m.quad.GetIndices16
  let indices := indices ++ m.triPrism.GetIndices16
  let indices := indices ++ m.cone.GetIndices16
  let indices := indices ++ m.pyramid.GetIndices16
  let indices := indices ++ m.diamond.GetIndices16
  let indices := indices ++ m.wedge.GetIndices16
  let indices := indices ++ m.torus.GetIndices16
  { vertices := vk.1
    indices := indices
    geo :=
      { Name := "boxGeo"
        VertexBufferGPU := some vb
        IndexBufferGPU := some ib
        DrawArgs :=
          [ ("box", boxSubmesh), ("cylinder", cylinderSubmesh), ("sphere", sphereSubmesh),
            ("geosphere", geoSphereSubmesh), ("quad", quadSubmesh),
            ("triprism", triPrismSubmesh), ("cone", coneSubmesh), ("pyramid", pyramidSubmesh),
            ("diamond", diamondSubmesh), ("wedge", wedgeSubmesh), ("torus", torusSubmesh) ] } }

/-- The generated meshes in the order of `BuildBoxGeometry`, each under the key of the sub-mesh
built from it. -/
def BoxMeshes.named (m : BoxMeshes) : List (String × GeometryGenerator.MeshData) :=
  [ ("box", m.box), ("cylinder", m.cylinder), ("sphere", m.sphere), ("geosphere", m.GEOsphere),
    ("quad", m.quad), ("triprism", m.triPrism), ("cone", m.cone), ("pyramid", m.pyramid),
    ("diamond", m.diamond), ("wedge", m.wedge), ("torus", m.torus) ]

/-- The number of indices of the meshes before the `k`-th. -/
def BoxMeshes.indexOffset (m : BoxMeshes) (k : Nat) : Nat :=
  ((m.named.take k).map fun e => e.2.Indices32.length).sum

/-- The number of vertices of the meshes before the `k`-th. -/
def BoxMeshes.vertexOffset (m : BoxMeshes) (k : Nat) : Nat :=
  ((m.named.take k).map fun e => e.2.Vertices.length).sum

/-- The index ranges `ranges` follow one another without gap or overlap from position `a` to
position `b`. -/
def rangesTile : Nat → List SubmeshGeometry → Nat → Prop
  | a, [], b => a = b
  | a, r :: rs, b => r.StartIndexLocation = a ∧ rangesTile (a + r.IndexCount) rs b

/-- A mesh of `n` vertices along the x axis whose indices run through them twice. -/
def sampleMesh (n : Nat) : GeometryGenerator.MeshData :=
  { Vertices := (List.range n).map fun i => { Position := ⟨i, 0, 0⟩ }
    Indices32 := List.range n ++ List.range n }

/-- Eleven small meshes: a box of one vertex, a cylinder of two, a sphere of three, and eight
more of one vertex each. -/
def sampleBoxMeshes : BoxMeshes :=
  { box := sampleMesh 1, cylinder := sampleMesh 2, sphere := sampleMesh 3,
    GEOsphere := sampleMesh 1, quad := sampleMesh 1, triPrism := sampleMesh 1,
    cone := sampleMesh 1, pyramid := sampleMesh 1, diamond := sampleMesh 1,
    wedge := sampleMesh 1, torus := sampleMesh 1 }

/-! ## The land -/

/-- The single-precision functions `sinf`, `cosf` and `XMVector3Normalize`, which the model
leaves open. -/
structure FloatMath where
  sinf : ℚ → ℚ
  cosf : ℚ → ℚ
  XMVector3Normalize : XMFLOAT3 → XMFLOAT3

/-- `GetHillsHeight` over a field with the sine and the cosine as parameters. -/
def GetHillsHeight {K : Type} [Field K] (sin cos : K → K) (x z : K) : K :=
  (3 / 10) * (z * sin ((1 / 10) * x) + x * cos ((1 / 10) * z))

/-- The vector `n` of `GetHillsNormal` before it is normalised, over a field with the sine and
the cosine as parameters. -/
def GetHillsNormal.n {K : Type} [Field K] (sin cos : K → K) (x z : K) : K × K × K :=
  (-(3 / 100) * z * cos ((1 / 10) * x) - (3 / 10) * cos ((1 / 10) * z),
    1,
    -(3 / 10) * sin ((1 / 10) * x) + (3 / 100) * x * sin ((1 / 10) * z))

/-- `GetHillsNormal`. -/
def GetHillsNormal (fm : FloatMath) (x z : ℚ) : XMFLOAT3 :=
  let n := GetHillsNormal.n fm.sinf fm.cosf x z
  fm.XMVector3Normalize ⟨n.1, n.2.1, n.2.2⟩

/-- The body of the loop of `BuildLandGeometry`: the land vertex made from a grid vertex. -/
def BuildLandGeometry.vertex (fm : FloatMath) (gv : GeometryGenerator.Vertex) : Vertex :=
  let p := gv.Position
  let centerX : ℚ := 0
  let centerZ : ℚ := 0
  let borderSize : ℚ := 45
  { Pos :=
      { x := -p.z
        y := if p.x > centerX - borderSize ∧ p.x < centerX + borderSize ∧
            p.z > centerZ - borderSize ∧ p.z < centerZ + borderSize then 2 else -10
        z := p.x }
    Normal := GetHillsNormal fm p.x p.z
    TexC := gv.TexC }

/-- `BuildLandGeometry`, as a function of the generated grid and of the two default buffers the
device creates. -/
def BuildLandGeometry (fm : FloatMath) (grid : GeometryGenerator.MeshData)
    (vb ib : ID3D12Resource) : BuiltGeometry :=
  let vertices := grid.Vertices.map (BuildLandGeometry.vertex fm)
  let indices := grid.GetIndices16
  let submesh : SubmeshGeometry :=
    { IndexCount := wrapUINT indices.length, StartIndexLocation := 0, BaseVertexLocation := 0 }
  { vertices := vertices
    indices := indices
    geo :=
      { Name := "landGeo"
        VertexBufferGPU := some vb
        IndexBufferGPU := some ib
        DrawArgs := [("grid", submesh)] } }

/-- Modelled from the spec: the vertices of `GeometryGenerator::CreateGrid(width, depth, m, n)`,
a grid of `m` by `n` quads: `(m + 1) * (n + 1)` vertices in rows, at `x = -width/2 + j * width/n`
and `z = -depth/2 + i * depth/m`.  Normals, texture coordinates and the index list, which the spec
leaves open, keep their default values. -/
def CreateGrid (width depth : ℚ) (m n : Nat) : GeometryGenerator.MeshData :=
  { Vertices := (List.range (m + 1)).flatMap fun i : Nat => (List.range (n + 1)).map fun j : Nat =>
      { Position :=
          ⟨-width / 2 + (j : ℚ) * (width / (n : ℚ)), 0, -depth / 2 + (i : ℚ) * (depth / (m : ℚ))⟩ } }

/-- The rows and columns of the vertices of a grid, in the order of its vertices. -/
def gridCells (m n : Nat) : List (Nat × Nat) :=
  (List.range (m + 1)).flatMap fun i => (List.range (n + 1)).map fun j => (i, j)

/-- Sine, cosine and normalisation of the sample scene (constant, identity). -/
def sampleFloatMath : FloatMath :=
  { sinf := fun _ => 0, cosf := fun _ => 1, XMVector3Normalize := fun v => v }

/-- A grid of two vertices, one at the origin and one at `x = 50`. -/
def sampleLandGrid : GeometryGenerator.MeshData :=
  { Vertices := [{ Position := ⟨0, 0, 0⟩ }, { Position := ⟨50, 0, 0⟩ }] }

/-! ## The wave simulation -/

/-- Modelled from the spec: the state of the wave simulation (`Waves.h` and `Waves.cpp` are not
among the sources): row and column count, spatial step, time step, the three precomputed
coefficients of the stencil, the previous, current and next height field over the cells of the
grid, the normal of every cell, and the elapsed time not yet consumed by an internal step. -/
structure Waves where
  mNumRows : Nat
  mNumCols : Nat
  mSpatialStep : ℚ
  mTimeStep : ℚ
  mK1 : ℚ
  mK2 : ℚ
  mK3 : ℚ
  mPrevSolution : Nat → Nat → ℚ
  mCurrSolution : Nat → Nat → ℚ
  mNextSolution : Nat → Nat → ℚ
  mNormals : Nat → Nat → XMFLOAT3
  mAccum : ℚ

/-- Modelled from the spec: a wave simulation as constructed: flat height fields, the default
normal at every cell, no elapsed time. -/
def Waves.init (m n : Nat) (dx dt k1 k2 k3 : ℚ) : Waves :=
  { mNumRows := m
    mNumCols := n
    mSpatialStep := dx
    mTimeStep := dt
    mK1 := k1
    mK2 := k2
    mK3 := k3
    mPrevSolution := fun _ _ => 0
    mCurrSolution := fun _ _ => 0
    mNextSolution := fun _ _ => 0
    mNormals := fun _ _ => ⟨0, 1, 0⟩
    mAccum := 0 }

/-- Modelled from the spec: the cells that are not on the boundary of the grid, the ones an
internal step computes. -/
def Waves.inner (w : Waves) (i j : Nat) : Prop :=
  1 ≤ i ∧ i + 1 < w.mNumRows ∧ 1 ≤ j ∧ j + 1 < w.mNumCols

instance (w : Waves) (i j : Nat) : Decidable (w.inner i j) := by
  unfold Waves.inner; infer_instance

/-- Modelled from the spec: one internal finite-difference step.  The next height of a cell off
the boundary is computed from its previous height, its current height and the current heights of
its four neighbours, scaled by the precomputed coefficients; the buffers rotate
(previous ← current ← next); then the normal of every cell off the boundary is recomputed from
finite differences of the neighbouring heights, boundary cells keeping theirs. -/
def Waves.step (fm : FloatMath) (w : Waves) : Waves :=
  let next : Nat → Nat → ℚ := fun i j =>
    if w.inner i j then
      w.mK1 * w.mPrevSolution i j + w.mK2 * w.mCurrSolution i j +
        w.mK3 * (w.mCurrSolution (i + 1) j + w.mCurrSolution (i - 1) j +
          w.mCurrSolution i (j + 1) + w.mCurrSolution i (j - 1))
    else w.mNextSolution i j
  { w with
    mPrevSolution := w.mCurrSolution
    mCurrSolution := next
    mNextSolution := w.mPrevSolution
    mNormals := fun i j =>
      if w.inner i j then
        fm.XMVector3Normalize
          ⟨next i (j - 1) - next i (j + 1), 2 * w.mSpatialStep, next (i + 1) j - next (i - 1) j⟩
      else w.mNormals i j }

/-- Modelled from the spec: the number of internal steps an update performs once the accumulated
time is `t`: the whole time steps it contains. -/
def Waves.steps (w : Waves) (t : ℚ) : Nat :=
  if 0 < w.mTimeStep then ⌊t / w.mTimeStep⌋.toNat else 0

/-- Modelled from the spec: `update(deltaTime)`: the elapsed time is accumulated against the
fixed time step, and zero, one or several internal steps are performed, one for each whole time
step that has elapsed. -/
def Waves.Update (fm : FloatMath) (w : Waves) (dt : ℚ) : Waves :=
  let t := w.mAccum + dt
  let w' := (Waves.step fm)^[w.steps t] w
  { w' with mAccum := t - (w.steps t : ℚ) * w.mTimeStep }

/-- Modelled from the spec: `disturb(row, col, magnitude)`: no effect within one cell of a
boundary; otherwise the current height of the cell grows by the magnitude and the current height
of each of its four neighbours by the fixed fraction `share` of it. -/
def Waves.Disturb (share : ℚ) (w : Waves) (i j : Int) (magnitude : ℚ) : Waves :=
  if 2 ≤ i ∧ i + 2 < w.mNumRows ∧ 2 ≤ j ∧ j + 2 < w.mNumCols then
    { w with
      mCurrSolution := fun x y =>
        if (x : Int) = i ∧ (y : Int) = j then w.mCurrSolution x y + magnitude
        else if ((x : Int) = i + 1 ∧ (y : Int) = j) ∨ ((x : Int) = i - 1 ∧ (y : Int) = j) ∨
            ((x : Int) = i ∧ (y : Int) = j + 1) ∨ ((x : Int) = i ∧ (y : Int) = j - 1) then
          w.mCurrSolution x y + share * magnitude
        else w.mCurrSolution x y }
  else w

/-- A flat wave grid of 128 x 128 cells with time step `0.03`. -/
def sampleWaveGrid : Waves := Waves.init 128 128 1 (3 / 100) 0 1 0

/-! ## Render items -/

/-- The DirectXMath functions with trigonometry, which the model leaves open. -/
structure RotationMath where
  XMConvertToRadians : ℚ → ℚ
  XMMatrixRotationAxis : XMFLOAT4 → ℚ → XMFLOAT4X4
  XMMatrixRotationRollPitchYaw : ℚ → ℚ → ℚ → XMFLOAT4X4

/-- The value of `XMMatrixScaling`. -/
def XMMatrixScaling (x y z : ℚ) : XMFLOAT4X4 :=
  Matrix.of ![![x, 0, 0, 0], ![0, y, 0, 0], ![0, 0, z, 0], ![0, 0, 0, 1]]

/-- The value of `XMMatrixTranslation`. -/
def XMMatrixTranslation (x y z : ℚ) : XMFLOAT4X4 :=
  Matrix.of ![![1, 0, 0, 0], ![0, 1, 0, 0], ![0, 0, 1, 0], ![x, y, z, 1]]

/-- The constant `D3D_PRIMITIVE_TOPOLOGY_POINTLIST`. -/
def D3D_PRIMITIVE_TOPOLOGY_POINTLIST : Nat := 1

/-- The constant `D3D_PRIMITIVE_TOPOLOGY_TRIANGLELIST`. -/
def D3D_PRIMITIVE_TOPOLOGY_TRIANGLELIST : Nat := 4

/-- The members `BuildRenderItems` works on while render items are still held by local
`unique_ptr`s: every render item allocated so far (the address of an item is its position in
`items`), the addresses `mAllRitems` owns, in order, the addresses in the layer lists, and the
address in `mWavesRitem`. -/
structure RitemBuild where
  items : List RenderItem
  mAllRitems : List Nat
  mRitemLayer : Fin 4 → List Nat
  mWavesRitem : Option Nat

/-- The render-item members of the application as a build state: the address of an owned item
is its position in `mAllRitems`. -/
def RitemBuild.ofApp (s : TreeBillboardsApp W) : RitemBuild :=
  { items := s.mAllRitems
    mAllRitems := List.range s.mAllRitems.length
    mRitemLayer := s.mRitemLayer
    mWavesRitem := s.mWavesRitem }

/-- The render-item members of the application after a build: the items `mAllRitems` owns, and
every pointer as the position in `mAllRitems` of the item it points to (the length of
`mAllRitems`, a position that holds nothing, for a pointer to an item `mAllRitems` does not
own). -/
def RitemBuild.install (b : RitemBuild) (s : TreeBillboardsApp W) : TreeBillboardsApp W :=
  { s with
    mAllRitems := b.mAllRitems.map fun a => b.items.getD a {}
    mRitemLayer := fun l => (b.mRitemLayer l).map fun a => b.mAllRitems.indexOf a
    mWavesRitem := b.mWavesRitem.map fun a => b.mAllRitems.indexOf a }

/-- The layer lists after `mRitemLayer[(int)layer].push_back(addr)`. -/
def pushLayer (layers : Fin 4 → List Nat) (layer : RenderLayer) (addr : Nat) :
    Fin 4 → List Nat :=
  fun l => if l = layer.toFin then layers l ++ [addr] else layers l

/-- The value of `geo->DrawArgs[key]`: the range stored under the key, or the default range that
`operator[]` inserts for a missing key (and that reads the same afterwards). -/
def MeshGeometry.drawArg (geo : MeshGeometry) (key : String) : SubmeshGeometry :=
  (mapFind key geo.DrawArgs).getD {}

/-- `CreateNewObject` on the build state.  A missing material or a missing `boxGeo` is outside
the model (`none`): `operator[]` would leave a null entry behind. -/
def CreateNewObject (s : TreeBillboardsApp W) (b : RitemBuild) (item : String)
    (p q r : XMFLOAT4X4) (ObjIndex : Nat) (material : String) : Option RitemBuild :=
  match mapFind material s.mMaterials with
  | none => none
  | some _ =>
    match mapFind "boxGeo" s.mGeometries with
    | none => none
    | some geo =>
      let RightWall : RenderItem :=
        { World := XMMatrixMultiply (XMMatrixMultiply p q) r
          ObjCBIndex := ObjIndex
          Mat := some material
          Geo := some "boxGeo"
          PrimitiveType := D3D_PRIMITIVE_TOPOLOGY_TRIANGLELIST
          IndexCount := (geo.drawArg item).IndexCount
          StartIndexLocation := (geo.drawArg item).StartIndexLocation
          BaseVertexLocation := (geo.drawArg item).BaseVertexLocation }
      let addr := b.items.length
      some { b with
        items := b.items ++ [RightWall]
        mRitemLayer := pushLayer b.mRitemLayer RenderLayer.Opaque addr
        mAllRitems := b.mAllRitems ++ [addr] }

/-- The arguments of a call of `CreateNewObject` other than the object index. -/
structure ObjectCall where
  item : String
  p : XMFLOAT4X4
  q : XMFLOAT4X4
  r : XMFLOAT4X4
  material : String

/-- The 27 calls of `CreateNewObject` that `BuildRenderItems` makes before its loop, in order. -/
def BuildRenderItems.objects (rm : RotationMath) : List ObjectCall :=
  [
    { item := "quad"
      p := rm.XMMatrixRotationAxis ⟨1, 0, 0, 0⟩ (rm.XMConvertToRadians 90) *
        XMMatrixScaling 30 (155 / 10) 62
      q := XMMatrixTranslation (-45) 10 (-30)
      r := rm.XMMatrixRotationRollPitchYaw 0 0 0
      material := "stone" },
    { item := "quad"
      p := XMMatrixScaling 15 (155 / 10) 15
      q := XMMatrixTranslation (-22) 1 (-39)
      r := rm.XMMatrixRotationRollPitchYaw 0 0 0
      material := "stone" },
    { item := "triprism"
      p := rm.XMMatrixRotationAxis ⟨0, 0, 1, 0⟩ (rm.XMConvertToRadians 90) *
        XMMatrixScaling 15 3 3
      q := XMMatrixTranslation 0 (55 / 10) 18
      r := rm.XMMatrixRotationRollPitchYaw 0 0 0
      material := "stone" },
    { item := "box"
      p := XMMatrixScaling (37 / 10) (12 / 10) (12 / 10)
      q := XMMatrixTranslation 0 (25 / 10) 18
      r := rm.XMMatrixRotationRollPitchYaw 0 0 0
      material := "marble" },
    { item := "pyramid"
      p := XMMatrixScaling 4 4 4
      q := XMMatrixTranslation (-32) 9 (-22)
      r := rm.XMMatrixRotationRollPitchYaw 0 0 0
      material := "bush" },
    { item := "cylinder"
      p := XMMatrixScaling (15 / 10) (15 / 10) (15 / 10)
      q := XMMatrixTranslation (-32) 6 (-22)
      r := rm.XMMatrixRotationRollPitchYaw 0 0 0
      material := "wood" },
    { item := "pyramid"
      p := XMMatrixScaling 4 4 4
      q := XMMatrixTranslation 32 9 (-22)
      r := rm.XMMatrixRotationRollPitchYaw 0 0 0
      material := "bush" },
    { item := "cylinder"
      p := XMMatrixScaling (15 / 10) (15 / 10) (15 / 10)
      q := XMMatrixTranslation 32 6 (-22)
      r := rm.XMMatrixRotationRollPitchYaw 0 0 0
      material := "wood" },
    { item := "geosphere"
      p := XMMatrixScaling 9 9 9
      q := XMMatrixTranslation (-25) 35 100
      r := rm.XMMatrixRotationRollPitchYaw 0 0 0
      material := "sun" },
    { item := "diamond"
      p := XMMatrixScaling 4 4 4
      q := XMMatrixTranslation 0 10 18
      r := rm.XMMatrixRotationRollPitchYaw 0 0 0
      material := "diamond" },
    { item := "box"
      p := XMMatrixScaling 7 7 (5 / 10)
      q := XMMatrixTranslation 0 (65 / 10) 30
      r := rm.XMMatrixRotationRollPitchYaw 0 0 0
      material := "marble" },
    { item := "box"
      p := XMMatrixScaling 7 7 (5 / 10)
      q := XMMatrixTranslation 0 (65 / 10) (-30)
      r := rm.XMMatrixRotationRollPitchYaw 0 0 0
      material := "marble" },
    { item := "box"
      p := XMMatrixScaling (5 / 10) 7 13
      q := XMMatrixTranslation 15 (65 / 10) 0
      r := rm.XMMatrixRotationRollPitchYaw 0 0 0
      material := "marble" },
    { item := "box"
      p := XMMatrixScaling (5 / 10) 7 13
      q := XMMatrixTranslation (-15) (65 / 10) 0
      r := rm.XMMatrixRotationRollPitchYaw 0 0 0
      material := "marble" },
    { item := "box"
      p := XMMatrixScaling (103 / 10) (2 / 10) (5 / 10)
      q := XMMatrixTranslation 0 (225 / 10) 30
      r := rm.XMMatrixRotationRollPitchYaw 0 0 0
      material := "marble" },
    { item := "box"
      p := XMMatrixScaling (103 / 10) (2 / 10) (5 / 10)
      q := XMMatrixTranslation 0 (225 / 10) (-30)
      r := rm.XMMatrixRotationRollPitchYaw 0 0 0
      material := "marble" },
    { item := "box"
      p := XMMatrixScaling (5 / 10) (2 / 10) 13
      q := XMMatrixTranslation 22 (225 / 10) 0
      r := rm.XMMatrixRotationRollPitchYaw 0 0 0
      material := "marble" },
    { item := "box"
      p := XMMatrixScaling (5 / 10) (2 / 10) 13
      q := XMMatrixTranslation (-22) (225 / 10) 0
      r := rm.XMMatrixRotationRollPitchYaw 0 0 0
      material := "marble" },
    { item := "box"
      p := XMMatrixScaling (103 / 10) (2 / 10) (5 / 10)
      q := XMMatrixTranslation 0 (25 / 10) 32
      r := rm.XMMatrixRotationRollPitchYaw 0 0 0
      material := "marble" },
    { item := "box"
      p := XMMatrixScaling (103 / 10) (2 / 10) (5 / 10)
      q := XMMatrixTranslation 0 (25 / 10) (-32)
      r := rm.XMMatrixRotationRollPitchYaw 0 0 0
      material := "marble" },
    { item := "box"
      p := XMMatrixScaling (5 / 10) (2 / 10) 14
      q := XMMatrixTranslation 22 (25 / 10) 0
      r := rm.XMMatrixRotationRollPitchYaw 0 0 0
      material := "marble" },
    { item := "box"
      p := XMMatrixScaling (5 / 10) (2 / 10) 14
      q := XMMatrixTranslation (-22) (25 / 10) 0
      r := rm.XMMatrixRotationRollPitchYaw 0 0 0
      material := "marble" },
    { item := "box"
      p := XMMatrixScaling 3 10 2
      q := XMMatrixTranslation 0 18 0
      r := rm.XMMatrixRotationRollPitchYaw 0 0 0
      material := "marble" },
    { item := "cone"
      p := XMMatrixScaling 10 10 10
      q := XMMatrixTranslation 0 40 0
      r := rm.XMMatrixRotationRollPitchYaw 0 0 0
      material := "stone" },
    { item := "sphere"
      p := XMMatrixScaling 11 11 11
      q := XMMatrixTranslation 0 25 0
      r := rm.XMMatrixRotationRollPitchYaw 0 0 0
      material := "stone" },
    { item := "torus"
      p := rm.XMMatrixRotationAxis ⟨1, 0, 0, 0⟩ (rm.XMConvertToRadians 90) *
        XMMatrixScaling (25 / 10) (25 / 10) (25 / 10)
      q := XMMatrixTranslation 0 25 (-4)
      r := rm.XMMatrixRotationRollPitchYaw 0 0 0
      material := "stone" },
    { item := "torus"
      p := rm.XMMatrixRotationAxis ⟨1, 0, 0, 0⟩ (rm.XMConvertToRadians 90) *
        XMMatrixScaling (25 / 10) (25 / 10) (25 / 10)
      q := XMMatrixTranslation 0 25 4
      r := rm.XMMatrixRotationRollPitchYaw 0 0 0
      material := "stone" } ]

/-- The six calls of `CreateNewObject` in the body of the loop of `BuildRenderItems`. -/
def BuildRenderItems.columns (rm : RotationMath) (i : Int) : List ObjectCall :=
  [
    { item := "cylinder"
      p := XMMatrixScaling 4 (45 / 10) 4
      q := XMMatrixTranslation 22 10 (-25 + (i : ℚ) * 10)
      r := rm.XMMatrixRotationRollPitchYaw 0 0 0
      material := "marble" },
    { item := "cylinder"
      p := XMMatrixScaling 4 (45 / 10) 4
      q := XMMatrixTranslation (-22) 10 (-25 + (i : ℚ) * 10)
      r := rm.XMMatrixRotationRollPitchYaw 0 0 0
      material := "marble" },
    { item := "wedge"
      p := rm.XMMatrixRotationAxis ⟨0, 1, 0, 0⟩ (rm.XMConvertToRadians 270) *
        XMMatrixScaling (35 / 10) 4 (35 / 10)
      q := XMMatrixTranslation 24 4 (-25 + (i : ℚ) * 10)
      r := rm.XMMatrixRotationRollPitchYaw 0 0 0
      material := "marble" },
    { item := "wedge"
      p := rm.XMMatrixRotationAxis ⟨0, 1, 0, 0⟩ (rm.XMConvertToRadians 90) *
        XMMatrixScaling (35 / 10) 4 (35 / 10)
      q := XMMatrixTranslation (-24) 4 (-25 + (i : ℚ) * 10)
      r := rm.XMMatrixRotationRollPitchYaw 0 0 0
      material := "marble" },
    { item := "cone"
      p := XMMatrixScaling 3 (35 / 10) 3
      q := XMMatrixTranslation 22 25 (-25 + (i : ℚ) * 10)
      r := rm.XMMatrixRotationRollPitchYaw 0 0 0
      material := "marble" },
    { item := "cone"
      p := XMMatrixScaling 3 (35 / 10) 3
      q := XMMatrixTranslation (-22) 25 (-25 + (i : ℚ) * 10)
      r := rm.XMMatrixRotationRollPitchYaw 0 0 0
      material := "marble" } ]

/-- All calls of `CreateNewObject` by `BuildRenderItems`, in order: the 27 calls, then the loop
`for (int i = 0; i < 6; ++i)`. -/
def BuildRenderItems.calls (rm : RotationMath) : List ObjectCall :=
  BuildRenderItems.objects rm ++
    (List.range 6).flatMap fun i => BuildRenderItems.columns rm (i : Int)

/-- One `objCBIndex++; CreateNewObject(..., objCBIndex, ...);`. -/
def BuildRenderItems.call (s : TreeBillboardsApp W) (acc : Option (RitemBuild × Nat))
    (c : ObjectCall) : Option (RitemBuild × Nat) :=
  match acc with
  | none => none
  | some (b, objCBIndex) =>
    let objCBIndex := wrapUINT (objCBIndex + 1)
    match CreateNewObject s b c.item c.p c.q c.r objCBIndex c.material with
    | none => none
    | some b => some (b, objCBIndex)

/-- `BuildRenderItems`.  A missing material or geometry is outside the model (`none`). -/
def BuildRenderItems (rm : RotationMath) (s : TreeBillboardsApp W) :
    Option (TreeBillboardsApp W) :=
  let b := RitemBuild.ofApp s
  let objCBIndex : Nat := 0
  match mapFind "water" s.mMaterials, mapFind "waterGeo" s.mGeometries with
  | some _, some waterGeo =>
    let wavesRitem : RenderItem :=
      { World := Identity4x4
        TexTransform := XMMatrixScaling 5 5 1
        ObjCBIndex := objCBIndex
        Mat := some "water"
        Geo := some "waterGeo"
        PrimitiveType := D3D_PRIMITIVE_TOPOLOGY_TRIANGLELIST
        IndexCount := (waterGeo.drawArg "grid").IndexCount
        StartIndexLocation := (waterGeo.drawArg "grid").StartIndexLocation
        BaseVertexLocation := (waterGeo.drawArg "grid").BaseVertexLocation }
    let wavesAddr := b.items.length
    let b := { b with
      items := b.items ++ [wavesRitem]
      mWavesRitem := some wavesAddr
      mRitemLayer := pushLayer b.mRitemLayer RenderLayer.Transparent wavesAddr }
    match mapFind "grass" s.mMaterials, mapFind "landGeo" s.mGeometries with
    | some _, some landGeo =>
      let objCBIndex := wrapUINT (objCBIndex + 1)
      let gridRitem : RenderItem :=
        { World := Identity4x4
          TexTransform := XMMatrixScaling 5 5 1
          ObjCBIndex := objCBIndex
          Mat := some "grass"
          Geo := some "landGeo"
          PrimitiveType := D3D_PRIMITIVE_TOPOLOGY_TRIANGLELIST
          IndexCount := (landGeo.drawArg "grid").IndexCount
          StartIndexLocation := (landGeo.drawArg "grid").StartIndexLocation
          BaseVertexLocation := (landGeo.drawArg "grid").BaseVertexLocation }
      let gridAddr := b.items.length
      let b := { b with
        items := b.items ++ [gridRitem]
        mRitemLayer := pushLayer b.mRitemLayer RenderLayer.Opaque gridAddr }
      match (BuildRenderItems.calls rm).foldl (BuildRenderItems.call s) (some (b, objCBIndex)) with
      | none => none
      | some (b, objCBIndex) =>
        match mapFind "treeSprites" s.mMaterials, mapFind "treeSpritesGeo" s.mGeometries with
        | some _, some treeSpritesGeo =>
          let objCBIndex := wrapUINT (objCBIndex + 1)
          let treeSpritesRitem : RenderItem :=
            { World := Identity4x4
              ObjCBIndex := objCBIndex
              Mat := some "treeSprites"
              Geo := some "treeSpritesGeo"
              PrimitiveType := D3D_PRIMITIVE_TOPOLOGY_POINTLIST
              IndexCount := (treeSpritesGeo.drawArg "points").IndexCount
              StartIndexLocation := (treeSpritesGeo.drawArg "points").StartIndexLocation
              BaseVertexLocation := (treeSpritesGeo.drawArg "points").BaseVertexLocation }
          let treeAddr := b.items.length
          let b := { b with
            items := b.items ++ [treeSpritesRitem]
            mRitemLayer :=
              pushLayer b.mRitemLayer RenderLayer.AlphaTestedTreeSprites treeAddr }
          let b := { b with mAllRitems := b.mAllRitems ++ [wavesAddr] }
          let b := { b with mAllRitems := b.mAllRitems ++ [gridAddr] }
          let b := { b with mAllRitems := b.mAllRitems ++ [treeAddr] }
          some (b.install s)
        | _, _ => none
    | _, _ => none
  | _, _ => none

/-- The materials and geometries `BuildRenderItems` refers to exist, and no render item has been
built yet: the state in which `Initialize` calls it. -/
def RitemsReady (s : TreeBillboardsApp W) : Prop :=
  s.mAllRitems.length = 0 ∧ (∀ l, s.mRitemLayer l = []) ∧
  (∀ k ∈ ["water", "grass", "stone", "marble", "bush", "wood", "sun", "diamond", "treeSprites"],
    (mapFind k s.mMaterials).isSome = true) ∧
  (∀ k ∈ ["waterGeo", "landGeo", "boxGeo", "treeSpritesGeo"],
    (mapFind k s.mGeometries).isSome = true)

instance (s : TreeBillboardsApp W) : Decidable (RitemsReady s) := by
  unfold RitemsReady; infer_instance

/-- A scene before its render items are built: the ten materials and the four geometries, no
render item. -/
def sampleSceneUnbuilt : TreeBillboardsApp (List ℚ) :=
  { sampleApp with
    mGeometries :=
      [ ("landGeo", { Name := "landGeo", DrawArgs := [("grid", { IndexCount := 6 })] }),
        ("waterGeo", { Name := "waterGeo", DrawArgs := [("grid", { IndexCount := 6 })] }),
        ("boxGeo", (BuildBoxGeometry sampleBoxMeshes ⟨2048⟩ ⟨3072⟩).geo),
        ("treeSpritesGeo",
          { Name := "treeSpritesGeo", DrawArgs := [("points", { IndexCount := 16 })] }) ]
    mMaterials :=
      [ ("grass", { Name := "grass", MatCBIndex := 0, DiffuseSrvHeapIndex := 0 }),
        ("water", { Name := "water", MatCBIndex := 1, DiffuseSrvHeapIndex := 1 }),
        ("wirefence", { Name := "wirefence", MatCBIndex := 2, DiffuseSrvHeapIndex := 2 }),
        ("stone", { Name := "stone", MatCBIndex := 3, DiffuseSrvHeapIndex := 3 }),
        ("marble", { Name := "marble", MatCBIndex := 4, DiffuseSrvHeapIndex := 4 }),
        ("sun", { Name := "sun", MatCBIndex := 5, DiffuseSrvHeapIndex := 5 }),
        ("diamond", { Name := "diamond", MatCBIndex := 6, DiffuseSrvHeapIndex := 6 }),
        ("bush", { Name := "bush", MatCBIndex := 7, DiffuseSrvHeapIndex := 7 }),
        ("wood", { Name := "wood", MatCBIndex := 8, DiffuseSrvHeapIndex := 8 }),
        ("treeSprites", { Name := "treeSprites", MatCBIndex := 9, DiffuseSrvHeapIndex := 9 }) ]
    mWavesRitem := none
    mAllRitems := []
    mRitemLayer := fun _ => [] }

/-- Rotations of the sample scene: the identity. -/
def sampleRotationMath : RotationMath :=
  { XMConvertToRadians := fun d => d
    XMMatrixRotationAxis := fun _ _ => Identity4x4
    XMMatrixRotationRollPitchYaw := fun _ _ _ => Identity4x4 }

/-- Meshes whose index counts add up to `2^32`: a box and a cylinder of `2^31` indices each, a
sphere of three indices, and eight empty meshes. -/
def wrapIndexMeshes : BoxMeshes :=
  { box := { Indices32 := List.replicate (2 ^ 31) 0 }
    cylinder := { Indices32 := List.replicate (2 ^ 31) 0 }
    sphere := { Indices32 := [0, 0, 0] }
    GEOsphere := {}, quad := {}, triPrism := {}, cone := {}, pyramid := {}, diamond := {},
    wedge := {}, torus := {} }

/-- Meshes whose vertex counts add up to more than `2^31`: a box of `2^31` vertices and a
cylinder of one vertex, each with the single index `0`, and nine empty meshes. -/
def wrapVertexMeshes : BoxMeshes :=
  { box := { Vertices := List.replicate (2 ^ 31) {}, Indices32 := [0] }
    cylinder := { Vertices := [{}], Indices32 := [0] }
    sphere := {}, GEOsphere := {}, quad := {}, triPrism := {}, cone := {}, pyramid := {},
    diamond := {}, wedge := {}, torus := {} }

/-! ## BuildWavesGeometry -/

/-- One assignment `indices[k] = v` of `BuildWavesGeometry`: the `int` value `v` is narrowed to
`std::uint16_t` by the store.  A position past the end of the array and a value outside the range
of `int` are undefined behaviour. -/
def BuildWavesGeometry.put (indices : List Nat) (k : Nat) (v : Int) : Option (List Nat) :=
  if k < indices.length ∧ -2 ^ 31 ≤ v ∧ v < 2 ^ 31 then
    some (indices.set k (v % 65536).toNat)
  else none

/-- The body of the inner loop of `BuildWavesGeometry` for the quad `(i, j)`: six assignments
and `k += 6`, on the index array and the counter `k`. -/
def BuildWavesGeometry.quad (n : Int) (st : List Nat × Nat) (ij : Nat × Nat) :
    Option (List Nat × Nat) :=
  let i : Int := ij.1
  let j : Int := ij.2
  let k := st.2
  (BuildWavesGeometry.put st.1 k (i * n + j)).bind fun a =>
  (BuildWavesGeometry.put a (k + 1) (i * n + j + 1)).bind fun a =>
  (BuildWavesGeometry.put a (k + 2) ((i + 1) * n + j)).bind fun a =>
  (BuildWavesGeometry.put a (k + 3) ((i + 1) * n + j)).bind fun a =>
  (BuildWavesGeometry.put a (k + 4) (i * n + j + 1)).bind fun a =>
  (BuildWavesGeometry.put a (k + 5) ((i + 1) * n + j + 1)).bind fun a =>
  some (a, k + 6)

/-- The quads the two nested loops of `BuildWavesGeometry` visit, in order: `i = 0 .. m - 2`
and, inside, `j = 0 .. n - 2`. -/
def BuildWavesGeometry.quads (m n : Int) : List (Nat × Nat) :=
  (List.range (m - 1).toNat).flatMap fun i => (List.range (n - 1).toNat).map fun j => (i, j)

/-- The nested loops of `BuildWavesGeometry` over a list of quads. -/
def BuildWavesGeometry.loop (n : Int) :
    List (Nat × Nat) → List Nat × Nat → Option (List Nat × Nat)
  | [], st => some st
  | ij :: rest, st => (BuildWavesGeometry.quad n st ij).bind (BuildWavesGeometry.loop n rest)

/-- `BuildWavesGeometry`, as a function of the waves, of the value of `mWaves->TriangleCount()`
and of the default index buffer the device creates.  The array has `3 * TriangleCount` entries,
all zero; a size that is negative or outside the range of `int` yields no array, and the
assertion on the vertex count is taken as a guard. -/
def BuildWavesGeometry (wm : WavesModel W) (TriangleCount : Int) (ib : ID3D12Resource) :
    Option BuiltGeometry :=
  if ¬ (0 ≤ 3 * TriangleCount ∧ 3 * TriangleCount < 2 ^ 31) then none
  else if ¬ wm.VertexCount < 65535 then none
  else
    let m := wm.RowCount
    let n := wm.ColumnCount
    match BuildWavesGeometry.loop n (BuildWavesGeometry.quads m n)
        (List.replicate (3 * TriangleCount).toNat 0, 0) with
    | none => none
    | some (indices, _) =>
      let submesh : SubmeshGeometry :=
        { IndexCount := wrapUINT indices.length, StartIndexLocation := 0, BaseVertexLocation := 0 }
      some
        { vertices := []
          indices := indices
          geo :=
            { Name := "waterGeo"
              VertexBufferGPU := none
              IndexBufferGPU := some ib
              DrawArgs := [("grid", submesh)] } }

/-- The six indices of the two triangles of the quad `(i, j)` of a grid with `n` columns, as the
specification lists them. -/
def quadIndices (n : Nat) (ij : Nat × Nat) : List Nat :=
  [ij.1 * n + ij.2, ij.1 * n + ij.2 + 1, (ij.1 + 1) * n + ij.2,
    (ij.1 + 1) * n + ij.2, ij.1 * n + ij.2 + 1, (ij.1 + 1) * n + ij.2 + 1]

/-! ## BuildTreeSpritesGeometry -/

/-- The local vertex type of `BuildTreeSpritesGeometry`. -/
structure TreeSpriteVertex where
  Pos : XMFLOAT3
  Size : XMFLOAT2

/-- What `BuildTreeSpritesGeometry` produces: the vertex array and the index array it uploads and
the `MeshGeometry` it stores into `mGeometries`.  An element of the vertex array that was never
assigned holds no determinate value and is `none`. -/
structure BuiltTreeSprites where
  vertices : List (Option TreeSpriteVertex)
  indices : List Nat
  geo : MeshGeometry

/-- The constant `treeCount` of `BuildTreeSpritesGeometry`. -/
def BuildTreeSpritesGeometry.treeCount : Nat := 4

/-- The body of the placement loop of `BuildTreeSpritesGeometry` for the tree `i`; `RandF k` is
what the `k`-th call of `MathHelper::RandF` returns for its two bounds.  The height computed by
`GetHillsHeight` is overwritten by the assignment `y = 10.0f` before it is used. -/
def BuildTreeSpritesGeometry.place (fm : FloatMath) (RandF : Nat → ℚ → ℚ → ℚ)
    (vertices : List (Option TreeSpriteVertex)) (i : Nat) : List (Option TreeSpriteVertex) :=
  let x := RandF (2 * i) (-30) 68
  let z := RandF (2 * i + 1) (-45) 55
  let y := GetHillsHeight fm.sinf fm.cosf x z
  let y := (y, (10 : ℚ)).2
  vertices.set i (some { Pos := ⟨x, y, z⟩, Size := ⟨20, 20⟩ })

/-- `BuildTreeSpritesGeometry`, as a function of the random numbers and of the two default
buffers the device creates. -/
def BuildTreeSpritesGeometry (fm : FloatMath) (RandF : Nat → ℚ → ℚ → ℚ)
    (vb ib : ID3D12Resource) : BuiltTreeSprites :=
  let vertices : List (Option TreeSpriteVertex) := List.replicate 16 none
  let vertices := (List.range BuildTreeSpritesGeometry.treeCount).foldl
    (BuildTreeSpritesGeometry.place fm RandF) vertices
  let indices : List Nat := [0, 1, 2, 3, 4, 5, 6, 7, 8, 9, 10, 11, 12, 13, 14, 15]
  let submesh : SubmeshGeometry :=
    { IndexCount := wrapUINT indices.length, StartIndexLocation := 0, BaseVertexLocation := 0 }
  { vertices := vertices
    indices := indices
    geo :=
      { Name := "treeSpritesGeo"
        VertexBufferGPU := some vb
        IndexBufferGPU := some ib
        DrawArgs := [("points", submesh)] } }

/-! ## Materials, textures and the descriptor heap -/

/-- The assignment `map[k] = v`: the element under the key is replaced, a new key is added. -/
def mapAssign {α : Type} (k : String) (v : α) (l : List (String × α)) : List (String × α) :=
  if (mapFind k l).isSome then mapStore k v l else l ++ [(k, v)]

/-- `BuildMaterials`; the colour `Colors::LightSteelBlue` of the DirectX headers is a
parameter. -/
def BuildMaterials (LightSteelBlue : XMFLOAT4) (s : TreeBillboardsApp W) : TreeBillboardsApp W :=
  let grass : Material :=
    { Name := "grass", MatCBIndex := 0, DiffuseSrvHeapIndex := 0
      DiffuseAlbedo := ⟨1, 1, 1, 1⟩, FresnelR0 := ⟨1 / 100, 1 / 100, 1 / 100⟩, Roughness := 1 / 8 }
  let water : Material :=
    { Name := "water", MatCBIndex := 1, DiffuseSrvHeapIndex := 1
      DiffuseAlbedo := ⟨1, 1, 1, 1 / 2⟩, FresnelR0 := ⟨1 / 10, 1 / 10, 1 / 10⟩, Roughness := 0 }
  let wirefence : Material :=
    { Name := "wirefence", MatCBIndex := 2, DiffuseSrvHeapIndex := 2
      DiffuseAlbedo := LightSteelBlue, FresnelR0 := ⟨2 / 100, 2 / 100, 2 / 100⟩
      Roughness := 3 / 10 }
  let stone : Material :=
    { Name := "stone", MatCBIndex := 3, DiffuseSrvHeapIndex := 3
      DiffuseAlbedo := LightSteelBlue, FresnelR0 := ⟨5 / 100, 5 / 100, 5 / 100⟩
      Roughness := 3 / 10 }
  let marble : Material :=
    { Name := "marble", MatCBIndex := 4, DiffuseSrvHeapIndex := 4
      DiffuseAlbedo := LightSteelBlue, FresnelR0 := ⟨5 / 100, 5 / 100, 5 / 100⟩
      Roughness := 3 / 10 }
  let sun : Material :=
    { Name := "sun", MatCBIndex := 5, DiffuseSrvHeapIndex := 5
      DiffuseAlbedo := LightSteelBlue, FresnelR0 := ⟨5 / 100, 5 / 100, 5 / 100⟩
      Roughness := 3 / 10 }
  let diamond : Material :=
    { Name := "diamond", MatCBIndex := 6, DiffuseSrvHeapIndex := 6
      DiffuseAlbedo := LightSteelBlue, FresnelR0 := ⟨5 / 100, 5 / 100, 5 / 100⟩
      Roughness := 3 / 10 }
  let bush : Material :=
    { Name := "bush", MatCBIndex := 7, DiffuseSrvHeapIndex := 7
      DiffuseAlbedo := LightSteelBlue, FresnelR0 := ⟨5 / 100, 5 / 100, 5 / 100⟩
      Roughness := 3 / 10 }
  let wood : Material :=
    { Name := "wood", MatCBIndex := 8, DiffuseSrvHeapIndex := 8
      DiffuseAlbedo := LightSteelBlue, FresnelR0 := ⟨5 / 100, 5 / 100, 5 / 100⟩
      Roughness := 3 / 10 }
  let treeSprites : Material :=
    { Name := "treeSprites", MatCBIndex := 9, DiffuseSrvHeapIndex := 9
      DiffuseAlbedo := ⟨1, 1, 1, 1⟩, FresnelR0 := ⟨1 / 100, 1 / 100, 1 / 100⟩, Roughness := 1 / 8 }
  let m := s.mMaterials
  let m := mapAssign "grass" grass m
  let m := mapAssign "water" water m
  let m := mapAssign "wirefence" wirefence m
  let m := mapAssign "stone" stone m
  let m := mapAssign "marble" marble m
  let m := mapAssign "sun" sun m
  let m := mapAssign "diamond" diamond m
  let m := mapAssign "bush" bush m
  let m := mapAssign "wood" wood m
  let m := mapAssign "treeSprites" treeSprites m
  { s with mMaterials := m }

/-- Modelled from the spec: what `ID3D12Resource::GetDesc()` reports of a texture, as far as
`BuildDescriptorHeaps` reads it. -/
structure D3D12_RESOURCE_DESC where
  Format : Nat := 0
  MipLevels : Nat := 1
  DepthOrArraySize : Nat := 1
deriving DecidableEq

/-- Modelled from the spec: the `Texture` of `d3dUtil.h`: name, file name and the resource the
loader created, with its description; a null `Resource` is `none`. -/
structure Texture where
  Name : String := ""
  Filename : String := ""
  Resource : Option (ID3D12Resource × D3D12_RESOURCE_DESC) := none

/-- Modelled from the spec: the `D3D12_SHADER_RESOURCE_VIEW_DESC` of the Direct3D headers, with
the members of its union that `BuildDescriptorHeaps` assigns: `MostDetailedMip` and `MipLevels`
are the first two members of `Texture2D` and of `Texture2DArray` alike, `FirstArraySlice` and
`ArraySize` the next two of `Texture2DArray`. -/
structure D3D12_SHADER_RESOURCE_VIEW_DESC where
  Format : Nat := 0
  ViewDimension : Nat := 0
  Shader4ComponentMapping : Nat := 0
  MostDetailedMip : Nat := 0
  MipLevels : Nat := 0
  FirstArraySlice : Nat := 0
  ArraySize : Nat := 0
deriving DecidableEq

/-- The value of `D3D12_SRV_DIMENSION_TEXTURE2D`. -/
def D3D12_SRV_DIMENSION_TEXTURE2D : Nat := 4

/-- The value of `D3D12_SRV_DIMENSION_TEXTURE2DARRAY`. -/
def D3D12_SRV_DIMENSION_TEXTURE2DARRAY : Nat := 5

/-- The value of `D3D12_DEFAULT_SHADER_4_COMPONENT_MAPPING`. -/
def D3D12_DEFAULT_SHADER_4_COMPONENT_MAPPING : Nat := 5768

/-- A descriptor of the heap: the resource and the view description it was created from. -/
structure ShaderResourceView where
  pResource : ID3D12Resource
  desc : D3D12_SHADER_RESOURCE_VIEW_DESC
deriving DecidableEq

/-- The descriptor heap `mSrvDescriptorHeap`: its capacity and the descriptors created in it,
the latest first, each at its byte offset from the start of the heap. -/
structure SrvHeap where
  NumDescriptors : Nat
  descriptors : List (Nat × ShaderResourceView) := []

/-- The latest descriptor created at a byte offset, among the descriptors of a heap. -/
def descriptorLookup (offset : Nat) : List (Nat × ShaderResourceView) → Option ShaderResourceView
  | [] => none
  | (o, v) :: rest => if o = offset then some v else descriptorLookup offset rest

/-- The descriptor at a byte offset from the start of the heap. -/
def SrvHeap.descriptorAt (heap : SrvHeap) (offset : Nat) : Option ShaderResourceView :=
  descriptorLookup offset heap.descriptors

/-- Modelled from the spec: `ID3D12Device::CreateShaderResourceView` writes a descriptor at the
handle, which must lie inside the heap; `size` is the descriptor increment of the device. -/
def CreateShaderResourceView (size : Nat) (heap : SrvHeap) (pResource : ID3D12Resource)
    (desc : D3D12_SHADER_RESOURCE_VIEW_DESC) (handle : Nat) : Option SrvHeap :=
  if handle < heap.NumDescriptors * size then
    some { heap with descriptors := (handle, ⟨pResource, desc⟩) :: heap.descriptors }
  else none

/-- The resource `mTextures[k]->Resource` with its description; a missing texture and a null
resource have none. -/
def textureResource (mTextures : List (String × Texture)) (k : String) :
    Option (ID3D12Resource × D3D12_RESOURCE_DESC) :=
  (mapFind k mTextures).bind fun t => t.Resource

/-- The local variables of `BuildDescriptorHeaps` that its statements change: the heap, the
handle `hDescriptor` as a byte offset from the start of the heap, and `srvDesc`. -/
structure BuildDescriptorHeaps.Locals where
  heap : SrvHeap
  hDescriptor : Nat
  srvDesc : D3D12_SHADER_RESOURCE_VIEW_DESC

/-- The statement `srvDesc.member = value`. -/
def BuildDescriptorHeaps.set
    (f : D3D12_SHADER_RESOURCE_VIEW_DESC → D3D12_SHADER_RESOURCE_VIEW_DESC)
    (l : BuildDescriptorHeaps.Locals) : Option BuildDescriptorHeaps.Locals :=
  some { l with srvDesc := f l.srvDesc }

/-- The statement `hDescriptor.Offset(1, mCbvSrvDescriptorSize)`. -/
def BuildDescriptorHeaps.offset (mCbvSrvDescriptorSize : Nat)
    (l : BuildDescriptorHeaps.Locals) : Option BuildDescriptorHeaps.Locals :=
  some { l with hDescriptor := l.hDescriptor + 1 * mCbvSrvDescriptorSize }

/-- The statement `md3dDevice->CreateShaderResourceView(tex.Get(), &srvDesc, hDescriptor)`. -/
def BuildDescriptorHeaps.create (mCbvSrvDescriptorSize : Nat)
    (tex : ID3D12Resource × D3D12_RESOURCE_DESC)
    (l : BuildDescriptorHeaps.Locals) : Option BuildDescriptorHeaps.Locals :=
  (CreateShaderResourceView mCbvSrvDescriptorSize l.heap tex.1 l.srvDesc l.hDescriptor).map
    fun heap => { l with heap := heap }

/-- Statements executed one after the other. -/
def runStatements {σ : Type} : List (σ → Option σ) → σ → Option σ
  | [], l => some l
  | f :: rest, l => (f l).bind (runStatements rest)

/-- The statements of `BuildDescriptorHeaps` that fill the heap, in the order of the source, on
the ten resources fetched from `mTextures`. -/
def BuildDescriptorHeaps.fill (grassTex waterTex fenceTex stoneTex marbleTex sunTex diamondTex
    bushTex woodTex treeArrayTex : ID3D12Resource × D3D12_RESOURCE_DESC)
    (mCbvSrvDescriptorSize : Nat) : Option SrvHeap :=
  (runStatements
    [ BuildDescriptorHeaps.set fun d =>
        { d with Shader4ComponentMapping := D3D12_DEFAULT_SHADER_4_COMPONENT_MAPPING },
      BuildDescriptorHeaps.set fun d => { d with Format := grassTex.2.Format },
      BuildDescriptorHeaps.set fun d => { d with ViewDimension := D3D12_SRV_DIMENSION_TEXTURE2D },
      BuildDescriptorHeaps.set fun d => { d with MostDetailedMip := 0 },
      BuildDescriptorHeaps.set fun d => { d with MipLevels := 4294967295 },
      BuildDescriptorHeaps.create mCbvSrvDescriptorSize grassTex,
      BuildDescriptorHeaps.offset mCbvSrvDescriptorSize,
      BuildDescriptorHeaps.set fun d => { d with Format := waterTex.2.Format },
      BuildDescriptorHeaps.create mCbvSrvDescriptorSize waterTex,
      BuildDescriptorHeaps.offset mCbvSrvDescriptorSize,
      BuildDescriptorHeaps.set fun d => { d with Format := fenceTex.2.Format },
      BuildDescriptorHeaps.create mCbvSrvDescriptorSize fenceTex,
      BuildDescriptorHeaps.offset mCbvSrvDescriptorSize,
      BuildDescriptorHeaps.set fun d => { d with Format := stoneTex.2.Format },
      BuildDescriptorHeaps.create mCbvSrvDescriptorSize stoneTex,
      BuildDescriptorHeaps.offset mCbvSrvDescriptorSize,
      BuildDescriptorHeaps.set fun d => { d with Format := marbleTex.2.Format },
      BuildDescriptorHeaps.set fun d => { d with MipLevels := marbleTex.2.MipLevels },
      BuildDescriptorHeaps.create mCbvSrvDescriptorSize marbleTex,
      BuildDescriptorHeaps.offset mCbvSrvDescriptorSize,
      BuildDescriptorHeaps.set fun d => { d with Format := sunTex.2.Format },
      BuildDescriptorHeaps.set fun d => { d with MipLevels := sunTex.2.MipLevels },
      BuildDescriptorHeaps.create mCbvSrvDescriptorSize sunTex,
      BuildDescriptorHeaps.offset mCbvSrvDescriptorSize,
      BuildDescriptorHeaps.set fun d => { d with Format := diamondTex.2.Format },
      BuildDescriptorHeaps.set fun d => { d with MipLevels := diamondTex.2.MipLevels },
      BuildDescriptorHeaps.create mCbvSrvDescriptorSize diamondTex,
      BuildDescriptorHeaps.offset mCbvSrvDescriptorSize,
      BuildDescriptorHeaps.set fun d => { d with Format := bushTex.2.Format },
      BuildDescriptorHeaps.set fun d => { d with MipLevels := bushTex.2.MipLevels },
      BuildDescriptorHeaps.create mCbvSrvDescriptorSize bushTex,
      BuildDescriptorHeaps.offset mCbvSrvDescriptorSize,
      BuildDescriptorHeaps.set fun d => { d with Format := woodTex.2.Format },
      BuildDescriptorHeaps.set fun d => { d with MipLevels := woodTex.2.MipLevels },
      BuildDescriptorHeaps.create mCbvSrvDescriptorSize woodTex,
      BuildDescriptorHeaps.offset mCbvSrvDescriptorSize,
      BuildDescriptorHeaps.set fun d =>
        { d with ViewDimension := D3D12_SRV_DIMENSION_TEXTURE2DARRAY },
      BuildDescriptorHeaps.set fun d => { d with Format := treeArrayTex.2.Format },
      BuildDescriptorHeaps.set fun d => { d with MostDetailedMip := 0 },
      BuildDescriptorHeaps.set fun d => { d with MipLevels := 4294967295 },
      BuildDescriptorHeaps.set fun d => { d with FirstArraySlice := 0 },
      BuildDescriptorHeaps.set fun d => { d with ArraySize := treeArrayTex.2.DepthOrArraySize },
      BuildDescriptorHeaps.create mCbvSrvDescriptorSize treeArrayTex ]
    { heap := { NumDescriptors := 10 }, hDescriptor := 0, srvDesc := {} }).map fun l => l.heap

/-- `BuildDescriptorHeaps`, as a function of the loaded textures and of the descriptor increment
`mCbvSrvDescriptorSize`: the ten resources are fetched, then the heap is filled. -/
def BuildDescriptorHeaps (mTextures : List (String × Texture)) (mCbvSrvDescriptorSize : Nat) :
    Option SrvHeap :=
  (textureResource mTextures "grassTex").bind fun grassTex =>
  (textureResource mTextures "waterTex").bind fun waterTex =>
  (textureResource mTextures "fenceTex").bind fun fenceTex =>
  (textureResource mTextures "stoneTex").bind fun stoneTex =>
  (textureResource mTextures "marbleTex").bind fun marbleTex =>
  (textureResource mTextures "sunTex").bind fun sunTex =>
  (textureResource mTextures "diamondTex").bind fun diamondTex =>
  (textureResource mTextures "bushTex").bind fun bushTex =>
  (textureResource mTextures "woodTex").bind fun woodTex =>
  (textureResource mTextures "treeArrayTex").bind fun treeArrayTex =>
  BuildDescriptorHeaps.fill grassTex waterTex fenceTex stoneTex marbleTex sunTex diamondTex
    bushTex woodTex treeArrayTex mCbvSrvDescriptorSize

/-- The materials of the scene with the key of their texture and their place in the descriptor
heap, as the specification pairs them. -/
def materialTextures : List (String × String × Nat) :=
  [ ("grass", "grassTex", 0), ("water", "waterTex", 1), ("wirefence", "fenceTex", 2),
    ("stone", "stoneTex", 3), ("marble", "marbleTex", 4), ("sun", "sunTex", 5),
    ("diamond", "diamondTex", 6), ("bush", "bushTex", 7), ("wood", "woodTex", 8),
    ("treeSprites", "treeArrayTex", 9) ]

/-- Ten loaded textures under the keys of `LoadTextures`, the `k`-th at the address `4096·(k+1)`
with the format `k + 70`. -/
def sampleTextures : List (String × Texture) :=
  [ ("grassTex", { Name := "grassTex", Resource := some (⟨4096⟩, { Format := 70 }) }),
    ("waterTex", { Name := "waterTex", Resource := some (⟨8192⟩, { Format := 71 }) }),
    ("fenceTex", { Name := "fenceTex", Resource := some (⟨12288⟩, { Format := 72 }) }),
    ("stoneTex", { Name := "stoneTex", Resource := some (⟨16384⟩, { Format := 73 }) }),
    ("marbleTex", { Name := "marbleTex", Resource := some (⟨20480⟩, { Format := 74 }) }),
    ("sunTex", { Name := "sunTex", Resource := some (⟨24576⟩, { Format := 75 }) }),
    ("diamondTex", { Name := "diamondTex", Resource := some (⟨28672⟩, { Format := 76 }) }),
    ("bushTex", { Name := "bushTex", Resource := some (⟨32768⟩, { Format := 77 }) }),
    ("woodTex", { Name := "woodTex", Resource := some (⟨36864⟩, { Format := 78 }) }),
    ("treeArrayTex",
      { Name := "treeArrayTex"
        Resource := some (⟨40960⟩, { Format := 79, DepthOrArraySize := 3 }) }) ]

/-! ## BuildFrameResources -/

/-- What the device creates for one frame resource: the command allocator and the resources of
the four upload buffers. -/
structure FrameResourceDevice where
  CmdListAlloc : Nat
  PassCB : ID3D12Resource
  MaterialCB : ID3D12Resource
  ObjectCB : ID3D12Resource
  WavesVB : ID3D12Resource

/-- Modelled from the spec: the constructor of `FrameResource` (`FrameResource.h` is not among the
sources): a command allocator and upload buffers of `passCount` pass constants, `materialCount`
material constants, `objectCount` object constants and `waveVertCount` wave vertices, with the
fence `0`. -/
def FrameResource.create (device : FrameResourceDevice)
    (passCount objectCount materialCount waveVertCount : Nat) : FrameResource :=
  { CmdListAlloc := device.CmdListAlloc
    PassCB := ⟨device.PassCB, List.replicate passCount {}⟩
    MaterialCB := ⟨device.MaterialCB, List.replicate materialCount {}⟩
    ObjectCB := ⟨device.ObjectCB, List.replicate objectCount {}⟩
    WavesVB := ⟨device.WavesVB, List.replicate waveVertCount {}⟩
    Fence := 0 }

/-- `BuildFrameResources`; `device i` is what the device creates for the `i`-th frame resource.
The sizes are converted to `UINT`. -/
def BuildFrameResources (wm : WavesModel W) (device : Nat → FrameResourceDevice)
    (s : TreeBillboardsApp W) : TreeBillboardsApp W :=
  (List.range gNumFrameResources.toNat).foldl
    (fun s i => { s with
      mFrameResources := s.mFrameResources ++
        [FrameResource.create (device i) 1 (wrapUINT s.mAllRitems.length)
          (wrapUINT s.mMaterials.length) (wm.VertexCount % 4294967296).toNat] })
    s

/-! # Theorems -/

/-! ## Upload buffers -/

theorem CopyData_eq_some {T : Type} {b b' : UploadBuffer T} {i : Nat} {d : T} :
    b.CopyData i d = some b' ↔
      i < b.mMappedData.length ∧ b' = { b with mMappedData := b.mMappedData.set i d } := by
  unfold UploadBuffer.CopyData
  split
  · simp_all [eq_comm]
  · simp_all

theorem CopyAll_resource {T : Type} (ws : List (Nat × T)) :
    ∀ {b b' : UploadBuffer T}, UploadBuffer.CopyAll ws b = some b' →
      b'.mUploadBuffer = b.mUploadBuffer ∧ b'.mMappedData.length = b.mMappedData.length := by
  induction ws with
  | nil => intro b b' h; simp [UploadBuffer.CopyAll] at h; subst h; simp
  | cons w ws ih =>
    intro b b' h
    obtain ⟨i, d⟩ := w
    simp only [UploadBuffer.CopyAll, Option.bind_eq_some] at h
    obtain ⟨b1, h1, h2⟩ := h
    obtain ⟨_, rfl⟩ := CopyData_eq_some.mp h1
    have := ih h2
    simpa using this

theorem CopyAll_untouched {T : Type} (ws : List (Nat × T)) (k : Nat) :
    ∀ {b b' : UploadBuffer T}, UploadBuffer.CopyAll ws b = some b' →
      (∀ w ∈ ws, w.1 ≠ k) → b'.mMappedData[k]? = b.mMappedData[k]? := by
  induction ws with
  | nil => intro b b' h _; simp [UploadBuffer.CopyAll] at h; subst h; rfl
  | cons w ws ih =>
    intro b b' h hk
    obtain ⟨i, d⟩ := w
    simp only [UploadBuffer.CopyAll, Option.bind_eq_some] at h
    obtain ⟨b1, h1, h2⟩ := h
    obtain ⟨_, rfl⟩ := CopyData_eq_some.mp h1
    rw [ih h2 (fun w hw => hk w (List.mem_cons_of_mem _ hw))]
    have : i ≠ k := hk (i, d) (List.mem_cons_self _ _)
    simp [List.getElem?_set_ne this]

theorem CopyAll_written {T : Type} (ws : List (Nat × T)) :
    ∀ {b b' : UploadBuffer T}, UploadBuffer.CopyAll ws b = some b' →
      (ws.map Prod.fst).Nodup → ∀ w ∈ ws, b'.mMappedData[w.1]? = some w.2 := by
  induction ws with
  | nil => intro b b' _ _ w hw; simp at hw
  | cons w0 ws ih =>
    intro b b' h hnd w hw
    obtain ⟨i, d⟩ := w0
    simp only [UploadBuffer.CopyAll, Option.bind_eq_some] at h
    obtain ⟨b1, h1, h2⟩ := h
    obtain ⟨hi, rfl⟩ := CopyData_eq_some.mp h1
    simp only [List.map_cons, List.nodup_cons] at hnd
    rcases List.mem_cons.mp hw with rfl | hw'
    · rw [CopyAll_untouched ws i h2]
      · simp [List.getElem?_set_self hi]
      · intro w hw hEq
        exact hnd.1 (hEq ▸ List.mem_map_of_mem Prod.fst hw)
    · exact ih h2 hnd.2 w hw'

theorem CopyAll_isSome {T : Type} (ws : List (Nat × T)) :
    ∀ (b : UploadBuffer T), (∀ w ∈ ws, w.1 < b.mMappedData.length) →
      ∃ b', UploadBuffer.CopyAll ws b = some b' := by
  induction ws with
  | nil => intro b _; exact ⟨b, rfl⟩
  | cons w0 ws ih =>
    intro b hb
    obtain ⟨i, d⟩ := w0
    have hi : i < b.mMappedData.length := hb (i, d) (List.mem_cons_self _ _)
    obtain ⟨b', hb'⟩ := ih { b with mMappedData := b.mMappedData.set i d }
      (by intro w hw; simpa using hb w (List.mem_cons_of_mem _ hw))
    refine ⟨b', ?_⟩
    simp [UploadBuffer.CopyAll, UploadBuffer.CopyData, hi, hb']

theorem CopyAll_bounds {T : Type} (ws : List (Nat × T)) :
    ∀ {b b' : UploadBuffer T}, UploadBuffer.CopyAll ws b = some b' →
      ∀ w ∈ ws, w.1 < b.mMappedData.length := by
  induction ws with
  | nil => intro b b' _ w hw; simp at hw
  | cons w0 ws ih =>
    intro b b' h w hw
    obtain ⟨i, d⟩ := w0
    simp only [UploadBuffer.CopyAll, Option.bind_eq_some] at h
    obtain ⟨b1, h1, h2⟩ := h
    obtain ⟨hi, rfl⟩ := CopyData_eq_some.mp h1
    rcases List.mem_cons.mp hw with rfl | hw'
    · exact hi
    · simpa using ih h2 w hw'

/-! ## The dirty loops as write lists -/

theorem UpdateObjectCBs_loop_eq (items : List RenderItem) :
    ∀ cb, UpdateObjectCBs.loop items cb =
      (UploadBuffer.CopyAll (objWrites items) cb).map fun cb' => (items.map tickItem, cb') := by
  induction items with
  | nil => intro cb; simp [UpdateObjectCBs.loop, objWrites, UploadBuffer.CopyAll]
  | cons e rest ih =>
    intro cb
    unfold UpdateObjectCBs.loop
    by_cases hd : e.NumFramesDirty > 0
    · simp only [hd, if_true]
      cases hc : cb.CopyData e.ObjCBIndex (objConstants e) with
      | none => simp [objWrites, hd, UploadBuffer.CopyAll, hc]
      | some cb1 =>
        simp only [ih cb1]
        cases hr : UploadBuffer.CopyAll (objWrites rest) cb1 with
        | none =>
          have : UploadBuffer.CopyAll (objWrites (e :: rest)) cb = none := by
            simp [objWrites, hd, UploadBuffer.CopyAll, hc]
            simpa [objWrites] using hr
          simp [this]
        | some cb2 =>
          have : UploadBuffer.CopyAll (objWrites (e :: rest)) cb = some cb2 := by
            simp [objWrites, hd, UploadBuffer.CopyAll, hc]
            simpa [objWrites] using hr
          simp [this, tickItem, hd]
    · simp only [hd, if_false]
      have hw : objWrites (e :: rest) = objWrites rest := by simp [objWrites, hd]
      rw [ih cb, hw]
      cases hr : UploadBuffer.CopyAll (objWrites rest) cb with
      | none => simp
      | some cb2 => simp [tickItem, hd]


theorem UpdateMaterialCBs_loop_eq (mats : List (String × Material)) :
    ∀ cb, UpdateMaterialCBs.loop mats cb =
      (UploadBuffer.CopyAll (matWrites mats) cb).map fun cb' =>
        (mats.map fun e => (e.1, tickMat e.2), cb') := by
  induction mats with
  | nil => intro cb; simp [UpdateMaterialCBs.loop, matWrites, UploadBuffer.CopyAll]
  | cons e rest ih =>
    intro cb
    obtain ⟨k, mat⟩ := e
    unfold UpdateMaterialCBs.loop
    by_cases hd : mat.NumFramesDirty > 0
    · simp only [hd, if_true]
      cases hc : cb.CopyData mat.MatCBIndex (matConstants mat) with
      | none => simp [matWrites, hd, UploadBuffer.CopyAll, hc]
      | some cb1 =>
        simp only [ih cb1]
        cases hr : UploadBuffer.CopyAll (matWrites rest) cb1 with
        | none =>
          have : UploadBuffer.CopyAll (matWrites ((k, mat) :: rest)) cb = none := by
            simp [matWrites, hd, UploadBuffer.CopyAll, hc]
            simpa [matWrites] using hr
          simp [this]
        | some cb2 =>
          have : UploadBuffer.CopyAll (matWrites ((k, mat) :: rest)) cb = some cb2 := by
            simp [matWrites, hd, UploadBuffer.CopyAll, hc]
            simpa [matWrites] using hr
          simp [this, tickMat, hd]
    · simp only [hd, if_false]
      have hw : matWrites ((k, mat) :: rest) = matWrites rest := by simp [matWrites, hd]
      rw [ih cb, hw]
      cases hr : UploadBuffer.CopyAll (matWrites rest) cb with
      | none => simp
      | some cb2 => simp [tickMat, hd]

theorem currFrameResource_eq_some {s : TreeBillboardsApp W} {cur : Nat} {fr : FrameResource} :
    s.currFrameResource = some (cur, fr) ↔
      s.mCurrFrameResource = some cur ∧ s.mFrameResources[cur]? = some fr := by
  unfold TreeBillboardsApp.currFrameResource
  cases h : s.mCurrFrameResource with
  | none => simp
  | some c =>
    simp only [Option.map_eq_some', Prod.mk.injEq, Option.some.injEq]
    constructor
    · rintro ⟨a, h1, rfl, rfl⟩; exact ⟨rfl, h1⟩
    · rintro ⟨rfl, h1⟩; exact ⟨fr, h1, rfl, rfl⟩

theorem UpdateObjectCBs_some {s s' : TreeBillboardsApp W} (h : UpdateObjectCBs s = some s') :
    ∃ cur fr cb, s.currFrameResource = some (cur, fr) ∧
      UploadBuffer.CopyAll (objWrites s.mAllRitems) fr.ObjectCB = some cb ∧
      s' = { s with
        mAllRitems := s.mAllRitems.map tickItem
        mFrameResources := s.mFrameResources.set cur { fr with ObjectCB := cb } } := by
  unfold UpdateObjectCBs at h
  split at h
  · cases h
  · next cur fr hc =>
    split at h
    · cases h
    · next items cb hl =>
      rw [UpdateObjectCBs_loop_eq] at hl
      simp only [Option.map_eq_some', Prod.mk.injEq] at hl
      obtain ⟨cb', hw, rfl, rfl⟩ := hl
      exact ⟨cur, fr, cb', hc, hw, (Option.some.inj h).symm⟩

theorem UpdateObjectCBs_of {s : TreeBillboardsApp W} {cur : Nat} {fr : FrameResource}
    {cb : UploadBuffer ObjectConstants} (hc : s.currFrameResource = some (cur, fr))
    (hw : UploadBuffer.CopyAll (objWrites s.mAllRitems) fr.ObjectCB = some cb) :
    UpdateObjectCBs s = some { s with
        mAllRitems := s.mAllRitems.map tickItem
        mFrameResources := s.mFrameResources.set cur { fr with ObjectCB := cb } } := by
  unfold UpdateObjectCBs
  simp [hc, UpdateObjectCBs_loop_eq, hw]

theorem UpdateMaterialCBs_some {s s' : TreeBillboardsApp W} (h : UpdateMaterialCBs s = some s') :
    ∃ cur fr cb, s.currFrameResource = some (cur, fr) ∧
      UploadBuffer.CopyAll (matWrites s.mMaterials) fr.MaterialCB = some cb ∧
      s' = { s with
        mMaterials := s.mMaterials.map fun e => (e.1, tickMat e.2)
        mFrameResources := s.mFrameResources.set cur { fr with MaterialCB := cb } } := by
  unfold UpdateMaterialCBs at h
  split at h
  · cases h
  · next cur fr hc =>
    split at h
    · cases h
    · next items cb hl =>
      rw [UpdateMaterialCBs_loop_eq] at hl
      simp only [Option.map_eq_some', Prod.mk.injEq] at hl
      obtain ⟨cb', hw, rfl, rfl⟩ := hl
      exact ⟨cur, fr, cb', hc, hw, (Option.some.inj h).symm⟩

theorem UpdateMaterialCBs_of {s : TreeBillboardsApp W} {cur : Nat} {fr : FrameResource}
    {cb : UploadBuffer MaterialConstants} (hc : s.currFrameResource = some (cur, fr))
    (hw : UploadBuffer.CopyAll (matWrites s.mMaterials) fr.MaterialCB = some cb) :
    UpdateMaterialCBs s = some { s with
        mMaterials := s.mMaterials.map fun e => (e.1, tickMat e.2)
        mFrameResources := s.mFrameResources.set cur { fr with MaterialCB := cb } } := by
  unfold UpdateMaterialCBs
  simp [hc, UpdateMaterialCBs_loop_eq, hw]

theorem UpdateMainPassCB_some {s s' : TreeBillboardsApp W} {gt : GameTimer}
    (h : UpdateMainPassCB s gt = some s') :
    ∃ cur fr cb, s.currFrameResource = some (cur, fr) ∧
      fr.PassCB.CopyData 0 (UpdateMainPassCB.fill s gt) = some cb ∧
      s' = { s with
        mMainPassCB := UpdateMainPassCB.fill s gt
        mFrameResources := s.mFrameResources.set cur { fr with PassCB := cb } } := by
  unfold UpdateMainPassCB at h
  simp only at h
  split at h
  · cases h
  · next cur fr hc =>
    split at h
    · cases h
    · next cb hl => exact ⟨cur, fr, cb, hc, hl, (Option.some.inj h).symm⟩

theorem UpdateMainPassCB_of {s : TreeBillboardsApp W} {gt : GameTimer} {cur : Nat}
    {fr : FrameResource} {cb : UploadBuffer PassConstants}
    (hc : s.currFrameResource = some (cur, fr))
    (hw : fr.PassCB.CopyData 0 (UpdateMainPassCB.fill s gt) = some cb) :
    UpdateMainPassCB s gt = some { s with
        mMainPassCB := UpdateMainPassCB.fill s gt
        mFrameResources := s.mFrameResources.set cur { fr with PassCB := cb } } := by
  unfold UpdateMainPassCB
  simp [hc, hw]

theorem UpdateWaves_some {wm : WavesModel W} {s s' : TreeBillboardsApp W} {inp : TickInput}
    (h : UpdateWaves wm s inp = some s') :
    ∃ cur fr vb p ri g geo, s.currFrameResource = some (cur, fr) ∧
      fr.WavesVB.CopyAll (UpdateWaves.writes wm (UpdateWaves.simulate wm s inp).2) = some vb ∧
      s.mWavesRitem = some p ∧ s.mAllRitems[p]? = some ri ∧ ri.Geo = some g ∧
      mapFind g s.mGeometries = some geo ∧
      s' = { s with
        t_base := (UpdateWaves.simulate wm s inp).1
        mWaves := (UpdateWaves.simulate wm s inp).2
        mFrameResources := s.mFrameResources.set cur { fr with WavesVB := vb }
        mGeometries := mapStore g { geo with VertexBufferGPU := some vb.Resource } s.mGeometries } := by
  unfold UpdateWaves at h
  simp only at h
  split at h
  · cases h
  · next cur fr hc =>
    split at h
    · cases h
    · next vb hvb =>
      split at h
      · cases h
      · next ri hri =>
        split at h
        · cases h
        · next g hg =>
          split at h
          · cases h
          · next geo hgeo =>
            simp only [Option.bind_eq_some] at hri
            obtain ⟨p, hp, hri⟩ := hri
            exact ⟨cur, fr, vb, p, ri, g, geo, hc, hvb, hp, hri, hg, hgeo, (Option.some.inj h).symm⟩

theorem UpdateWaves_of {wm : WavesModel W} {s : TreeBillboardsApp W} {inp : TickInput}
    {cur : Nat} {fr : FrameResource} {vb : UploadBuffer Vertex} {p : Nat} {ri : RenderItem}
    {g : String} {geo : MeshGeometry}
    (hc : s.currFrameResource = some (cur, fr))
    (hvb : fr.WavesVB.CopyAll (UpdateWaves.writes wm (UpdateWaves.simulate wm s inp).2) = some vb)
    (hp : s.mWavesRitem = some p) (hri : s.mAllRitems[p]? = some ri) (hg : ri.Geo = some g)
    (hgeo : mapFind g s.mGeometries = some geo) :
    UpdateWaves wm s inp = some { s with
        t_base := (UpdateWaves.simulate wm s inp).1
        mWaves := (UpdateWaves.simulate wm s inp).2
        mFrameResources := s.mFrameResources.set cur { fr with WavesVB := vb }
        mGeometries := mapStore g { geo with VertexBufferGPU := some vb.Resource } s.mGeometries } := by
  unfold UpdateWaves
  simp [hc, hvb, hp, hri, hg, hgeo]

theorem AnimateMaterials_some {s s' : TreeBillboardsApp W} {gt : GameTimer}
    (h : AnimateMaterials s gt = some s') :
    ∃ waterMat, mapFind "water" s.mMaterials = some waterMat ∧
      s' = { s with
        mMaterials := mapStore "water" (AnimateMaterials.scroll gt waterMat) s.mMaterials } := by
  unfold AnimateMaterials at h
  split at h
  · cases h
  · next m hm => exact ⟨m, hm, (Option.some.inj h).symm⟩

theorem AnimateMaterials_of {s : TreeBillboardsApp W} {gt : GameTimer} {waterMat : Material}
    (hm : mapFind "water" s.mMaterials = some waterMat) :
    AnimateMaterials s gt = some { s with
        mMaterials := mapStore "water" (AnimateMaterials.scroll gt waterMat) s.mMaterials } := by
  unfold AnimateMaterials
  simp [hm]


theorem tmod_three_nonpos {a : Int} (ha : a < 0) : a.tmod 3 ≤ 0 := by
  obtain ⟨n, rfl⟩ := Int.eq_negSucc_of_lt_zero ha
  show -Int.ofNat (n.succ % 3) ≤ 0
  have : (0 : Int) ≤ Int.ofNat (n.succ % 3) := Int.ofNat_nonneg _
  omega

theorem nextIndex_range (i : Int) (h : 0 ≤ Update.nextIndex i) :
    Update.nextIndex i = (i + 1) % 3 ∧ Update.nextIndex i < 3 := by
  unfold Update.nextIndex gNumFrameResources at *
  have h1 := Int.tmod_lt_of_pos (i + 1) (show (0 : Int) < 3 by decide)
  refine ⟨?_, h1⟩
  rcases lt_or_le (i + 1) 0 with hneg | hpos
  · have h0 : (i + 1).tmod 3 = 0 := le_antisymm (tmod_three_nonpos hneg) h
    rw [h0]
    have : (3 : Int) ∣ (i + 1) := Int.dvd_of_tmod_eq_zero h0
    exact (Int.emod_eq_zero_of_dvd this).symm
  · exact Int.tmod_eq_emod hpos (by decide)

theorem nextIndex_of_nonneg (i : Int) (h : 0 ≤ i) :
    Update.nextIndex i = (i + 1) % 3 ∧ 0 ≤ Update.nextIndex i := by
  unfold Update.nextIndex gNumFrameResources
  rw [Int.tmod_eq_emod (by omega) (by decide)]
  exact ⟨rfl, by omega⟩

theorem mapFind_mapStore_self {α : Type} (k : String) (v : α) :
    ∀ (l : List (String × α)), (mapFind k l).isSome = true → mapFind k (mapStore k v l) = some v := by
  intro l
  induction l with
  | nil => simp [mapFind]
  | cons e rest ih =>
    obtain ⟨k', v'⟩ := e
    intro h
    by_cases hk : k' = k
    · simp [mapFind, mapStore, hk]
    · simp [mapFind, mapStore, hk] at h ⊢
      exact ih h

theorem mapFind_mapStore_ne {α : Type} (k k2 : String) (v : α) (hne : k2 ≠ k) :
    ∀ (l : List (String × α)), mapFind k2 (mapStore k v l) = mapFind k2 l := by
  intro l
  induction l with
  | nil => simp [mapFind, mapStore]
  | cons e rest ih =>
    obtain ⟨k', v'⟩ := e
    by_cases hk : k' = k
    · subst hk
      have : ¬ k' = k2 := fun h => hne h.symm
      simp [mapFind, mapStore, this]
    · by_cases hk2 : k' = k2
      · subst hk2
        simp [mapFind, mapStore, hk]
      · simp [mapFind, mapStore, hk, hk2, ih]

theorem mapStore_map_fst {α : Type} (k : String) (v : α) :
    ∀ (l : List (String × α)), (mapStore k v l).map Prod.fst = l.map Prod.fst := by
  intro l
  induction l with
  | nil => rfl
  | cons e rest ih =>
    obtain ⟨k', v'⟩ := e
    by_cases hk : k' = k
    · simp [mapStore, hk]
    · simp [mapStore, hk, ih]

theorem mapStore_length {α : Type} (k : String) (v : α) (l : List (String × α)) :
    (mapStore k v l).length = l.length := by
  simpa using congrArg List.length (mapStore_map_fst k v l)

/-- Entries of a map after a store: each is the stored value under the key, or an old entry. -/
theorem mem_mapStore {α : Type} (k : String) (v : α) :
    ∀ (l : List (String × α)) (e : String × α), e ∈ mapStore k v l → e = (k, v) ∨ e ∈ l := by
  intro l
  induction l with
  | nil => intro e he; simp [mapStore] at he
  | cons e0 rest ih =>
    obtain ⟨k', v'⟩ := e0
    intro e he
    by_cases hk : k' = k
    · simp only [mapStore, hk, if_true, List.mem_cons] at he
      rcases he with rfl | he
      · exact Or.inl rfl
      · exact Or.inr (List.mem_cons_of_mem _ he)
    · simp only [mapStore, hk, if_false, List.mem_cons] at he
      rcases he with rfl | he
      · exact Or.inr (List.mem_cons_self _ _)
      · rcases ih e he with h | h
        · exact Or.inl h
        · exact Or.inr (List.mem_cons_of_mem _ h)

/-- Positionwise view of a store: the entry at a position is replaced exactly when it is the
first one with the key. -/
theorem mapStore_getElem? {α : Type} (k : String) (v : α) :
    ∀ (l : List (String × α)) (p : Nat) (e : String × α), l[p]? = some e → e.1 ≠ k →
      (mapStore k v l)[p]? = some e := by
  intro l
  induction l with
  | nil => intro p e h; simp at h
  | cons e0 rest ih =>
    obtain ⟨k', v'⟩ := e0
    intro p e h hne
    by_cases hk : k' = k
    · cases p with
      | zero =>
        simp at h; subst h; exact absurd hk hne
      | succ p => simpa [mapStore, hk] using h
    · cases p with
      | zero => simpa [mapStore, hk] using h
      | succ p =>
        simp only [mapStore, hk, if_false, List.getElem?_cons_succ] at h ⊢
        exact ih p e h hne

theorem mapFind_mem {α : Type} (k : String) :
    ∀ (l : List (String × α)) (v : α), mapFind k l = some v → (k, v) ∈ l := by
  intro l
  induction l with
  | nil => intro v h; simp [mapFind] at h
  | cons e0 rest ih =>
    obtain ⟨k', v'⟩ := e0
    intro v h
    by_cases hk : k' = k
    · simp [mapFind, hk] at h; subst h; subst hk; exact List.mem_cons_self _ _
    · simp [mapFind, hk] at h; exact List.mem_cons_of_mem _ (ih v h)

theorem mapFind_map {α : Type} (f : α → α) (k : String) :
    ∀ (l : List (String × α)), mapFind k (l.map fun e => (e.1, f e.2)) = (mapFind k l).map f := by
  intro l
  induction l with
  | nil => rfl
  | cons e0 rest ih =>
    obtain ⟨k', v'⟩ := e0
    by_cases hk : k' = k
    · simp [mapFind, hk]
    · simp [mapFind, hk, ih]


theorem currFrameResource_set {s : TreeBillboardsApp W} {cur : Nat} {fr fr' : FrameResource}
    (hc : s.currFrameResource = some (cur, fr)) (s2 : TreeBillboardsApp W)
    (h1 : s2.mCurrFrameResource = s.mCurrFrameResource)
    (h2 : s2.mFrameResources = s.mFrameResources.set cur fr') :
    s2.currFrameResource = some (cur, fr') := by
  rw [currFrameResource_eq_some] at hc ⊢
  refine ⟨h1.trans hc.1, ?_⟩
  rw [h2]
  have : cur < s.mFrameResources.length := by
    have := hc.2
    rw [List.getElem?_eq_some] at this
    exact this.1
  exact List.getElem?_set_self this

/-- What a successful `Update` does, in one piece. -/
theorem Update_some {wm : WavesModel W} {s s' : TreeBillboardsApp W} {inp : TickInput} {w : Bool}
    (h : Update wm s inp = some (s', w)) :
    ∃ fr waterMat ocb mcb pcb vb p ri g geo,
      0 ≤ Update.nextIndex s.mCurrFrameResourceIndex ∧
      s.mFrameResources[(Update.nextIndex s.mCurrFrameResourceIndex).toNat]? = some fr ∧
      w = Update.mustWait fr.Fence inp.completed ∧
      mapFind "water" s.mMaterials = some waterMat ∧
      UploadBuffer.CopyAll (objWrites s.mAllRitems) fr.ObjectCB = some ocb ∧
      UploadBuffer.CopyAll
        (matWrites (mapStore "water" (AnimateMaterials.scroll inp.gt waterMat) s.mMaterials))
        fr.MaterialCB = some mcb ∧
      fr.PassCB.CopyData 0 (UpdateMainPassCB.fill (OnKeyboardInput s inp) inp.gt) = some pcb ∧
      fr.WavesVB.CopyAll (UpdateWaves.writes wm (UpdateWaves.simulate wm s inp).2) = some vb ∧
      s.mWavesRitem = some p ∧ s.mAllRitems[p]? = some ri ∧ ri.Geo = some g ∧
      mapFind g s.mGeometries = some geo ∧
      s' = { s with
        mCamera := inp.camera
        mCurrFrameResourceIndex := Update.nextIndex s.mCurrFrameResourceIndex
        mCurrFrameResource := some (Update.nextIndex s.mCurrFrameResourceIndex).toNat
        mMaterials := (mapStore "water" (AnimateMaterials.scroll inp.gt waterMat) s.mMaterials).map
          fun e => (e.1, tickMat e.2)
        mAllRitems := s.mAllRitems.map tickItem
        mMainPassCB := UpdateMainPassCB.fill (OnKeyboardInput s inp) inp.gt
        t_base := (UpdateWaves.simulate wm s inp).1
        mWaves := (UpdateWaves.simulate wm s inp).2
        mGeometries := mapStore g { geo with VertexBufferGPU := some vb.Resource } s.mGeometries
        mFrameResources := s.mFrameResources.set
          (Update.nextIndex s.mCurrFrameResourceIndex).toNat
          { fr with ObjectCB := ocb, MaterialCB := mcb, PassCB := pcb, WavesVB := vb } } := by
  unfold Update at h
  simp only [OnKeyboardInput] at h
  split at h
  · cases h
  split at h
  · cases h
  · next hidx =>
    split at h
    · cases h
    · next fr hfr =>
      split at h
      · cases h
      · next s1 h1 =>
        split at h
        · cases h
        · next s2 h2 =>
          split at h
          · cases h
          · next s3 h3 =>
            split at h
            · cases h
            · next s4 h4 =>
              split at h
              · cases h
              · next s5 h5 =>
                simp only [Option.some.injEq, Prod.mk.injEq] at h
                obtain ⟨rfl, rfl⟩ := h
                obtain ⟨waterMat, hwm, rfl⟩ := AnimateMaterials_some h1
                obtain ⟨cur2, fr2, ocb, hc2, hocb, rfl⟩ := UpdateObjectCBs_some h2
                rw [currFrameResource_eq_some] at hc2
                dsimp only at hc2
                simp only [Option.some.injEq] at hc2
                obtain ⟨rfl, hfr2⟩ := hc2
                rw [hfr] at hfr2; cases hfr2
                obtain ⟨cur3, fr3, mcb, hc3, hmcb, rfl⟩ := UpdateMaterialCBs_some h3
                have hlt : (Update.nextIndex s.mCurrFrameResourceIndex).toNat
                    < s.mFrameResources.length := by
                  rw [List.getElem?_eq_some] at hfr; exact hfr.1
                rw [currFrameResource_eq_some] at hc3
                dsimp only at hc3
                obtain ⟨hcur3, hget3⟩ := hc3
                cases hcur3
                rw [List.getElem?_set_self hlt] at hget3
                cases hget3
                obtain ⟨cur4, fr4, pcb, hc4, hpcb, rfl⟩ := UpdateMainPassCB_some h4
                rw [currFrameResource_eq_some] at hc4
                dsimp only at hc4
                obtain ⟨hcur4, hget4⟩ := hc4
                cases hcur4
                rw [List.set_set, List.getElem?_set_self hlt] at hget4
                cases hget4
                obtain ⟨cur5, fr5, vb, p, ri, g, geo, hc5, hvb, hp, hri, hg, hgeo, rfl⟩ :=
                  UpdateWaves_some h5
                rw [currFrameResource_eq_some] at hc5
                dsimp only at hc5
                obtain ⟨hcur5, hget5⟩ := hc5
                cases hcur5
                rw [List.set_set, List.set_set, List.getElem?_set_self hlt] at hget5
                cases hget5
                simp only [List.getElem?_map, Option.map_eq_some'] at hri
                obtain ⟨ri0, hri0, rfl⟩ := hri
                have hg0 : ri0.Geo = some g := by
                  rw [← hg]; unfold tickItem; split <;> rfl
                refine ⟨fr, waterMat, ocb, mcb, pcb, vb, p, ri0, g, geo, not_lt.mp hidx, hfr, rfl,
                  hwm, hocb, hmcb, hpcb, hvb, hp, hri0, hg0, hgeo, ?_⟩
                simp only [List.set_set]
                rfl


theorem tickItem_ObjCBIndex (e : RenderItem) : (tickItem e).ObjCBIndex = e.ObjCBIndex := by
  unfold tickItem; split <;> rfl

theorem tickItem_Geo (e : RenderItem) : (tickItem e).Geo = e.Geo := by
  unfold tickItem; split <;> rfl

theorem tickMat_MatCBIndex (m : Material) : (tickMat m).MatCBIndex = m.MatCBIndex := by
  unfold tickMat; split <;> rfl

theorem objWrites_index {items : List RenderItem} {w : Nat × ObjectConstants}
    (hw : w ∈ objWrites items) :
    ∃ e ∈ items, e.NumFramesDirty > 0 ∧ w = (e.ObjCBIndex, objConstants e) := by
  simp only [objWrites, List.mem_map, List.mem_filter, decide_eq_true_eq] at hw
  obtain ⟨e, ⟨he, hd⟩, rfl⟩ := hw
  exact ⟨e, he, hd, rfl⟩

theorem matWrites_index {mats : List (String × Material)} {w : Nat × MaterialConstants}
    (hw : w ∈ matWrites mats) :
    ∃ e ∈ mats, e.2.NumFramesDirty > 0 ∧ w = (e.2.MatCBIndex, matConstants e.2) := by
  simp only [matWrites, List.mem_map, List.mem_filter, decide_eq_true_eq] at hw
  obtain ⟨e, ⟨he, hd⟩, rfl⟩ := hw
  exact ⟨e, he, hd, rfl⟩

theorem waveWrites_index {wm : WavesModel W} {w : W} {x : Nat × Vertex}
    (hx : x ∈ UpdateWaves.writes wm w) : x.1 < wm.VertexCount.toNat := by
  simp only [UpdateWaves.writes, List.mem_map, List.mem_range] at hx
  obtain ⟨i, hi, rfl⟩ := hx
  exact hi

/-- `Update` returns on every well-formed state. -/
theorem Update_ready {wm : WavesModel W} {s : TreeBillboardsApp W} (hs : UpdateReady wm s)
    (inp : TickInput) : ∃ r, Update wm s inp = some r := by
  obtain ⟨hlen, ⟨hidx, hidx3⟩, hwater, hbuf, hwaves⟩ := hs
  have hn := nextIndex_of_nonneg _ hidx
  have hlt3 := (nextIndex_range _ hn.2).2
  have hmax : ¬ INT_MAX < s.mCurrFrameResourceIndex + 1 := by unfold INT_MAX; omega
  have hlt : (Update.nextIndex s.mCurrFrameResourceIndex).toNat < s.mFrameResources.length := by
    rw [hlen]; omega
  obtain ⟨waterMat, hwm⟩ := Option.isSome_iff_exists.mp hwater
  have hfr : s.mFrameResources[(Update.nextIndex s.mCurrFrameResourceIndex).toNat]? =
      some (s.mFrameResources[(Update.nextIndex s.mCurrFrameResourceIndex).toNat]) :=
    List.getElem?_eq_getElem hlt
  generalize s.mFrameResources[(Update.nextIndex s.mCurrFrameResourceIndex).toNat] = fr at hfr
  have hmem : fr ∈ s.mFrameResources := List.getElem?_mem hfr
  obtain ⟨hob, hmb, hpb, hvb⟩ := hbuf fr hmem
  simp only [Option.isSome_iff_exists, Option.bind_eq_some] at hwaves
  obtain ⟨geo, g, ⟨ri, ⟨p, hp, hri⟩, hg⟩, hgeo⟩ := hwaves
  obtain ⟨ocb, hocb⟩ := CopyAll_isSome (objWrites s.mAllRitems) fr.ObjectCB (by
    intro w hw
    obtain ⟨e, he, _, rfl⟩ := objWrites_index hw
    exact hob e he)
  obtain ⟨mcb, hmcb⟩ := CopyAll_isSome
    (matWrites (mapStore "water" (AnimateMaterials.scroll inp.gt waterMat) s.mMaterials))
    fr.MaterialCB (by
    intro w hw
    obtain ⟨e, he, _, rfl⟩ := matWrites_index hw
    rcases mem_mapStore _ _ _ _ he with rfl | he'
    · have h0 := hmb _ (mapFind_mem _ _ _ hwm)
      exact h0
    · exact hmb e he')
  obtain ⟨vb, hvb'⟩ := CopyAll_isSome
    (UpdateWaves.writes wm (UpdateWaves.simulate wm s inp).2) fr.WavesVB (by
    intro w hw
    exact lt_of_lt_of_le (waveWrites_index hw) hvb)
  have hpcb : ∃ pcb, fr.PassCB.CopyData 0 (UpdateMainPassCB.fill (OnKeyboardInput s inp) inp.gt)
      = some pcb := by
    unfold UploadBuffer.CopyData; simp [hpb]
  obtain ⟨pcb, hpcb⟩ := hpcb
  unfold Update
  simp only [OnKeyboardInput, hmax, not_lt.mpr hn.2, if_false, hfr]
  rw [AnimateMaterials_of (by exact hwm)]
  simp only
  rw [@UpdateObjectCBs_of W _ (Update.nextIndex s.mCurrFrameResourceIndex).toNat fr
    ocb (by rw [currFrameResource_eq_some]; exact ⟨rfl, hfr⟩) (by exact hocb)]
  simp only
  rw [@UpdateMaterialCBs_of W _ (Update.nextIndex s.mCurrFrameResourceIndex).toNat
    { fr with ObjectCB := ocb } mcb
    (by rw [currFrameResource_eq_some]; exact ⟨rfl, List.getElem?_set_self hlt⟩) (by exact hmcb)]
  simp only
  rw [@UpdateMainPassCB_of W _ _ (Update.nextIndex s.mCurrFrameResourceIndex).toNat
    { fr with ObjectCB := ocb, MaterialCB := mcb } pcb
    (by rw [currFrameResource_eq_some]
        exact ⟨rfl, by dsimp only; rw [List.set_set]; exact List.getElem?_set_self hlt⟩)
    (by exact hpcb)]
  simp only
  rw [@UpdateWaves_of W _ _ _ (Update.nextIndex s.mCurrFrameResourceIndex).toNat
    { fr with ObjectCB := ocb, MaterialCB := mcb, PassCB := pcb } vb
    p (tickItem ri) g geo
    (by rw [currFrameResource_eq_some]
        exact ⟨rfl, by dsimp only; rw [List.set_set, List.set_set]; exact List.getElem?_set_self hlt⟩)
    (by exact hvb') (by exact hp) (by dsimp only; rw [List.getElem?_map, hri]; rfl)
    (by rw [tickItem_Geo]; exact hg) (by exact hgeo)]
  exact ⟨_, rfl⟩


theorem Update_preserves_ready {wm : WavesModel W} {s s' : TreeBillboardsApp W} {inp : TickInput}
    {w : Bool} (hs : UpdateReady wm s) (h : Update wm s inp = some (s', w)) :
    UpdateReady wm s' := by
  obtain ⟨hlen, hidx, hwater, hbuf, hwaves⟩ := hs
  obtain ⟨fr, waterMat, ocb, mcb, pcb, vb, p, ri, g, geo, hn, hfr, -, hwm, hocb, hmcb, hpcb, hvb,
    hp, hri, hg, hgeo, rfl⟩ := Update_some h
  have hmem : fr ∈ s.mFrameResources := List.getElem?_mem hfr
  obtain ⟨hob, hmb, hpb, hvbl⟩ := hbuf fr hmem
  have hmat : ∀ m ∈ (mapStore "water" (AnimateMaterials.scroll inp.gt waterMat) s.mMaterials).map
      (fun e => (e.1, tickMat e.2)), ∀ fr0 : FrameResource,
      (∀ m ∈ s.mMaterials, m.2.MatCBIndex < fr0.MaterialCB.mMappedData.length) →
      m.2.MatCBIndex < fr0.MaterialCB.mMappedData.length := by
    intro m hm fr0 h0
    simp only [List.mem_map] at hm
    obtain ⟨e, he, rfl⟩ := hm
    simp only [tickMat_MatCBIndex]
    rcases mem_mapStore _ _ _ _ he with rfl | he'
    · have h1 := h0 _ (mapFind_mem _ _ _ hwm)
      exact h1
    · exact h0 e he'
  refine ⟨?_, ⟨hn, (nextIndex_range _ hn).2⟩, ?_, ?_, ?_⟩
  · simpa using hlen
  · dsimp only
    rw [mapFind_map, mapFind_mapStore_self _ _ _ hwater]
    rfl
  · intro fr' hfr'
    dsimp only at hfr' ⊢
    have hitems : ∀ fr0 : FrameResource,
        (∀ e ∈ s.mAllRitems, e.ObjCBIndex < fr0.ObjectCB.mMappedData.length) →
        ∀ e ∈ s.mAllRitems.map tickItem, e.ObjCBIndex < fr0.ObjectCB.mMappedData.length := by
      intro fr0 h0 e he
      simp only [List.mem_map] at he
      obtain ⟨e0, he0, rfl⟩ := he
      rw [tickItem_ObjCBIndex]; exact h0 e0 he0
    rcases List.mem_or_eq_of_mem_set hfr' with hold | rfl
    · obtain ⟨a, b, c, d⟩ := hbuf fr' hold
      exact ⟨hitems fr' a, fun m hm => hmat m hm fr' b, c, d⟩
    · have e1 := (CopyAll_resource _ hocb).2
      have e2 := (CopyAll_resource _ hmcb).2
      have e4 := (CopyAll_resource _ hvb).2
      obtain ⟨_, rfl⟩ := CopyData_eq_some.mp hpcb
      refine ⟨?_, ?_, ?_, ?_⟩
      · intro e he
        have := hitems fr hob e he
        dsimp only; rw [e1]; exact this
      · intro m hm
        have := hmat m hm fr hmb
        dsimp only; rw [e2]; exact this
      · simpa using hpb
      · dsimp only; rw [e4]; exact hvbl
  · dsimp only
    simp only [hp, Option.some_bind, List.getElem?_map, hri, Option.map_some', tickItem_Geo, hg]
    rw [mapFind_mapStore_self _ _ _ (by rw [hgeo]; rfl)]
    rfl

theorem runTicks_ready (wm : WavesModel W) (inps : List TickInput) :
    ∀ {s : TreeBillboardsApp W}, UpdateReady wm s →
      ∃ s', runTicks wm s inps = some s' ∧ UpdateReady wm s' := by
  induction inps with
  | nil => intro s hs; exact ⟨s, rfl, hs⟩
  | cons inp rest ih =>
    intro s hs
    obtain ⟨⟨s1, w⟩, h1⟩ := Update_ready hs inp
    obtain ⟨s', h2, h3⟩ := ih (Update_preserves_ready hs h1)
    exact ⟨s', by simp [runTicks, h1, h2], h3⟩

theorem objWrites_nodup {items : List RenderItem}
    (hnd : (items.map fun e => e.ObjCBIndex).Nodup) : ((objWrites items).map Prod.fst).Nodup := by
  have : (objWrites items).map Prod.fst =
      (items.filter fun e => decide (e.NumFramesDirty > 0)).map fun e => e.ObjCBIndex := by
    simp [objWrites, Function.comp_def]
  rw [this]
  exact hnd.sublist ((List.filter_sublist _).map _)

theorem matWrites_nodup {mats : List (String × Material)}
    (hnd : (mats.map fun e => e.2.MatCBIndex).Nodup) : ((matWrites mats).map Prod.fst).Nodup := by
  have : (matWrites mats).map Prod.fst =
      (mats.filter fun e => decide (e.2.NumFramesDirty > 0)).map fun e => e.2.MatCBIndex := by
    simp [matWrites, Function.comp_def]
  rw [this]
  exact hnd.sublist ((List.filter_sublist _).map _)

/-- The buffer entry of a dirty render item after the object writes. -/
theorem objWrites_entry {items : List RenderItem} {cb cb' : UploadBuffer ObjectConstants}
    (hnd : (items.map fun e => e.ObjCBIndex).Nodup)
    (hw : UploadBuffer.CopyAll (objWrites items) cb = some cb') {e : RenderItem} (he : e ∈ items) :
    cb'.mMappedData[e.ObjCBIndex]? =
      if e.NumFramesDirty > 0 then some (objConstants e) else cb.mMappedData[e.ObjCBIndex]? := by
  split
  · next hd =>
    have hmem : (e.ObjCBIndex, objConstants e) ∈ objWrites items := by
      simp only [objWrites, List.mem_map, List.mem_filter, decide_eq_true_eq]
      exact ⟨e, ⟨he, hd⟩, rfl⟩
    exact CopyAll_written _ hw (objWrites_nodup hnd) _ hmem
  · next hd =>
    apply CopyAll_untouched _ _ hw
    intro w hwm hEq
    obtain ⟨e2, he2, hd2, rfl⟩ := objWrites_index hwm
    have := List.inj_on_of_nodup_map hnd he2 he hEq
    subst this
    exact hd hd2

/-- The buffer entry of a dirty material after the material writes. -/
theorem matWrites_entry {mats : List (String × Material)} {cb cb' : UploadBuffer MaterialConstants}
    (hnd : (mats.map fun e => e.2.MatCBIndex).Nodup)
    (hw : UploadBuffer.CopyAll (matWrites mats) cb = some cb') {e : String × Material}
    (he : e ∈ mats) :
    cb'.mMappedData[e.2.MatCBIndex]? =
      if e.2.NumFramesDirty > 0 then some (matConstants e.2)
      else cb.mMappedData[e.2.MatCBIndex]? := by
  split
  · next hd =>
    have hmem : (e.2.MatCBIndex, matConstants e.2) ∈ matWrites mats := by
      simp only [matWrites, List.mem_map, List.mem_filter, decide_eq_true_eq]
      exact ⟨e, ⟨he, hd⟩, rfl⟩
    exact CopyAll_written _ hw (matWrites_nodup hnd) _ hmem
  · next hd =>
    apply CopyAll_untouched _ _ hw
    intro w hwm hEq
    obtain ⟨e2, he2, hd2, rfl⟩ := matWrites_index hwm
    have := List.inj_on_of_nodup_map hnd he2 he hEq
    subst this
    exact hd hd2


/-- One tick moves the freshness invariant of an entity from counter `n` to `n - 1`. -/
theorem slotsFresh_step {wm : WavesModel W} {s s' : TreeBillboardsApp W} {inp : TickInput}
    {w : Bool} {holds : FrameResource → Prop}
    (h : Update wm s inp = some (s', w)) (n : Int)
    (hinv : SlotsFresh s n holds)
    (hsel : ∀ fr fr', s.mFrameResources[(Update.nextIndex s.mCurrFrameResourceIndex).toNat]? = some fr →
      s'.mFrameResources[(Update.nextIndex s.mCurrFrameResourceIndex).toNat]? = some fr' →
      (0 < n → holds fr') ∧ (¬ 0 < n → holds fr → holds fr')) :
    SlotsFresh s' (max (n - 1) 0) holds := by
  obtain ⟨fr, waterMat, ocb, mcb, pcb, vb, p, ri, g, geo, hn, hfr, -, -, -, -, -, -,
    -, -, -, -, rfl⟩ := Update_some h
  obtain ⟨hmod, hlt3⟩ := nextIndex_range _ hn
  intro k hk hfree fr' hfr'
  dsimp only at hfree hfr'
  by_cases hkc : k = (Update.nextIndex s.mCurrFrameResourceIndex).toNat
  · subst hkc
    obtain ⟨h1, h2⟩ := hsel fr fr' hfr hfr'
    by_cases hpos : 0 < n
    · exact h1 hpos
    · refine h2 hpos (hinv _ hk ?_ fr hfr)
      intro j hj1 hjn; omega
  · rw [List.getElem?_set_ne (Ne.symm hkc)] at hfr'
    refine hinv k hk ?_ fr' hfr'
    intro j hj1 hjn hEq
    by_cases hj : j = 1
    · subst hj
      apply hkc
      omega
    · refine hfree (j - 1) (by omega) (by omega) ?_
      omega

theorem slotsFresh_init (s : TreeBillboardsApp W) (holds : FrameResource → Prop) :
    SlotsFresh s 3 holds := by
  intro k hk hfree
  exfalso
  exact hfree (((k : Int) - s.mCurrFrameResourceIndex - 1) % 3 + 1) (by omega) (by omega) (by omega)

theorem slotsFresh_zero {s : TreeBillboardsApp W} {holds : FrameResource → Prop}
    (h : SlotsFresh s 0 holds) (hlen : s.mFrameResources.length = 3) :
    ∀ (k : Nat) (fr : FrameResource), s.mFrameResources[k]? = some fr → holds fr := by
  intro k fr hfr
  have hk : k < 3 := by
    rw [List.getElem?_eq_some] at hfr
    obtain ⟨h1, _⟩ := hfr
    omega
  exact h k hk (by intro j h1 h2; omega) fr hfr


theorem mapStore_map_of_eq {α β : Type} (f : α → β) (k : String) (v v0 : α) (hf : f v = f v0) :
    ∀ (l : List (String × α)), mapFind k l = some v0 →
      (mapStore k v l).map (fun e => f e.2) = l.map (fun e => f e.2) := by
  intro l
  induction l with
  | nil => intro h; simp [mapFind] at h
  | cons e0 rest ih =>
    obtain ⟨k', v'⟩ := e0
    intro h
    by_cases hk : k' = k
    · simp [mapFind, hk] at h
      subst h
      simp [mapStore, hk, hf]
    · simp [mapFind, hk] at h
      simp [mapStore, hk, ih h]

/-- A render item dirty for all three frame resources reaches every slot in three ticks and
stays clean and in place afterwards. -/
theorem item_propagation (wm : WavesModel W) (p : Nat) (e : RenderItem) (inps : List TickInput) :
    ∀ (s : TreeBillboardsApp W) (n : Int), UpdateReady wm s →
      (s.mAllRitems.map fun x => x.ObjCBIndex).Nodup → 0 ≤ n →
      s.mAllRitems[p]? = some { e with NumFramesDirty := n } →
      SlotsFresh s n (fun fr => fr.ObjectCB.mMappedData[e.ObjCBIndex]? = some (objConstants e)) →
      ∃ s', runTicks wm s inps = some s' ∧ UpdateReady wm s' ∧
        s'.mAllRitems[p]? = some { e with NumFramesDirty := max (n - inps.length) 0 } ∧
        SlotsFresh s' (max (n - inps.length) 0)
          (fun fr => fr.ObjectCB.mMappedData[e.ObjCBIndex]? = some (objConstants e)) := by
  induction inps with
  | nil =>
    intro s n hs _ hn hp hinv
    have : max (n - ((([] : List TickInput).length : Nat) : Int)) 0 = n := by simp; omega
    rw [this]
    exact ⟨s, rfl, hs, hp, hinv⟩
  | cons inp rest ih =>
    intro s n hs hnd hn hp hinv
    obtain ⟨⟨s1, w⟩, h1⟩ := Update_ready hs inp
    have hs1 := Update_preserves_ready hs h1
    have hstep := slotsFresh_step h1 n hinv
    obtain ⟨fr, waterMat, ocb, mcb, pcb, vb, p', ri, g, geo, hn', hfr, -, -, hocb, -, -, -,
      -, -, -, -, hs1eq⟩ := Update_some h1
    have hlt : (Update.nextIndex s.mCurrFrameResourceIndex).toNat < s.mFrameResources.length := by
      rw [List.getElem?_eq_some] at hfr; exact hfr.1
    have hentry := objWrites_entry hnd hocb (List.getElem?_mem hp)
    dsimp only at hentry
    have hitem : s1.mAllRitems[p]? = some { e with NumFramesDirty := max (n - 1) 0 } := by
      rw [hs1eq]; dsimp only
      rw [List.getElem?_map, hp]
      simp only [Option.map_some', tickItem]
      by_cases hpos : n > 0
      · simp only [hpos, if_true]
        congr 2; omega
      · simp only [hpos, if_false]
        congr 2; omega
    have hnd1 : (s1.mAllRitems.map fun x => x.ObjCBIndex).Nodup := by
      rw [hs1eq]; dsimp only
      simpa [Function.comp_def, tickItem_ObjCBIndex] using hnd
    have hfresh := hstep (by
      intro fr0 fr1 h0 h1'
      rw [hfr] at h0; cases h0
      rw [hs1eq] at h1'; dsimp only at h1'
      rw [List.getElem?_set_self hlt] at h1'
      cases h1'
      dsimp only
      rw [hentry]
      constructor
      · intro hpos; simp [hpos]; rfl
      · intro hpos hold; simp [hpos]; exact hold)
    obtain ⟨s', hrun, hs', hitem', hfresh'⟩ := ih s1 (max (n - 1) 0) hs1 hnd1 (by omega) hitem hfresh
    have hcount : max (max (n - 1) 0 - (rest.length : Int)) 0
        = max (n - (((inp :: rest).length : Nat) : Int)) 0 := by
      simp only [List.length_cons, Nat.cast_add, Nat.cast_one]; omega
    rw [hcount] at hitem' hfresh'
    exact ⟨s', by simp [runTicks, h1, hrun], hs', hitem', hfresh'⟩


/-- A material other than the water material, dirty for all three frame resources, reaches every
slot in three ticks and stays clean and in place afterwards. -/
theorem material_propagation (wm : WavesModel W) (p : Nat) (k : String) (m : Material)
    (hk : k ≠ "water") (inps : List TickInput) :
    ∀ (s : TreeBillboardsApp W) (n : Int), UpdateReady wm s →
      (s.mMaterials.map fun x => x.2.MatCBIndex).Nodup → 0 ≤ n →
      s.mMaterials[p]? = some (k, { m with NumFramesDirty := n }) →
      SlotsFresh s n (fun fr => fr.MaterialCB.mMappedData[m.MatCBIndex]? = some (matConstants m)) →
      ∃ s', runTicks wm s inps = some s' ∧ UpdateReady wm s' ∧
        s'.mMaterials[p]? = some (k, { m with NumFramesDirty := max (n - inps.length) 0 }) ∧
        SlotsFresh s' (max (n - inps.length) 0)
          (fun fr => fr.MaterialCB.mMappedData[m.MatCBIndex]? = some (matConstants m)) := by
  induction inps with
  | nil =>
    intro s n hs _ hn hp hinv
    have : max (n - ((([] : List TickInput).length : Nat) : Int)) 0 = n := by simp; omega
    rw [this]
    exact ⟨s, rfl, hs, hp, hinv⟩
  | cons inp rest ih =>
    intro s n hs hnd hn hp hinv
    obtain ⟨⟨s1, w⟩, h1⟩ := Update_ready hs inp
    have hs1 := Update_preserves_ready hs h1
    have hstep := slotsFresh_step h1 n hinv
    obtain ⟨fr, waterMat, ocb, mcb, pcb, vb, p', ri, g, geo, hn', hfr, -, hwm, -, hmcb, -, -,
      -, -, -, -, hs1eq⟩ := Update_some h1
    have hlt : (Update.nextIndex s.mCurrFrameResourceIndex).toNat < s.mFrameResources.length := by
      rw [List.getElem?_eq_some] at hfr; exact hfr.1
    have hidx : (mapStore "water" (AnimateMaterials.scroll inp.gt waterMat) s.mMaterials).map
        (fun x => x.2.MatCBIndex) = s.mMaterials.map (fun x => x.2.MatCBIndex) :=
      mapStore_map_of_eq (fun x : Material => x.MatCBIndex) "water"
        (AnimateMaterials.scroll inp.gt waterMat) waterMat rfl _ hwm
    have hp1 : (mapStore "water" (AnimateMaterials.scroll inp.gt waterMat) s.mMaterials)[p]? =
        some (k, { m with NumFramesDirty := n }) := mapStore_getElem? _ _ _ _ _ hp hk
    have hentry := matWrites_entry (hidx ▸ hnd) hmcb (List.getElem?_mem hp1)
    dsimp only at hentry
    have hitem : s1.mMaterials[p]? = some (k, { m with NumFramesDirty := max (n - 1) 0 }) := by
      rw [hs1eq]; dsimp only
      rw [List.getElem?_map, hp1]
      simp only [Option.map_some', tickMat]
      by_cases hpos : n > 0
      · simp only [hpos, if_true]
        congr 3; omega
      · simp only [hpos, if_false]
        congr 3; omega
    have hnd1 : (s1.mMaterials.map fun x => x.2.MatCBIndex).Nodup := by
      rw [hs1eq]; dsimp only
      rw [List.map_map]
      have : ((fun x : String × Material => x.2.MatCBIndex) ∘
          fun e : String × Material => (e.1, tickMat e.2))
          = fun x : String × Material => x.2.MatCBIndex := by
        funext x; simp [tickMat_MatCBIndex]
      rw [this, hidx]; exact hnd
    have hfresh := hstep (by
      intro fr0 fr1 h0 h1'
      rw [hfr] at h0; cases h0
      rw [hs1eq] at h1'; dsimp only at h1'
      rw [List.getElem?_set_self hlt] at h1'
      cases h1'
      dsimp only
      rw [hentry]
      constructor
      · intro hpos; simp [hpos]; rfl
      · intro hpos hold; simp [hpos]; exact hold)
    obtain ⟨s', hrun, hs', hitem', hfresh'⟩ := ih s1 (max (n - 1) 0) hs1 hnd1 (by omega) hitem hfresh
    have hcount : max (max (n - 1) 0 - (rest.length : Int)) 0
        = max (n - (((inp :: rest).length : Nat) : Int)) 0 := by
      simp only [List.length_cons, Nat.cast_add, Nat.cast_one]; omega
    rw [hcount] at hitem' hfresh'
    exact ⟨s', by simp [runTicks, h1, hrun], hs', hitem', hfresh'⟩


theorem mustWait_iff (f c : Nat) : Update.mustWait f c = true ↔ f ≠ 0 ∧ c < f := by
  simp [Update.mustWait]

theorem Update_index {wm : WavesModel W} {s : TreeBillboardsApp W} {inp : TickInput}
    {r : TreeBillboardsApp W × Bool} (h : Update wm s inp = some r) :
    r.1.mCurrFrameResourceIndex = (s.mCurrFrameResourceIndex + 1) % 3 ∧
    0 ≤ r.1.mCurrFrameResourceIndex ∧ r.1.mCurrFrameResourceIndex < 3 ∧
    r.1.mCurrFrameResource = some r.1.mCurrFrameResourceIndex.toNat := by
  obtain ⟨s', w⟩ := r
  obtain ⟨fr, waterMat, ocb, mcb, pcb, vb, p, ri, g, geo, hn, hfr, -, -, -, -, -, -,
    -, -, -, -, rfl⟩ := Update_some h
  obtain ⟨hmod, hlt3⟩ := nextIndex_range _ hn
  exact ⟨hmod, hn, hlt3, rfl⟩

theorem runTicks_index {wm : WavesModel W} (inps : List TickInput) :
    ∀ {s s' : TreeBillboardsApp W}, runTicks wm s inps = some s' → inps ≠ [] →
      s'.mCurrFrameResourceIndex = (s.mCurrFrameResourceIndex + inps.length) % 3 ∧
      s'.mCurrFrameResource = some s'.mCurrFrameResourceIndex.toNat := by
  induction inps with
  | nil => intro s s' _ h; exact absurd rfl h
  | cons inp rest ih =>
    intro s s' h _
    simp only [runTicks] at h
    split at h
    · cases h
    · next r hr =>
      obtain ⟨h1, h2, h3, h4⟩ := Update_index hr
      by_cases hrest : rest = []
      · subst hrest
        simp only [runTicks, Option.some.injEq] at h
        subst h
        refine ⟨?_, h4⟩
        simp only [List.length_singleton, Nat.cast_one]; exact h1
      · obtain ⟨e1, e2⟩ := ih h hrest
        refine ⟨?_, e2⟩
        rw [e1, h1]
        simp only [List.length_cons, Nat.cast_add, Nat.cast_one]
        omega


/-- The commands of one item, once its pointers are resolved. -/
theorem DrawRenderItems_item_some {s : TreeBillboardsApp W} {sz : CBByteSizes}
    {fr : FrameResource} {ri : Nat} {c : List Cmd} (h : DrawRenderItems.item s sz fr ri = some c) :
    ∃ item geo vb ib mat, s.mAllRitems[ri]? = some item ∧
      (item.Geo.bind fun g => mapFind g s.mGeometries) = some geo ∧
      geo.VertexBufferGPU = some vb ∧ geo.IndexBufferGPU = some ib ∧
      (item.Mat.bind fun m => mapFind m s.mMaterials) = some mat ∧
      c = [ Cmd.IASetVertexBuffers vb, Cmd.IASetIndexBuffer ib,
            Cmd.IASetPrimitiveTopology item.PrimitiveType,
            Cmd.SetGraphicsRootDescriptorTable 0
              (wrapUINT64 (s.mSrvDescriptorHeap + mat.DiffuseSrvHeapIndex * s.mCbvSrvDescriptorSize)),
            Cmd.SetGraphicsRootConstantBufferView 1 (wrapUINT64
              (fr.ObjectCB.Resource.GPUVirtualAddress + wrapUINT (item.ObjCBIndex * sz.objCBByteSize))),
            Cmd.SetGraphicsRootConstantBufferView 3 (wrapUINT64
              (fr.MaterialCB.Resource.GPUVirtualAddress + wrapUINT (mat.MatCBIndex * sz.matCBByteSize))),
            Cmd.DrawIndexedInstanced item.IndexCount 1 item.StartIndexLocation
              item.BaseVertexLocation 0 ] := by
  unfold DrawRenderItems.item at h
  split at h
  · cases h
  · next item hitem =>
    split at h
    · cases h
    · next geo hgeo =>
      split at h
      · next vb ib hvb hib =>
        split at h
        · cases h
        · next mat hmat =>
          exact ⟨item, geo, vb, ib, mat, hitem, hgeo, hvb, hib, hmat, (Option.some.inj h).symm⟩
      · cases h

theorem DrawRenderItems_item_ready {s : TreeBillboardsApp W} (sz : CBByteSizes)
    (fr : FrameResource) {ri : Nat} (h : itemResolves s ri = true) :
    ∃ c, DrawRenderItems.item s sz fr ri = some c := by
  unfold itemResolves at h
  unfold DrawRenderItems.item
  split at h
  · cases h
  · next item hitem =>
    simp only [hitem]
    simp only [Bool.and_eq_true] at h
    obtain ⟨h1, h2⟩ := h
    split at h1
    · cases h1
    · next geo hgeo =>
      simp only [Bool.and_eq_true, Option.isSome_iff_exists] at h1 h2
      obtain ⟨⟨vb, hvb⟩, ⟨ib, hib⟩⟩ := h1
      obtain ⟨mat, hmat⟩ := h2
      simp only [hvb, hib, hmat]
      exact ⟨_, rfl⟩

theorem DrawRenderItems_loop_draws {s : TreeBillboardsApp W} {sz : CBByteSizes}
    {fr : FrameResource} (ritems : List Nat) :
    ∀ {cmds : List Cmd}, DrawRenderItems.loop s sz fr ritems = some cmds →
      cmds.filter Cmd.isDraw = ritems.filterMap (drawOf s) ∧
      (ritems.filterMap (drawOf s)).length = ritems.length := by
  induction ritems with
  | nil => intro cmds h; simp [DrawRenderItems.loop] at h; subst h; simp
  | cons ri rest ih =>
    intro cmds h
    unfold DrawRenderItems.loop at h
    split at h
    · cases h
    · next c hc =>
      split at h
      · cases h
      · next more hmore =>
        obtain ⟨item, geo, vb, ib, mat, hitem, -, -, -, -, rfl⟩ := DrawRenderItems_item_some hc
        obtain ⟨e1, e2⟩ := ih hmore
        have hd : drawOf s ri = some (Cmd.DrawIndexedInstanced item.IndexCount 1
            item.StartIndexLocation item.BaseVertexLocation 0) := by
          simp [drawOf, hitem]
        cases h
        simp only [List.filterMap_cons, hd, List.length_cons, e2, and_true]
        simp [Cmd.isDraw, e1]

theorem DrawRenderItems_loop_ready {s : TreeBillboardsApp W} (sz : CBByteSizes)
    (fr : FrameResource) (ritems : List Nat) (h : ∀ ri ∈ ritems, itemResolves s ri = true) :
    ∃ cmds, DrawRenderItems.loop s sz fr ritems = some cmds := by
  induction ritems with
  | nil => exact ⟨[], rfl⟩
  | cons ri rest ih =>
    obtain ⟨c, hc⟩ := DrawRenderItems_item_ready sz fr (h ri (List.mem_cons_self _ _))
    obtain ⟨more, hmore⟩ := ih (fun r hr => h r (List.mem_cons_of_mem _ hr))
    exact ⟨c ++ more, by simp [DrawRenderItems.loop, hc, hmore]⟩

/-- What a successful `Draw` does, in one piece. -/
theorem Draw_some {s s' : TreeBillboardsApp W} {sz : CBByteSizes} {sub : Submission}
    (h : Draw s sz = some (s', sub)) :
    ∃ cur fr c1 c2 c3 c4, s.currFrameResource = some (cur, fr) ∧
      DrawRenderItems.loop s sz fr (s.layer RenderLayer.Opaque) = some c1 ∧
      DrawRenderItems.loop s sz fr (s.layer RenderLayer.AlphaTested) = some c2 ∧
      DrawRenderItems.loop s sz fr (s.layer RenderLayer.AlphaTestedTreeSprites) = some c3 ∧
      DrawRenderItems.loop s sz fr (s.layer RenderLayer.Transparent) = some c4 ∧
      sub.commands =
        [ Cmd.Reset fr.CmdListAlloc "opaque", Cmd.RSSetViewports, Cmd.RSSetScissorRects,
          Cmd.ResourceBarrier s.mCurrBackBuffer true,
          Cmd.ClearRenderTargetView s.mMainPassCB.FogColor, Cmd.ClearDepthStencilView,
          Cmd.OMSetRenderTargets, Cmd.SetDescriptorHeaps s.mSrvDescriptorHeap,
          Cmd.SetGraphicsRootSignature,
          Cmd.SetGraphicsRootConstantBufferView 2 fr.PassCB.Resource.GPUVirtualAddress ] ++ c1 ++
        [Cmd.SetPipelineState "alphaTested"] ++ c2 ++ [Cmd.SetPipelineState "treeSprites"] ++ c3 ++
        [Cmd.SetPipelineState "transparent"] ++ c4 ++ [Cmd.ResourceBarrier s.mCurrBackBuffer false] ∧
      sub.signal = wrapUINT64 (s.mCurrentFence + 1) ∧
      s' = { s with
        mCurrBackBuffer := (s.mCurrBackBuffer + 1).tmod SwapChainBufferCount
        mCurrentFence := wrapUINT64 (s.mCurrentFence + 1)
        mFrameResources := s.mFrameResources.set cur
          { fr with Fence := wrapUINT64 (s.mCurrentFence + 1) } } := by
  unfold Draw at h
  split at h
  · cases h
  split at h
  · cases h
  · next cur fr hc =>
    simp only [DrawRenderItems, hc] at h
    split at h
    · cases h
    · next c1 h1 =>
      split at h
      · cases h
      · next c2 h2 =>
        split at h
        · cases h
        · next c3 h3 =>
          split at h
          · cases h
          · next c4 h4 =>
            simp only [Option.some.injEq, Prod.mk.injEq] at h
            obtain ⟨rfl, rfl⟩ := h
            exact ⟨cur, fr, c1, c2, c3, c4, hc, h1, h2, h3, h4, rfl, rfl, rfl⟩

/-- `Draw` returns on every state that is ready for it. -/
theorem Draw_ready {s : TreeBillboardsApp W} (sz : CBByteSizes) (h : DrawReady s) :
    ∃ r, Draw s sz = some r := by
  obtain ⟨⟨-, hbb⟩, hc, hl⟩ := h
  have hmax : ¬ INT_MAX < s.mCurrBackBuffer + 1 := by unfold INT_MAX; omega
  obtain ⟨⟨cur, fr⟩, hcf⟩ := Option.isSome_iff_exists.mp hc
  obtain ⟨c1, h1⟩ := DrawRenderItems_loop_ready sz fr _ (hl RenderLayer.Opaque.toFin)
  obtain ⟨c2, h2⟩ := DrawRenderItems_loop_ready sz fr _ (hl RenderLayer.AlphaTested.toFin)
  obtain ⟨c3, h3⟩ := DrawRenderItems_loop_ready sz fr _ (hl RenderLayer.AlphaTestedTreeSprites.toFin)
  obtain ⟨c4, h4⟩ := DrawRenderItems_loop_ready sz fr _ (hl RenderLayer.Transparent.toFin)
  unfold Draw
  simp only [hmax, if_false, hcf, DrawRenderItems, TreeBillboardsApp.layer, h1, h2, h3, h4]
  exact ⟨_, rfl⟩


/-- `Update` changes neither a slot fence nor the fence counter. -/
theorem Update_fences {wm : WavesModel W} {s : TreeBillboardsApp W} {inp : TickInput}
    {r : TreeBillboardsApp W × Bool} (h : Update wm s inp = some r) :
    r.1.mCurrentFence = s.mCurrentFence ∧
    r.1.mFrameResources.length = s.mFrameResources.length ∧
    ∀ k : Nat, (r.1.mFrameResources[k]?).map (fun fr => fr.Fence) =
      (s.mFrameResources[k]?).map (fun fr => fr.Fence) := by
  obtain ⟨s', w⟩ := r
  obtain ⟨fr, waterMat, ocb, mcb, pcb, vb, p, ri, g, geo, hn, hfr, -, -, -, -, -, -,
    -, -, -, -, rfl⟩ := Update_some h
  have hlt : (Update.nextIndex s.mCurrFrameResourceIndex).toNat < s.mFrameResources.length := by
    rw [List.getElem?_eq_some] at hfr; exact hfr.1
  refine ⟨rfl, by simp, ?_⟩
  intro k
  dsimp only
  by_cases hk : k = (Update.nextIndex s.mCurrFrameResourceIndex).toNat
  · subst hk
    rw [List.getElem?_set_self hlt, hfr]
    rfl
  · rw [List.getElem?_set_ne (Ne.symm hk)]

/-- The effect of `Draw` on the fences, in `UINT64` arithmetic. -/
theorem Draw_effect {s : TreeBillboardsApp W} {sz : CBByteSizes}
    {r : TreeBillboardsApp W × Submission} (h : Draw s sz = some r) :
    r.1.mCurrentFence = (s.mCurrentFence + 1) % 2 ^ 64 ∧ r.2.signal = r.1.mCurrentFence ∧
    ∃ cur fr, s.mCurrFrameResource = some cur ∧ r.1.mCurrFrameResource = some cur ∧
      s.mFrameResources[cur]? = some fr ∧
      r.1.mFrameResources[cur]? = some { fr with Fence := r.1.mCurrentFence } ∧
      ∀ k : Nat, k ≠ cur → r.1.mFrameResources[k]? = s.mFrameResources[k]? := by
  obtain ⟨s', sub⟩ := r
  obtain ⟨cur, fr, c1, c2, c3, c4, hc, -, -, -, -, -, hsig, rfl⟩ := Draw_some h
  obtain ⟨hcur, hfr⟩ := currFrameResource_eq_some.mp hc
  have hlt : cur < s.mFrameResources.length := by
    rw [List.getElem?_eq_some] at hfr; exact hfr.1
  refine ⟨rfl, hsig, cur, fr, hcur, hcur, hfr, ?_, ?_⟩
  · dsimp only; rw [List.getElem?_set_self hlt]
  · intro k hk
    exact List.getElem?_set_ne (Ne.symm hk)

/-- The effect of `Draw` on the fences when the counter does not wrap. -/
theorem Draw_fences {s : TreeBillboardsApp W} {sz : CBByteSizes}
    {r : TreeBillboardsApp W × Submission} (h : Draw s sz = some r)
    (hno : s.mCurrentFence + 1 < 2 ^ 64) :
    r.1.mCurrentFence = s.mCurrentFence + 1 ∧ r.2.signal = s.mCurrentFence + 1 ∧
    ∃ cur fr, s.mCurrFrameResource = some cur ∧ r.1.mCurrFrameResource = some cur ∧
      s.mFrameResources[cur]? = some fr ∧
      r.1.mFrameResources[cur]? = some { fr with Fence := s.mCurrentFence + 1 } ∧
      ∀ k : Nat, k ≠ cur → r.1.mFrameResources[k]? = s.mFrameResources[k]? := by
  obtain ⟨s', sub⟩ := r
  obtain ⟨cur, fr, c1, c2, c3, c4, hc, -, -, -, -, -, hsig, rfl⟩ := Draw_some h
  obtain ⟨hcur, hfr⟩ := currFrameResource_eq_some.mp hc
  have hlt : cur < s.mFrameResources.length := by
    rw [List.getElem?_eq_some] at hfr; exact hfr.1
  have hw : wrapUINT64 (s.mCurrentFence + 1) = s.mCurrentFence + 1 := Nat.mod_eq_of_lt hno
  refine ⟨hw, hsig.trans hw, cur, fr, hcur, hcur, hfr, ?_, ?_⟩
  · dsimp only; rw [List.getElem?_set_self hlt, hw]
  · intro k hk
    exact List.getElem?_set_ne (Ne.symm hk)

theorem FenceInv_Update {wm : WavesModel W} {s : TreeBillboardsApp W} {inp : TickInput}
    {r : TreeBillboardsApp W × Bool} (h : Update wm s inp = some r) (hinv : FenceInv s) :
    FenceInv r.1 := by
  obtain ⟨hcf, -, hf⟩ := Update_fences h
  have key : ∀ (k : Nat) (fr' : FrameResource), r.1.mFrameResources[k]? = some fr' →
      ∃ fr, s.mFrameResources[k]? = some fr ∧ fr.Fence = fr'.Fence := by
    intro k fr' hk
    have := hf k
    rw [hk] at this
    cases hs : s.mFrameResources[k]? with
    | none => rw [hs] at this; cases this
    | some fr => rw [hs] at this; exact ⟨fr, rfl, (Option.some.inj this).symm⟩
  constructor
  · intro k fr' hk
    obtain ⟨fr, h1, h2⟩ := key k fr' hk
    rw [hcf, ← h2]; exact hinv.1 k fr h1
  · intro j k a b hjk ha hb hne
    obtain ⟨a0, h1, h2⟩ := key j a ha
    obtain ⟨b0, h3, h4⟩ := key k b hb
    rw [← h2, ← h4]
    exact hinv.2 j k a0 b0 hjk h1 h3 (by rw [h2]; exact hne)

theorem FenceInv_Draw {s : TreeBillboardsApp W} {sz : CBByteSizes}
    {r : TreeBillboardsApp W × Submission} (h : Draw s sz = some r)
    (hno : s.mCurrentFence + 1 < 2 ^ 64) (hinv : FenceInv s) : FenceInv r.1 := by
  obtain ⟨hcf, -, cur, fr, -, -, hfr, hfr', hother⟩ := Draw_fences h hno
  constructor
  · intro k fr' hk
    by_cases hkc : k = cur
    · subst hkc
      rw [hfr'] at hk; cases hk
      dsimp only; omega
    · rw [hother k hkc] at hk
      have := hinv.1 k fr' hk
      omega
  · intro j k a b hjk ha hb hne
    by_cases hj : j = cur
    · subst hj
      rw [hfr'] at ha; cases ha
      rw [hother k (Ne.symm hjk)] at hb
      have := hinv.1 k b hb
      dsimp only; omega
    · rw [hother j hj] at ha
      by_cases hk : k = cur
      · subst hk
        rw [hfr'] at hb; cases hb
        have := hinv.1 j a ha
        dsimp only; omega
      · rw [hother k hk] at hb
        exact hinv.2 j k a b hjk ha hb hne

theorem FenceInv_init {s : TreeBillboardsApp W}
    (h0 : ∀ fr ∈ s.mFrameResources, fr.Fence = 0) : FenceInv s := by
  constructor
  · intro k fr hk
    rw [h0 fr (List.getElem?_mem hk)]; exact Nat.zero_le _
  · intro j k a b _ ha _ hne
    exact absurd (h0 a (List.getElem?_mem ha)) hne

theorem runFrames_fences {wm : WavesModel W} {sz : CBByteSizes} (inps : List TickInput) :
    ∀ {s s' : TreeBillboardsApp W} {recs : List FrameRecord},
      runFrames wm sz s inps = some (s', recs) → s.mCurrentFence + inps.length < 2 ^ 64 →
      FenceInv s → FenceInv s' ∧ s'.mCurrentFence = s.mCurrentFence + inps.length := by
  induction inps with
  | nil =>
    intro s s' recs h _ hinv
    simp only [runFrames, Option.some.injEq, Prod.mk.injEq] at h
    obtain ⟨rfl, -⟩ := h
    exact ⟨hinv, by simp⟩
  | cons inp rest ih =>
    intro s s' recs h hno hinv
    simp only [runFrames] at h
    split at h
    · cases h
    · next s1 waited hu =>
      split at h
      · next slot s2 sub hslot hd =>
        split at h
        · cases h
        · next s3 recs' hr =>
          simp only [Option.some.injEq, Prod.mk.injEq] at h
          obtain ⟨rfl, -⟩ := h
          have e1 := (Update_fences hu).1
          dsimp only at e1
          simp only [List.length_cons] at hno
          have hno1 : s1.mCurrentFence + 1 < 2 ^ 64 := by rw [e1]; omega
          have e2 := (Draw_fences hd hno1).1
          dsimp only at e2
          have i1 := FenceInv_Update hu hinv
          have i2 := FenceInv_Draw hd hno1 i1
          obtain ⟨i3, e3⟩ := ih hr (by rw [e2, e1]; omega) i2
          refine ⟨i3, ?_⟩
          rw [e3, e2, e1]; simp only [List.length_cons]; omega
      · cases h


theorem slotFence_Update {wm : WavesModel W} {s : TreeBillboardsApp W} {inp : TickInput}
    {r : TreeBillboardsApp W × Bool} (h : Update wm s inp = some r) (k : Nat) :
    slotFence r.1 k = slotFence s k := by
  unfold slotFence
  rw [(Update_fences h).2.2 k]

theorem slotFence_Draw {s : TreeBillboardsApp W} {sz : CBByteSizes}
    {r : TreeBillboardsApp W × Submission} (h : Draw s sz = some r) {slot : Nat}
    (hslot : s.mCurrFrameResource = some slot) (k : Nat) :
    slotFence r.1 k = if slot = k then r.2.signal else slotFence s k := by
  obtain ⟨s', sub⟩ := r
  obtain ⟨cur, fr, c1, c2, c3, c4, hc, -, -, -, -, -, hsig, rfl⟩ := Draw_some h
  obtain ⟨hcur, hfr⟩ := currFrameResource_eq_some.mp hc
  rw [hslot] at hcur; cases hcur
  have hlt : slot < s.mFrameResources.length := by
    rw [List.getElem?_eq_some] at hfr; exact hfr.1
  unfold slotFence
  dsimp only
  by_cases hk : slot = k
  · subst hk
    simp [List.getElem?_set_self hlt, hsig]
  · simp [List.getElem?_set_ne hk, hk]

/-- The wait of `Update` protects the slot it selects: the fence stored on the slot has been
reached when the tick starts to write. -/
theorem acquire_safe {wm : WavesModel W} {s : TreeBillboardsApp W} {inp : TickInput}
    {r : TreeBillboardsApp W × Bool} {slot : Nat} (h : Update wm s inp = some r)
    (hslot : r.1.mCurrFrameResource = some slot)
    (hmono : inp.completed ≤ inp.completedAtWrite)
    (hwait : ∀ fr, s.mFrameResources[(Update.nextIndex s.mCurrFrameResourceIndex).toNat]? = some fr →
      Update.mustWait fr.Fence inp.completed = true → fr.Fence ≤ inp.completedAtWrite) :
    slotFence s slot ≤ inp.completedAtWrite := by
  obtain ⟨s', w⟩ := r
  obtain ⟨fr, waterMat, ocb, mcb, pcb, vb, p, ri, g, geo, hn, hfr, -, -, -, -, -, -,
    -, -, -, -, rfl⟩ := Update_some h
  dsimp only at hslot
  cases hslot
  have hsf : slotFence s (Update.nextIndex s.mCurrFrameResourceIndex).toNat = fr.Fence := by
    unfold slotFence; rw [hfr]; rfl
  rw [hsf]
  cases hm : Update.mustWait fr.Fence inp.completed with
  | true => exact hwait fr hfr hm
  | false =>
    have : ¬ (fr.Fence ≠ 0 ∧ inp.completed < fr.Fence) := by
      rw [← mustWait_iff, hm]; simp
    by_cases h0 : fr.Fence = 0
    · omega
    · have : ¬ inp.completed < fr.Fence := fun hlt => this ⟨h0, hlt⟩
      omega

theorem runFrames_safe {wm : WavesModel W} {sz : CBByteSizes} (inps : List TickInput) :
    ∀ {s s' : TreeBillboardsApp W} {recs : List FrameRecord},
      runFrames wm sz s inps = some (s', recs) → GpuBehaves wm sz s inps →
      recs.length = inps.length ∧
      ∀ (k : Nat) (rec : FrameRecord), recs[k]? = some rec →
        fenceHistory rec.slot (slotFence s rec.slot) (recs.take k) ≤ rec.completedAtWrite := by
  induction inps with
  | nil =>
    intro s s' recs h _
    simp only [runFrames, Option.some.injEq, Prod.mk.injEq] at h
    obtain ⟨-, rfl⟩ := h
    exact ⟨rfl, by intro k rec hk; simp at hk⟩
  | cons inp rest ih =>
    intro s s' recs h hgpu
    obtain ⟨hmono, hwait, hnext⟩ := hgpu
    simp only [runFrames] at h
    split at h
    · cases h
    · next s1 waited hu =>
      split at h
      · next slot s2 sub hslot hd =>
        split at h
        · cases h
        · next s3 recs' hr =>
          simp only [Option.some.injEq, Prod.mk.injEq] at h
          obtain ⟨-, rfl⟩ := h
          obtain ⟨hl, ihk⟩ := ih hr (hnext (s1, waited) (s2, sub) hu hd)
          refine ⟨by simp [hl], ?_⟩
          intro k rec hk
          cases k with
          | zero =>
            simp only [List.getElem?_cons_zero, Option.some.injEq] at hk
            subst hk
            simp only [List.take_zero, fenceHistory]
            exact acquire_safe hu hslot hmono hwait
          | succ k =>
            simp only [List.getElem?_cons_succ] at hk
            simp only [List.take_succ_cons, fenceHistory]
            have e := slotFence_Draw hd hslot rec.slot
            rw [slotFence_Update hu] at e
            dsimp only at e
            rw [← e]
            exact ihk k rec hk
      · cases h


/-- A GPU that has completed every fence of the run whenever a tick starts to write behaves. -/
theorem GpuBehaves_of_fast {wm : WavesModel W} {sz : CBByteSizes} (inps : List TickInput) :
    ∀ (s : TreeBillboardsApp W), FenceInv s → s.mCurrentFence + inps.length < 2 ^ 64 →
      (∀ inp ∈ inps, inp.completed ≤ inp.completedAtWrite ∧
        s.mCurrentFence + inps.length ≤ inp.completedAtWrite) →
      GpuBehaves wm sz s inps := by
  induction inps with
  | nil => intro s _ _ _; trivial
  | cons inp rest ih =>
    intro s hinv hno hfast
    obtain ⟨hm, hb⟩ := hfast inp (List.mem_cons_self _ _)
    simp only [List.length_cons] at hno hb
    refine ⟨hm, ?_, ?_⟩
    · intro fr hfr _
      have := hinv.1 _ fr hfr
      omega
    · intro r1 r2 hu hd
      have e1 := (Update_fences hu).1
      have hno1 : r1.1.mCurrentFence + 1 < 2 ^ 64 := by rw [e1]; omega
      have e2 := (Draw_fences hd hno1).1
      apply ih r2.1 (FenceInv_Draw hd hno1 (FenceInv_Update hu hinv)) (by rw [e2, e1]; omega)
      intro i hi
      obtain ⟨a, b⟩ := hfast i (List.mem_cons_of_mem _ hi)
      simp only [List.length_cons] at b
      exact ⟨a, by rw [e2, e1]; omega⟩


/-- The offsets `AnimateMaterials` stores. -/
theorem scroll_offsets (gt : GameTimer) (m : Material) :
    (AnimateMaterials.scroll gt m).MatTransform 3 0 =
      (if m.MatTransform 3 0 + 1 / 10 * gt.DeltaTime ≥ 1
        then m.MatTransform 3 0 + 1 / 10 * gt.DeltaTime - 1
        else m.MatTransform 3 0 + 1 / 10 * gt.DeltaTime) ∧
    (AnimateMaterials.scroll gt m).MatTransform 3 1 =
      (if m.MatTransform 3 1 + 2 / 100 * gt.DeltaTime ≥ 1
        then m.MatTransform 3 1 + 2 / 100 * gt.DeltaTime - 1
        else m.MatTransform 3 1 + 2 / 100 * gt.DeltaTime) := by
  constructor <;> simp [AnimateMaterials.scroll, setEntry]

/-- The unit interval `[0, 1)` is kept by one scroll step when the time step is at most `10`. -/
theorem scroll_range (gt : GameTimer) (m : Material) (h0 : 0 ≤ gt.DeltaTime)
    (h10 : gt.DeltaTime ≤ 10)
    (hu : 0 ≤ m.MatTransform 3 0 ∧ m.MatTransform 3 0 < 1)
    (hv : 0 ≤ m.MatTransform 3 1 ∧ m.MatTransform 3 1 < 1) :
    (0 ≤ (AnimateMaterials.scroll gt m).MatTransform 3 0 ∧
      (AnimateMaterials.scroll gt m).MatTransform 3 0 < 1) ∧
    (0 ≤ (AnimateMaterials.scroll gt m).MatTransform 3 1 ∧
      (AnimateMaterials.scroll gt m).MatTransform 3 1 < 1) := by
  obtain ⟨e1, e2⟩ := scroll_offsets gt m
  rw [e1, e2]
  constructor
  · split
    · constructor <;> linarith
    · constructor <;> linarith
  · split
    · constructor <;> linarith
    · constructor <;> linarith

theorem tickMat_MatTransform (m : Material) : (tickMat m).MatTransform = m.MatTransform := by
  unfold tickMat; split <;> rfl

theorem Update_water {wm : WavesModel W} {s : TreeBillboardsApp W} {inp : TickInput}
    {r : TreeBillboardsApp W × Bool} (h : Update wm s inp = some r) :
    ∃ m0, mapFind "water" s.mMaterials = some m0 ∧
      mapFind "water" r.1.mMaterials = some (tickMat (AnimateMaterials.scroll inp.gt m0)) := by
  obtain ⟨s', w⟩ := r
  obtain ⟨fr, waterMat, ocb, mcb, pcb, vb, p, ri, g, geo, hn, hfr, -, hwm, -, -, -, -,
    -, -, -, -, rfl⟩ := Update_some h
  refine ⟨waterMat, hwm, ?_⟩
  dsimp only
  rw [mapFind_map, mapFind_mapStore_self _ _ _ (by rw [hwm]; rfl)]
  rfl

theorem runTicks_water_range {wm : WavesModel W} (inps : List TickInput) :
    ∀ (s : TreeBillboardsApp W) (m0 : Material), UpdateReady wm s →
      (∀ inp ∈ inps, 0 ≤ inp.gt.DeltaTime ∧ inp.gt.DeltaTime ≤ 10) →
      mapFind "water" s.mMaterials = some m0 →
      (0 ≤ m0.MatTransform 3 0 ∧ m0.MatTransform 3 0 < 1) →
      (0 ≤ m0.MatTransform 3 1 ∧ m0.MatTransform 3 1 < 1) →
      ∃ s' m, runTicks wm s inps = some s' ∧ mapFind "water" s'.mMaterials = some m ∧
        (0 ≤ m.MatTransform 3 0 ∧ m.MatTransform 3 0 < 1) ∧
        (0 ≤ m.MatTransform 3 1 ∧ m.MatTransform 3 1 < 1) := by
  induction inps with
  | nil => intro s m0 _ _ hw hu hv; exact ⟨s, m0, rfl, hw, hu, hv⟩
  | cons inp rest ih =>
    intro s m0 hs hdt hw hu hv
    obtain ⟨r, hr⟩ := Update_ready hs inp
    obtain ⟨m0', hw0, hw1⟩ := Update_water hr
    rw [hw] at hw0; cases hw0
    obtain ⟨hd0, hd10⟩ := hdt inp (List.mem_cons_self _ _)
    obtain ⟨hu1, hv1⟩ := scroll_range inp.gt m0 hd0 hd10 hu hv
    obtain ⟨s', m, hrun, hm, hu', hv'⟩ := ih r.1 _ (Update_preserves_ready hs hr)
      (fun i hi => hdt i (List.mem_cons_of_mem _ hi)) hw1
      (by rw [tickMat_MatTransform]; exact hu1) (by rw [tickMat_MatTransform]; exact hv1)
    exact ⟨s', m, by simp [runTicks, hr, hrun], hm, hu', hv'⟩


theorem DrawRenderItems_loop_at {s : TreeBillboardsApp W} {sz : CBByteSizes}
    {fr : FrameResource} (ritems : List Nat) :
    ∀ {cmds : List Cmd}, DrawRenderItems.loop s sz fr ritems = some cmds →
      cmds.length = 7 * ritems.length ∧
      ∀ (i ri : Nat), ritems[i]? = some ri →
        ∃ block : List Cmd, DrawRenderItems.item s sz fr ri = some block ∧
          ∀ j : Nat, j < 7 → cmds[7 * i + j]? = block[j]? := by
  induction ritems with
  | nil =>
    intro cmds h
    simp [DrawRenderItems.loop] at h; subst h
    exact ⟨rfl, by intro i ri hi; simp at hi⟩
  | cons r rest ih =>
    intro cmds h
    unfold DrawRenderItems.loop at h
    split at h
    · cases h
    · next c hc =>
      split at h
      · cases h
      · next more hmore =>
        cases h
        obtain ⟨hl, hat⟩ := ih hmore
        have hc7 : c.length = 7 := by
          obtain ⟨item, geo, vb, ib, mat, -, -, -, -, -, rfl⟩ := DrawRenderItems_item_some hc
          rfl
        refine ⟨by simp [hl, hc7]; omega, ?_⟩
        intro i ri hi
        cases i with
        | zero =>
          simp only [List.getElem?_cons_zero, Option.some.injEq] at hi
          subst hi
          refine ⟨c, hc, ?_⟩
          intro j hj
          rw [List.getElem?_append_left (by omega)]
          congr 1
          omega
        | succ i =>
          simp only [List.getElem?_cons_succ] at hi
          obtain ⟨c', hc', hj'⟩ := hat i ri hi
          refine ⟨c', hc', ?_⟩
          intro j hj
          rw [List.getElem?_append_right (by omega), ← hj' j hj]
          congr 1
          omega



/-! ## The steps of a tick -/

theorem simulate_eq_disturbArgs (wm : WavesModel W) (s : TreeBillboardsApp W) (inp : TickInput) :
    UpdateWaves.simulate wm s inp =
      match UpdateWaves.disturbArgs wm s inp with
      | some (i, j, r) =>
        (s.t_base + 1 / 4, wm.Update (wm.Disturb s.mWaves i j r) inp.gt.DeltaTime)
      | none => (s.t_base, wm.Update s.mWaves inp.gt.DeltaTime) := by
  unfold UpdateWaves.simulate UpdateWaves.disturbArgs
  split <;> rfl

/-- The chain of partial results of a tick, in the order of the calls of `Update`. -/
theorem Update_chain {wm : WavesModel W} {s : TreeBillboardsApp W} {inp : TickInput}
    {r : TreeBillboardsApp W × Bool} (h : Update wm s inp = some r) :
    ∃ (fr : FrameResource) (s1 s2 s3 s4 : TreeBillboardsApp W),
      0 ≤ Update.nextIndex s.mCurrFrameResourceIndex ∧
      s.mFrameResources[(Update.nextIndex s.mCurrFrameResourceIndex).toNat]? = some fr ∧
      r.2 = Update.mustWait fr.Fence inp.completed ∧
      AnimateMaterials { OnKeyboardInput s inp with
          mCurrFrameResourceIndex := Update.nextIndex s.mCurrFrameResourceIndex
          mCurrFrameResource := some (Update.nextIndex s.mCurrFrameResourceIndex).toNat }
        inp.gt = some s1 ∧
      UpdateObjectCBs s1 = some s2 ∧
      UpdateMaterialCBs s2 = some s3 ∧
      UpdateMainPassCB s3 inp.gt = some s4 ∧
      UpdateWaves wm s4 inp = some r.1 := by
  unfold Update at h
  simp only [OnKeyboardInput] at h
  split at h
  · cases h
  split at h
  · cases h
  · next hidx =>
    split at h
    · cases h
    · next fr hfr =>
      split at h
      · cases h
      · next s1 h1 =>
        split at h
        · cases h
        · next s2 h2 =>
          split at h
          · cases h
          · next s3 h3 =>
            split at h
            · cases h
            · next s4 h4 =>
              split at h
              · cases h
              · next s5 h5 =>
                simp only [Option.some.injEq] at h
                subst h
                exact ⟨fr, s1, s2, s3, s4, not_lt.mp hidx, hfr, rfl, h1, h2, h3, h4, h5⟩


/-! ## Disturbances -/

theorem Update_waves {wm : WavesModel W} {s : TreeBillboardsApp W} {inp : TickInput}
    {r : TreeBillboardsApp W × Bool} (h : Update wm s inp = some r) :
    r.1.t_base = (UpdateWaves.simulate wm s inp).1 ∧
    r.1.mWaves = (UpdateWaves.simulate wm s inp).2 := by
  obtain ⟨s', w⟩ := r
  obtain ⟨fr, waterMat, ocb, mcb, pcb, vb, p, ri, g, geo, -, -, -, -, -, -, -, -,
    -, -, -, -, rfl⟩ := Update_some h
  exact ⟨rfl, rfl⟩

theorem disturbArgs_isSome (wm : WavesModel W) (s : TreeBillboardsApp W) (inp : TickInput) :
    (UpdateWaves.disturbArgs wm s inp).isSome = true ↔ inp.gt.TotalTime - s.t_base ≥ 1 / 4 := by
  unfold UpdateWaves.disturbArgs
  split <;> simp_all

theorem Update_t_base {wm : WavesModel W} {s : TreeBillboardsApp W} {inp : TickInput}
    {r : TreeBillboardsApp W × Bool} (h : Update wm s inp = some r) :
    r.1.t_base = s.t_base +
      (1 / 4) * ((if (UpdateWaves.disturbArgs wm s inp).isSome then 1 else 0 : Nat) : ℚ) := by
  rw [(Update_waves h).1, simulate_eq_disturbArgs]
  cases hd : UpdateWaves.disturbArgs wm s inp with
  | none => simp
  | some a => obtain ⟨i, j, r⟩ := a; simp

theorem runDisturbs_spec (wm : WavesModel W) (inps : List TickInput) :
    ∀ s : TreeBillboardsApp W, UpdateReady wm s →
      ∃ (s' : TreeBillboardsApp W) (n : Nat), runDisturbs wm s inps = some (s', n) ∧
        runTicks wm s inps = some s' ∧ n ≤ inps.length ∧
        s'.t_base = s.t_base + (1 / 4) * (n : ℚ) := by
  induction inps with
  | nil => intro s _; exact ⟨s, 0, rfl, rfl, le_refl _, by simp⟩
  | cons inp rest ih =>
    intro s hs
    obtain ⟨⟨s1, w⟩, h1⟩ := Update_ready hs inp
    obtain ⟨s', n, hrun, hticks, hn, ht⟩ := ih s1 (Update_preserves_ready hs h1)
    refine ⟨s', (if (UpdateWaves.disturbArgs wm s inp).isSome then 1 else 0) + n, ?_, ?_, ?_, ?_⟩
    · simp only [runDisturbs, h1, hrun]
    · simp only [runTicks, h1, hticks]
    · simp only [List.length_cons]; split <;> omega
    · rw [ht, Update_t_base h1]; push_cast; ring

theorem runDisturbs_window (wm : WavesModel W) (inps : List TickInput) :
    ∀ (s s' : TreeBillboardsApp W) (n : Nat) (T0 : ℚ), runDisturbs wm s inps = some (s', n) →
      s.t_base ≤ T0 → T0 < s.t_base + 1 / 4 →
      List.Chain (fun a b : ℚ => a ≤ b ∧ b ≤ a + 1 / 4) T0 (inps.map fun x => x.gt.TotalTime) →
      s'.t_base ≤ (inps.map fun x => x.gt.TotalTime).getLastD T0 ∧
      (inps.map fun x => x.gt.TotalTime).getLastD T0 < s'.t_base + 1 / 4 := by
  induction inps with
  | nil =>
    intro s s' n T0 h hlo hhi _
    simp only [runDisturbs, Option.some.injEq, Prod.mk.injEq] at h
    obtain ⟨rfl, -⟩ := h
    exact ⟨hlo, hhi⟩
  | cons inp rest ih =>
    intro s s' n T0 h hlo hhi hch
    simp only [runDisturbs] at h
    split at h
    · cases h
    · next r h1 =>
      split at h
      · cases h
      · next s2 n2 hrun =>
        simp only [Option.some.injEq, Prod.mk.injEq] at h
        obtain ⟨rfl, -⟩ := h
        simp only [List.map_cons, List.chain_cons] at hch
        obtain ⟨⟨hge, hle⟩, hch'⟩ := hch
        have ht := Update_t_base h1
        have hiff := disturbArgs_isSome wm s inp
        have hwin : r.1.t_base ≤ inp.gt.TotalTime ∧ inp.gt.TotalTime < r.1.t_base + 1 / 4 := by
          by_cases hd : (UpdateWaves.disturbArgs wm s inp).isSome = true
          · have := hiff.mp hd
            simp only [hd, if_true] at ht
            rw [ht]; push_cast
            constructor <;> linarith
          · have hlt : ¬ inp.gt.TotalTime - s.t_base ≥ 1 / 4 := fun hh => hd (hiff.mpr hh)
            simp only [hd] at ht
            rw [ht]; push_cast
            constructor <;> linarith
        have := ih r.1 s2 n2 inp.gt.TotalTime hrun hwin.1 hwin.2 hch'
        rw [List.map_cons, List.getLastD_cons]
        exact this

/-! ## Geometry construction -/

theorem rangesTile_le : ∀ (rs : List SubmeshGeometry) (a b : Nat), rangesTile a rs b → a ≤ b := by
  intro rs
  induction rs with
  | nil => intro a b h; exact le_of_eq h
  | cons r rs ih =>
    intro a b h
    have := ih _ _ h.2
    omega

/-- Ranges that tile `[a, b)` lie inside it, are pairwise disjoint in list order, and every
position of `[a, b)` is in one of them. -/
theorem rangesTile_spec : ∀ (rs : List SubmeshGeometry) (a b : Nat), rangesTile a rs b →
    (∀ r ∈ rs, a ≤ r.StartIndexLocation ∧ r.StartIndexLocation + r.IndexCount ≤ b) ∧
    rs.Pairwise (fun r r' => r.StartIndexLocation + r.IndexCount ≤ r'.StartIndexLocation) ∧
    (∀ p, a ≤ p → p < b →
      ∃ r ∈ rs, r.StartIndexLocation ≤ p ∧ p < r.StartIndexLocation + r.IndexCount) := by
  intro rs
  induction rs with
  | nil =>
    intro a b h
    refine ⟨by simp, List.Pairwise.nil, ?_⟩
    intro p h1 h2
    have : a = b := h
    omega
  | cons r rs ih =>
    intro a b h
    obtain ⟨hr, hrest⟩ := h
    obtain ⟨h1, h2, h3⟩ := ih _ _ hrest
    have hle := rangesTile_le _ _ _ hrest
    refine ⟨?_, ?_, ?_⟩
    · intro r' hr'
      rcases List.mem_cons.mp hr' with rfl | hmem
      · omega
      · have := h1 r' hmem; omega
    · refine List.Pairwise.cons ?_ h2
      intro r' hr'
      have := h1 r' hr'; omega
    · intro p hp1 hp2
      by_cases hp : p < a + r.IndexCount
      · exact ⟨r, List.mem_cons_self _ _, by omega, by omega⟩
      · obtain ⟨r', hr', hh⟩ := h3 p (by omega) hp2
        exact ⟨r', List.mem_cons_of_mem _ hr', hh⟩

theorem set_length_append {α : Type} (pre : List α) (a x : α) (rest : List α) :
    (pre ++ a :: rest).set pre.length x = pre ++ x :: rest := by
  induction pre with
  | nil => rfl
  | cons p pre ih => simp [ih]

/-- A copy loop fills the next `mesh.Vertices.length` places of the vertex array. -/
theorem copy_spec (src : List GeometryGenerator.Vertex) :
    ∀ (pre : List Vertex) (n k : Nat) (d : Vertex), k = pre.length → src.length ≤ n →
      k + src.length < 2 ^ 32 →
      BuildBoxGeometry.copy { Vertices := src } (pre ++ List.replicate n d, k) =
        (pre ++ src.map BuildBoxGeometry.vertex ++ List.replicate (n - src.length) d,
          k + src.length) := by
  induction src with
  | nil => intro pre n k d _ _ _; simp [BuildBoxGeometry.copy]
  | cons v src ih =>
    intro pre n k d hk hn h32
    obtain ⟨n', rfl⟩ : ∃ n', n = n' + 1 := ⟨n - 1, by simp at hn; omega⟩
    simp only [List.length_cons] at hn h32
    have hstep : BuildBoxGeometry.copy { Vertices := v :: src } (pre ++ List.replicate (n' + 1) d, k)
        = BuildBoxGeometry.copy { Vertices := src }
            ((pre ++ [BuildBoxGeometry.vertex v]) ++ List.replicate n' d, k + 1) := by
      simp only [BuildBoxGeometry.copy, List.foldl_cons, List.replicate_succ]
      rw [hk, set_length_append]
      have : wrapUINT (pre.length + 1) = pre.length + 1 := by
        unfold wrapUINT; apply Nat.mod_eq_of_lt; omega
      rw [this]
      simp
    rw [hstep, ih (pre ++ [BuildBoxGeometry.vertex v]) n' (k + 1) d (by simp [hk]) (by omega)
      (by omega)]
    simp only [List.map_cons, List.length_cons, List.append_assoc, List.singleton_append,
      Prod.mk.injEq]
    constructor
    · congr 3; omega
    · omega

theorem flatten_getElem?_offset {α : Type} : ∀ (L : List (List α)) (k t : Nat) (l : List α),
    L[k]? = some l → t < l.length →
    L.flatten[((L.take k).map List.length).sum + t]? = l[t]? := by
  intro L
  induction L with
  | nil => intro k t l h; simp at h
  | cons l0 L ih =>
    intro k t l h ht
    cases k with
    | zero =>
      simp only [List.getElem?_cons_zero, Option.some.injEq] at h
      subst h
      simp [List.getElem?_append_left ht]
    | succ k =>
      simp only [List.getElem?_cons_succ] at h
      have := ih k t l h ht
      simp only [List.take_succ_cons, List.map_cons, List.sum_cons, List.flatten_cons]
      rw [List.getElem?_append_right (by omega)]
      rw [← this]
      congr 1; omega

theorem copy_mesh_spec (mesh : GeometryGenerator.MeshData) (pre : List Vertex) (n k : Nat)
    (d : Vertex) (hk : k = pre.length) (hn : mesh.Vertices.length ≤ n)
    (h32 : k + mesh.Vertices.length < 2 ^ 32) :
    BuildBoxGeometry.copy mesh (pre ++ List.replicate n d, k) =
      (pre ++ mesh.Vertices.map BuildBoxGeometry.vertex ++
        List.replicate (n - mesh.Vertices.length) d, k + mesh.Vertices.length) :=
  copy_spec mesh.Vertices pre n k d hk hn h32

/-- The copy loops in sequence lay the meshes out one after the other. -/
theorem copy_fold_spec (ms : List GeometryGenerator.MeshData) :
    ∀ (pre : List Vertex) (n k : Nat) (d : Vertex), k = pre.length →
      (ms.map fun x => x.Vertices.length).sum ≤ n →
      k + (ms.map fun x => x.Vertices.length).sum < 2 ^ 32 →
      ms.foldl (fun acc mesh => BuildBoxGeometry.copy mesh acc) (pre ++ List.replicate n d, k) =
        (pre ++ (ms.map fun x => x.Vertices.map BuildBoxGeometry.vertex).flatten ++
          List.replicate (n - (ms.map fun x => x.Vertices.length).sum) d,
          k + (ms.map fun x => x.Vertices.length).sum) := by
  induction ms with
  | nil => intro pre n k d _ _ _; simp
  | cons mesh ms ih =>
    intro pre n k d hk hn h32
    simp only [List.map_cons, List.sum_cons] at hn h32
    simp only [List.foldl_cons]
    rw [copy_mesh_spec mesh pre n k d hk (by omega) (by omega)]
    rw [ih (pre ++ mesh.Vertices.map BuildBoxGeometry.vertex) (n - mesh.Vertices.length)
      (k + mesh.Vertices.length) d (by simp [hk]) (by omega) (by omega)]
    simp only [List.map_cons, List.sum_cons, List.flatten_cons, List.append_assoc,
      Prod.mk.injEq]
    refine ⟨?_, by omega⟩
    rw [Nat.sub_sub]

theorem BuildBoxGeometry_indices (m : BoxMeshes) (vb ib : ID3D12Resource) :
    (BuildBoxGeometry m vb ib).indices = (m.named.map fun e => e.2.GetIndices16).flatten := by
  simp [BuildBoxGeometry, BoxMeshes.named]

theorem BuildBoxGeometry_vertices (m : BoxMeshes) (vb ib : ID3D12Resource)
    (hv : (m.named.map fun e => e.2.Vertices.length).sum < 2 ^ 32) :
    (BuildBoxGeometry m vb ib).vertices =
      (m.named.map fun e => e.2.Vertices.map BuildBoxGeometry.vertex).flatten := by
  have hfold : (BuildBoxGeometry m vb ib).vertices =
      ((m.named.map Prod.snd).foldl (fun acc mesh => BuildBoxGeometry.copy mesh acc)
        ([] ++ List.replicate (wrapUINT64 ((m.named.map fun e => e.2.Vertices.length).sum))
          ({} : Vertex), 0)).1 := by
    simp only [BuildBoxGeometry, BoxMeshes.named, List.map_cons, List.map_nil, List.foldl_cons,
      List.foldl_nil, List.sum_cons, List.sum_nil, List.nil_append, Nat.add_zero, Nat.add_assoc]
  have hsum : ((m.named.map Prod.snd).map fun x => x.Vertices.length).sum =
      (m.named.map fun e => e.2.Vertices.length).sum := by
    rw [List.map_map]; rfl
  have hT : wrapUINT64 ((m.named.map fun e => e.2.Vertices.length).sum) =
      (m.named.map fun e => e.2.Vertices.length).sum := by
    unfold wrapUINT64; apply Nat.mod_eq_of_lt; omega
  rw [hfold, hT, copy_fold_spec _ [] _ 0 _ rfl (by rw [hsum]) (by rw [hsum]; omega)]
  simp only [hsum]
  simp only [List.nil_append, Nat.sub_self, List.replicate_zero, List.append_nil,
    List.map_map, Function.comp_def]

theorem take_sum_add_le : ∀ (L : List Nat) (k x : Nat), L[k]? = some x →
    (L.take k).sum + x ≤ L.sum := by
  intro L
  induction L with
  | nil => intro k x h; simp at h
  | cons a L ih =>
    intro k x h
    cases k with
    | zero => simp at h; subst h; simp
    | succ k =>
      simp only [List.getElem?_cons_succ] at h
      have := ih k x h
      simp only [List.take_succ_cons, List.sum_cons]
      omega

theorem wrapUINT_of_lt {a : Nat} (h : a < 2 ^ 32) : wrapUINT a = a :=
  Nat.mod_eq_of_lt h

theorem wrapUINT_add_wrap {a b : Nat} (h : a + b < 2 ^ 32) : wrapUINT (a + wrapUINT b) = a + b := by
  rw [wrapUINT_of_lt (show b < 2 ^ 32 by omega), wrapUINT_of_lt h]

theorem toINT_of_lt {n : Nat} (h : n < 2 ^ 31) : toINT n = (n : Int) := by
  unfold toINT; rw [if_pos h]

/-- The sub-mesh table of `BuildBoxGeometry` when no offset wraps: each range starts where the
ranges before it end. -/
theorem BuildBoxGeometry_table (m : BoxMeshes) (vb ib : ID3D12Resource)
    (hi : (m.named.map fun e => e.2.Indices32.length).sum < 2 ^ 32)
    (hv : (m.named.map fun e => e.2.Vertices.length).sum < 2 ^ 31) :
    (BuildBoxGeometry m vb ib).geo.DrawArgs =
      [
        ("box", ⟨m.box.Indices32.length, m.indexOffset 0, (m.vertexOffset 0 : Nat)⟩),
        ("cylinder", ⟨m.cylinder.Indices32.length, m.indexOffset 1, (m.vertexOffset 1 : Nat)⟩),
        ("sphere", ⟨m.sphere.Indices32.length, m.indexOffset 2, (m.vertexOffset 2 : Nat)⟩),
        ("geosphere", ⟨m.GEOsphere.Indices32.length, m.indexOffset 3, (m.vertexOffset 3 : Nat)⟩),
        ("quad", ⟨m.quad.Indices32.length, m.indexOffset 4, (m.vertexOffset 4 : Nat)⟩),
        ("triprism", ⟨m.triPrism.Indices32.length, m.indexOffset 5, (m.vertexOffset 5 : Nat)⟩),
        ("cone", ⟨m.cone.Indices32.length, m.indexOffset 6, (m.vertexOffset 6 : Nat)⟩),
        ("pyramid", ⟨m.pyramid.Indices32.length, m.indexOffset 7, (m.vertexOffset 7 : Nat)⟩),
        ("diamond", ⟨m.diamond.Indices32.length, m.indexOffset 8, (m.vertexOffset 8 : Nat)⟩),
        ("wedge", ⟨m.wedge.Indices32.length, m.indexOffset 9, (m.vertexOffset 9 : Nat)⟩),
        ("torus", ⟨m.torus.Indices32.length, m.indexOffset 10, (m.vertexOffset 10 : Nat)⟩) ] := by
  simp only [BoxMeshes.named, List.map_cons, List.map_nil, List.sum_cons, List.sum_nil] at hi hv
  simp (disch := omega) only [BuildBoxGeometry, wrapUINT_add_wrap, wrapUINT_of_lt, toINT_of_lt]
  simp only [BoxMeshes.indexOffset, BoxMeshes.vertexOffset, BoxMeshes.named,
    List.take_succ_cons, List.take_zero, List.map_cons, List.map_nil, List.sum_cons,
    List.sum_nil, List.cons.injEq, Prod.mk.injEq, SubmeshGeometry.mk.injEq, true_and, and_true]
  repeat' apply And.intro
  all_goals omega

/-- The sub-mesh stored under the key of the `k`-th mesh, when no offset wraps. -/
theorem BuildBoxGeometry_drawArgs (m : BoxMeshes) (vb ib : ID3D12Resource)
    (hi : (m.named.map fun e => e.2.Indices32.length).sum < 2 ^ 32)
    (hv : (m.named.map fun e => e.2.Vertices.length).sum < 2 ^ 31)
    (k : Nat) (name : String) (mesh : GeometryGenerator.MeshData)
    (hk : m.named[k]? = some (name, mesh)) :
    (BuildBoxGeometry m vb ib).geo.DrawArgs[k]? =
      some (name, ⟨mesh.Indices32.length, m.indexOffset k, (m.vertexOffset k : Nat)⟩) ∧
    mapFind name (BuildBoxGeometry m vb ib).geo.DrawArgs =
      some ⟨mesh.Indices32.length, m.indexOffset k, (m.vertexOffset k : Nat)⟩ := by
  have hlt : k < 11 := by
    by_contra hge
    have : m.named[k]? = none := by
      apply List.getElem?_eq_none; simp [BoxMeshes.named]; omega
    rw [this] at hk; cases hk
  rw [BuildBoxGeometry_table m vb ib hi hv]
  interval_cases k
  all_goals
    simp only [BoxMeshes.named, List.getElem?_cons_zero, List.getElem?_cons_succ,
      Option.some.injEq, Prod.mk.injEq] at hk
    obtain ⟨rfl, rfl⟩ := hk
    exact ⟨rfl, by simp [mapFind]⟩

theorem BuildBoxGeometry_indices_at (m : BoxMeshes) (vb ib : ID3D12Resource)
    (k : Nat) (name : String) (mesh : GeometryGenerator.MeshData)
    (hk : m.named[k]? = some (name, mesh)) (t : Nat) (ht : t < mesh.Indices32.length) :
    (BuildBoxGeometry m vb ib).indices[m.indexOffset k + t]? = mesh.GetIndices16[t]? := by
  rw [BuildBoxGeometry_indices]
  have h := flatten_getElem?_offset (m.named.map fun e => e.2.GetIndices16) k t
    mesh.GetIndices16 (by rw [List.getElem?_map, hk]; rfl)
    (by simpa [GeometryGenerator.MeshData.GetIndices16] using ht)
  have hoff : (((m.named.map fun e => e.2.GetIndices16).take k).map List.length).sum =
      m.indexOffset k := by
    unfold BoxMeshes.indexOffset
    rw [← List.map_take, List.map_map]
    congr 1
    apply List.map_congr_left
    intro e _
    simp [GeometryGenerator.MeshData.GetIndices16]
  rw [hoff] at h
  exact h

theorem BuildBoxGeometry_vertices_at (m : BoxMeshes) (vb ib : ID3D12Resource)
    (hv : (m.named.map fun e => e.2.Vertices.length).sum < 2 ^ 32)
    (k : Nat) (name : String) (mesh : GeometryGenerator.MeshData)
    (hk : m.named[k]? = some (name, mesh)) (v : Nat) (hlt : v < mesh.Vertices.length) :
    (BuildBoxGeometry m vb ib).vertices[m.vertexOffset k + v]? =
      (mesh.Vertices[v]?).map BuildBoxGeometry.vertex := by
  rw [BuildBoxGeometry_vertices m vb ib hv]
  have h := flatten_getElem?_offset (m.named.map fun e => e.2.Vertices.map BuildBoxGeometry.vertex)
    k v (mesh.Vertices.map BuildBoxGeometry.vertex) (by rw [List.getElem?_map, hk]; rfl)
    (by simpa using hlt)
  have hoff : (((m.named.map fun e => e.2.Vertices.map BuildBoxGeometry.vertex).take k).map
      List.length).sum = m.vertexOffset k := by
    unfold BoxMeshes.vertexOffset
    rw [← List.map_take, List.map_map]
    congr 1
    apply List.map_congr_left
    intro e _
    simp
  rw [hoff, List.getElem?_map] at h
  exact h

theorem BuildBoxGeometry_vertices_length (m : BoxMeshes) (vb ib : ID3D12Resource)
    (hv : (m.named.map fun e => e.2.Vertices.length).sum < 2 ^ 32) :
    (BuildBoxGeometry m vb ib).vertices.length =
      (m.named.map fun e => e.2.Vertices.length).sum := by
  rw [BuildBoxGeometry_vertices m vb ib hv, List.length_flatten, List.map_map]
  congr 1
  apply List.map_congr_left
  intro e _
  simp

/-! ## The land -/

theorem CreateGrid_vertices (width depth : ℚ) (m n : Nat) :
    (CreateGrid width depth m n).Vertices = (gridCells m n).map fun c =>
      { Position := ⟨-width / 2 + c.2 * (width / n), 0, -depth / 2 + c.1 * (depth / m)⟩ } := by
  simp only [CreateGrid, gridCells, List.map_flatMap, List.map_map]
  rfl

theorem gridCells_length (m n : Nat) : (gridCells m n).length = (m + 1) * (n + 1) := by
  simp [gridCells, List.length_flatMap, Function.comp_def]

theorem plateau_cell (k : Nat) :
    ((-125 / 2 + (k : ℚ) * (125 / (50 : Nat)) > 0 - 45 ∧
      -125 / 2 + (k : ℚ) * (125 / (50 : Nat)) < 0 + 45) ↔ (8 ≤ k ∧ k ≤ 42)) := by
  have h : (-125 / 2 + (k : ℚ) * (125 / (50 : Nat))) = ((k : ℚ) * 5 - 125) / 2 := by
    push_cast; ring
  rw [h]
  constructor
  · rintro ⟨h1, h2⟩
    have h1' : (7 : ℚ) < k := by linarith
    have h2' : (k : ℚ) < 43 := by linarith
    have h1'' : 7 < k := by exact_mod_cast h1'
    have h2'' : k < 43 := by exact_mod_cast h2'
    omega
  · rintro ⟨h1, h2⟩
    have h1' : (8 : ℚ) ≤ k := by exact_mod_cast h1
    have h2' : (k : ℚ) ≤ 42 := by exact_mod_cast h2
    constructor <;> linarith

theorem plateau_cells_count :
    (gridCells 50 50).countP (fun c => decide ((8 ≤ c.2 ∧ c.2 ≤ 42) ∧ (8 ≤ c.1 ∧ c.1 ≤ 42))) =
      1225 := by
  unfold gridCells
  rw [List.countP_flatMap]
  have inner : ∀ i : Nat,
      (List.countP (fun c : Nat × Nat => decide ((8 ≤ c.2 ∧ c.2 ≤ 42) ∧ (8 ≤ c.1 ∧ c.1 ≤ 42))) ∘
        fun i => (List.range (50 + 1)).map fun j => (i, j)) i =
      if 8 ≤ i ∧ i ≤ 42 then 35 else 0 := by
    intro i
    simp only [Function.comp, List.countP_map]
    by_cases hi : 8 ≤ i ∧ i ≤ 42
    · rw [if_pos hi]
      have : (List.range (50 + 1)).countP (fun j => decide (8 ≤ j ∧ j ≤ 42)) = 35 := by decide
      rw [← this]
      apply List.countP_congr
      intro j _
      simp [hi]
    · rw [if_neg hi, List.countP_eq_zero]
      intro j _ hh
      exact hi (of_decide_eq_true hh).2
  rw [List.map_congr_left (fun i _ => inner i)]
  decide

/-- The height `BuildLandGeometry` gives the vertex in row `i` and column `j` of the grid of the
scene. -/
theorem land_cell_height (fm : FloatMath) (i j : Nat) :
    (BuildLandGeometry.vertex fm
      { Position := ⟨-125 / 2 + (j : ℚ) * (125 / (50 : Nat)), 0,
          -125 / 2 + (i : ℚ) * (125 / (50 : Nat))⟩ }).Pos.y =
      if (8 ≤ j ∧ j ≤ 42) ∧ (8 ≤ i ∧ i ≤ 42) then 2 else -10 := by
  show (if (-125 / 2 + (j : ℚ) * (125 / (50 : Nat)) > 0 - 45 ∧
      -125 / 2 + (j : ℚ) * (125 / (50 : Nat)) < 0 + 45 ∧
      -125 / 2 + (i : ℚ) * (125 / (50 : Nat)) > 0 - 45 ∧
      -125 / 2 + (i : ℚ) * (125 / (50 : Nat)) < 0 + 45) then (2 : ℚ) else -10) = _
  have hj := plateau_cell j
  have hi := plateau_cell i
  by_cases h : (8 ≤ j ∧ j ≤ 42) ∧ (8 ≤ i ∧ i ≤ 42)
  · rw [if_pos h, if_pos]
    exact ⟨(hj.mpr h.1).1, (hj.mpr h.1).2, (hi.mpr h.2).1, (hi.mpr h.2).2⟩
  · rw [if_neg h, if_neg]
    rintro ⟨h1, h2, h3, h4⟩
    exact h ⟨hj.mp ⟨h1, h2⟩, hi.mp ⟨h3, h4⟩⟩

theorem land_vertices (fm : FloatMath) (vb ib : ID3D12Resource) :
    (BuildLandGeometry fm (CreateGrid 125 125 50 50) vb ib).vertices =
      (gridCells 50 50).map fun c => BuildLandGeometry.vertex fm
        { Position := ⟨-125 / 2 + (c.2 : ℚ) * (125 / (50 : Nat)), 0,
            -125 / 2 + (c.1 : ℚ) * (125 / (50 : Nat))⟩ } := by
  simp only [BuildLandGeometry, CreateGrid_vertices, List.map_map]
  rfl

theorem land_count_plateau (fm : FloatMath) (vb ib : ID3D12Resource) :
    (BuildLandGeometry fm (CreateGrid 125 125 50 50) vb ib).vertices.countP
      (fun v => decide (v.Pos.y = 2)) = 1225 := by
  rw [land_vertices, List.countP_map, ← plateau_cells_count]
  apply List.countP_congr
  intro c _
  simp only [Function.comp, decide_eq_true_eq]
  rw [land_cell_height]
  by_cases h : (8 ≤ c.2 ∧ c.2 ≤ 42) ∧ (8 ≤ c.1 ∧ c.1 ≤ 42)
  · rw [if_pos h]; simp [h]
  · rw [if_neg h]; simp only [h, iff_false]; norm_num

theorem land_count_border (fm : FloatMath) (vb ib : ID3D12Resource) :
    (BuildLandGeometry fm (CreateGrid 125 125 50 50) vb ib).vertices.countP
      (fun v => decide (v.Pos.y = -10)) = 1376 := by
  have hlen : (BuildLandGeometry fm (CreateGrid 125 125 50 50) vb ib).vertices.length = 2601 := by
    rw [land_vertices, List.length_map, gridCells_length]
  have hsplit := List.length_eq_countP_add_countP (fun v : Vertex => decide (v.Pos.y = 2))
    (BuildLandGeometry fm (CreateGrid 125 125 50 50) vb ib).vertices
  rw [hlen, land_count_plateau] at hsplit
  have hcongr : (BuildLandGeometry fm (CreateGrid 125 125 50 50) vb ib).vertices.countP
      (fun v => decide (v.Pos.y = -10)) =
      (BuildLandGeometry fm (CreateGrid 125 125 50 50) vb ib).vertices.countP
        (fun v => ¬ (decide (v.Pos.y = 2)) = true) := by
    apply List.countP_congr
    intro v hv
    rw [land_vertices, List.mem_map] at hv
    obtain ⟨c, -, rfl⟩ := hv
    simp only [decide_eq_true_eq, decide_not, Bool.not_eq_true', decide_eq_false_iff_not]
    rw [land_cell_height]
    split <;> norm_num
  rw [hcongr]
  omega

/-! ## The wave simulation -/

theorem Waves.steps_eq_zero (w : Waves) (t : ℚ) (h : t < w.mTimeStep) : w.steps t = 0 := by
  unfold Waves.steps
  split
  · next hpos =>
    have hlt : t / w.mTimeStep < 1 := (div_lt_one hpos).mpr h
    have hfl : ⌊t / w.mTimeStep⌋ < 1 := Int.floor_lt.mpr (by exact_mod_cast hlt)
    omega
  · rfl

theorem Waves.iterate_step_fields (fm : FloatMath) (n : Nat) :
    ∀ w : Waves, ((Waves.step fm)^[n] w).mTimeStep = w.mTimeStep ∧
      ((Waves.step fm)^[n] w).mNumRows = w.mNumRows ∧
      ((Waves.step fm)^[n] w).mNumCols = w.mNumCols := by
  induction n with
  | zero => intro w; exact ⟨rfl, rfl, rfl⟩
  | succ n ih =>
    intro w
    rw [Function.iterate_succ_apply]
    exact ih (Waves.step fm w)

theorem Waves.Update_accum (fm : FloatMath) (w : Waves) (dt : ℚ) (hpos : 0 < w.mTimeStep) :
    (Waves.Update fm w dt).mTimeStep = w.mTimeStep ∧
    (Waves.Update fm w dt).mAccum < w.mTimeStep := by
  refine ⟨(Waves.iterate_step_fields fm _ w).1, ?_⟩
  show w.mAccum + dt - (w.steps (w.mAccum + dt) : ℚ) * w.mTimeStep < w.mTimeStep
  unfold Waves.steps
  rw [if_pos hpos]
  set t := w.mAccum + dt
  by_cases hneg : ⌊t / w.mTimeStep⌋ < 0
  · have h0 : ⌊t / w.mTimeStep⌋.toNat = 0 := by omega
    rw [h0]
    have hlt : t / w.mTimeStep < 0 := by
      have := Int.floor_lt.mp (show ⌊t / w.mTimeStep⌋ < (0 : Int) from hneg)
      exact_mod_cast this
    have : t < 0 := by
      rcases lt_or_le t 0 with h | h
      · exact h
      · exact absurd (div_nonneg h hpos.le) (not_le.mpr hlt)
    simp only [Nat.cast_zero, zero_mul, sub_zero]
    linarith
  · have hn : ((⌊t / w.mTimeStep⌋.toNat : Nat) : ℚ) = ((⌊t / w.mTimeStep⌋ : Int) : ℚ) := by
      have : ((⌊t / w.mTimeStep⌋.toNat : Nat) : Int) = ⌊t / w.mTimeStep⌋ :=
        Int.toNat_of_nonneg (by omega)
      exact_mod_cast congrArg (fun z : Int => (z : ℚ)) this
    rw [hn]
    have h1 : t / w.mTimeStep < (⌊t / w.mTimeStep⌋ : ℚ) + 1 := Int.lt_floor_add_one _
    have h2 : t < ((⌊t / w.mTimeStep⌋ : ℚ) + 1) * w.mTimeStep := (div_lt_iff₀ hpos).mp h1
    linarith

/-! ## Render items -/

theorem CreateNewObject_some {s : TreeBillboardsApp W} {b b' : RitemBuild} {item : String}
    {p q r : XMFLOAT4X4} {idx : Nat} {material : String}
    (h : CreateNewObject s b item p q r idx material = some b') :
    ∃ ri : RenderItem, ri.ObjCBIndex = idx ∧
      b' = { b with
        items := b.items ++ [ri]
        mRitemLayer := pushLayer b.mRitemLayer RenderLayer.Opaque b.items.length
        mAllRitems := b.mAllRitems ++ [b.items.length] } := by
  unfold CreateNewObject at h
  split at h
  · cases h
  · split at h
    · cases h
    · exact ⟨_, rfl, (Option.some.inj h).symm⟩

theorem CreateNewObject_of {s : TreeBillboardsApp W} (b : RitemBuild) (item : String)
    (p q r : XMFLOAT4X4) (idx : Nat) (material : String)
    (hm : (mapFind material s.mMaterials).isSome = true)
    (hg : (mapFind "boxGeo" s.mGeometries).isSome = true) :
    ∃ b', CreateNewObject s b item p q r idx material = some b' := by
  obtain ⟨m, hm⟩ := Option.isSome_iff_exists.mp hm
  obtain ⟨g, hg⟩ := Option.isSome_iff_exists.mp hg
  unfold CreateNewObject
  simp only [hm, hg]
  exact ⟨_, rfl⟩

theorem call_fold_none (s : TreeBillboardsApp W) (calls : List ObjectCall) :
    calls.foldl (BuildRenderItems.call s) none = none := by
  induction calls with
  | nil => rfl
  | cons c calls ih => simpa [List.foldl_cons, BuildRenderItems.call] using ih

/-- The calls of `CreateNewObject` allocate consecutive addresses and append them to
`mAllRitems` and to the opaque layer. -/
theorem call_fold_some (s : TreeBillboardsApp W) (calls : List ObjectCall) :
    ∀ (b : RitemBuild) (idx : Nat) (r : RitemBuild × Nat),
      calls.foldl (BuildRenderItems.call s) (some (b, idx)) = some r →
      r.1.items.length = b.items.length + calls.length ∧
      r.1.mAllRitems = b.mAllRitems ++ List.range' b.items.length calls.length ∧
      r.1.mRitemLayer 0 = b.mRitemLayer 0 ++ List.range' b.items.length calls.length ∧
      (∀ l : Fin 4, l ≠ 0 → r.1.mRitemLayer l = b.mRitemLayer l) ∧
      r.1.mWavesRitem = b.mWavesRitem := by
  induction calls with
  | nil =>
    intro b idx r h
    simp only [List.foldl_nil, Option.some.injEq] at h
    subst h
    simp
  | cons c calls ih =>
    intro b idx r h
    rw [List.foldl_cons] at h
    cases hc : BuildRenderItems.call s (some (b, idx)) c with
    | none => rw [hc, call_fold_none] at h; cases h
    | some r1 =>
      rw [hc] at h
      obtain ⟨b1, idx1⟩ := r1
      simp only [BuildRenderItems.call] at hc
      split at hc
      · cases hc
      · next b2 hb2 =>
        simp only [Option.some.injEq, Prod.mk.injEq] at hc
        obtain ⟨rfl, rfl⟩ := hc
        obtain ⟨ri, -, rfl⟩ := CreateNewObject_some hb2
        obtain ⟨h1, h2, h3, h4, h5⟩ := ih _ _ r h
        dsimp only at h1 h2 h3 h4 h5
        simp only [List.length_append, List.length_singleton] at h1 h2 h3
        refine ⟨?_, ?_, ?_, ?_, h5⟩
        · simp only [List.length_cons]; omega
        · rw [h2, List.length_cons, List.range'_succ, List.append_assoc, List.singleton_append]
        · rw [h3, List.length_cons, List.range'_succ]
          simp [pushLayer, RenderLayer.toFin]
        · intro l hl
          rw [h4 l hl]
          simp [pushLayer, RenderLayer.toFin, hl]

theorem call_fold_of (s : TreeBillboardsApp W) (calls : List ObjectCall)
    (hm : ∀ c ∈ calls, (mapFind c.material s.mMaterials).isSome = true)
    (hg : (mapFind "boxGeo" s.mGeometries).isSome = true) :
    ∀ (b : RitemBuild) (idx : Nat),
      ∃ r, calls.foldl (BuildRenderItems.call s) (some (b, idx)) = some r := by
  induction calls with
  | nil => intro b idx; exact ⟨_, rfl⟩
  | cons c calls ih =>
    intro b idx
    obtain ⟨b', hb'⟩ := CreateNewObject_of b c.item c.p c.q c.r (wrapUINT (idx + 1)) c.material
      (hm c (List.mem_cons_self _ _)) hg
    rw [List.foldl_cons]
    have : BuildRenderItems.call s (some (b, idx)) c = some (b', wrapUINT (idx + 1)) := by
      simp only [BuildRenderItems.call, hb']
    rw [this]
    exact ih (fun c hc => hm c (List.mem_cons_of_mem _ hc)) b' _

theorem calls_length (rm : RotationMath) : (BuildRenderItems.calls rm).length = 63 := by
  simp [BuildRenderItems.calls, BuildRenderItems.objects, BuildRenderItems.columns,
    List.length_flatMap, Function.comp_def]

theorem calls_material (rm : RotationMath) :
    ∀ c ∈ BuildRenderItems.calls rm,
      c.material ∈ ["stone", "marble", "bush", "wood", "sun", "diamond"] := by
  intro c hc
  simp only [BuildRenderItems.calls, List.mem_append, List.mem_flatMap] at hc
  rcases hc with hc | ⟨i, -, hc⟩
  · simp only [BuildRenderItems.objects, List.mem_cons, List.mem_singleton,
      List.not_mem_nil, or_false] at hc
    rcases hc with h | h | h | h | h | h | h | h | h | h | h | h | h | h | h | h | h | h | h |
      h | h | h | h | h | h | h | h <;> (subst h; simp)
  · simp only [BuildRenderItems.columns, List.mem_cons, List.mem_singleton,
      List.not_mem_nil, or_false] at hc
    rcases hc with h | h | h | h | h | h <;> (subst h; simp)

theorem BuildRenderItems_layout (rm : RotationMath) (s s' : TreeBillboardsApp W)
    (hA : s.mAllRitems.length = 0) (hL : ∀ l, s.mRitemLayer l = [])
    (h : BuildRenderItems rm s = some s') :
    s'.mAllRitems.length = 66 ∧
    s'.mRitemLayer 0 = 64 :: List.range 63 ∧ s'.mRitemLayer 1 = [63] ∧
    s'.mRitemLayer 2 = [] ∧ s'.mRitemLayer 3 = [65] ∧ s'.mWavesRitem = some 63 := by
  have hA' : s.mAllRitems = [] := List.length_eq_zero.mp hA
  unfold BuildRenderItems at h
  simp only [RitemBuild.ofApp, hA', List.length_nil, List.range_zero, List.nil_append] at h
  split at h
  · next m1 waterGeo hm1 hg1 =>
    split at h
    · next m2 landGeo hm2 hg2 =>
      split at h
      · cases h
      · next b idx hfold =>
        obtain ⟨h1, h2, h3, h4, h5⟩ := call_fold_some s _ _ _ _ hfold
        rw [calls_length] at h1 h2 h3
        dsimp only at h1 h2 h3 h4 h5
        split at h
        · next m3 treeGeo hm3 hg3 =>
          simp only [Option.some.injEq] at h
          subst h
          simp only [List.length_append, List.length_singleton, List.nil_append, pushLayer,
            RenderLayer.toFin, hL] at h1 h2 h3 h4
          have e0 : b.mRitemLayer 0 = 1 :: List.range' 2 63 := by rw [h3]; rfl
          have e1 : b.mRitemLayer 1 = [0] := by rw [h4 1 (by decide)]; rfl
          have e2 : b.mRitemLayer 2 = [] := by rw [h4 2 (by decide)]; rfl
          have e3 : b.mRitemLayer 3 = [] := by rw [h4 3 (by decide)]; rfl
          simp only [RitemBuild.install, pushLayer, RenderLayer.toFin, h1, h2, e0, e1, e2, e3,
            h5, List.length_map, List.length_append, List.length_singleton, List.length_range']
          refine ⟨trivial, ?_, ?_, ?_, ?_, ?_⟩ <;> decide
        · cases h
    · cases h
  · cases h

theorem BuildRenderItems_ready (rm : RotationMath) (s : TreeBillboardsApp W)
    (hs : RitemsReady s) : ∃ s', BuildRenderItems rm s = some s' := by
  obtain ⟨-, -, hmat, hgeo⟩ := hs
  obtain ⟨m1, hm1⟩ := Option.isSome_iff_exists.mp (hmat "water" (by decide))
  obtain ⟨m2, hm2⟩ := Option.isSome_iff_exists.mp (hmat "grass" (by decide))
  obtain ⟨m3, hm3⟩ := Option.isSome_iff_exists.mp (hmat "treeSprites" (by decide))
  obtain ⟨g1, hg1⟩ := Option.isSome_iff_exists.mp (hgeo "waterGeo" (by decide))
  obtain ⟨g2, hg2⟩ := Option.isSome_iff_exists.mp (hgeo "landGeo" (by decide))
  obtain ⟨g3, hg3⟩ := Option.isSome_iff_exists.mp (hgeo "treeSpritesGeo" (by decide))
  have key := call_fold_of s (BuildRenderItems.calls rm)
    (fun c hc => hmat c.material (by
      have := calls_material rm c hc
      simp only [List.mem_cons, List.mem_singleton, List.not_mem_nil, or_false] at this ⊢
      tauto))
    (hgeo "boxGeo" (by decide))
  unfold BuildRenderItems
  simp only [hm1, hg1, hm2, hg2, hm3, hg3]
  split
  · next hnone =>
    obtain ⟨r, hr⟩ := key _ _
    rw [hr] at hnone
    cases hnone
  · exact ⟨_, rfl⟩

theorem BuildRenderItems_layers (rm : RotationMath) (s s' : TreeBillboardsApp W)
    (hA : s.mAllRitems.length = 0) (hL : ∀ l, s.mRitemLayer l = [])
    (h : BuildRenderItems rm s = some s') :
    s'.mRitemLayer = fun l =>
      if l = 0 then 64 :: List.range 63 else if l = 1 then [63] else if l = 2 then [] else [65] := by
  obtain ⟨-, h0, h1, h2, h3, -⟩ := BuildRenderItems_layout rm s s' hA hL h
  funext l
  fin_cases l
  · exact h0
  · exact h1
  · exact h2
  · exact h3

/-- The first three sub-meshes of `boxGeo` as the `UINT` arithmetic of `BuildBoxGeometry`
computes them. -/
theorem BuildBoxGeometry_first_three (m : BoxMeshes) (vb ib : ID3D12Resource) :
    (BuildBoxGeometry m vb ib).geo.DrawArgs[0]? =
      some ("box", ⟨wrapUINT m.box.Indices32.length, 0, toINT 0⟩) ∧
    (BuildBoxGeometry m vb ib).geo.DrawArgs[1]? =
      some ("cylinder", ⟨wrapUINT m.cylinder.Indices32.length,
        wrapUINT (0 + wrapUINT m.box.Indices32.length),
        toINT (wrapUINT (0 + wrapUINT m.box.Vertices.length))⟩) ∧
    (BuildBoxGeometry m vb ib).geo.DrawArgs[2]? =
      some ("sphere", ⟨wrapUINT m.sphere.Indices32.length,
        wrapUINT (wrapUINT (0 + wrapUINT m.box.Indices32.length) +
          wrapUINT m.cylinder.Indices32.length),
        toINT (wrapUINT (wrapUINT (0 + wrapUINT m.box.Vertices.length) +
          wrapUINT m.cylinder.Vertices.length))⟩) := by
  unfold BuildBoxGeometry
  simp only [List.getElem?_cons_succ, List.getElem?_cons_zero, and_self]

theorem wrapIndexMeshes_sizes :
    wrapIndexMeshes.box.Indices32.length = 2147483648 ∧
    wrapIndexMeshes.cylinder.Indices32.length = 2147483648 ∧
    wrapIndexMeshes.sphere.Indices32.length = 3 ∧
    wrapIndexMeshes.box.Vertices.length = 0 ∧
    wrapIndexMeshes.cylinder.Vertices.length = 0 :=
  ⟨List.length_replicate _ _, List.length_replicate _ _, rfl, rfl, rfl⟩

theorem wrapVertexMeshes_sizes :
    wrapVertexMeshes.box.Vertices.length = 2147483648 ∧
    wrapVertexMeshes.box.Indices32.length = 1 ∧
    wrapVertexMeshes.cylinder.Vertices.length = 1 ∧
    wrapVertexMeshes.cylinder.Indices32.length = 1 :=
  ⟨List.length_replicate _ _, rfl, rfl, rfl⟩

/-- After any non-empty sequence of ticks the water material has the counter `2`. -/
theorem runTicks_water_dirty {wm : WavesModel W} (inps : List TickInput) :
    ∀ (s : TreeBillboardsApp W), UpdateReady wm s → inps ≠ [] →
      ∃ (s' : TreeBillboardsApp W) (m : Material), runTicks wm s inps = some s' ∧
        mapFind "water" s'.mMaterials = some m ∧ m.NumFramesDirty = 2 := by
  induction inps with
  | nil => intro s _ h; exact absurd rfl h
  | cons inp rest ih =>
    intro s hs _
    obtain ⟨r, hr⟩ := Update_ready hs inp
    obtain ⟨m0, -, hw1⟩ := Update_water hr
    by_cases hrest : rest = []
    · subst hrest
      refine ⟨r.1, _, by simp [runTicks, hr], hw1, ?_⟩
      simp [tickMat, AnimateMaterials.scroll, gNumFrameResources]
    · obtain ⟨s', m, hrun, hm, hd⟩ := ih r.1 (Update_preserves_ready hs hr) hrest
      exact ⟨s', m, by simp [runTicks, hr, hrun], hm, hd⟩

/-- The wave vertex buffer after the vertex loop of `UpdateWaves`. -/
theorem waveWrites_entry {wm : WavesModel W} {w : W} {vb vb' : UploadBuffer Vertex}
    (h : vb.CopyAll (UpdateWaves.writes wm w) = some vb') :
    vb'.mMappedData.length = vb.mMappedData.length ∧
    (∀ i : Nat, i < wm.VertexCount.toNat →
      vb'.mMappedData[i]? = some (UpdateWaves.vertex wm w i)) ∧
    (∀ i : Nat, wm.VertexCount.toNat ≤ i → vb'.mMappedData[i]? = vb.mMappedData[i]?) := by
  refine ⟨(CopyAll_resource _ h).2, ?_, ?_⟩
  · intro i hi
    have hnd : ((UpdateWaves.writes wm w).map Prod.fst).Nodup := by
      have : (UpdateWaves.writes wm w).map Prod.fst = List.range wm.VertexCount.toNat := by
        simp [UpdateWaves.writes, Function.comp_def]
      rw [this]; exact List.nodup_range _
    have hmem : (i, UpdateWaves.vertex wm w i) ∈ UpdateWaves.writes wm w := by
      simp only [UpdateWaves.writes, List.mem_map, List.mem_range]
      exact ⟨i, hi, rfl⟩
    exact CopyAll_written _ h hnd _ hmem
  · intro i hi
    apply CopyAll_untouched _ i h
    intro x hx
    have := waveWrites_index hx
    omega

/-- A sequence of `CopyData` calls with pairwise distinct indices leaves the same buffer in
every order of the calls. -/
theorem CopyAll_perm {T : Type} {ws ws2 : List (Nat × T)} (hp : ws2.Perm ws)
    (hnd : (ws.map Prod.fst).Nodup) {b b1 b2 : UploadBuffer T}
    (h1 : UploadBuffer.CopyAll ws b = some b1) (h2 : UploadBuffer.CopyAll ws2 b = some b2) :
    b2 = b1 := by
  have hnd2 : (ws2.map Prod.fst).Nodup := ((hp.map Prod.fst).nodup_iff).mpr hnd
  obtain ⟨r1, l1⟩ := CopyAll_resource _ h1
  obtain ⟨r2, l2⟩ := CopyAll_resource _ h2
  have hdata : b2.mMappedData = b1.mMappedData := by
    apply List.ext_getElem?
    intro k
    by_cases hk : ∃ w ∈ ws, w.1 = k
    · obtain ⟨w, hw, rfl⟩ := hk
      rw [CopyAll_written _ h1 hnd w hw, CopyAll_written _ h2 hnd2 w (hp.mem_iff.mpr hw)]
    · have hk1 : ∀ w ∈ ws, w.1 ≠ k := fun w hw e => hk ⟨w, hw, e⟩
      have hk2 : ∀ w ∈ ws2, w.1 ≠ k := fun w hw e => hk ⟨w, hp.mem_iff.mp hw, e⟩
      rw [CopyAll_untouched _ k h1 hk1, CopyAll_untouched _ k h2 hk2]
  cases b1; cases b2
  simp only at r1 r2 hdata
  simp only [UploadBuffer.mk.injEq]
  exact ⟨r2.trans r1.symm, hdata⟩

/-- Whether a sequence of `CopyData` calls returns does not depend on the order of the calls. -/
theorem CopyAll_isSome_perm {T : Type} {ws ws2 : List (Nat × T)} (hp : ws2.Perm ws)
    (b : UploadBuffer T) :
    (UploadBuffer.CopyAll ws2 b).isSome = (UploadBuffer.CopyAll ws b).isSome := by
  have key : ∀ l : List (Nat × T), (UploadBuffer.CopyAll l b).isSome = true ↔
      ∀ w ∈ l, w.1 < b.mMappedData.length := by
    intro l
    constructor
    · intro h
      obtain ⟨b', hb'⟩ := Option.isSome_iff_exists.mp h
      exact CopyAll_bounds _ hb'
    · intro h
      obtain ⟨b', hb'⟩ := CopyAll_isSome l b h
      rw [hb']; rfl
  have : (UploadBuffer.CopyAll ws2 b).isSome = true ↔ (UploadBuffer.CopyAll ws b).isSome = true := by
    rw [key, key]
    exact ⟨fun h w hw => h w (hp.mem_iff.mpr hw), fun h w hw => h w (hp.mem_iff.mp hw)⟩
  cases h1 : (UploadBuffer.CopyAll ws2 b).isSome <;> cases h2 : (UploadBuffer.CopyAll ws b).isSome <;>
    simp_all

theorem matWrites_perm {mats mats2 : List (String × Material)} (hp : mats2.Perm mats) :
    (matWrites mats2).Perm (matWrites mats) :=
  (hp.filter _).map _

theorem objWrites_perm {items items2 : List RenderItem} (hp : items2.Perm items) :
    (objWrites items2).Perm (objWrites items) :=
  (hp.filter _).map _

theorem put_append (pre : List Nat) (a : Nat) (rest : List Nat) (k : Nat) (v : Nat)
    (hk : k = pre.length) (hv : v < 65536) :
    BuildWavesGeometry.put (pre ++ a :: rest) k (v : Int) = some ((pre ++ [v]) ++ rest) := by
  subst hk
  unfold BuildWavesGeometry.put
  have h1 : pre.length < (pre ++ a :: rest).length := by simp
  have h2 : -2 ^ 31 ≤ (v : Int) ∧ (v : Int) < 2 ^ 31 := by constructor <;> omega
  rw [if_pos ⟨h1, h2⟩, set_length_append]
  have : ((v : Int) % 65536).toNat = v := by omega
  rw [this]
  simp

theorem exists_six {α : Type} : ∀ (l : List α), 6 ≤ l.length →
    ∃ a0 a1 a2 a3 a4 a5 r, l = a0 :: a1 :: a2 :: a3 :: a4 :: a5 :: r
  | a0 :: a1 :: a2 :: a3 :: a4 :: a5 :: r, _ => ⟨a0, a1, a2, a3, a4, a5, r, rfl⟩
  | [], h => by simp at h
  | [_], h => by simp at h
  | [_, _], h => by simp at h
  | [_, _, _], h => by simp at h
  | [_, _, _, _], h => by simp at h
  | [_, _, _, _, _], h => by simp at h

/-- The body of the inner loop overwrites the six entries from `k` on. -/
theorem quad_spec (n : Nat) (pre : List Nat) (a0 a1 a2 a3 a4 a5 : Nat) (rest : List Nat)
    (ij : Nat × Nat) (h : (ij.1 + 1) * n + ij.2 + 1 < 65536) :
    BuildWavesGeometry.quad (n : Int)
        (pre ++ a0 :: a1 :: a2 :: a3 :: a4 :: a5 :: rest, pre.length) ij =
      some ((pre ++ quadIndices n ij) ++ rest, pre.length + 6) := by
  obtain ⟨i, j⟩ := ij
  simp only at h
  have hin : i * n ≤ (i + 1) * n := Nat.mul_le_mul_right n (Nat.le_succ i)
  have e1 : (i : Int) * n + j = ((i * n + j : Nat) : Int) := by push_cast; ring
  have e2 : (i : Int) * n + j + 1 = ((i * n + j + 1 : Nat) : Int) := by push_cast; ring
  have e3 : ((i : Int) + 1) * n + j = (((i + 1) * n + j : Nat) : Int) := by push_cast; ring
  have e4 : ((i : Int) + 1) * n + j + 1 = (((i + 1) * n + j + 1 : Nat) : Int) := by
    push_cast; ring
  unfold BuildWavesGeometry.quad
  simp only
  rw [e2, e4, e1, e3]
  rw [put_append pre a0 _ _ _ rfl (by omega)]
  simp only [Option.some_bind]
  rw [put_append (pre ++ [i * n + j]) a1 _ _ _ (by simp) (by omega)]
  simp only [Option.some_bind]
  rw [put_append (pre ++ [i * n + j] ++ [i * n + j + 1]) a2 _ _ _ (by simp) (by omega)]
  simp only [Option.some_bind]
  rw [put_append (pre ++ [i * n + j] ++ [i * n + j + 1] ++ [(i + 1) * n + j]) a3 _ _ _
    (by simp) (by omega)]
  simp only [Option.some_bind]
  rw [put_append (pre ++ [i * n + j] ++ [i * n + j + 1] ++ [(i + 1) * n + j] ++
    [(i + 1) * n + j]) a4 _ _ _ (by simp) (by omega)]
  simp only [Option.some_bind]
  rw [put_append (pre ++ [i * n + j] ++ [i * n + j + 1] ++ [(i + 1) * n + j] ++
    [(i + 1) * n + j] ++ [i * n + j + 1]) a5 _ _ _ (by simp) (by omega)]
  simp [quadIndices]

/-- The loops overwrite six entries for each quad, one quad after the other, whatever the array
held before. -/
theorem loop_spec (n : Nat) (qs : List (Nat × Nat)) :
    ∀ (pre rest : List Nat), (∀ ij ∈ qs, (ij.1 + 1) * n + ij.2 + 1 < 65536) →
      6 * qs.length ≤ rest.length →
      BuildWavesGeometry.loop (n : Int) qs (pre ++ rest, pre.length) =
        some (pre ++ qs.flatMap (quadIndices n) ++ rest.drop (6 * qs.length),
          pre.length + 6 * qs.length) := by
  induction qs with
  | nil => intro pre rest _ _; simp [BuildWavesGeometry.loop]
  | cons ij qs ih =>
    intro pre rest hv hlen
    simp only [List.length_cons] at hlen
    obtain ⟨a0, a1, a2, a3, a4, a5, rest, rfl⟩ := exists_six rest (by omega)
    simp only [BuildWavesGeometry.loop]
    rw [quad_spec n pre a0 a1 a2 a3 a4 a5 rest ij (hv ij (List.mem_cons_self _ _))]
    simp only [Option.some_bind]
    have hl : (pre ++ quadIndices n ij).length = pre.length + 6 := by simp [quadIndices]
    rw [← hl, ih (pre ++ quadIndices n ij) rest (fun x hx => hv x (List.mem_cons_of_mem _ hx))
      (by simp only [List.length_cons] at hlen; omega)]
    rw [hl]
    have hdrop : List.drop (6 * (qs.length + 1)) (a0 :: a1 :: a2 :: a3 :: a4 :: a5 :: rest) =
        List.drop (6 * qs.length) rest := by
      have : 6 * (qs.length + 1) = 6 * qs.length + 6 := by ring
      rw [this]
      rfl
    simp only [List.flatMap_cons, List.append_assoc, List.length_cons, Option.some.injEq,
      Prod.mk.injEq, hdrop]
    exact ⟨trivial, by omega⟩

theorem quads_eq (m n : Nat) :
    BuildWavesGeometry.quads (m : Int) (n : Int) =
      (List.range (m - 1)).flatMap fun i => (List.range (n - 1)).map fun j => (i, j) := by
  unfold BuildWavesGeometry.quads
  have h1 : ((m : Int) - 1).toNat = m - 1 := by omega
  have h2 : ((n : Int) - 1).toNat = n - 1 := by omega
  rw [h1, h2]

theorem quads_length (m n : Nat) :
    (BuildWavesGeometry.quads (m : Int) (n : Int)).length = (m - 1) * (n - 1) := by
  rw [quads_eq]
  simp [List.length_flatMap, Function.comp_def]

theorem quads_mem {m n : Nat} {ij : Nat × Nat}
    (h : ij ∈ BuildWavesGeometry.quads (m : Int) (n : Int)) : ij.1 < m - 1 ∧ ij.2 < n - 1 := by
  rw [quads_eq] at h
  simp only [List.mem_flatMap, List.mem_map, List.mem_range] at h
  obtain ⟨i, hi, j, hj, rfl⟩ := h
  exact ⟨hi, hj⟩

/-- The sum of the lengths of the first `k` blocks of a list of blocks of one length. -/
theorem take_sum_const {α : Type} (c : Nat) : ∀ (L : List (List α)) (k : Nat),
    (∀ l ∈ L, l.length = c) → k ≤ L.length → ((L.take k).map List.length).sum = c * k := by
  intro L
  induction L with
  | nil => intro k _ hk; simp at hk; subst hk; simp
  | cons l L ih =>
    intro k hc hk
    cases k with
    | zero => simp
    | succ k =>
      simp only [List.take_succ_cons, List.map_cons, List.sum_cons]
      rw [hc l (List.mem_cons_self _ _), ih k (fun x hx => hc x (List.mem_cons_of_mem _ hx))
        (by simp at hk; omega)]
      ring

/-- The quad at a position of the traversal. -/
theorem quads_getElem (m n i j : Nat) (hi : i < m - 1) (hj : j < n - 1) :
    (BuildWavesGeometry.quads (m : Int) (n : Int))[i * (n - 1) + j]? = some (i, j) := by
  rw [quads_eq]
  have hflat : ((List.range (m - 1)).flatMap fun i => (List.range (n - 1)).map fun j => (i, j)) =
      ((List.range (m - 1)).map fun i => (List.range (n - 1)).map fun j => (i, j)).flatten := by
    rw [List.flatMap_def]
  rw [hflat]
  have hrow : ((List.range (m - 1)).map fun i => (List.range (n - 1)).map
      fun j => (i, j))[i]? = some ((List.range (n - 1)).map fun j => (i, j)) := by
    simp [List.getElem?_range hi]
  have hsum := take_sum_const (n - 1)
    ((List.range (m - 1)).map fun i => (List.range (n - 1)).map fun j => (i, j)) i
    (by intro l hl; simp only [List.mem_map] at hl; obtain ⟨_, _, rfl⟩ := hl; simp)
    (by simp; omega)
  have := flatten_getElem?_offset _ i j _ hrow (by simpa using hj)
  rw [hsum, Nat.mul_comm] at this
  rw [this]
  simp [List.getElem?_range hj]

/-- The entries of the index array of a quad. -/
theorem quadIndices_getElem (m n i j r : Nat) (hi : i < m - 1) (hj : j < n - 1) (hr : r < 6) :
    ((BuildWavesGeometry.quads (m : Int) (n : Int)).flatMap (quadIndices n))[
        6 * (i * (n - 1) + j) + r]? = (quadIndices n (i, j))[r]? := by
  rw [List.flatMap_def]
  have hq := quads_getElem m n i j hi hj
  have hrow : ((BuildWavesGeometry.quads (m : Int) (n : Int)).map (quadIndices n))[
      i * (n - 1) + j]? = some (quadIndices n (i, j)) := by
    rw [List.getElem?_map, hq]; rfl
  have hlt : i * (n - 1) + j < (BuildWavesGeometry.quads (m : Int) (n : Int)).length := by
    rw [List.getElem?_eq_some] at hq; exact hq.1
  have hsum := take_sum_const 6 ((BuildWavesGeometry.quads (m : Int) (n : Int)).map (quadIndices n))
    (i * (n - 1) + j)
    (by intro l hl; simp only [List.mem_map] at hl; obtain ⟨_, _, rfl⟩ := hl; rfl)
    (by simp; omega)
  have := flatten_getElem?_offset _ (i * (n - 1) + j) r _ hrow (by simpa [quadIndices] using hr)
  rw [hsum] at this
  exact this

theorem quadIndices_lt {m n : Nat} {ij : Nat × Nat} (hi : ij.1 < m - 1) (hj : ij.2 < n - 1) :
    ∀ v ∈ quadIndices n ij, v < m * n := by
  obtain ⟨i, j⟩ := ij
  simp only at hi hj
  have h1 : (i + 1) * n ≤ (m - 1) * n := Nat.mul_le_mul_right n (by omega)
  have h2 : (m - 1) * n + n = m * n := by
    have : m = (m - 1) + 1 := by omega
    conv_rhs => rw [this]
    ring
  have h3 : i * n ≤ (i + 1) * n := Nat.mul_le_mul_right n (Nat.le_succ i)
  intro v hv
  simp only [quadIndices, List.mem_cons, List.mem_singleton, List.not_mem_nil, or_false] at hv
  rcases hv with rfl | rfl | rfl | rfl | rfl | rfl <;> omega

/-- The loops of `BuildWavesGeometry` on an array of the full length, whatever it held. -/
theorem loop_full (m n : Nat) (hmn : m * n < 65535) (init : List Nat)
    (hinit : init.length = 6 * ((m - 1) * (n - 1))) :
    BuildWavesGeometry.loop (n : Int) (BuildWavesGeometry.quads (m : Int) (n : Int)) (init, 0) =
      some ((BuildWavesGeometry.quads (m : Int) (n : Int)).flatMap (quadIndices n),
        6 * ((m - 1) * (n - 1))) := by
  have h := loop_spec n (BuildWavesGeometry.quads (m : Int) (n : Int)) [] init (by
      intro ij hij
      obtain ⟨hi, hj⟩ := quads_mem hij
      have := quadIndices_lt hi hj ((ij.1 + 1) * n + ij.2 + 1) (by simp [quadIndices])
      omega)
    (by rw [quads_length, hinit])
  simp only [List.nil_append, List.length_nil, Nat.zero_add] at h
  rw [h, quads_length, ← hinit, List.drop_length, List.append_nil]

/-- The materials `BuildMaterials` leaves in an empty map, in the order of the assignments. -/
theorem BuildMaterials_keys (c : XMFLOAT4) (s : TreeBillboardsApp W) (h : s.mMaterials = []) :
    (BuildMaterials c s).mMaterials.map (fun e => (e.1, e.2.Name, e.2.MatCBIndex,
        e.2.DiffuseSrvHeapIndex)) =
      [ ("grass", "grass", 0, 0), ("water", "water", 1, 1), ("wirefence", "wirefence", 2, 2),
        ("stone", "stone", 3, 3), ("marble", "marble", 4, 4), ("sun", "sun", 5, 5),
        ("diamond", "diamond", 6, 6), ("bush", "bush", 7, 7), ("wood", "wood", 8, 8),
        ("treeSprites", "treeSprites", 9, 9) ] := by
  simp [BuildMaterials, h, mapAssign, mapFind, mapStore]

/-- The heap `BuildDescriptorHeaps` leaves when the ten textures are loaded and the descriptor
increment is positive. -/
theorem BuildDescriptorHeaps_of (mTextures : List (String × Texture)) (size : Nat)
    (hsize : 0 < size) (t : Nat → ID3D12Resource × D3D12_RESOURCE_DESC)
    (h0 : textureResource mTextures "grassTex" = some (t 0))
    (h1 : textureResource mTextures "waterTex" = some (t 1))
    (h2 : textureResource mTextures "fenceTex" = some (t 2))
    (h3 : textureResource mTextures "stoneTex" = some (t 3))
    (h4 : textureResource mTextures "marbleTex" = some (t 4))
    (h5 : textureResource mTextures "sunTex" = some (t 5))
    (h6 : textureResource mTextures "diamondTex" = some (t 6))
    (h7 : textureResource mTextures "bushTex" = some (t 7))
    (h8 : textureResource mTextures "woodTex" = some (t 8))
    (h9 : textureResource mTextures "treeArrayTex" = some (t 9)) :
    ∃ heap : SrvHeap, BuildDescriptorHeaps mTextures size = some heap ∧
      heap.NumDescriptors = 10 ∧
      ∀ k : Nat, k < 10 → ∃ v : ShaderResourceView,
        heap.descriptorAt (k * size) = some v ∧ v.pResource = (t k).1 ∧
        v.desc.Format = (t k).2.Format := by
  have c1 : size < 10 * size := by omega
  have c2 : size + size < 10 * size := by omega
  have c3 : size + size + size < 10 * size := by omega
  have c4 : size + size + size + size < 10 * size := by omega
  have c5 : size + size + size + size + size < 10 * size := by omega
  have c6 : size + size + size + size + size + size < 10 * size := by omega
  have c7 : size + size + size + size + size + size + size < 10 * size := by omega
  have c8 : size + size + size + size + size + size + size + size < 10 * size := by omega
  have c9 : size + size + size + size + size + size + size + size + size < 10 * size := by omega
  unfold BuildDescriptorHeaps
  simp only [h0, h1, h2, h3, h4, h5, h6, h7, h8, h9, Option.some_bind]
  unfold BuildDescriptorHeaps.fill
  simp only [runStatements, BuildDescriptorHeaps.set,
    BuildDescriptorHeaps.offset, BuildDescriptorHeaps.create, Option.some_bind,
    CreateShaderResourceView, Nat.zero_add, Nat.one_mul, Nat.zero_lt_succ,
    Nat.ofNat_pos, Nat.mul_pos_iff_of_pos_left, hsize, c1, c2, c3, c4, c5, c6, c7, c8, c9, if_true,
    Option.map_some']
  refine ⟨_, rfl, rfl, ?_⟩
  intro k hk
  simp only [SrvHeap.descriptorAt]
  interval_cases k
  all_goals
    simp (disch := omega) only [descriptorLookup, if_pos, if_neg, Nat.zero_mul, Nat.one_mul]
    exact ⟨_, rfl, rfl, rfl⟩
theorem mapFind_map_keys {α β : Type} (g : α → β) (k : String) :
    ∀ (l : List (String × α)), mapFind k (l.map fun e => (e.1, g e.2)) = (mapFind k l).map g := by
  intro l
  induction l with
  | nil => rfl
  | cons e0 rest ih =>
    obtain ⟨k', v'⟩ := e0
    by_cases hk : k' = k
    · simp [mapFind, hk]
    · simp [mapFind, hk, ih]

/-- The material `BuildMaterials` leaves under each of its ten keys, in an empty map. -/
theorem BuildMaterials_find (c : XMFLOAT4) (s : TreeBillboardsApp W) (h : s.mMaterials = []) :
    ∀ e ∈ materialTextures, ∃ m : Material,
      mapFind e.1 (BuildMaterials c s).mMaterials = some m ∧ m.Name = e.1 ∧
      m.MatCBIndex = e.2.2 ∧ m.DiffuseSrvHeapIndex = e.2.2 := by
  have hkeys := BuildMaterials_keys c s h
  have key : ∀ (k : String) (x : String × Nat × Nat),
      mapFind k [ ("grass", "grass", 0, 0), ("water", "water", 1, 1),
        ("wirefence", "wirefence", 2, 2), ("stone", "stone", 3, 3), ("marble", "marble", 4, 4),
        ("sun", "sun", 5, 5), ("diamond", "diamond", 6, 6), ("bush", "bush", 7, 7),
        ("wood", "wood", 8, 8), ("treeSprites", "treeSprites", 9, 9) ] = some x →
      ∃ m : Material, mapFind k (BuildMaterials c s).mMaterials = some m ∧ m.Name = x.1 ∧
        m.MatCBIndex = x.2.1 ∧ m.DiffuseSrvHeapIndex = x.2.2 := by
    intro k x hx
    rw [← hkeys] at hx
    have h2 := mapFind_map_keys
      (fun m : Material => (m.Name, m.MatCBIndex, m.DiffuseSrvHeapIndex)) k
      (BuildMaterials c s).mMaterials
    rw [h2] at hx
    cases hm : mapFind k (BuildMaterials c s).mMaterials with
    | none => rw [hm] at hx; cases hx
    | some m =>
      rw [hm] at hx
      simp only [Option.map_some', Option.some.injEq] at hx
      subst hx
      exact ⟨m, rfl, rfl, rfl, rfl⟩
  intro e he
  simp only [materialTextures, List.mem_cons, List.mem_singleton, List.not_mem_nil,
    or_false] at he
  rcases he with rfl | rfl | rfl | rfl | rfl | rfl | rfl | rfl | rfl | rfl
  · exact key "grass" ("grass", 0, 0) rfl
  · exact key "water" ("water", 1, 1) rfl
  · exact key "wirefence" ("wirefence", 2, 2) rfl
  · exact key "stone" ("stone", 3, 3) rfl
  · exact key "marble" ("marble", 4, 4) rfl
  · exact key "sun" ("sun", 5, 5) rfl
  · exact key "diamond" ("diamond", 6, 6) rfl
  · exact key "bush" ("bush", 7, 7) rfl
  · exact key "wood" ("wood", 8, 8) rfl
  · exact key "treeSprites" ("treeSprites", 9, 9) rfl

/-- The calls of `CreateNewObject` give the items they allocate consecutive object indices. -/
theorem call_fold_indices (s : TreeBillboardsApp W) (calls : List ObjectCall) :
    ∀ (b : RitemBuild) (idx : Nat) (r : RitemBuild × Nat),
      calls.foldl (BuildRenderItems.call s) (some (b, idx)) = some r →
      idx + calls.length < 2 ^ 32 →
      r.1.items.map (fun e => e.ObjCBIndex) =
        b.items.map (fun e => e.ObjCBIndex) ++ List.range' (idx + 1) calls.length ∧
      r.2 = idx + calls.length := by
  induction calls with
  | nil =>
    intro b idx r h _
    simp only [List.foldl_nil, Option.some.injEq] at h
    subst h
    simp
  | cons c calls ih =>
    intro b idx r h hlt
    rw [List.foldl_cons] at h
    cases hc : BuildRenderItems.call s (some (b, idx)) c with
    | none => rw [hc, call_fold_none] at h; cases h
    | some r1 =>
      rw [hc] at h
      obtain ⟨b1, idx1⟩ := r1
      simp only [BuildRenderItems.call] at hc
      split at hc
      · cases hc
      · next b2 hb2 =>
        simp only [Option.some.injEq, Prod.mk.injEq] at hc
        obtain ⟨rfl, rfl⟩ := hc
        simp only [List.length_cons] at hlt
        have hw : wrapUINT (idx + 1) = idx + 1 := wrapUINT_of_lt (by omega)
        rw [hw] at hb2 h
        obtain ⟨ri, hri, rfl⟩ := CreateNewObject_some hb2
        obtain ⟨h1, h2⟩ := ih _ _ r h (by omega)
        dsimp only at h1
        refine ⟨?_, by rw [h2, List.length_cons]; omega⟩
        rw [h1, List.map_append, List.map_singleton, hri, List.length_cons, List.range'_succ,
          List.append_assoc, List.singleton_append]

/-- Items whose object indices are their addresses: the index of the item at an address. -/
theorem getD_ObjCBIndex (items : List RenderItem) (n : Nat)
    (h : items.map (fun e => e.ObjCBIndex) = List.range n) (a : Nat) (ha : a < n) :
    (items.getD a {}).ObjCBIndex = a := by
  have hlen : items.length = n := by
    have := congrArg List.length h
    simpa using this
  have h1 : (items.map (fun e => e.ObjCBIndex))[a]? = some a := by
    rw [h]; exact List.getElem?_range ha
  rw [List.getElem?_map] at h1
  rw [List.getD_eq_getElem?_getD]
  cases hx : items[a]? with
  | none => rw [hx] at h1; cases h1
  | some e =>
    rw [hx] at h1
    simp only [Option.map_some', Option.some.injEq] at h1
    simpa using h1

/-- The object indices of `mAllRitems` after `BuildRenderItems`, by position. -/
theorem BuildRenderItems_indices (rm : RotationMath) (s s' : TreeBillboardsApp W)
    (hA : s.mAllRitems.length = 0) (h : BuildRenderItems rm s = some s') :
    s'.mAllRitems.map (fun e => e.ObjCBIndex) = List.range' 2 63 ++ [0, 1, 65] := by
  have hA' : s.mAllRitems = [] := List.length_eq_zero.mp hA
  unfold BuildRenderItems at h
  simp only [RitemBuild.ofApp, hA', List.length_nil, List.range_zero, List.nil_append] at h
  split at h
  · next m1 waterGeo hm1 hg1 =>
    split at h
    · next m2 landGeo hm2 hg2 =>
      split at h
      · cases h
      · next b idx hfold =>
        have hw1 : wrapUINT (0 + 1) = 1 := by decide
        rw [hw1] at hfold
        obtain ⟨h1, h2, -, -, -⟩ := call_fold_some s _ _ _ _ hfold
        obtain ⟨h3, h4⟩ := call_fold_indices s _ _ _ _ hfold (by rw [calls_length]; decide)
        rw [calls_length] at h1 h2 h3 h4
        dsimp only at h1 h2 h3 h4
        split at h
        · next m3 treeGeo hm3 hg3 =>
          simp only [Option.some.injEq] at h
          subst h
          simp only [List.length_append, List.length_singleton, List.length_nil, List.nil_append,
            List.map_append, List.map_cons, List.map_nil] at h1 h2 h3
          have hw : wrapUINT (idx + 1) = 65 := by rw [h4]; decide
          simp only [RitemBuild.install, h1, h2, List.map_map]
          refine ((List.map_congr_left ?_).trans (List.map_id _)).trans (by simp)
          intro a ha
          simp only [Function.comp_apply, id]
          refine getD_ObjCBIndex _ 66 ?_ a ?_
          · rw [List.map_append, h3, List.map_singleton]
            simp only [hw]
            decide
          · simp only [List.mem_append, List.mem_range', List.mem_cons, List.mem_singleton,
              List.not_mem_nil, or_false, List.length_singleton, List.length_cons,
              List.length_nil] at ha
            omega
        · cases h
    · cases h
  · cases h

theorem BuildFrameResources_eq (wm : WavesModel W) (device : Nat → FrameResourceDevice)
    (s : TreeBillboardsApp W) :
    BuildFrameResources wm device s = { s with
      mFrameResources := s.mFrameResources ++
        (List.range 3).map fun i =>
          FrameResource.create (device i) 1 (wrapUINT s.mAllRitems.length)
            (wrapUINT s.mMaterials.length) (wm.VertexCount % 4294967296).toNat } := by
  simp [BuildFrameResources, gNumFrameResources, List.range_succ, List.foldl]
/-- The object indices by position: the entry at position `p` is `p` only at the last position. -/
theorem index_by_position (p v : Nat)
    (h : (List.range' 2 63 ++ [0, 1, 65])[p]? = some v) : v = p ↔ p = 65 := by
  have hp : p < 66 := by
    rw [List.getElem?_eq_some] at h
    obtain ⟨hlt, -⟩ := h
    simpa using hlt
  by_cases h63 : p < 63
  · rw [List.getElem?_append_left (by simpa using h63), List.getElem?_range' _ _ h63] at h
    simp only [Option.some.injEq] at h
    omega
  · have hp3 : p = 63 ∨ p = 64 ∨ p = 65 := by omega
    rcases hp3 with rfl | rfl | rfl <;>
      · rw [List.getElem?_append_right (by simp)] at h
        simp at h
        omega

/-! ## The claims -/

/-- C1. Dirty propagation.  In a well-formed state with pairwise distinct slot indices, any
sequence of `Update` ticks returns.  A render item whose `NumFramesDirty` is `3` has the counter
`3 - t` after `t ≤ 3` ticks and `0` from the third tick on, and is otherwise unchanged; from the
third tick on the entry at its `ObjCBIndex` in the object buffer of each of the three frame
resources holds the transpose of its `World` and the transpose of its `TexTransform` (entry
`(i, j)` of the stored matrix is entry `(j, i)` of the item's), so later ticks leave counter and
entries as they are.  The same holds for every material other than the water material, its
`MatCBIndex` and the material buffers, where the entry holds the material's `DiffuseAlbedo`,
`FresnelR0` and `Roughness` and the transpose of its `MatTransform`. -/
theorem dirty_propagation (wm : WavesModel W) (s : TreeBillboardsApp W) (hs : UpdateReady wm s)
    (hnd : (s.mAllRitems.map fun x => x.ObjCBIndex).Nodup)
    (hndm : (s.mMaterials.map fun x => x.2.MatCBIndex).Nodup)
    (inps : List TickInput) :
    ∃ s', runTicks wm s inps = some s' ∧
      (∀ (p : Nat) (e : RenderItem), s.mAllRitems[p]? = some e → e.NumFramesDirty = 3 →
        s'.mAllRitems[p]? = some { e with NumFramesDirty := max (3 - inps.length) 0 } ∧
        (3 ≤ inps.length → ∀ k : Nat, k < 3 →
          ∃ (fr : FrameResource) (c : ObjectConstants), s'.mFrameResources[k]? = some fr ∧
            fr.ObjectCB.mMappedData[e.ObjCBIndex]? = some c ∧
            c = { World := Matrix.transpose e.World
                  TexTransform := Matrix.transpose e.TexTransform } ∧
            (∀ i j : Fin 4, c.World i j = e.World j i) ∧
            (∀ i j : Fin 4, c.TexTransform i j = e.TexTransform j i))) ∧
      (∀ (p : Nat) (key : String) (m : Material), s.mMaterials[p]? = some (key, m) →
        key ≠ "water" → m.NumFramesDirty = 3 →
        s'.mMaterials[p]? = some (key, { m with NumFramesDirty := max (3 - inps.length) 0 }) ∧
        (3 ≤ inps.length → ∀ k : Nat, k < 3 →
          ∃ (fr : FrameResource) (c : MaterialConstants), s'.mFrameResources[k]? = some fr ∧
            fr.MaterialCB.mMappedData[m.MatCBIndex]? = some c ∧
            c = { DiffuseAlbedo := m.DiffuseAlbedo
                  FresnelR0 := m.FresnelR0
                  Roughness := m.Roughness
                  MatTransform := Matrix.transpose m.MatTransform } ∧
            (∀ i j : Fin 4, c.MatTransform i j = m.MatTransform j i))) := by
  obtain ⟨s', hrun, hs'⟩ := runTicks_ready wm inps hs
  have hlen' : s'.mFrameResources.length = 3 := hs'.1
  refine ⟨s', hrun, ?_, ?_⟩
  · intro p e hp hd
    have hp' : s.mAllRitems[p]? = some { e with NumFramesDirty := 3 } := by
      rw [hp, ← hd]
    obtain ⟨s2, hrun2, -, hitem, hfresh⟩ := item_propagation wm p e inps s 3 hs hnd
      (by decide) hp' (slotsFresh_init s _)
    rw [hrun] at hrun2; cases hrun2
    refine ⟨hitem, ?_⟩
    intro h3 k hk
    have hz : max (3 - (inps.length : Int)) 0 = 0 := by omega
    rw [hz] at hfresh
    have hfr : s'.mFrameResources[k]? = some (s'.mFrameResources[k]) :=
      List.getElem?_eq_getElem (by omega)
    exact ⟨_, _, hfr, slotsFresh_zero hfresh hlen' k _ hfr, rfl, fun _ _ => rfl,
      fun _ _ => rfl⟩
  · intro p key m hp hkey hd
    have hp' : s.mMaterials[p]? = some (key, { m with NumFramesDirty := 3 }) := by
      rw [hp, ← hd]
    obtain ⟨s2, hrun2, -, hitem, hfresh⟩ := material_propagation wm p key m hkey inps s 3
      hs hndm (by decide) hp' (slotsFresh_init s _)
    rw [hrun] at hrun2; cases hrun2
    refine ⟨hitem, ?_⟩
    intro h3 k hk
    have hz : max (3 - (inps.length : Int)) 0 = 0 := by omega
    rw [hz] at hfresh
    have hfr : s'.mFrameResources[k]? = some (s'.mFrameResources[k]) :=
      List.getElem?_eq_getElem (by omega)
    exact ⟨_, _, hfr, slotsFresh_zero hfresh hlen' k _ hfr, rfl, fun _ _ => rfl⟩

/-- Witness of C1: the sample scene satisfies the hypotheses, and three ticks bring its land item
into all three frame resources, as the transposes of its identity matrices. -/
theorem dirty_propagation_witness :
    UpdateReady sampleWaves sampleApp ∧
    (sampleApp.mAllRitems.map fun x => x.ObjCBIndex).Nodup ∧
    (sampleApp.mMaterials.map fun x => x.2.MatCBIndex).Nodup ∧
    ∃ s', runTicks sampleWaves sampleApp [sampleInput, sampleInput, sampleInput] = some s' ∧
      (∃ e : RenderItem, s'.mAllRitems[0]? = some e ∧ e.NumFramesDirty = 0) ∧
      ∀ k : Nat, k < 3 →
        ∃ (fr : FrameResource) (c : ObjectConstants), s'.mFrameResources[k]? = some fr ∧
          fr.ObjectCB.mMappedData[1]? = some c ∧
          c = { World := Matrix.transpose Identity4x4
                TexTransform := Matrix.transpose Identity4x4 } :=
  ⟨by decide, by decide, by decide,
    match dirty_propagation sampleWaves sampleApp (by decide) (by decide) (by decide)
      [sampleInput, sampleInput, sampleInput] with
    | ⟨s', hrun, hitems, _⟩ =>
      ⟨s', hrun, ⟨_, (hitems 0 _ rfl rfl).1, rfl⟩, fun k hk =>
        match (hitems 0 _ rfl rfl).2 (by decide) k hk with
        | ⟨fr, c, hfr, hc, heq, _, _⟩ => ⟨fr, c, hfr, hc, heq⟩⟩⟩

/-- C2. Slot-reuse safety.  Take a run of frames, each an `Update` followed by a `Draw`, that
starts with all slot fences `0`, in which the completed value of the GPU fence does not decrease
between the check of a tick and its first write, and in which a tick that waits starts to write
only once the completed value has reached the fence of the slot it selected.  Then the run has
one record per frame, and for every frame the completed value at the moment its `Update` starts
to write into the selected slot is at least the fence recorded by the most recent earlier `Draw`
that used that slot (`0` when there is none). -/
theorem slot_reuse_safety (wm : WavesModel W) (sz : CBByteSizes) (s : TreeBillboardsApp W)
    (inps : List TickInput) (s' : TreeBillboardsApp W) (recs : List FrameRecord)
    (h0 : ∀ fr ∈ s.mFrameResources, fr.Fence = 0)
    (hgpu : GpuBehaves wm sz s inps)
    (hrun : runFrames wm sz s inps = some (s', recs)) :
    recs.length = inps.length ∧
    ∀ (k : Nat) (rec : FrameRecord), recs[k]? = some rec →
      fenceHistory rec.slot 0 (recs.take k) ≤ rec.completedAtWrite := by
  obtain ⟨hl, hk⟩ := runFrames_safe inps hrun hgpu
  refine ⟨hl, ?_⟩
  intro k rec hrec
  have h := hk k rec hrec
  have hz : slotFence s rec.slot = 0 := by
    unfold slotFence
    cases hfr : s.mFrameResources[rec.slot]? with
    | none => rfl
    | some fr => simp [h0 fr (List.getElem?_mem hfr)]
  rw [hz] at h
  exact h

/-- Witness of C2: four frames of the sample scene with an idle check and a completed GPU at
every write; the fourth frame reuses slot `1`, whose fence is `1`, and waits. -/
theorem slot_reuse_safety_witness :
    (∀ fr ∈ sampleApp.mFrameResources, fr.Fence = 0) ∧
    GpuBehaves sampleWaves {} sampleApp sampleRun ∧
    ∃ r, runFrames sampleWaves {} sampleApp sampleRun = some r ∧
      r.2.map (fun rec => (rec.slot, rec.waited, rec.fence)) =
        [(1, false, 1), (2, false, 2), (0, false, 3), (1, true, 4)] ∧
      ∀ (k : Nat) (rec : FrameRecord), r.2[k]? = some rec →
        fenceHistory rec.slot 0 (r.2.take k) ≤ rec.completedAtWrite :=
  have h0 : ∀ fr ∈ sampleApp.mFrameResources, fr.Fence = 0 := by decide
  have hg : GpuBehaves sampleWaves {} sampleApp sampleRun :=
    GpuBehaves_of_fast sampleRun sampleApp (FenceInv_init h0) (by decide) (by decide)
  ⟨h0, hg,
    match hr : runFrames sampleWaves {} sampleApp sampleRun with
    | none =>
      have h1 : (runFrames sampleWaves {} sampleApp sampleRun).isSome = true := by decide
      absurd (hr ▸ h1) (by decide)
    | some r =>
      ⟨r, rfl, by
          have : (runFrames sampleWaves {} sampleApp sampleRun).map
              (fun r => r.2.map (fun rec => (rec.slot, rec.waited, rec.fence))) =
              some [(1, false, 1), (2, false, 2), (0, false, 3), (1, true, 4)] := by decide
          rw [hr] at this
          exact Option.some.inj this,
        (slot_reuse_safety sampleWaves {} sampleApp sampleRun r.1 r.2 h0 hg hr).2⟩⟩

/-- C3. Ring-wait correctness.  The guard of the wait in `Update` holds exactly when the stored
fence `f` of the slot is non-zero and the reported completed value `c` is below it; it fails
whenever `f ≤ c` and whenever `f = 0`.  `Update` returns on every well-formed state, and whenever
it returns it has taken the waiting branch exactly when the fence of the slot it selected is
non-zero and above the completed value of its input. -/
theorem ring_wait_correct (wm : WavesModel W) (s : TreeBillboardsApp W) (inp : TickInput) :
    (∀ f c : Nat, (Update.mustWait f c = true ↔ f ≠ 0 ∧ c < f) ∧
      (f ≤ c → Update.mustWait f c = false) ∧ Update.mustWait 0 c = false) ∧
    (UpdateReady wm s → ∃ r, Update wm s inp = some r) ∧
    (∀ r, Update wm s inp = some r →
      ∃ fr, s.mFrameResources[(Update.nextIndex s.mCurrFrameResourceIndex).toNat]? = some fr ∧
        (r.2 = true ↔ fr.Fence ≠ 0 ∧ inp.completed < fr.Fence)) := by
  refine ⟨?_, fun hs => Update_ready hs inp, ?_⟩
  · intro f c
    refine ⟨mustWait_iff f c, ?_, ?_⟩
    · intro h
      cases hm : Update.mustWait f c with
      | false => rfl
      | true => have := (mustWait_iff f c).mp hm; omega
    · simp [Update.mustWait]
  · rintro ⟨s', w⟩ h
    obtain ⟨fr, waterMat, ocb, mcb, pcb, vb, p, ri, g, geo, hn, hfr, hw, -⟩ := Update_some h
    exact ⟨fr, hfr, by rw [hw]; exact mustWait_iff _ _⟩

/-- Witness of C3: on the sample scene `Update` returns without waiting, the fence of the
selected slot being `0`. -/
theorem ring_wait_correct_witness :
    UpdateReady sampleWaves sampleApp ∧
    ∃ r, Update sampleWaves sampleApp sampleInput = some r ∧ r.2 = false :=
  ⟨by decide,
    match (ring_wait_correct sampleWaves sampleApp sampleInput).2.1 (by decide) with
    | ⟨r, hr⟩ =>
      match (ring_wait_correct sampleWaves sampleApp sampleInput).2.2 r hr with
      | ⟨fr, hfr, hiff⟩ => ⟨r, hr, by
          cases h : r.2 with
          | false => rfl
          | true =>
            have h0 := (hiff.mp h).1
            have : fr = sampleFrameResource 131072 := by
              have e : sampleApp.mFrameResources[(Update.nextIndex
                sampleApp.mCurrFrameResourceIndex).toNat]? = some (sampleFrameResource 131072) := rfl
              rw [e] at hfr; exact (Option.some.inj hfr).symm
            subst this
            exact absurd rfl h0⟩⟩

/-- C4. Ring rotation.  Every `Update` that returns leaves the index `(i + 1) mod 3` for the
previous index `i`, a value among `0, 1, 2`, and points `mCurrFrameResource` at that slot.  From
a well-formed state every sequence of ticks returns, the index after `k` ticks from index `0` is
`k mod 3`, and this is the slot selected by the `k`-th tick for `k ≥ 1`.  Three consecutive ticks
select three distinct slots. -/
theorem ring_rotation (wm : WavesModel W) (s : TreeBillboardsApp W) :
    (∀ inp r, Update wm s inp = some r →
      r.1.mCurrFrameResourceIndex = (s.mCurrFrameResourceIndex + 1) % 3 ∧
      (r.1.mCurrFrameResourceIndex = 0 ∨ r.1.mCurrFrameResourceIndex = 1 ∨
        r.1.mCurrFrameResourceIndex = 2) ∧
      r.1.mCurrFrameResource = some r.1.mCurrFrameResourceIndex.toNat) ∧
    (UpdateReady wm s → ∀ inps : List TickInput, ∃ s', runTicks wm s inps = some s' ∧
      (s.mCurrFrameResourceIndex = 0 →
        s'.mCurrFrameResourceIndex = (inps.length : Int) % 3 ∧
        (1 ≤ inps.length → s'.mCurrFrameResource = some (inps.length % 3)))) ∧
    (∀ a b c r1 r2 r3, Update wm s a = some r1 → Update wm r1.1 b = some r2 →
      Update wm r2.1 c = some r3 →
      r1.1.mCurrFrameResource ≠ r2.1.mCurrFrameResource ∧
      r2.1.mCurrFrameResource ≠ r3.1.mCurrFrameResource ∧
      r1.1.mCurrFrameResource ≠ r3.1.mCurrFrameResource) := by
  refine ⟨?_, ?_, ?_⟩
  · intro inp r h
    obtain ⟨h1, h2, h3, h4⟩ := Update_index h
    exact ⟨h1, by omega, h4⟩
  · intro hs inps
    obtain ⟨s', hrun, -⟩ := runTicks_ready wm inps hs
    refine ⟨s', hrun, ?_⟩
    intro h0
    by_cases hnil : inps = []
    · subst hnil
      simp only [runTicks, Option.some.injEq] at hrun
      subst hrun
      simp [h0]
    · obtain ⟨e1, e2⟩ := runTicks_index inps hrun hnil
      rw [h0] at e1
      refine ⟨by rw [e1]; simp, fun _ => ?_⟩
      rw [e2, e1]
      congr 1
      omega
  · intro a b c r1 r2 r3 h1 h2 h3
    obtain ⟨a1, a2, a3, a4⟩ := Update_index h1
    obtain ⟨b1, b2, b3, b4⟩ := Update_index h2
    obtain ⟨c1, c2, c3, c4⟩ := Update_index h3
    rw [a4, b4, c4]
    refine ⟨?_, ?_, ?_⟩ <;> · intro h; simp only [Option.some.injEq] at h; omega

/-- Witness of C4: four ticks of the sample scene, started at index `0`, end at index `1`. -/
theorem ring_rotation_witness :
    UpdateReady sampleWaves sampleApp ∧
    ∃ s', runTicks sampleWaves sampleApp [sampleInput, sampleInput, sampleInput, sampleInput]
        = some s' ∧ s'.mCurrFrameResourceIndex = 1 ∧ s'.mCurrFrameResource = some 1 :=
  ⟨by decide,
    match (ring_rotation sampleWaves sampleApp).2.1 (by decide)
      [sampleInput, sampleInput, sampleInput, sampleInput] with
    | ⟨s', hrun, h⟩ => ⟨s', hrun, (h rfl).1, (h rfl).2 (by decide)⟩⟩

/-- C5. Cross-slot isolation.  `Update` returns on every well-formed state.  Whenever it returns,
the frame resources other than the one selected in the tick are what they were before it, and
the ring keeps its length; the selected frame resource keeps its fence and its command
allocator, and its object, material, pass and wave-vertex buffers are the old ones after the
tick's `CopyData` calls: the object and material constants of the dirty entities, the pass
constants of the tick at entry `0`, and the wave vertices of the tick. -/
theorem cross_slot_isolation (wm : WavesModel W) (s : TreeBillboardsApp W) (inp : TickInput) :
    (UpdateReady wm s → ∃ r, Update wm s inp = some r) ∧
    (∀ r, Update wm s inp = some r →
      ∃ cur, r.1.mCurrFrameResource = some cur ∧
        r.1.mFrameResources.length = s.mFrameResources.length ∧
        (∀ k : Nat, k ≠ cur → r.1.mFrameResources[k]? = s.mFrameResources[k]?) ∧
        ∃ fr fr' waterMat, s.mFrameResources[cur]? = some fr ∧
          r.1.mFrameResources[cur]? = some fr' ∧
          fr'.Fence = fr.Fence ∧ fr'.CmdListAlloc = fr.CmdListAlloc ∧
          mapFind "water" s.mMaterials = some waterMat ∧
          UploadBuffer.CopyAll (objWrites s.mAllRitems) fr.ObjectCB = some fr'.ObjectCB ∧
          UploadBuffer.CopyAll
            (matWrites (mapStore "water" (AnimateMaterials.scroll inp.gt waterMat) s.mMaterials))
            fr.MaterialCB = some fr'.MaterialCB ∧
          fr.PassCB.CopyData 0 r.1.mMainPassCB = some fr'.PassCB ∧
          UploadBuffer.CopyAll (UpdateWaves.writes wm r.1.mWaves) fr.WavesVB = some fr'.WavesVB) := by
  refine ⟨fun hs => Update_ready hs inp, ?_⟩
  rintro ⟨s', w⟩ h
  obtain ⟨fr, waterMat, ocb, mcb, pcb, vb, p, ri, g, geo, hn, hfr, -, hwm, hocb, hmcb, hpcb, hvb,
    -, -, -, -, rfl⟩ := Update_some h
  have hlt : (Update.nextIndex s.mCurrFrameResourceIndex).toNat < s.mFrameResources.length := by
    rw [List.getElem?_eq_some] at hfr; exact hfr.1
  refine ⟨_, rfl, by simp, ?_, fr, _, waterMat, hfr, List.getElem?_set_self hlt, rfl, rfl, hwm,
    hocb, hmcb, hpcb, hvb⟩
  intro k hk
  exact List.getElem?_set_ne (Ne.symm hk)

/-- Witness of C5: a tick of the sample scene selects slot `1` and leaves slots `0` and `2` as
they were. -/
theorem cross_slot_isolation_witness :
    UpdateReady sampleWaves sampleApp ∧
    ∃ r, Update sampleWaves sampleApp sampleInput = some r ∧
      r.1.mFrameResources[0]? = sampleApp.mFrameResources[0]? ∧
      r.1.mFrameResources[2]? = sampleApp.mFrameResources[2]? :=
  ⟨by decide,
    match (cross_slot_isolation sampleWaves sampleApp sampleInput).1 (by decide) with
    | ⟨r, hr⟩ =>
      match (cross_slot_isolation sampleWaves sampleApp sampleInput).2 r hr with
      | ⟨cur, hcur, _, hiso, _⟩ =>
        have hc : cur = 1 := by
          have h := Update_index hr
          have h1 : r.1.mCurrFrameResourceIndex = 1 := h.1
          rw [h.2.2.2, h1] at hcur
          exact (Option.some.inj hcur).symm
        ⟨r, hr, hiso 0 (by omega), hiso 2 (by omega)⟩⟩

/-- C6. Only entities with a positive counter are touched.  In a state whose current frame
resource holds every slot index in use and whose slot indices are pairwise distinct,
`UpdateObjectCBs` returns; a render item with `NumFramesDirty > 0` has its counter decremented by
exactly one and its entry in the current slot's object buffer set to the constants computed from
it; a render item whose counter is not positive (in particular `0`) is left as it is and its
entry in the current slot's buffer is unchanged; a counter that is not negative stays so.  The same
holds for `UpdateMaterialCBs`, the materials and the current slot's material buffer. -/
theorem dirty_pass_touches_only_positive (s : TreeBillboardsApp W) (cur : Nat) (fr : FrameResource)
    (hc : s.currFrameResource = some (cur, fr))
    (hobj : ∀ e ∈ s.mAllRitems, e.ObjCBIndex < fr.ObjectCB.mMappedData.length)
    (hmat : ∀ m ∈ s.mMaterials, m.2.MatCBIndex < fr.MaterialCB.mMappedData.length)
    (hnd : (s.mAllRitems.map fun e => e.ObjCBIndex).Nodup)
    (hndm : (s.mMaterials.map fun m => m.2.MatCBIndex).Nodup) :
    (∃ s' fr', UpdateObjectCBs s = some s' ∧ s'.currFrameResource = some (cur, fr') ∧
      s'.mAllRitems.length = s.mAllRitems.length ∧ s'.mMaterials = s.mMaterials ∧
      ∀ (p : Nat) (e : RenderItem), s.mAllRitems[p]? = some e →
        (e.NumFramesDirty > 0 →
          s'.mAllRitems[p]? = some { e with NumFramesDirty := e.NumFramesDirty - 1 } ∧
          fr'.ObjectCB.mMappedData[e.ObjCBIndex]? = some (objConstants e)) ∧
        (¬ e.NumFramesDirty > 0 →
          s'.mAllRitems[p]? = some e ∧
          fr'.ObjectCB.mMappedData[e.ObjCBIndex]? = fr.ObjectCB.mMappedData[e.ObjCBIndex]?) ∧
        (0 ≤ e.NumFramesDirty → ∃ e' : RenderItem, s'.mAllRitems[p]? = some e' ∧ 0 ≤ e'.NumFramesDirty)) ∧
    (∃ s' fr', UpdateMaterialCBs s = some s' ∧ s'.currFrameResource = some (cur, fr') ∧
      s'.mMaterials.length = s.mMaterials.length ∧ s'.mAllRitems = s.mAllRitems ∧
      ∀ (p : Nat) (k : String) (m : Material), s.mMaterials[p]? = some (k, m) →
        (m.NumFramesDirty > 0 →
          s'.mMaterials[p]? = some (k, { m with NumFramesDirty := m.NumFramesDirty - 1 }) ∧
          fr'.MaterialCB.mMappedData[m.MatCBIndex]? = some (matConstants m)) ∧
        (¬ m.NumFramesDirty > 0 →
          s'.mMaterials[p]? = some (k, m) ∧
          fr'.MaterialCB.mMappedData[m.MatCBIndex]? = fr.MaterialCB.mMappedData[m.MatCBIndex]?) ∧
        (0 ≤ m.NumFramesDirty →
          ∃ m' : Material, s'.mMaterials[p]? = some (k, m') ∧ 0 ≤ m'.NumFramesDirty)) := by
  have hlt : cur < s.mFrameResources.length := by
    have := (currFrameResource_eq_some.mp hc).2
    rw [List.getElem?_eq_some] at this; exact this.1
  constructor
  · obtain ⟨cb, hcb⟩ := CopyAll_isSome (objWrites s.mAllRitems) fr.ObjectCB (by
      intro w hw
      obtain ⟨e, he, _, rfl⟩ := objWrites_index hw
      exact hobj e he)
    refine ⟨_, { fr with ObjectCB := cb }, UpdateObjectCBs_of hc hcb, ?_, by simp, rfl, ?_⟩
    · exact currFrameResource_set hc _ rfl rfl
    · intro p e hpe
      have he : e ∈ s.mAllRitems := List.getElem?_mem hpe
      have hentry := objWrites_entry hnd hcb he
      have hget : (s.mAllRitems.map tickItem)[p]? = some (tickItem e) := by
        rw [List.getElem?_map, hpe]; rfl
      refine ⟨fun hd => ⟨?_, ?_⟩, fun hd => ⟨?_, ?_⟩, fun h0 => ⟨tickItem e, hget, ?_⟩⟩
      · dsimp only; rw [hget]; simp [tickItem, hd]
      · dsimp only; rw [hentry]; simp [hd]
      · dsimp only; rw [hget]; simp [tickItem, hd]
      · dsimp only; rw [hentry]; simp [hd]
      · unfold tickItem; split
        · dsimp only; omega
        · exact h0
  · obtain ⟨cb, hcb⟩ := CopyAll_isSome (matWrites s.mMaterials) fr.MaterialCB (by
      intro w hw
      obtain ⟨e, he, _, rfl⟩ := matWrites_index hw
      exact hmat e he)
    refine ⟨_, { fr with MaterialCB := cb }, UpdateMaterialCBs_of hc hcb, ?_, by simp, rfl, ?_⟩
    · exact currFrameResource_set hc _ rfl rfl
    · intro p k m hpe
      have he : (k, m) ∈ s.mMaterials := List.getElem?_mem hpe
      have hentry := matWrites_entry hndm hcb he
      have hget : (s.mMaterials.map fun e => (e.1, tickMat e.2))[p]? = some (k, tickMat m) := by
        rw [List.getElem?_map, hpe]; rfl
      refine ⟨fun hd => ⟨?_, ?_⟩, fun hd => ⟨?_, ?_⟩, fun h0 => ⟨tickMat m, hget, ?_⟩⟩
      · dsimp only; rw [hget]; simp [tickMat, hd]
      · dsimp only at hentry ⊢; rw [hentry]; simp [hd]
      · dsimp only; rw [hget]; simp [tickMat, hd]
      · dsimp only at hentry ⊢; rw [hentry]; simp [hd]
      · unfold tickMat; split
        · dsimp only; omega
        · exact h0

/-- Witness of C6: in the sample scene inside a frame every slot index is in bounds and the
indices are pairwise distinct; `UpdateObjectCBs` then lowers the counter of the land item from
`3` to `2` and writes its constants into entry `1` of slot `1`. -/
theorem dirty_pass_touches_only_positive_witness :
    sampleAppInFrame.currFrameResource = some (1, sampleFrameResource 131072) ∧
    (∀ e ∈ sampleAppInFrame.mAllRitems,
      e.ObjCBIndex < (sampleFrameResource 131072).ObjectCB.mMappedData.length) ∧
    (∀ m ∈ sampleAppInFrame.mMaterials,
      m.2.MatCBIndex < (sampleFrameResource 131072).MaterialCB.mMappedData.length) ∧
    (sampleAppInFrame.mAllRitems.map fun e => e.ObjCBIndex).Nodup ∧
    (sampleAppInFrame.mMaterials.map fun m => m.2.MatCBIndex).Nodup ∧
    ∃ s' fr', UpdateObjectCBs sampleAppInFrame = some s' ∧
      s'.currFrameResource = some (1, fr') ∧
      (∃ e : RenderItem, s'.mAllRitems[0]? = some e ∧ e.NumFramesDirty = 2) ∧
      fr'.ObjectCB.mMappedData[1]? = some (objConstants {}) :=
  ⟨rfl, by decide, by decide, by decide, by decide,
    match (dirty_pass_touches_only_positive sampleAppInFrame 1 (sampleFrameResource 131072) rfl
      (by decide) (by decide) (by decide) (by decide)).1 with
    | ⟨s', fr', h1, h2, _, _, hitems⟩ =>
      ⟨s', fr', h1, h2, ⟨_, ((hitems 0 _ rfl).1 (by decide)).1, rfl⟩,
        ((hitems 0 _ rfl).1 (by decide)).2⟩⟩

/-- C7. Draw order.  `Draw` returns on every state that is ready for it.  Whenever it returns,
the command list is the fixed prologue, the commands of `DrawRenderItems` for the Opaque list,
the switch to the `alphaTested` pipeline state and the commands for the AlphaTested list, the
switch to `treeSprites` and the commands for the AlphaTestedTreeSprites list, the switch to
`transparent` and the commands for the Transparent list, and the closing barrier; so its indexed
draw submissions are those of the items of `mRitemLayer[0]`, `mRitemLayer[2]`, `mRitemLayer[3]`,
`mRitemLayer[1]`, in this order and each list in its own order, one per item, although the
enumeration numbers Transparent (`1`) before AlphaTested (`2`). -/
theorem draw_order (s : TreeBillboardsApp W) (sz : CBByteSizes) :
    (DrawReady s → ∃ r, Draw s sz = some r) ∧
    (∀ r, Draw s sz = some r →
      (∃ (fr : FrameResource) (c1 c2 c3 c4 : List Cmd),
        DrawRenderItems s sz (s.layer RenderLayer.Opaque) = some c1 ∧
        DrawRenderItems s sz (s.layer RenderLayer.AlphaTested) = some c2 ∧
        DrawRenderItems s sz (s.layer RenderLayer.AlphaTestedTreeSprites) = some c3 ∧
        DrawRenderItems s sz (s.layer RenderLayer.Transparent) = some c4 ∧
        r.2.commands =
          [ Cmd.Reset fr.CmdListAlloc "opaque", Cmd.RSSetViewports, Cmd.RSSetScissorRects,
            Cmd.ResourceBarrier s.mCurrBackBuffer true,
            Cmd.ClearRenderTargetView s.mMainPassCB.FogColor, Cmd.ClearDepthStencilView,
            Cmd.OMSetRenderTargets, Cmd.SetDescriptorHeaps s.mSrvDescriptorHeap,
            Cmd.SetGraphicsRootSignature,
            Cmd.SetGraphicsRootConstantBufferView 2 fr.PassCB.Resource.GPUVirtualAddress ] ++ c1 ++
          [Cmd.SetPipelineState "alphaTested"] ++ c2 ++
          [Cmd.SetPipelineState "treeSprites"] ++ c3 ++
          [Cmd.SetPipelineState "transparent"] ++ c4 ++
          [Cmd.ResourceBarrier s.mCurrBackBuffer false]) ∧
      r.2.commands.filter Cmd.isDraw =
        (s.mRitemLayer 0 ++ s.mRitemLayer 2 ++ s.mRitemLayer 3 ++ s.mRitemLayer 1).filterMap
          (drawOf s) ∧
      (r.2.commands.filter Cmd.isDraw).length =
        (s.mRitemLayer 0 ++ s.mRitemLayer 2 ++ s.mRitemLayer 3 ++ s.mRitemLayer 1).length) ∧
    s.layer RenderLayer.Opaque = s.mRitemLayer 0 ∧
    s.layer RenderLayer.AlphaTested = s.mRitemLayer 2 ∧
    s.layer RenderLayer.AlphaTestedTreeSprites = s.mRitemLayer 3 ∧
    s.layer RenderLayer.Transparent = s.mRitemLayer 1 := by
  refine ⟨fun h => Draw_ready sz h, ?_, rfl, rfl, rfl, rfl⟩
  rintro ⟨s', sub⟩ h
  obtain ⟨cur, fr, c1, c2, c3, c4, hc, h1, h2, h3, h4, hcmds, -, -⟩ := Draw_some h
  obtain ⟨d1, l1⟩ := DrawRenderItems_loop_draws _ h1
  obtain ⟨d2, l2⟩ := DrawRenderItems_loop_draws _ h2
  obtain ⟨d3, l3⟩ := DrawRenderItems_loop_draws _ h3
  obtain ⟨d4, l4⟩ := DrawRenderItems_loop_draws _ h4
  have hfilter : sub.commands.filter Cmd.isDraw =
      (s.mRitemLayer 0 ++ s.mRitemLayer 2 ++ s.mRitemLayer 3 ++ s.mRitemLayer 1).filterMap
        (drawOf s) := by
    rw [hcmds]
    simp only [List.filter_append, List.filterMap_append, d1, d2, d3, d4]
    simp [Cmd.isDraw, TreeBillboardsApp.layer, RenderLayer.toFin]
  refine ⟨⟨fr, c1, c2, c3, c4, ?_, ?_, ?_, ?_, hcmds⟩, hfilter, ?_⟩
  · simp only [DrawRenderItems, hc, h1]
  · simp only [DrawRenderItems, hc, h2]
  · simp only [DrawRenderItems, hc, h3]
  · simp only [DrawRenderItems, hc, h4]
  · rw [hfilter]
    simp only [List.filterMap_append, List.length_append]
    simp only [TreeBillboardsApp.layer, RenderLayer.toFin] at l1 l2 l3 l4
    omega

/-- Witness of C7: the sample scene inside a frame is ready for `Draw`, which submits the two
opaque items and then the transparent water item. -/
theorem draw_order_witness :
    DrawReady sampleAppInFrame ∧
    ∃ r, Draw sampleAppInFrame {} = some r ∧
      r.2.commands.filter Cmd.isDraw =
        [ Cmd.DrawIndexedInstanced 6 1 0 0 0, Cmd.DrawIndexedInstanced 36 1 6 4 0,
          Cmd.DrawIndexedInstanced 6 1 0 0 0 ] :=
  ⟨by decide,
    match (draw_order sampleAppInFrame {}).1 (by decide) with
    | ⟨r, hr⟩ => ⟨r, hr, ((draw_order sampleAppInFrame {}).2.1 r hr).2.1.trans (by decide)⟩⟩

/-- C8 as amended.  Water UV wrap for time steps of at most ten seconds.  From a well-formed
state whose water offsets `MatTransform(3,0)` and `MatTransform(3,1)` lie in `[0, 1)` (such as
`(0, 0)`), and for ticks whose time increments lie in `[0, 10]`, fixed or not, every sequence of
ticks returns and leaves both offsets in `[0, 1)`; so does a single `AnimateMaterials` call. -/
theorem water_uv_wrap (wm : WavesModel W) (s : TreeBillboardsApp W) (hs : UpdateReady wm s)
    (waterMat : Material) (hw : mapFind "water" s.mMaterials = some waterMat)
    (hu : 0 ≤ waterMat.MatTransform 3 0 ∧ waterMat.MatTransform 3 0 < 1)
    (hv : 0 ≤ waterMat.MatTransform 3 1 ∧ waterMat.MatTransform 3 1 < 1) :
    (∀ inps : List TickInput, (∀ inp ∈ inps, 0 ≤ inp.gt.DeltaTime ∧ inp.gt.DeltaTime ≤ 10) →
      ∃ s' m, runTicks wm s inps = some s' ∧ mapFind "water" s'.mMaterials = some m ∧
        (0 ≤ m.MatTransform 3 0 ∧ m.MatTransform 3 0 < 1) ∧
        (0 ≤ m.MatTransform 3 1 ∧ m.MatTransform 3 1 < 1)) ∧
    (∀ gt : GameTimer, 0 ≤ gt.DeltaTime → gt.DeltaTime ≤ 10 →
      ∃ s' m, AnimateMaterials s gt = some s' ∧ mapFind "water" s'.mMaterials = some m ∧
        (0 ≤ m.MatTransform 3 0 ∧ m.MatTransform 3 0 < 1) ∧
        (0 ≤ m.MatTransform 3 1 ∧ m.MatTransform 3 1 < 1)) := by
  refine ⟨fun inps hdt => runTicks_water_range inps s waterMat hs hdt hw hu hv, ?_⟩
  intro gt h0 h10
  obtain ⟨hu1, hv1⟩ := scroll_range gt waterMat h0 h10 hu hv
  refine ⟨_, _, AnimateMaterials_of hw, ?_, hu1, hv1⟩
  dsimp only
  exact mapFind_mapStore_self _ _ _ (by rw [hw]; rfl)

/-- Witness of C8 as amended: the sample scene starts with the water offsets `(0, 0)`, and three
ticks of a thirtieth of a second keep them in `[0, 1)`. -/
theorem water_uv_wrap_witness :
    UpdateReady sampleWaves sampleApp ∧
    (∀ inp ∈ [sampleInput, sampleInput, sampleInput],
      0 ≤ inp.gt.DeltaTime ∧ inp.gt.DeltaTime ≤ 10) ∧
    ∃ s' m, runTicks sampleWaves sampleApp [sampleInput, sampleInput, sampleInput] = some s' ∧
      mapFind "water" s'.mMaterials = some m ∧
      (0 ≤ m.MatTransform 3 0 ∧ m.MatTransform 3 0 < 1) ∧
      (0 ≤ m.MatTransform 3 1 ∧ m.MatTransform 3 1 < 1) :=
  have hdt : ∀ inp ∈ [sampleInput, sampleInput, sampleInput],
      0 ≤ inp.gt.DeltaTime ∧ inp.gt.DeltaTime ≤ 10 := by
    intro inp hinp
    simp only [List.mem_cons, List.mem_singleton, List.not_mem_nil, or_false, or_self] at hinp
    subst hinp
    simp only [sampleInput]
    norm_num
  ⟨by decide, hdt,
    (water_uv_wrap sampleWaves sampleApp (by decide)
      { Name := "water", MatCBIndex := 1, DiffuseSrvHeapIndex := 1 } rfl
      (by simp [Identity4x4]) (by simp [Identity4x4])).1 _ hdt⟩

/-- Counterexample to C8 as stated: with the time increment `25` and the offsets `(0, 0)`, the
first `AnimateMaterials` call stores the U offset `3 / 2`, which is not below `1`. -/
theorem water_uv_wrap_counterexample :
    (0 : ℚ) ≤ 25 ∧
    ∃ m0 s' m, mapFind "water" sampleApp.mMaterials = some m0 ∧
      m0.MatTransform 3 0 = 0 ∧ m0.MatTransform 3 1 = 0 ∧
      AnimateMaterials sampleApp { DeltaTime := 25, TotalTime := 25 } = some s' ∧
      mapFind "water" s'.mMaterials = some m ∧ m.MatTransform 3 0 = 3 / 2 ∧
      ¬ m.MatTransform 3 0 < 1 := by
  refine ⟨by norm_num, { Name := "water", MatCBIndex := 1, DiffuseSrvHeapIndex := 1 }, _, _, rfl,
    by simp [Identity4x4], by simp [Identity4x4], AnimateMaterials_of rfl, rfl, ?_, ?_⟩
  · rw [(scroll_offsets _ _).1]; simp [Identity4x4]; norm_num
  · rw [(scroll_offsets _ _).1]; simp [Identity4x4]; norm_num

/-- C9.  Per-item binding, in the `UINT` arithmetic of the code.  With a current frame resource and a
list of render-item pointers that resolve, `DrawRenderItems` returns seven commands per item, in
list order, the last of each seven being the only indexed draw of the item, with the arguments
`(IndexCount, 1, StartIndexLocation, BaseVertexLocation, 0)`.  For the item `ri` it binds the
texture descriptor at `heapStart + DiffuseSrvHeapIndex * descriptorSize` modulo `2^64`, the
object constants at `objectBase + (ObjCBIndex * objCBByteSize mod 2^32)` modulo `2^64`, and the
material constants at `materialBase + (MatCBIndex * matCBByteSize mod 2^32)` modulo `2^64`; when
the products are below `2^32` and the sums below `2^64` these are the addresses
`heapStart + DiffuseSrvHeapIndex * descriptorSize`, `objectBase + ObjCBIndex * objCBByteSize`
and `materialBase + MatCBIndex * matCBByteSize`. -/
theorem per_item_binding (s : TreeBillboardsApp W) (sz : CBByteSizes) (cur : Nat)
    (fr : FrameResource) (ritems : List Nat)
    (hc : s.currFrameResource = some (cur, fr))
    (hres : ∀ ri ∈ ritems, itemResolves s ri = true) :
    ∃ cmds, DrawRenderItems s sz ritems = some cmds ∧
      cmds.length = 7 * ritems.length ∧
      cmds.filter Cmd.isDraw = ritems.filterMap (drawOf s) ∧
      (cmds.filter Cmd.isDraw).length = ritems.length ∧
      ∀ (i ri : Nat) (item : RenderItem) (mat : Material), ritems[i]? = some ri →
        s.mAllRitems[ri]? = some item →
        (item.Mat.bind fun m => mapFind m s.mMaterials) = some mat →
        cmds[7 * i + 3]? = some (Cmd.SetGraphicsRootDescriptorTable 0
          ((s.mSrvDescriptorHeap + mat.DiffuseSrvHeapIndex * s.mCbvSrvDescriptorSize) % 2 ^ 64)) ∧
        cmds[7 * i + 4]? = some (Cmd.SetGraphicsRootConstantBufferView 1
          ((fr.ObjectCB.Resource.GPUVirtualAddress +
            item.ObjCBIndex * sz.objCBByteSize % 2 ^ 32) % 2 ^ 64)) ∧
        cmds[7 * i + 5]? = some (Cmd.SetGraphicsRootConstantBufferView 3
          ((fr.MaterialCB.Resource.GPUVirtualAddress +
            mat.MatCBIndex * sz.matCBByteSize % 2 ^ 32) % 2 ^ 64)) ∧
        cmds[7 * i + 6]? = some (Cmd.DrawIndexedInstanced item.IndexCount 1
          item.StartIndexLocation item.BaseVertexLocation 0) ∧
        (item.ObjCBIndex * sz.objCBByteSize < 2 ^ 32 →
          mat.MatCBIndex * sz.matCBByteSize < 2 ^ 32 →
          s.mSrvDescriptorHeap + mat.DiffuseSrvHeapIndex * s.mCbvSrvDescriptorSize < 2 ^ 64 →
          fr.ObjectCB.Resource.GPUVirtualAddress + item.ObjCBIndex * sz.objCBByteSize < 2 ^ 64 →
          fr.MaterialCB.Resource.GPUVirtualAddress + mat.MatCBIndex * sz.matCBByteSize < 2 ^ 64 →
          cmds[7 * i + 3]? = some (Cmd.SetGraphicsRootDescriptorTable 0
            (s.mSrvDescriptorHeap + mat.DiffuseSrvHeapIndex * s.mCbvSrvDescriptorSize)) ∧
          cmds[7 * i + 4]? = some (Cmd.SetGraphicsRootConstantBufferView 1
            (fr.ObjectCB.Resource.GPUVirtualAddress + item.ObjCBIndex * sz.objCBByteSize)) ∧
          cmds[7 * i + 5]? = some (Cmd.SetGraphicsRootConstantBufferView 3
            (fr.MaterialCB.Resource.GPUVirtualAddress + mat.MatCBIndex * sz.matCBByteSize))) := by
  obtain ⟨cmds, hcmds⟩ := DrawRenderItems_loop_ready sz fr ritems hres
  obtain ⟨hlen, hat⟩ := DrawRenderItems_loop_at ritems hcmds
  obtain ⟨hd, hdl⟩ := DrawRenderItems_loop_draws ritems hcmds
  refine ⟨cmds, by simp only [DrawRenderItems, hc, hcmds], hlen, hd, by rw [hd, hdl], ?_⟩
  intro i ri item mat hi hitem hmat
  obtain ⟨c, hci, hj⟩ := hat i ri hi
  obtain ⟨item', geo, vb, ib, mat', hitem', -, -, -, hmat', rfl⟩ := DrawRenderItems_item_some hci
  rw [hitem] at hitem'; cases hitem'
  rw [hmat] at hmat'; cases hmat'
  have h3 := hj 3 (by omega)
  have h4 := hj 4 (by omega)
  have h5 := hj 5 (by omega)
  have h6 := hj 6 (by omega)
  simp only [List.getElem?_cons_succ, List.getElem?_cons_zero, wrapUINT64, wrapUINT] at h3 h4 h5 h6
  refine ⟨h3, h4, h5, h6, ?_⟩
  intro n1 n2 n3 n4 n5
  rw [h3, h4, h5, Nat.mod_eq_of_lt n1, Nat.mod_eq_of_lt n2, Nat.mod_eq_of_lt n3,
    Nat.mod_eq_of_lt n4, Nat.mod_eq_of_lt n5]
  exact ⟨rfl, rfl, rfl⟩

/-- Witness of C9 as amended: the opaque list of the sample scene inside a frame resolves, and
its second item is bound at the third object entry of slot `1`. -/
theorem per_item_binding_witness :
    sampleAppInFrame.currFrameResource = some (1, sampleFrameResource 131072) ∧
    (∀ ri ∈ [0, 1], itemResolves sampleAppInFrame ri = true) ∧
    ∃ cmds, DrawRenderItems sampleAppInFrame {} [0, 1] = some cmds ∧ cmds.length = 14 ∧
      cmds[11]? = some (Cmd.SetGraphicsRootConstantBufferView 1 (143360 + 2 * 256)) ∧
      cmds[13]? = some (Cmd.DrawIndexedInstanced 36 1 6 4 0) :=
  ⟨rfl, by decide,
    match per_item_binding sampleAppInFrame {} 1 (sampleFrameResource 131072) [0, 1] rfl
      (by decide) with
    | ⟨cmds, h, hlen, _, _, hat⟩ =>
      ⟨cmds, h, hlen,
        ((hat 1 1 _ _ rfl rfl rfl).2.2.2.2 (by decide) (by decide) (by decide) (by decide)
          (by decide)).2.1,
        (hat 1 1 _ _ rfl rfl rfl).2.2.2.1⟩⟩

/-- The wrap of the `UINT` product at work: for a render item whose `ObjCBIndex` is still the
initial `UINT` value `-1`, the product `ObjCBIndex * objCBByteSize` wraps in 32 bits, and the
object constants are bound at `objectBase + 4294967040`, not at `objectBase + 4294967295 * 256`.
No render item the scene construction builds keeps that initial value. -/
theorem unassigned_index_wraps :
    ∃ item cmds, sampleAppUnindexed.mAllRitems[3]? = some item ∧ item.ObjCBIndex = 4294967295 ∧
      DrawRenderItems sampleAppUnindexed {} [3] = some cmds ∧
      cmds[4]? = some (Cmd.SetGraphicsRootConstantBufferView 1 (143360 + 4294967040)) ∧
      Cmd.SetGraphicsRootConstantBufferView 1 (143360 + 4294967295 * 256) ∉ cmds :=
  ⟨_, _, rfl, rfl, rfl, by decide, by decide⟩

/-- C10. Fence recording.  `Draw` returns on every state that is ready for it.  Whenever it
returns, the fence counter is the old one plus one as a `UINT64`, this value is the one
signalled on the queue and is stored in the `Fence` field of the frame resource
`mCurrFrameResource` points to (the slot selected by the preceding `Update`), and no other field
of that frame resource and no other frame resource changes.  As long as the 64-bit counter does
not wrap the counter grows by exactly one and the consistency of the fences is kept: no slot
fence exceeds the counter and different slots do not share a non-zero fence.  `Update` keeps
that consistency too, it holds when all fences are `0`, and therefore it holds after every run
of frames from such a state. -/
theorem fence_recording (wm : WavesModel W) (s : TreeBillboardsApp W) (sz : CBByteSizes) :
    (DrawReady s → ∃ r, Draw s sz = some r) ∧
    (∀ r, Draw s sz = some r →
      r.1.mCurrentFence = (s.mCurrentFence + 1) % 2 ^ 64 ∧ r.2.signal = r.1.mCurrentFence ∧
      (∃ cur fr, s.mCurrFrameResource = some cur ∧ r.1.mCurrFrameResource = some cur ∧
        s.mFrameResources[cur]? = some fr ∧
        r.1.mFrameResources[cur]? = some { fr with Fence := r.1.mCurrentFence } ∧
        ∀ k : Nat, k ≠ cur → r.1.mFrameResources[k]? = s.mFrameResources[k]?) ∧
      (s.mCurrentFence + 1 < 2 ^ 64 →
        r.1.mCurrentFence = s.mCurrentFence + 1 ∧ (FenceInv s → FenceInv r.1))) ∧
    (∀ inp r, Update wm s inp = some r → FenceInv s → FenceInv r.1) ∧
    (∀ inps s' recs, (∀ fr ∈ s.mFrameResources, fr.Fence = 0) →
      s.mCurrentFence + inps.length < 2 ^ 64 → runFrames wm sz s inps = some (s', recs) →
      FenceInv s' ∧ s'.mCurrentFence = s.mCurrentFence + inps.length) := by
  refine ⟨fun h => Draw_ready sz h, ?_, ?_, ?_⟩
  · intro r h
    obtain ⟨h1, h2, h3⟩ := Draw_effect h
    exact ⟨h1, h2, h3, fun hno => ⟨(Draw_fences h hno).1, FenceInv_Draw h hno⟩⟩
  · intro inp r h hinv
    exact FenceInv_Update h hinv
  · intro inps s' recs h0 hno hrun
    exact runFrames_fences inps hrun hno (FenceInv_init h0)

/-- Witness of C10: `Draw` on the sample scene inside a frame raises the fence counter from `0`
to `1` and records `1` on slot `1`. -/
theorem fence_recording_witness :
    DrawReady sampleAppInFrame ∧ sampleAppInFrame.mCurrentFence + 1 < 2 ^ 64 ∧
    ∃ r, Draw sampleAppInFrame {} = some r ∧ r.1.mCurrentFence = 1 ∧
      (r.1.mFrameResources[1]?).map (fun fr => fr.Fence) = some 1 :=
  ⟨by decide, by decide,
    match (fence_recording sampleWaves sampleAppInFrame {}).1 (by decide) with
    | ⟨r, hr⟩ =>
      match (fence_recording sampleWaves sampleAppInFrame {}).2.1 r hr with
      | ⟨_, _, ⟨cur, fr, hcur, _, _, hfr', _⟩, hno⟩ =>
        have hc : cur = 1 := (Option.some.inj hcur).symm
        have h1 : r.1.mCurrentFence = 1 := (hno (by decide)).1
        ⟨r, hr, h1, by subst hc; rw [hfr', h1]; rfl⟩⟩

/-- C11. Layer partition.  `BuildRenderItems` returns when the materials and geometries it names
exist.  Called with no render item built yet, it leaves 66 render items in `mAllRitems`, 64 of
them in the opaque layer, one in the transparent layer, one in the tree-sprite layer and none in
the alpha-tested layer; every item of `mAllRitems` occurs in exactly one layer list and there
exactly once, and every entry of a layer list is an item of `mAllRitems`.  The opaque layer lists
the land item, moved into `mAllRitems` after the 63 objects, and then the objects in the order of
their creation. -/
theorem layer_partition (rm : RotationMath) (s : TreeBillboardsApp W) :
    (RitemsReady s → ∃ s', BuildRenderItems rm s = some s') ∧
    ∀ s', s.mAllRitems.length = 0 → (∀ l, s.mRitemLayer l = []) →
      BuildRenderItems rm s = some s' →
      s'.mAllRitems.length = 66 ∧
      (s'.mRitemLayer RenderLayer.Opaque.toFin).length = 64 ∧
      (s'.mRitemLayer RenderLayer.Transparent.toFin).length = 1 ∧
      (s'.mRitemLayer RenderLayer.AlphaTested.toFin).length = 0 ∧
      (s'.mRitemLayer RenderLayer.AlphaTestedTreeSprites.toFin).length = 1 ∧
      (∀ p, p < s'.mAllRitems.length →
        ∃ l : Fin 4, (s'.mRitemLayer l).count p = 1 ∧
          ∀ l' : Fin 4, l' ≠ l → (s'.mRitemLayer l').count p = 0) ∧
      (∀ (l : Fin 4) (p : Nat), p ∈ s'.mRitemLayer l → p < s'.mAllRitems.length) ∧
      s'.mRitemLayer RenderLayer.Opaque.toFin = 64 :: List.range 63 ∧
      s'.mRitemLayer RenderLayer.Transparent.toFin = [63] ∧
      s'.mRitemLayer RenderLayer.AlphaTestedTreeSprites.toFin = [65] ∧
      s'.mWavesRitem = some 63 := by
  refine ⟨BuildRenderItems_ready rm s, ?_⟩
  intro s' hA hL h
  obtain ⟨hlen, h0, h1, h2, h3, hw⟩ := BuildRenderItems_layout rm s s' hA hL h
  have hfun := BuildRenderItems_layers rm s s' hA hL h
  refine ⟨hlen, ?_, ?_, ?_, ?_, ?_, ?_, h0, h1, h3, hw⟩
  · rw [hfun]; decide
  · rw [hfun]; decide
  · rw [hfun]; decide
  · rw [hfun]; decide
  · rw [hlen, hfun]; decide
  · rw [hlen, hfun]; decide

/-- Witness of C11: the unbuilt sample scene has all materials and geometries, and
`BuildRenderItems` leaves it with 66 render items. -/
theorem layer_partition_witness :
    RitemsReady sampleSceneUnbuilt ∧
    ∃ s', BuildRenderItems sampleRotationMath sampleSceneUnbuilt = some s' ∧
      s'.mAllRitems.length = 66 ∧
      (s'.mRitemLayer RenderLayer.Opaque.toFin).length = 64 :=
  ⟨by decide,
    match (layer_partition sampleRotationMath sampleSceneUnbuilt).1 (by decide) with
    | ⟨s', h⟩ =>
      match (layer_partition sampleRotationMath sampleSceneUnbuilt).2 s' rfl (fun _ => rfl) h with
      | ⟨h1, h2, _⟩ => ⟨s', h, h1, h2⟩⟩

/-- C12 as amended.  Sub-mesh index ranges, for generated meshes whose index counts add up to
less than `2^32`, the range of the `UINT` offsets: the sub-meshes of `boxGeo` are stored under
the keys box, cylinder, sphere, geosphere, quad, triprism, cone, pyramid, diamond, wedge, torus;
each has the index count of its mesh; their index ranges follow one another in that order from
position `0` to the length of the combined index buffer, so they lie inside the buffer, are
pairwise disjoint, and every position of the buffer is in one of them. -/
theorem submesh_ranges_tile (m : BoxMeshes) (vb ib : ID3D12Resource)
    (hi : (m.named.map fun e => e.2.Indices32.length).sum < 2 ^ 32) :
    (BuildBoxGeometry m vb ib).geo.DrawArgs.map Prod.fst =
      ["box", "cylinder", "sphere", "geosphere", "quad", "triprism", "cone", "pyramid",
        "diamond", "wedge", "torus"] ∧
    ((BuildBoxGeometry m vb ib).geo.DrawArgs.map fun e => e.2.IndexCount) =
      m.named.map (fun e => e.2.Indices32.length) ∧
    (BuildBoxGeometry m vb ib).indices.length =
      (m.named.map fun e => e.2.Indices32.length).sum ∧
    rangesTile 0 ((BuildBoxGeometry m vb ib).geo.DrawArgs.map Prod.snd)
      (BuildBoxGeometry m vb ib).indices.length ∧
    (∀ r ∈ (BuildBoxGeometry m vb ib).geo.DrawArgs.map Prod.snd,
      r.StartIndexLocation + r.IndexCount ≤ (BuildBoxGeometry m vb ib).indices.length) ∧
    ((BuildBoxGeometry m vb ib).geo.DrawArgs.map Prod.snd).Pairwise
      (fun r r' => r.StartIndexLocation + r.IndexCount ≤ r'.StartIndexLocation) ∧
    (∀ p, p < (BuildBoxGeometry m vb ib).indices.length →
      ∃ r ∈ (BuildBoxGeometry m vb ib).geo.DrawArgs.map Prod.snd,
        r.StartIndexLocation ≤ p ∧ p < r.StartIndexLocation + r.IndexCount) := by
  have hlen : (BuildBoxGeometry m vb ib).indices.length =
      (m.named.map fun e => e.2.Indices32.length).sum := by
    rw [BuildBoxGeometry_indices, List.length_flatten, List.map_map]
    congr 1
    apply List.map_congr_left
    intro e _
    simp [GeometryGenerator.MeshData.GetIndices16]
  have htile : rangesTile 0 ((BuildBoxGeometry m vb ib).geo.DrawArgs.map Prod.snd)
      (BuildBoxGeometry m vb ib).indices.length := by
    rw [hlen]
    simp only [BoxMeshes.named, List.map_cons, List.map_nil, List.sum_cons, List.sum_nil] at hi ⊢
    simp (disch := omega) only [BuildBoxGeometry, wrapUINT_add_wrap, wrapUINT_of_lt,
      List.map_cons, List.map_nil, rangesTile]
    repeat' apply And.intro
    all_goals first | trivial | omega
  obtain ⟨h1, h2, h3⟩ := rangesTile_spec _ _ _ htile
  refine ⟨rfl, ?_, hlen, htile, fun r hr => (h1 r hr).2, h2, fun p hp => h3 p (Nat.zero_le _) hp⟩
  simp only [BoxMeshes.named, List.map_cons, List.map_nil, List.sum_cons, List.sum_nil] at hi ⊢
  simp (disch := omega) only [BuildBoxGeometry, wrapUINT_of_lt, List.map_cons, List.map_nil]

/-- Witness of C12: the sample meshes have 28 indices in all; the ranges tile the 28 positions
of the combined index buffer, the range of the cylinder starting at position 2. -/
theorem submesh_ranges_tile_witness :
    (sampleBoxMeshes.named.map fun e => e.2.Indices32.length).sum < 2 ^ 32 ∧
    (BuildBoxGeometry sampleBoxMeshes ⟨0⟩ ⟨0⟩).indices.length = 28 ∧
    mapFind "cylinder" (BuildBoxGeometry sampleBoxMeshes ⟨0⟩ ⟨0⟩).geo.DrawArgs =
      some { IndexCount := 4, StartIndexLocation := 2, BaseVertexLocation := 1 } ∧
    rangesTile 0 ((BuildBoxGeometry sampleBoxMeshes ⟨0⟩ ⟨0⟩).geo.DrawArgs.map Prod.snd)
      (BuildBoxGeometry sampleBoxMeshes ⟨0⟩ ⟨0⟩).indices.length :=
  ⟨by decide, by decide, by decide,
    (submesh_ranges_tile sampleBoxMeshes ⟨0⟩ ⟨0⟩ (by decide)).2.2.2.1⟩

/-- Counterexample to C12 as stated: for a box and a cylinder of `2^31` indices each, the `UINT`
offset of the sphere wraps to `0`, so the index range of the sphere starts at position `0` like
the range of the box, and position `0` lies in both. -/
theorem submesh_ranges_tile_counterexample :
    ∃ box sphere : SubmeshGeometry,
      (BuildBoxGeometry wrapIndexMeshes ⟨0⟩ ⟨0⟩).geo.DrawArgs[0]? = some ("box", box) ∧
      (BuildBoxGeometry wrapIndexMeshes ⟨0⟩ ⟨0⟩).geo.DrawArgs[2]? = some ("sphere", sphere) ∧
      (box.StartIndexLocation ≤ 0 ∧ 0 < box.StartIndexLocation + box.IndexCount) ∧
      (sphere.StartIndexLocation ≤ 0 ∧ 0 < sphere.StartIndexLocation + sphere.IndexCount) ∧
      ¬ (box.StartIndexLocation + box.IndexCount ≤ sphere.StartIndexLocation) := by
  obtain ⟨hb, hc, hs, hbv, hcv⟩ := wrapIndexMeshes_sizes
  obtain ⟨h0, -, h2⟩ := BuildBoxGeometry_first_three wrapIndexMeshes ⟨0⟩ ⟨0⟩
  rw [hb] at h0
  rw [hb, hc, hs, hbv, hcv] at h2
  refine ⟨_, _, h0, h2, ?_, ?_, ?_⟩
  · simp only [wrapUINT]; norm_num
  · simp only [wrapUINT]; norm_num
  · simp only [wrapUINT]; norm_num

/-- C13 as amended.  Base-vertex resolution.  Let the index counts of the generated meshes add up to less
than `2^32` and their vertex counts to less than `2^31`, and let every index of each mesh be
below the vertex count of that mesh and below `65536`.  Then the sub-mesh under the key of a mesh
has the index count of the mesh, and for every position `t` of its range the index `v` that the
combined index buffer holds at `StartIndexLocation + t` is the `t`-th index of the mesh,
`BaseVertexLocation + v` is a position of the combined vertex buffer, and the vertex there is the
copy of vertex `v` of that mesh. -/
theorem base_vertex_resolution (m : BoxMeshes) (vb ib : ID3D12Resource)
    (hi : (m.named.map fun e => e.2.Indices32.length).sum < 2 ^ 32)
    (hv : (m.named.map fun e => e.2.Vertices.length).sum < 2 ^ 31)
    (hidx : ∀ e ∈ m.named, ∀ v ∈ e.2.Indices32, v < e.2.Vertices.length ∧ v < 65536)
    (k : Nat) (name : String) (mesh : GeometryGenerator.MeshData)
    (hk : m.named[k]? = some (name, mesh)) :
    ∃ sub : SubmeshGeometry,
      (BuildBoxGeometry m vb ib).geo.DrawArgs[k]? = some (name, sub) ∧
      mapFind name (BuildBoxGeometry m vb ib).geo.DrawArgs = some sub ∧
      sub.IndexCount = mesh.Indices32.length ∧
      ∀ t, t < sub.IndexCount →
        ∃ (v : Nat) (gv : GeometryGenerator.Vertex),
          mesh.Indices32[t]? = some v ∧
          (BuildBoxGeometry m vb ib).indices[sub.StartIndexLocation + t]? = some v ∧
          0 ≤ sub.BaseVertexLocation + v ∧
          sub.BaseVertexLocation + v < (BuildBoxGeometry m vb ib).vertices.length ∧
          mesh.Vertices[v]? = some gv ∧
          (BuildBoxGeometry m vb ib).vertices[(sub.BaseVertexLocation + v).toNat]? =
            some (BuildBoxGeometry.vertex gv) := by
  obtain ⟨hda, hfind⟩ := BuildBoxGeometry_drawArgs m vb ib hi hv k name mesh hk
  have hv32 : (m.named.map fun e => e.2.Vertices.length).sum < 2 ^ 32 := by omega
  refine ⟨_, hda, hfind, rfl, ?_⟩
  intro t ht
  dsimp only at ht ⊢
  have hmem : (name, mesh) ∈ m.named := List.getElem?_mem hk
  have hvt := hidx _ hmem (mesh.Indices32[t]) (List.getElem_mem _)
  dsimp only at hvt
  have hsum := take_sum_add_le (m.named.map fun e => e.2.Vertices.length) k mesh.Vertices.length
    (by rw [List.getElem?_map, hk]; rfl)
  rw [← List.map_take] at hsum
  have hnat : ((m.vertexOffset k : Nat) : Int) + ((mesh.Indices32[t] : Nat) : Int) =
      ((m.vertexOffset k + mesh.Indices32[t] : Nat) : Int) := by push_cast; rfl
  refine ⟨mesh.Indices32[t], mesh.Vertices[mesh.Indices32[t]], List.getElem?_eq_getElem ht, ?_,
    ?_, ?_, List.getElem?_eq_getElem hvt.1, ?_⟩
  · rw [BuildBoxGeometry_indices_at m vb ib k name mesh hk t ht]
    simp only [GeometryGenerator.MeshData.GetIndices16, List.getElem?_map,
      List.getElem?_eq_getElem ht, Option.map_some', Option.some.injEq]
    exact Nat.mod_eq_of_lt hvt.2
  · rw [hnat]; exact Int.ofNat_nonneg _
  · rw [hnat, BuildBoxGeometry_vertices_length m vb ib hv32]
    have hlt : m.vertexOffset k + mesh.Indices32[t] <
        (m.named.map fun e => e.2.Vertices.length).sum := by
      unfold BoxMeshes.vertexOffset; omega
    exact_mod_cast hlt
  · rw [hnat, Int.toNat_ofNat,
      BuildBoxGeometry_vertices_at m vb ib hv32 k name mesh hk _ hvt.1,
      List.getElem?_eq_getElem hvt.1]
    rfl

/-- Witness of C13: in the sample meshes the third index of the sphere is `2`; the combined
index buffer holds it at position `6 + 2`, and the combined vertex at `3 + 2` is the copy of
vertex `2` of the sphere. -/
theorem base_vertex_resolution_witness :
    (sampleBoxMeshes.named.map fun e => e.2.Indices32.length).sum < 2 ^ 32 ∧
    (sampleBoxMeshes.named.map fun e => e.2.Vertices.length).sum < 2 ^ 31 ∧
    (∀ e ∈ sampleBoxMeshes.named, ∀ v ∈ e.2.Indices32, v < e.2.Vertices.length ∧ v < 65536) ∧
    sampleBoxMeshes.named[2]? = some ("sphere", sampleMesh 3) ∧
    (BuildBoxGeometry sampleBoxMeshes ⟨0⟩ ⟨0⟩).indices[6 + 2]? = some 2 ∧
    (BuildBoxGeometry sampleBoxMeshes ⟨0⟩ ⟨0⟩).vertices[3 + 2]? = some { Pos := ⟨2, 0, 0⟩ } ∧
    ∃ sub : SubmeshGeometry,
      (BuildBoxGeometry sampleBoxMeshes ⟨0⟩ ⟨0⟩).geo.DrawArgs[2]? = some ("sphere", sub) ∧
      sub.IndexCount = 6 :=
  have hidx : ∀ e ∈ sampleBoxMeshes.named, ∀ v ∈ e.2.Indices32,
      v < e.2.Vertices.length ∧ v < 65536 := by decide
  ⟨by decide, by decide, hidx, rfl, by decide, by decide,
    match base_vertex_resolution sampleBoxMeshes ⟨0⟩ ⟨0⟩ (by decide) (by decide) hidx
      2 "sphere" (sampleMesh 3) rfl with
    | ⟨sub, h1, _, h3, _⟩ => ⟨sub, h1, h3⟩⟩

/-- Counterexample to C13 as stated: every index of every mesh is below the vertex count of its
mesh and below `65536`, and yet, the box having `2^31` vertices, the sub-mesh of the cylinder has
the base vertex location `-2^31`, so that for its index `0` the sum `BaseVertexLocation + 0` is
negative and is no position of the combined vertex buffer. -/
theorem base_vertex_resolution_counterexample :
    (∀ e ∈ wrapVertexMeshes.named, ∀ v ∈ e.2.Indices32, v < e.2.Vertices.length ∧ v < 65536) ∧
    ∃ sub : SubmeshGeometry,
      (BuildBoxGeometry wrapVertexMeshes ⟨0⟩ ⟨0⟩).geo.DrawArgs[1]? = some ("cylinder", sub) ∧
      sub.IndexCount = 1 ∧ sub.StartIndexLocation = 1 ∧
      (BuildBoxGeometry wrapVertexMeshes ⟨0⟩ ⟨0⟩).indices[1]? = some 0 ∧
      sub.BaseVertexLocation + ((0 : Nat) : Int) < 0 := by
  obtain ⟨hbv, hbi, hcv, hci⟩ := wrapVertexMeshes_sizes
  constructor
  · intro e he v hv
    simp only [BoxMeshes.named, List.mem_cons, List.mem_singleton,
      List.not_mem_nil, or_false] at he
    rcases he with h | h | h | h | h | h | h | h | h | h | h <;> subst h
    · have hv0 : v = 0 := List.mem_singleton.mp hv
      subst hv0
      exact ⟨by rw [hbv]; norm_num, by norm_num⟩
    · have hv0 : v = 0 := List.mem_singleton.mp hv
      subst hv0
      exact ⟨by rw [hcv]; norm_num, by norm_num⟩
    all_goals exact absurd hv (List.not_mem_nil v)
  · obtain ⟨-, h1, -⟩ := BuildBoxGeometry_first_three wrapVertexMeshes ⟨0⟩ ⟨0⟩
    rw [hbv, hbi, hci] at h1
    refine ⟨_, h1, ?_, ?_, ?_, ?_⟩
    · simp only [wrapUINT]; norm_num
    · simp only [wrapUINT]; norm_num
    · rw [BuildBoxGeometry_indices]; rfl
    · simp only [wrapUINT, toINT]; norm_num

/-- C14. Update step order.  A tick of a well-formed state returns, and every tick that returns
is the chain of camera input, ring advance with the fence check on the selected slot,
`AnimateMaterials`, `UpdateObjectCBs`, `UpdateMaterialCBs`, `UpdateMainPassCB` and `UpdateWaves`,
each step working on the state the step before it left.  Consequently the entry the tick writes
for the water material is computed from the water material as this tick's `AnimateMaterials` left
it, so it holds the offsets of this tick (and is what the material buffer of the selected slot
holds at the water material's index afterwards, when the materials have pairwise distinct
`MatCBIndex`), and the four buffers written by the tick are those of the slot it selected: every
other slot is as before the tick. -/
theorem update_step_order (wm : WavesModel W) (s : TreeBillboardsApp W) (inp : TickInput) :
    (UpdateReady wm s → ∃ r, Update wm s inp = some r) ∧
    ∀ r, Update wm s inp = some r →
      ∃ (cur : Nat) (fr fr' : FrameResource) (s1 s2 s3 s4 : TreeBillboardsApp W),
        (cur : Int) = (s.mCurrFrameResourceIndex + 1).tmod gNumFrameResources ∧
        s.mFrameResources[cur]? = some fr ∧
        r.2 = Update.mustWait fr.Fence inp.completed ∧
        AnimateMaterials { OnKeyboardInput s inp with
            mCurrFrameResourceIndex := cur, mCurrFrameResource := some cur } inp.gt = some s1 ∧
        UpdateObjectCBs s1 = some s2 ∧
        UpdateMaterialCBs s2 = some s3 ∧
        UpdateMainPassCB s3 inp.gt = some s4 ∧
        UpdateWaves wm s4 inp = some r.1 ∧
        r.1.mCurrFrameResource = some cur ∧
        r.1.mFrameResources = s.mFrameResources.set cur fr' ∧
        (∀ k : Nat, k ≠ cur → r.1.mFrameResources[k]? = s.mFrameResources[k]?) ∧
        UploadBuffer.CopyAll (objWrites s1.mAllRitems) fr.ObjectCB = some fr'.ObjectCB ∧
        UploadBuffer.CopyAll (matWrites s1.mMaterials) fr.MaterialCB = some fr'.MaterialCB ∧
        fr.PassCB.CopyData 0 r.1.mMainPassCB = some fr'.PassCB ∧
        fr.WavesVB.CopyAll (UpdateWaves.writes wm r.1.mWaves) = some fr'.WavesVB ∧
        ∃ m m1 : Material, mapFind "water" s.mMaterials = some m ∧
          mapFind "water" s1.mMaterials = some m1 ∧
          m1 = AnimateMaterials.scroll inp.gt m ∧
          (m.MatCBIndex, matConstants m1) ∈ matWrites s1.mMaterials ∧
          (matConstants m1).MatTransform 0 3 = m1.MatTransform 3 0 ∧
          (matConstants m1).MatTransform 1 3 = m1.MatTransform 3 1 ∧
          ((s.mMaterials.map fun x => x.2.MatCBIndex).Nodup →
            fr'.MaterialCB.mMappedData[m.MatCBIndex]? = some (matConstants m1)) := by
  refine ⟨fun hs => Update_ready hs inp, ?_⟩
  rintro ⟨s', w⟩ h
  obtain ⟨fr0, s1, s2, s3, s4, hn0, hfr0, hw0, h1, h2, h3, h4, h5⟩ := Update_chain h
  obtain ⟨fr, waterMat, ocb, mcb, pcb, vb, p, ri, g, geo, hn, hfr, hw, hwm, hocb, hmcb, hpcb, hvb,
    -, -, -, -, hs'⟩ := Update_some h
  rw [hfr0] at hfr; cases hfr
  have hcur : ((Update.nextIndex s.mCurrFrameResourceIndex).toNat : Int) =
      Update.nextIndex s.mCurrFrameResourceIndex := Int.toNat_of_nonneg hn
  obtain ⟨wm1, hwm1, hs1⟩ := AnimateMaterials_some h1
  simp only [OnKeyboardInput] at hwm1
  rw [hwm] at hwm1; cases hwm1
  refine ⟨(Update.nextIndex s.mCurrFrameResourceIndex).toNat, fr0,
    { fr0 with ObjectCB := ocb, MaterialCB := mcb, PassCB := pcb, WavesVB := vb },
    s1, s2, s3, s4, hcur, hfr0, hw0, ?_, h2, h3, h4, h5, ?_, ?_, ?_, ?_, ?_, ?_, ?_, ?_⟩
  · rw [hcur]; exact h1
  · rw [hs']
  · rw [hs']
  · intro k hk
    rw [hs']; dsimp only
    rw [List.getElem?_set_ne (Ne.symm hk)]
  · rw [hs1]; exact hocb
  · rw [hs1]; exact hmcb
  · rw [hs']; exact hpcb
  · rw [hs']; exact hvb
  · have hidx : (mapStore "water" (AnimateMaterials.scroll inp.gt waterMat) s.mMaterials).map
        (fun x => x.2.MatCBIndex) = s.mMaterials.map (fun x => x.2.MatCBIndex) :=
      mapStore_map_of_eq (fun x : Material => x.MatCBIndex) "water"
        (AnimateMaterials.scroll inp.gt waterMat) waterMat rfl _ hwm
    have hfind : mapFind "water"
        (mapStore "water" (AnimateMaterials.scroll inp.gt waterMat) s.mMaterials) =
        some (AnimateMaterials.scroll inp.gt waterMat) :=
      mapFind_mapStore_self _ _ _ (by rw [hwm]; rfl)
    refine ⟨waterMat, _, hwm, ?_, rfl, ?_, rfl, rfl, ?_⟩
    · rw [hs1]; exact hfind
    · rw [hs1]
      simp only [matWrites, List.mem_map, List.mem_filter, decide_eq_true_eq]
      refine ⟨("water", AnimateMaterials.scroll inp.gt waterMat),
        ⟨mapFind_mem _ _ _ hfind, ?_⟩, rfl⟩
      simp [AnimateMaterials.scroll, gNumFrameResources]
    · intro hnd
      have hentry := matWrites_entry (hidx ▸ hnd) hmcb (mapFind_mem _ _ _ hfind)
      dsimp only at hentry
      rw [show (AnimateMaterials.scroll inp.gt waterMat).MatCBIndex = waterMat.MatCBIndex from rfl]
        at hentry
      rw [hentry]
      simp [AnimateMaterials.scroll, gNumFrameResources]

/-- Witness of C14: the first tick of the sample scene returns as such a chain. -/
theorem update_step_order_witness :
    UpdateReady sampleWaves sampleApp ∧
    ∃ r, Update sampleWaves sampleApp sampleInput = some r ∧
      ∃ s4, UpdateWaves sampleWaves s4 sampleInput = some r.1 :=
  ⟨by decide,
    match (update_step_order sampleWaves sampleApp sampleInput).1 (by decide) with
    | ⟨r, h⟩ =>
      match (update_step_order sampleWaves sampleApp sampleInput).2 r h with
      | ⟨_, _, _, _, _, _, s4, _, _, _, _, _, _, _, h5, _⟩ => ⟨r, h, s4, h5⟩⟩

/-- C15. AnimateMaterials isolation.  `AnimateMaterials` returns when the water material
exists; then the water material has `NumFramesDirty = 3` whatever the counter was, its
`MatTransform` differs from the old one at most in the entries `(3,0)` and `(3,1)`, its other
fields are as before, every material under another key is unchanged at its place, and the
render items and all other members of the application are unchanged. -/
theorem animate_materials_isolation (s : TreeBillboardsApp W) (gt : GameTimer) :
    ((mapFind "water" s.mMaterials).isSome = true → ∃ s', AnimateMaterials s gt = some s') ∧
    ∀ s', AnimateMaterials s gt = some s' →
      ∃ m m' : Material, mapFind "water" s.mMaterials = some m ∧
        mapFind "water" s'.mMaterials = some m' ∧
        m'.NumFramesDirty = 3 ∧
        (∀ i j : Fin 4, ¬ (i = 3 ∧ (j = 0 ∨ j = 1)) → m'.MatTransform i j = m.MatTransform i j) ∧
        m' = { m with MatTransform := m'.MatTransform, NumFramesDirty := 3 } ∧
        (∀ (p : Nat) (k : String) (x : Material), s.mMaterials[p]? = some (k, x) → k ≠ "water" →
          s'.mMaterials[p]? = some (k, x)) ∧
        s'.mMaterials.map Prod.fst = s.mMaterials.map Prod.fst ∧
        s'.mAllRitems = s.mAllRitems ∧
        s' = { s with mMaterials := s'.mMaterials } := by
  constructor
  · intro hw
    obtain ⟨m, hm⟩ := Option.isSome_iff_exists.mp hw
    exact ⟨_, AnimateMaterials_of hm⟩
  · intro s' h
    obtain ⟨m, hm, rfl⟩ := AnimateMaterials_some h
    refine ⟨m, AnimateMaterials.scroll gt m, hm, ?_, rfl, ?_, rfl, ?_, ?_, rfl, rfl⟩
    · exact mapFind_mapStore_self _ _ _ (by rw [hm]; rfl)
    · intro i j hij
      simp only [AnimateMaterials.scroll, setEntry, Matrix.of_apply]
      have h1 : ¬ (i = 3 ∧ j = 1) := fun hh => hij ⟨hh.1, Or.inr hh.2⟩
      have h0 : ¬ (i = 3 ∧ j = 0) := fun hh => hij ⟨hh.1, Or.inl hh.2⟩
      simp [h0, h1]
    · intro p k x hp hk
      exact mapStore_getElem? _ _ _ _ _ hp hk
    · exact mapStore_map_fst _ _ _

/-- Witness of C15: on the sample scene `AnimateMaterials` returns and resets the counter of the
water material. -/
theorem animate_materials_isolation_witness :
    (mapFind "water" sampleApp.mMaterials).isSome = true ∧
    ∃ s', AnimateMaterials sampleApp sampleInput.gt = some s' ∧
      ∃ m' : Material, mapFind "water" s'.mMaterials = some m' ∧ m'.NumFramesDirty = 3 ∧
        s'.mAllRitems = sampleApp.mAllRitems :=
  ⟨by decide,
    match (animate_materials_isolation sampleApp sampleInput.gt).1 (by decide) with
    | ⟨s', h⟩ =>
      match (animate_materials_isolation sampleApp sampleInput.gt).2 s' h with
      | ⟨_, m', _, hm', hd, _, _, _, _, hr, _⟩ => ⟨s', h, m', hm', hd, hr⟩⟩

/-- C16. Land plateau.  For every grid, `BuildLandGeometry` makes one vertex from each grid
vertex `(x, z)`: its position is `(-z, h, x)` with `h = 2` when `|x| < 45` and `|z| < 45`
(strictly) and `h = -10` otherwise, which is the same condition on the output coordinates; its
normal is `GetHillsNormal(x, z)` of the generator coordinates, and its texture coordinate is that
of the grid vertex.  The grid of the scene has `51 * 51 = 2601` vertices, at
`x, z = -62.5 + 2.5 k` with `k ≤ 50`; of its land vertices `1225` have height `2` and `1376`
have height `-10`. -/
theorem land_plateau (fm : FloatMath) (vb ib : ID3D12Resource) :
    (∀ (grid : GeometryGenerator.MeshData) (i : Nat) (gv : GeometryGenerator.Vertex),
      grid.Vertices[i]? = some gv →
      ∃ v : Vertex, (BuildLandGeometry fm grid vb ib).vertices[i]? = some v ∧
        v.Pos.x = -gv.Position.z ∧ v.Pos.z = gv.Position.x ∧
        v.Pos.y = (if |gv.Position.x| < 45 ∧ |gv.Position.z| < 45 then 2 else -10) ∧
        (v.Pos.y = 2 ↔ |v.Pos.x| < 45 ∧ |v.Pos.z| < 45) ∧
        (v.Pos.y = -10 ↔ ¬ (|v.Pos.x| < 45 ∧ |v.Pos.z| < 45)) ∧
        v.Normal = GetHillsNormal fm gv.Position.x gv.Position.z ∧
        v.TexC = gv.TexC) ∧
    (CreateGrid 125 125 50 50).Vertices.length = 2601 ∧
    (∀ gv ∈ (CreateGrid 125 125 50 50).Vertices, ∃ kx kz : Nat, kx ≤ 50 ∧ kz ≤ 50 ∧
      gv.Position.x = -(125 / 2) + (5 / 2) * (kx : ℚ) ∧
      gv.Position.z = -(125 / 2) + (5 / 2) * (kz : ℚ)) ∧
    (BuildLandGeometry fm (CreateGrid 125 125 50 50) vb ib).vertices.length = 2601 ∧
    (BuildLandGeometry fm (CreateGrid 125 125 50 50) vb ib).vertices.countP
      (fun v => decide (v.Pos.y = 2)) = 1225 ∧
    (BuildLandGeometry fm (CreateGrid 125 125 50 50) vb ib).vertices.countP
      (fun v => decide (v.Pos.y = -10)) = 1376 := by
  refine ⟨?_, ?_, ?_, ?_, land_count_plateau fm vb ib, land_count_border fm vb ib⟩
  · intro grid i gv hgv
    refine ⟨BuildLandGeometry.vertex fm gv, ?_, rfl, rfl, ?_, ?_, ?_, rfl, rfl⟩
    · simp only [BuildLandGeometry, List.getElem?_map, hgv, Option.map_some']
    · show (if (gv.Position.x > 0 - 45 ∧ gv.Position.x < 0 + 45 ∧
          gv.Position.z > 0 - 45 ∧ gv.Position.z < 0 + 45) then (2 : ℚ) else -10) = _
      congr 1
      simp only [abs_lt, eq_iff_iff]
      constructor
      · rintro ⟨h1, h2, h3, h4⟩; exact ⟨⟨by linarith, by linarith⟩, ⟨by linarith, by linarith⟩⟩
      · rintro ⟨⟨h1, h2⟩, ⟨h3, h4⟩⟩; exact ⟨by linarith, by linarith, by linarith, by linarith⟩
    · show (if (gv.Position.x > 0 - 45 ∧ gv.Position.x < 0 + 45 ∧
          gv.Position.z > 0 - 45 ∧ gv.Position.z < 0 + 45) then (2 : ℚ) else -10) = 2 ↔
        |(-gv.Position.z)| < 45 ∧ |gv.Position.x| < 45
      simp only [abs_lt]
      split
      · next h =>
        obtain ⟨h1, h2, h3, h4⟩ := h
        simp only [true_iff]
        exact ⟨⟨by linarith, by linarith⟩, ⟨by linarith, by linarith⟩⟩
      · next h =>
        constructor
        · intro hh; norm_num at hh
        · rintro ⟨⟨h1, h2⟩, ⟨h3, h4⟩⟩
          exact absurd ⟨by linarith, by linarith, by linarith, by linarith⟩ h
    · show (if (gv.Position.x > 0 - 45 ∧ gv.Position.x < 0 + 45 ∧
          gv.Position.z > 0 - 45 ∧ gv.Position.z < 0 + 45) then (2 : ℚ) else -10) = -10 ↔
        ¬ (|(-gv.Position.z)| < 45 ∧ |gv.Position.x| < 45)
      simp only [abs_lt]
      split
      · next h =>
        obtain ⟨h1, h2, h3, h4⟩ := h
        constructor
        · intro hh; norm_num at hh
        · intro hh
          exact absurd ⟨⟨by linarith, by linarith⟩, ⟨by linarith, by linarith⟩⟩ hh
      · next h =>
        simp only [true_iff]
        rintro ⟨⟨h1, h2⟩, ⟨h3, h4⟩⟩
        exact h ⟨by linarith, by linarith, by linarith, by linarith⟩
  · rw [CreateGrid_vertices, List.length_map, gridCells_length]
  · intro gv hgv
    rw [CreateGrid_vertices, List.mem_map] at hgv
    obtain ⟨c, hc, rfl⟩ := hgv
    simp only [gridCells, List.mem_flatMap, List.mem_map, List.mem_range] at hc
    obtain ⟨i, hi, j, hj, rfl⟩ := hc
    refine ⟨j, i, by omega, by omega, ?_, ?_⟩
    · show -125 / 2 + (j : ℚ) * (125 / ((50 : Nat) : ℚ)) = _
      push_cast; ring
    · show -125 / 2 + (i : ℚ) * (125 / ((50 : Nat) : ℚ)) = _
      push_cast; ring
  · rw [land_vertices, List.length_map, gridCells_length]

/-- Witness of C16: of a grid with a vertex at the origin and a vertex at `x = 50` the first
land vertex has height `2` and the second has height `-10`. -/
theorem land_plateau_witness :
    sampleLandGrid.Vertices[0]? = some { Position := ⟨0, 0, 0⟩ } ∧
    sampleLandGrid.Vertices[1]? = some { Position := ⟨50, 0, 0⟩ } ∧
    (∃ v : Vertex,
      (BuildLandGeometry sampleFloatMath sampleLandGrid ⟨0⟩ ⟨0⟩).vertices[0]? = some v ∧
      v.Pos.y = 2) ∧
    (∃ v : Vertex,
      (BuildLandGeometry sampleFloatMath sampleLandGrid ⟨0⟩ ⟨0⟩).vertices[1]? = some v ∧
      v.Pos.y = -10) :=
  ⟨rfl, rfl,
    match (land_plateau sampleFloatMath ⟨0⟩ ⟨0⟩).1 sampleLandGrid 0
        { Position := ⟨0, 0, 0⟩ } rfl with
    | ⟨v, hv, _, _, hy, _⟩ => ⟨v, hv, by rw [hy]; norm_num⟩,
    match (land_plateau sampleFloatMath ⟨0⟩ ⟨0⟩).1 sampleLandGrid 1
        { Position := ⟨50, 0, 0⟩ } rfl with
    | ⟨v, hv, _, _, hy, _⟩ => ⟨v, hv, by rw [hy]; norm_num [abs_lt]⟩⟩

/-- C17. Interior disturbance.  Assume the grid has at least 9 rows and 9 columns and the three
random draws of a tick return a value between their bounds whenever the bounds are in order.
The wave state `UpdateWaves` leaves is the simulation update of the grid, disturbed before at
the drawn cell when the tick disturbs.  The cell `(i, j)` and the magnitude `r` passed to
`Disturb` satisfy `4 ≤ i ≤ RowCount - 5`, `4 ≤ j ≤ ColumnCount - 5`, so that the rows `i - 1`,
`i + 1` and the columns `j - 1`, `j + 1` of the four neighbours are inside the grid and off its
boundary, and `0.2 ≤ r ≤ 0.5`. -/
theorem interior_disturbance (wm : WavesModel W) (s : TreeBillboardsApp W) (inp : TickInput)
    (hR : 9 ≤ wm.RowCount) (hC : 9 ≤ wm.ColumnCount)
    (hI : ∀ a b : Int, a ≤ b → a ≤ inp.RandI a b ∧ inp.RandI a b ≤ b)
    (hJ : ∀ a b : Int, a ≤ b → a ≤ inp.RandJ a b ∧ inp.RandJ a b ≤ b)
    (hF : ∀ a b : ℚ, a ≤ b → a ≤ inp.RandR a b ∧ inp.RandR a b ≤ b) :
    (∀ s', UpdateWaves wm s inp = some s' →
      s'.mWaves = match UpdateWaves.disturbArgs wm s inp with
        | some (i, j, r) => wm.Update (wm.Disturb s.mWaves i j r) inp.gt.DeltaTime
        | none => wm.Update s.mWaves inp.gt.DeltaTime) ∧
    (inp.gt.TotalTime - s.t_base ≥ 1 / 4 → (UpdateWaves.disturbArgs wm s inp).isSome = true) ∧
    ∀ (i j : Int) (r : ℚ), UpdateWaves.disturbArgs wm s inp = some (i, j, r) →
      (4 ≤ i ∧ i ≤ wm.RowCount - 5) ∧ (4 ≤ j ∧ j ≤ wm.ColumnCount - 5) ∧
      (1 ≤ i - 1 ∧ i + 1 ≤ wm.RowCount - 2) ∧ (1 ≤ j - 1 ∧ j + 1 ≤ wm.ColumnCount - 2) ∧
      (2 / 10 ≤ r ∧ r ≤ 5 / 10) := by
  refine ⟨?_, (disturbArgs_isSome wm s inp).mpr, ?_⟩
  · intro s' h
    obtain ⟨cur, fr, vb, p, ri, g, geo, -, -, -, -, -, -, rfl⟩ := UpdateWaves_some h
    dsimp only
    rw [simulate_eq_disturbArgs]
    cases hd : UpdateWaves.disturbArgs wm s inp with
    | none => rfl
    | some a => obtain ⟨i, j, r⟩ := a; rfl
  · intro i j r h
    unfold UpdateWaves.disturbArgs at h
    split at h
    · simp only [Option.some.injEq, Prod.mk.injEq] at h
      obtain ⟨rfl, rfl, rfl⟩ := h
      have h1 := hI 4 (wm.RowCount - 5) (by omega)
      have h2 := hJ 4 (wm.ColumnCount - 5) (by omega)
      have h3 := hF (2 / 10) (5 / 10) (by norm_num)
      refine ⟨h1, h2, ⟨?_, ?_⟩, ⟨?_, ?_⟩, h3⟩ <;> omega
    · cases h

/-- Witness of C17: a 9 x 9 grid and a tick half a second after the start, whose draws return
their lower bounds: the tick disturbs the cell `(4, 4)` with magnitude `0.2`. -/
theorem interior_disturbance_witness :
    (9 ≤ sampleWaves9.RowCount ∧ 9 ≤ sampleWaves9.ColumnCount) ∧
    (∀ a b : Int, a ≤ b → a ≤ sampleInputLate.RandI a b ∧ sampleInputLate.RandI a b ≤ b) ∧
    (∀ a b : Int, a ≤ b → a ≤ sampleInputLate.RandJ a b ∧ sampleInputLate.RandJ a b ≤ b) ∧
    (∀ a b : ℚ, a ≤ b → a ≤ sampleInputLate.RandR a b ∧ sampleInputLate.RandR a b ≤ b) ∧
    UpdateWaves.disturbArgs sampleWaves9 sampleApp sampleInputLate = some (4, 4, 2 / 10) ∧
    ((4 : Int) ≤ 4 ∧ (4 : Int) ≤ sampleWaves9.RowCount - 5) :=
  have hargs : UpdateWaves.disturbArgs sampleWaves9 sampleApp sampleInputLate =
      some (4, 4, 2 / 10) := by
    norm_num [UpdateWaves.disturbArgs, sampleInputLate, sampleApp]
  ⟨⟨by decide, by decide⟩, fun _ _ h => ⟨le_refl _, h⟩, fun _ _ h => ⟨le_refl _, h⟩,
    fun _ _ h => ⟨le_refl _, h⟩, hargs,
    ((interior_disturbance sampleWaves9 sampleApp sampleInputLate (by decide) (by decide)
      (fun _ _ h => ⟨le_refl _, h⟩) (fun _ _ h => ⟨le_refl _, h⟩)
      (fun _ _ h => ⟨le_refl _, h⟩)).2.2 4 4 (2 / 10) hargs).1⟩

/-- C18. Disturbance cadence.  A tick calls `Disturb` at most once: the wave state it leaves is
the simulation update of the old one, disturbed once before or not at all, and `t_base` grows by
`0.25` exactly when it disturbs.  Any run of ticks from a well-formed state returns, with at most
one disturbance per tick and `t_base` equal to its initial value plus `0.25` times the number of
disturbances.  If `t_base` starts at `0` and the total times of the ticks start from `0`, never
decrease and grow by at most `0.25` from one tick to the next, the number of disturbances up to
and including the last tick, whose total time is `T`, is `floor(T / 0.25)`. -/
theorem disturbance_cadence (wm : WavesModel W) (s : TreeBillboardsApp W) (inps : List TickInput)
    (last : TickInput) :
    (∀ r, Update wm s last = some r →
      (UpdateWaves.disturbArgs wm s last = none ∧ r.1.t_base = s.t_base ∧
        r.1.mWaves = wm.Update s.mWaves last.gt.DeltaTime) ∨
      (∃ (i j : Int) (m : ℚ), UpdateWaves.disturbArgs wm s last = some (i, j, m) ∧
        r.1.t_base = s.t_base + 1 / 4 ∧
        r.1.mWaves = wm.Update (wm.Disturb s.mWaves i j m) last.gt.DeltaTime)) ∧
    (UpdateReady wm s →
      ∃ (s' : TreeBillboardsApp W) (n : Nat),
        runDisturbs wm s (inps ++ [last]) = some (s', n) ∧
        runTicks wm s (inps ++ [last]) = some s' ∧
        n ≤ (inps ++ [last]).length ∧
        s'.t_base = s.t_base + (1 / 4) * (n : ℚ) ∧
        (s.t_base = 0 →
          List.Chain (fun a b : ℚ => a ≤ b ∧ b ≤ a + 1 / 4) 0
            ((inps ++ [last]).map fun x => x.gt.TotalTime) →
          (n : Int) = ⌊last.gt.TotalTime / (1 / 4)⌋)) := by
  constructor
  · intro r h
    obtain ⟨h1, h2⟩ := Update_waves h
    rw [simulate_eq_disturbArgs] at h1 h2
    cases hd : UpdateWaves.disturbArgs wm s last with
    | none => rw [hd] at h1 h2; exact Or.inl ⟨rfl, h1, h2⟩
    | some a =>
      obtain ⟨i, j, m⟩ := a
      rw [hd] at h1 h2
      exact Or.inr ⟨i, j, m, rfl, h1, h2⟩
  · intro hs
    obtain ⟨s', n, hrun, hticks, hn, ht⟩ := runDisturbs_spec wm (inps ++ [last]) s hs
    refine ⟨s', n, hrun, hticks, hn, ht, ?_⟩
    intro h0 hch
    have hw := runDisturbs_window wm (inps ++ [last]) s s' n 0 hrun (by rw [h0])
      (by rw [h0]; norm_num) hch
    simp only [List.map_append, List.map_cons, List.map_nil, List.getLastD_concat] at hw
    rw [ht, h0] at hw
    symm
    rw [Int.floor_eq_iff]
    obtain ⟨hlo, hhi⟩ := hw
    constructor
    · rw [le_div_iff₀ (by norm_num)]; push_cast; linarith
    · rw [div_lt_iff₀ (by norm_num)]; push_cast; linarith

/-- Witness of C18: three ticks of the sample scene at total times `0.2`, `0.3` and `0.5`: the
second and the third disturb, and `floor(0.5 / 0.25) = 2`. -/
theorem disturbance_cadence_witness :
    UpdateReady sampleWaves sampleApp ∧ sampleApp.t_base = 0 ∧
    List.Chain (fun a b : ℚ => a ≤ b ∧ b ≤ a + 1 / 4) 0
      ((sampleTicksEarly ++ [sampleInputLate]).map
        fun x : TickInput => x.gt.TotalTime) ∧
    ∃ (s' : TreeBillboardsApp (List ℚ)) (n : Nat),
      runDisturbs sampleWaves sampleApp
        (sampleTicksEarly ++ [sampleInputLate]) =
          some (s', n) ∧
      (n : Int) = ⌊sampleInputLate.gt.TotalTime / (1 / 4)⌋ ∧ n = 2 :=
  have hch : List.Chain (fun a b : ℚ => a ≤ b ∧ b ≤ a + 1 / 4) 0
      ((sampleTicksEarly ++ [sampleInputLate]).map
        fun x : TickInput => x.gt.TotalTime) := by
    norm_num [sampleInputLate, sampleTicksEarly]
  ⟨by decide, rfl, hch,
    match (disturbance_cadence sampleWaves sampleApp
      sampleTicksEarly sampleInputLate).2 (by decide) with
    | ⟨s', n, hrun, _, _, _, hfloor⟩ =>
      ⟨s', n, hrun, hfloor rfl hch, by
        have h := hfloor rfl hch
        have h2 : ⌊sampleInputLate.gt.TotalTime / (1 / 4)⌋ = 2 := by
          rw [Int.floor_eq_iff]; norm_num [sampleInputLate]
        rw [h2] at h
        exact_mod_cast h⟩⟩

/-- C19. Wave-simulation idempotence.  An update with zero elapsed time performs no internal
step and returns the state unchanged, so no height and no normal changes, in every state whose
accumulated time is below the time step.  Every state of a simulation with a positive time step
is such a state: the constructed state is, every update leaves the accumulated time below the
time step, and a disturbance changes neither. -/
theorem update_zero_idempotent (fm : FloatMath) (share : ℚ) (w : Waves) :
    (w.mAccum < w.mTimeStep →
      Waves.Update fm w 0 = w ∧
      (∀ i j, (Waves.Update fm w 0).mCurrSolution i j = w.mCurrSolution i j) ∧
      (∀ i j, (Waves.Update fm w 0).mNormals i j = w.mNormals i j)) ∧
    (∀ (m n : Nat) (dx dt k1 k2 k3 : ℚ), 0 < dt →
      (Waves.init m n dx dt k1 k2 k3).mAccum < (Waves.init m n dx dt k1 k2 k3).mTimeStep) ∧
    (0 < w.mTimeStep → ∀ dt : ℚ,
      (Waves.Update fm w dt).mTimeStep = w.mTimeStep ∧
      (Waves.Update fm w dt).mAccum < (Waves.Update fm w dt).mTimeStep) ∧
    (∀ (i j : Int) (r : ℚ),
      (Waves.Disturb share w i j r).mTimeStep = w.mTimeStep ∧
      (Waves.Disturb share w i j r).mAccum = w.mAccum) := by
  refine ⟨?_, ?_, ?_, ?_⟩
  · intro h
    have hs : w.steps w.mAccum = 0 := Waves.steps_eq_zero w _ h
    have heq : Waves.Update fm w 0 = w := by
      unfold Waves.Update
      simp only [add_zero, hs, Function.iterate_zero, id_eq, Nat.cast_zero, zero_mul, sub_zero]
    exact ⟨heq, fun i j => by rw [heq], fun i j => by rw [heq]⟩
  · intro m n dx dt k1 k2 k3 hdt
    exact hdt
  · intro hpos dt
    obtain ⟨h1, h2⟩ := Waves.Update_accum fm w dt hpos
    exact ⟨h1, by rw [h1]; exact h2⟩
  · intro i j r
    unfold Waves.Disturb
    split <;> exact ⟨rfl, rfl⟩

/-- Witness of C19: the constructed 128 x 128 grid has no accumulated time, and an update with
zero elapsed time returns it unchanged. -/
theorem update_zero_idempotent_witness :
    sampleWaveGrid.mAccum < sampleWaveGrid.mTimeStep ∧
    Waves.Update sampleFloatMath sampleWaveGrid 0 = sampleWaveGrid :=
  have h : sampleWaveGrid.mAccum < sampleWaveGrid.mTimeStep := by
    norm_num [sampleWaveGrid, Waves.init]
  ⟨h, ((update_zero_idempotent sampleFloatMath (1 / 2) sampleWaveGrid).1 h).1⟩

/-- C20. Wave disturbance effect.  Let `(i, j)` be a cell at least two cells away from every edge
of the grid (on the 128 x 128 grid: `2 ≤ i, j ≤ 125`), `r > 0`, and let the fraction given to
the neighbours lie strictly between `0` and `1`.  One call `disturb(i, j, r)` raises the current
height at `(i, j)` by `r`, raises the current height of each of the four edge-neighbours by the
same amount `share * r`, which is positive and smaller than `r`, changes the current height of no
other cell, and changes nothing else of the state. -/
theorem disturb_effect (share : ℚ) (w : Waves) (i j : Nat) (r : ℚ)
    (hs : 0 < share ∧ share < 1)
    (hi : 2 ≤ i ∧ i + 2 < w.mNumRows) (hj : 2 ≤ j ∧ j + 2 < w.mNumCols) (hr : 0 < r) :
    (Waves.Disturb share w i j r).mCurrSolution i j = w.mCurrSolution i j + r ∧
    w.mCurrSolution i j < (Waves.Disturb share w i j r).mCurrSolution i j ∧
    (0 < share * r ∧ share * r < r) ∧
    (Waves.Disturb share w i j r).mCurrSolution (i + 1) j = w.mCurrSolution (i + 1) j + share * r ∧
    (Waves.Disturb share w i j r).mCurrSolution (i - 1) j = w.mCurrSolution (i - 1) j + share * r ∧
    (Waves.Disturb share w i j r).mCurrSolution i (j + 1) = w.mCurrSolution i (j + 1) + share * r ∧
    (Waves.Disturb share w i j r).mCurrSolution i (j - 1) = w.mCurrSolution i (j - 1) + share * r ∧
    (∀ x y : Nat, ¬ ((x = i ∧ y = j) ∨ (x = i + 1 ∧ y = j) ∨ (x = i - 1 ∧ y = j) ∨
        (x = i ∧ y = j + 1) ∨ (x = i ∧ y = j - 1)) →
      (Waves.Disturb share w i j r).mCurrSolution x y = w.mCurrSolution x y) ∧
    Waves.Disturb share w i j r =
      { w with mCurrSolution := (Waves.Disturb share w i j r).mCurrSolution } := by
  have hcond : (2 : Int) ≤ (i : Int) ∧ (i : Int) + 2 < (w.mNumRows : Int) ∧
      (2 : Int) ≤ (j : Int) ∧ (j : Int) + 2 < (w.mNumCols : Int) := by
    refine ⟨?_, ?_, ?_, ?_⟩ <;> omega
  have hcur : ∀ x y : Nat, (Waves.Disturb share w i j r).mCurrSolution x y =
      if (x : Int) = i ∧ (y : Int) = j then w.mCurrSolution x y + r
      else if ((x : Int) = i + 1 ∧ (y : Int) = j) ∨ ((x : Int) = i - 1 ∧ (y : Int) = j) ∨
          ((x : Int) = i ∧ (y : Int) = j + 1) ∨ ((x : Int) = i ∧ (y : Int) = j - 1) then
        w.mCurrSolution x y + share * r
      else w.mCurrSolution x y := by
    intro x y
    unfold Waves.Disturb
    rw [if_pos hcond]
  have hsr : 0 < share * r := mul_pos hs.1 hr
  have hsr1 : share * r < r := by nlinarith [hs.2]
  refine ⟨?_, ?_, ⟨hsr, hsr1⟩, ?_, ?_, ?_, ?_, ?_, ?_⟩
  · rw [hcur, if_pos ⟨rfl, rfl⟩]
  · rw [hcur, if_pos ⟨rfl, rfl⟩]; linarith
  · rw [hcur, if_neg (by omega), if_pos (by omega)]
  · rw [hcur, if_neg (by omega), if_pos (by omega)]
  · rw [hcur, if_neg (by omega), if_pos (by omega)]
  · rw [hcur, if_neg (by omega), if_pos (by omega)]
  · intro x y hxy
    rw [hcur, if_neg (by omega), if_neg (by omega)]
  · unfold Waves.Disturb
    rw [if_pos hcond]

/-- Witness of C20: the disturbance of cell `(64, 64)` of the flat 128 x 128 grid with magnitude
`0.3` and neighbour fraction one half. -/
theorem disturb_effect_witness :
    ((0 : ℚ) < 1 / 2 ∧ (1 : ℚ) / 2 < 1) ∧
    (2 ≤ 64 ∧ 64 + 2 < sampleWaveGrid.mNumRows) ∧ (2 ≤ 64 ∧ 64 + 2 < sampleWaveGrid.mNumCols) ∧
    (0 : ℚ) < 3 / 10 ∧
    (Waves.Disturb (1 / 2) sampleWaveGrid (64 : Nat) (64 : Nat) (3 / 10)).mCurrSolution 64 64 =
      sampleWaveGrid.mCurrSolution 64 64 + 3 / 10 ∧
    (Waves.Disturb (1 / 2) sampleWaveGrid (64 : Nat) (64 : Nat) (3 / 10)).mCurrSolution 10 10 =
      sampleWaveGrid.mCurrSolution 10 10 :=
  have hs : (0 : ℚ) < 1 / 2 ∧ (1 : ℚ) / 2 < 1 := by norm_num
  have hr : (0 : ℚ) < 3 / 10 := by norm_num
  ⟨hs, by decide, by decide, hr,
    (disturb_effect (1 / 2) sampleWaveGrid 64 64 (3 / 10) hs (by decide) (by decide) hr).1,
    (disturb_effect (1 / 2) sampleWaveGrid 64 64 (3 / 10) hs (by decide) (by decide)
      hr).2.2.2.2.2.2.2.1 10 10 (by decide)⟩

/-- C21 as amended.  Object indices fit the object buffers.  `BuildRenderItems` returns when the
materials and geometries it names exist.  Called with no render item built yet, it leaves 66 items
whose `ObjCBIndex` values are exactly `0 .. 65` without repetition: by position in `mAllRitems`
they read `2 .. 64` (the 63 objects), `0` (waves), `1` (land), `65` (tree sprites).  Each of the
three frame resources `BuildFrameResources` then appends has an object buffer of
`mAllRitems.size() = 66` elements, so every `ObjCBIndex` is below the element count.  The position
of an item in `mAllRitems` differs from its `ObjCBIndex` for every item but the tree-sprite item,
which is last in both orders. -/
theorem object_indices_fit (rm : RotationMath) (wm : WavesModel W)
    (device : Nat → FrameResourceDevice) (s : TreeBillboardsApp W) :
    (RitemsReady s → ∃ s', BuildRenderItems rm s = some s') ∧
    ∀ s', s.mAllRitems.length = 0 → BuildRenderItems rm s = some s' →
      s'.mAllRitems.length = 66 ∧
      s'.mAllRitems.map (fun e => e.ObjCBIndex) = List.range' 2 63 ++ [0, 1, 65] ∧
      (∀ k : Nat, k < 66 → (s'.mAllRitems.map fun e => e.ObjCBIndex).count k = 1) ∧
      (∀ e ∈ s'.mAllRitems, e.ObjCBIndex < 66) ∧
      (s'.mAllRitems.map fun e => e.ObjCBIndex).Nodup ∧
      (BuildFrameResources wm device s').mFrameResources.length =
        s'.mFrameResources.length + 3 ∧
      (∀ (k : Nat) (fr : FrameResource), s'.mFrameResources.length ≤ k →
        (BuildFrameResources wm device s').mFrameResources[k]? = some fr →
        fr.ObjectCB.mMappedData.length = s'.mAllRitems.length ∧
        ∀ e ∈ s'.mAllRitems, e.ObjCBIndex < fr.ObjectCB.mMappedData.length) ∧
      (∀ (p : Nat) (e : RenderItem), s'.mAllRitems[p]? = some e →
        (e.ObjCBIndex = p ↔ p = 65)) := by
  refine ⟨BuildRenderItems_ready rm s, ?_⟩
  intro s' hA h
  have hidx := BuildRenderItems_indices rm s s' hA h
  have hlen : s'.mAllRitems.length = 66 := by
    have := congrArg List.length hidx
    simpa using this
  have hlt : ∀ e ∈ s'.mAllRitems, e.ObjCBIndex < 66 := by
    intro e he
    have hm : e.ObjCBIndex ∈ s'.mAllRitems.map (fun e => e.ObjCBIndex) :=
      List.mem_map.mpr ⟨e, he, rfl⟩
    rw [hidx] at hm
    simp only [List.mem_append, List.mem_range', List.mem_cons, List.mem_singleton,
      List.not_mem_nil, or_false] at hm
    omega
  refine ⟨hlen, hidx, ?_, hlt, ?_, ?_, ?_, ?_⟩
  · rw [hidx]; decide
  · rw [hidx]; decide
  · rw [BuildFrameResources_eq]; simp
  · intro k fr hk hfr
    rw [BuildFrameResources_eq] at hfr
    dsimp only at hfr
    rw [List.getElem?_append_right hk] at hfr
    have hmem := List.getElem?_mem hfr
    simp only [List.mem_map, List.mem_range] at hmem
    obtain ⟨i, -, rfl⟩ := hmem
    have hsz : (FrameResource.create (device i) 1 (wrapUINT s'.mAllRitems.length)
        (wrapUINT s'.mMaterials.length)
        (wm.VertexCount % 4294967296).toNat).ObjectCB.mMappedData.length =
        s'.mAllRitems.length := by
      simp only [FrameResource.create, List.length_replicate, hlen]
      decide
    refine ⟨hsz, ?_⟩
    intro e he
    rw [hsz, hlen]
    exact hlt e he
  · intro p e hp
    have hv : (s'.mAllRitems.map (fun e => e.ObjCBIndex))[p]? = some e.ObjCBIndex := by
      rw [List.getElem?_map, hp]; rfl
    rw [hidx] at hv
    exact index_by_position p e.ObjCBIndex hv

/-- Witness of C21 as amended: the unbuilt sample scene has all materials and geometries, and
`BuildRenderItems` leaves it with the object indices `2 .. 64, 0, 1, 65` by position. -/
theorem object_indices_fit_witness :
    RitemsReady sampleSceneUnbuilt ∧
    ∃ s', BuildRenderItems sampleRotationMath sampleSceneUnbuilt = some s' ∧
      s'.mAllRitems.map (fun e => e.ObjCBIndex) = List.range' 2 63 ++ [0, 1, 65] :=
  ⟨by decide,
    match (object_indices_fit sampleRotationMath sampleWaves (fun i => ⟨i, ⟨0⟩, ⟨0⟩, ⟨0⟩, ⟨0⟩⟩)
      sampleSceneUnbuilt).1 (by decide) with
    | ⟨s', h⟩ =>
      ⟨s', h, ((object_indices_fit sampleRotationMath sampleWaves
        (fun i => ⟨i, ⟨0⟩, ⟨0⟩, ⟨0⟩, ⟨0⟩⟩) sampleSceneUnbuilt).2 s' rfl h).2.1⟩⟩

/-- Counterexample to C21 as stated: in the sample scene the tree-sprite item, the only entry of
the tree-sprite layer, stands at position `65` of `mAllRitems` and has the `ObjCBIndex` `65`: its
position does not differ from its index. -/
theorem object_indices_fit_counterexample :
    ∃ (s' : TreeBillboardsApp (List ℚ)) (e : RenderItem),
      BuildRenderItems sampleRotationMath sampleSceneUnbuilt = some s' ∧
      s'.mRitemLayer RenderLayer.AlphaTestedTreeSprites.toFin = [65] ∧
      s'.mAllRitems[65]? = some e ∧ e.ObjCBIndex = 65 := by
  obtain ⟨s', h⟩ := BuildRenderItems_ready sampleRotationMath sampleSceneUnbuilt (by decide)
  have hidx := BuildRenderItems_indices sampleRotationMath sampleSceneUnbuilt s' rfl h
  obtain ⟨hlen, -, -, -, h3, -⟩ :=
    BuildRenderItems_layout sampleRotationMath sampleSceneUnbuilt s' rfl (fun _ => rfl) h
  have hsome : ∃ e : RenderItem, s'.mAllRitems[65]? = some e := by
    cases hx : s'.mAllRitems[65]? with
    | none =>
      rw [List.getElem?_eq_none_iff] at hx
      omega
    | some e => exact ⟨e, rfl⟩
  obtain ⟨e, he⟩ := hsome
  have hv : (s'.mAllRitems.map (fun e => e.ObjCBIndex))[65]? = some e.ObjCBIndex := by
    rw [List.getElem?_map, he]; rfl
  rw [hidx] at hv
  exact ⟨s', e, h, h3, he, (index_by_position 65 e.ObjCBIndex hv).mpr rfl⟩

/-- C22. Material indices and descriptors.  `BuildMaterials`, on the empty material map, leaves
ten materials whose `MatCBIndex` are exactly `0 .. 9` without repetition, each with
`DiffuseSrvHeapIndex = MatCBIndex`.  When the ten textures are loaded and the descriptor increment
of the device is positive, `BuildDescriptorHeaps` returns a heap of `10` descriptors, every
`DiffuseSrvHeapIndex` is below that number, and the descriptor at the offset of a material's index
is the one created for the resource of that material's texture, with its format: grass, water,
fence, stone, marble, sun, diamond, bush, wood and tree array at the offsets `0 .. 9`. -/
theorem material_descriptor_indices (c : XMFLOAT4) (s : TreeBillboardsApp W)
    (mTextures : List (String × Texture)) (size : Nat)
    (hs : s.mMaterials = []) (hsize : 0 < size)
    (htex : ∀ e ∈ materialTextures, (textureResource mTextures e.2.1).isSome = true) :
    (BuildMaterials c s).mMaterials.map Prod.fst = materialTextures.map Prod.fst ∧
    (BuildMaterials c s).mMaterials.map (fun e => e.2.MatCBIndex) = List.range 10 ∧
    ((BuildMaterials c s).mMaterials.map fun e => e.2.MatCBIndex).Nodup ∧
    (∀ e ∈ (BuildMaterials c s).mMaterials, e.2.DiffuseSrvHeapIndex = e.2.MatCBIndex) ∧
    ∃ heap : SrvHeap, BuildDescriptorHeaps mTextures size = some heap ∧
      heap.NumDescriptors = 10 ∧
      ∀ e ∈ materialTextures,
        ∃ (m : Material) (r : ID3D12Resource × D3D12_RESOURCE_DESC) (v : ShaderResourceView),
          mapFind e.1 (BuildMaterials c s).mMaterials = some m ∧
          m.MatCBIndex = e.2.2 ∧ m.DiffuseSrvHeapIndex = e.2.2 ∧
          m.DiffuseSrvHeapIndex < heap.NumDescriptors ∧
          textureResource mTextures e.2.1 = some r ∧
          heap.descriptorAt (m.DiffuseSrvHeapIndex * size) = some v ∧
          v.pResource = r.1 ∧ v.desc.Format = r.2.Format := by
  have hkeys := BuildMaterials_keys c s hs
  have hfst : (BuildMaterials c s).mMaterials.map Prod.fst = materialTextures.map Prod.fst := by
    have := congrArg (List.map fun x : String × String × Nat × Nat => x.1) hkeys
    simpa [List.map_map, Function.comp_def, materialTextures] using this
  have hidx : (BuildMaterials c s).mMaterials.map (fun e => e.2.MatCBIndex) = List.range 10 := by
    have := congrArg (List.map fun x : String × String × Nat × Nat => x.2.2.1) hkeys
    simpa [List.map_map, Function.comp_def, List.range_succ] using this
  have hsrv : ∀ e ∈ (BuildMaterials c s).mMaterials, e.2.DiffuseSrvHeapIndex = e.2.MatCBIndex := by
    intro e he
    have hmem : (e.1, e.2.Name, e.2.MatCBIndex, e.2.DiffuseSrvHeapIndex) ∈
        (BuildMaterials c s).mMaterials.map (fun e => (e.1, e.2.Name, e.2.MatCBIndex,
          e.2.DiffuseSrvHeapIndex)) := List.mem_map.mpr ⟨e, he, rfl⟩
    rw [hkeys] at hmem
    simp only [List.mem_cons, List.mem_singleton, List.not_mem_nil, or_false,
      Prod.mk.injEq] at hmem
    rcases hmem with h | h | h | h | h | h | h | h | h | h <;>
      (obtain ⟨-, -, h1, h2⟩ := h; rw [h1, h2])
  have hget : ∀ k : String, (∃ e ∈ materialTextures, e.2.1 = k) →
      ∃ r, textureResource mTextures k = some r := by
    rintro k ⟨e, he, rfl⟩
    exact Option.isSome_iff_exists.mp (htex e he)
  obtain ⟨r0, h0⟩ := hget "grassTex" ⟨("grass", "grassTex", 0), by simp [materialTextures], rfl⟩
  obtain ⟨r1, h1⟩ := hget "waterTex" ⟨("water", "waterTex", 1), by simp [materialTextures], rfl⟩
  obtain ⟨r2, h2⟩ := hget "fenceTex" ⟨("wirefence", "fenceTex", 2), by simp [materialTextures], rfl⟩
  obtain ⟨r3, h3⟩ := hget "stoneTex" ⟨("stone", "stoneTex", 3), by simp [materialTextures], rfl⟩
  obtain ⟨r4, h4⟩ := hget "marbleTex" ⟨("marble", "marbleTex", 4), by simp [materialTextures], rfl⟩
  obtain ⟨r5, h5⟩ := hget "sunTex" ⟨("sun", "sunTex", 5), by simp [materialTextures], rfl⟩
  obtain ⟨r6, h6⟩ := hget "diamondTex" ⟨("diamond", "diamondTex", 6), by simp [materialTextures], rfl⟩
  obtain ⟨r7, h7⟩ := hget "bushTex" ⟨("bush", "bushTex", 7), by simp [materialTextures], rfl⟩
  obtain ⟨r8, h8⟩ := hget "woodTex" ⟨("wood", "woodTex", 8), by simp [materialTextures], rfl⟩
  obtain ⟨r9, h9⟩ := hget "treeArrayTex"
    ⟨("treeSprites", "treeArrayTex", 9), by simp [materialTextures], rfl⟩
  obtain ⟨heap, hheap, hnum, hat⟩ := BuildDescriptorHeaps_of mTextures size hsize
    (fun k => [r0, r1, r2, r3, r4, r5, r6, r7, r8, r9].getD k r0) h0 h1 h2 h3 h4 h5 h6 h7 h8 h9
  refine ⟨hfst, hidx, by rw [hidx]; exact List.nodup_range 10, hsrv, heap, hheap, hnum, ?_⟩
  intro e he
  obtain ⟨m, hm, -, hcb, hsrvi⟩ := BuildMaterials_find c s hs e he
  have hlt : e.2.2 < 10 := by
    simp only [materialTextures, List.mem_cons, List.mem_singleton, List.not_mem_nil,
      or_false] at he
    rcases he with rfl | rfl | rfl | rfl | rfl | rfl | rfl | rfl | rfl | rfl <;> decide
  obtain ⟨v, hv, hres, hfmt⟩ := hat e.2.2 hlt
  have hr : textureResource mTextures e.2.1 =
      some ([r0, r1, r2, r3, r4, r5, r6, r7, r8, r9].getD e.2.2 r0) := by
    simp only [materialTextures, List.mem_cons, List.mem_singleton, List.not_mem_nil,
      or_false] at he
    rcases he with rfl | rfl | rfl | rfl | rfl | rfl | rfl | rfl | rfl | rfl
    · exact h0
    · exact h1
    · exact h2
    · exact h3
    · exact h4
    · exact h5
    · exact h6
    · exact h7
    · exact h8
    · exact h9
  exact ⟨m, _, v, hm, hcb, hsrvi, by rw [hsrvi, hnum]; exact hlt, hr, by rw [hsrvi]; exact hv,
    hres, hfmt⟩

/-- Witness of C22: with the ten sample textures and the descriptor increment `32`, the heap is
built and the descriptor of the stone material, at the offset `3 · 32`, is the one created for
the resource of `stoneTex`. -/
theorem material_descriptor_indices_witness :
    ∃ heap : SrvHeap, BuildDescriptorHeaps sampleTextures 32 = some heap ∧
      ∃ (m : Material) (v : ShaderResourceView),
        mapFind "stone" (BuildMaterials ⟨0, 0, 0, 1⟩
          { sampleApp with mMaterials := [] }).mMaterials = some m ∧
        m.MatCBIndex = 3 ∧
        heap.descriptorAt (m.DiffuseSrvHeapIndex * 32) = some v ∧
        v.pResource = ⟨16384⟩ :=
  match material_descriptor_indices ⟨0, 0, 0, 1⟩ { sampleApp with mMaterials := [] }
      sampleTextures 32 rfl (by decide) (by decide) with
  | ⟨_, _, _, _, heap, hheap, _, hall⟩ =>
    match hall ("stone", "stoneTex", 3) (by decide) with
    | ⟨m, r, v, hm, hcb, _, _, hr, hv, hres, _⟩ =>
      ⟨heap, hheap, m, v, hm, hcb, hv, by
        have : r = (⟨16384⟩, { Format := 73 }) := by
          have h2 : textureResource sampleTextures "stoneTex" =
              some (⟨16384⟩, { Format := 73 }) := rfl
          rw [h2] at hr
          exact (Option.some.inj hr).symm
        rw [hres, this]⟩

/-- C23. Single-step UV wrap.  For a water material whose offset `u = MatTransform(3,0)` lies in
`[0, 1)` and a time step with `0 ≤ 0.1·dt < 1`, the body of `AnimateMaterials` stores
`u + 0.1·dt` when that sum is below `1` and `u + 0.1·dt − 1` otherwise, and the stored value lies
in `[0, 1)`; the same holds for `v = MatTransform(3,1)` with `0.02·dt`.  `AnimateMaterials` returns
when the water material exists and leaves exactly that material under the key `water`. -/
theorem single_step_uv_wrap (s : TreeBillboardsApp W) (gt : GameTimer) (waterMat : Material) :
    (0 ≤ waterMat.MatTransform 3 0 → waterMat.MatTransform 3 0 < 1 →
      0 ≤ 1 / 10 * gt.DeltaTime → 1 / 10 * gt.DeltaTime < 1 →
      (waterMat.MatTransform 3 0 + 1 / 10 * gt.DeltaTime < 1 →
        (AnimateMaterials.scroll gt waterMat).MatTransform 3 0 =
          waterMat.MatTransform 3 0 + 1 / 10 * gt.DeltaTime) ∧
      (¬ waterMat.MatTransform 3 0 + 1 / 10 * gt.DeltaTime < 1 →
        (AnimateMaterials.scroll gt waterMat).MatTransform 3 0 =
          waterMat.MatTransform 3 0 + 1 / 10 * gt.DeltaTime - 1) ∧
      0 ≤ (AnimateMaterials.scroll gt waterMat).MatTransform 3 0 ∧
      (AnimateMaterials.scroll gt waterMat).MatTransform 3 0 < 1) ∧
    (0 ≤ waterMat.MatTransform 3 1 → waterMat.MatTransform 3 1 < 1 →
      0 ≤ 2 / 100 * gt.DeltaTime → 2 / 100 * gt.DeltaTime < 1 →
      (waterMat.MatTransform 3 1 + 2 / 100 * gt.DeltaTime < 1 →
        (AnimateMaterials.scroll gt waterMat).MatTransform 3 1 =
          waterMat.MatTransform 3 1 + 2 / 100 * gt.DeltaTime) ∧
      (¬ waterMat.MatTransform 3 1 + 2 / 100 * gt.DeltaTime < 1 →
        (AnimateMaterials.scroll gt waterMat).MatTransform 3 1 =
          waterMat.MatTransform 3 1 + 2 / 100 * gt.DeltaTime - 1) ∧
      0 ≤ (AnimateMaterials.scroll gt waterMat).MatTransform 3 1 ∧
      (AnimateMaterials.scroll gt waterMat).MatTransform 3 1 < 1) ∧
    (mapFind "water" s.mMaterials = some waterMat →
      ∃ s', AnimateMaterials s gt = some s' ∧
        mapFind "water" s'.mMaterials = some (AnimateMaterials.scroll gt waterMat)) := by
  obtain ⟨e1, e2⟩ := scroll_offsets gt waterMat
  refine ⟨?_, ?_, ?_⟩
  · intro h0 h1 d0 d1
    rw [e1]
    refine ⟨fun h => ?_, fun h => ?_, ?_, ?_⟩
    · rw [if_neg (by linarith)]
    · rw [if_pos (by linarith)]
    · split <;> linarith
    · split <;> linarith
  · intro h0 h1 d0 d1
    rw [e2]
    refine ⟨fun h => ?_, fun h => ?_, ?_, ?_⟩
    · rw [if_neg (by linarith)]
    · rw [if_pos (by linarith)]
    · split <;> linarith
    · split <;> linarith
  · intro hw
    refine ⟨_, AnimateMaterials_of hw, ?_⟩
    dsimp only
    exact mapFind_mapStore_self _ _ _ (by rw [hw]; rfl)

/-- Witness of C23: the water material of the sample scene has the offsets `(0, 0)`; a step of
five seconds stores `u = 1/2` and `v = 1/10`, both without a wrap. -/
theorem single_step_uv_wrap_witness :
    (AnimateMaterials.scroll ⟨5, 5⟩
        { Name := "water", MatCBIndex := 1, DiffuseSrvHeapIndex := 1 }).MatTransform 3 0 =
      (0 : ℚ) + 1 / 10 * 5 ∧
    (AnimateMaterials.scroll ⟨5, 5⟩
        { Name := "water", MatCBIndex := 1, DiffuseSrvHeapIndex := 1 }).MatTransform 3 1 =
      (0 : ℚ) + 2 / 100 * 5 ∧
    ∃ s', AnimateMaterials sampleApp ⟨5, 5⟩ = some s' ∧
      mapFind "water" s'.mMaterials = some (AnimateMaterials.scroll ⟨5, 5⟩
        { Name := "water", MatCBIndex := 1, DiffuseSrvHeapIndex := 1 }) :=
  have h := single_step_uv_wrap sampleApp ⟨5, 5⟩
    { Name := "water", MatCBIndex := 1, DiffuseSrvHeapIndex := 1 }
  have hz0 : ({ Name := "water", MatCBIndex := 1, DiffuseSrvHeapIndex := 1 } :
      Material).MatTransform 3 0 = 0 := by simp [Identity4x4]
  have hz1 : ({ Name := "water", MatCBIndex := 1, DiffuseSrvHeapIndex := 1 } :
      Material).MatTransform 3 1 = 0 := by simp [Identity4x4]
  ⟨by
      have := (h.1 (by rw [hz0]) (by rw [hz0]; norm_num) (by norm_num) (by norm_num)).1
        (by rw [hz0]; norm_num)
      rw [hz0] at this; exact this,
    by
      have := (h.2.1 (by rw [hz1]) (by rw [hz1]; norm_num) (by norm_num) (by norm_num)).1
        (by rw [hz1]; norm_num)
      rw [hz1] at this; exact this,
    h.2.2 rfl⟩

/-- C24. Wave index generation.  Let the waves have `m ≥ 1` rows and `n ≥ 1` columns with
`m·n < 65535`, `m·n` vertices and `2(m−1)(n−1)` triangles.  Then `BuildWavesGeometry` returns; its
index array has `6(m−1)(n−1)` entries, three for each triangle; the loop ends with the counter at
that length and overwrites every entry, the array it leaves being the same for every previous
content; every value written is below `m·n`; and for `i < m−1`, `j < n−1` the six entries from
`6(i(n−1)+j)` on are `(i·n+j, i·n+j+1, (i+1)·n+j, (i+1)·n+j, i·n+j+1, (i+1)·n+j+1)`.  The sub-mesh
`grid` covers the whole array. -/
theorem wave_index_generation (wm : WavesModel W) (TriangleCount : Int) (ib : ID3D12Resource)
    (m n : Nat) (hm : 1 ≤ m) (hn : 1 ≤ n) (hmn : m * n < 65535)
    (hrow : wm.RowCount = (m : Int)) (hcol : wm.ColumnCount = (n : Int))
    (hvc : wm.VertexCount = ((m * n : Nat) : Int))
    (htc0 : TriangleCount = 2 * ((m : Int) - 1) * ((n : Int) - 1)) :
    ∃ g : BuiltGeometry, BuildWavesGeometry wm TriangleCount ib = some g ∧
      g.indices.length = 6 * ((m - 1) * (n - 1)) ∧
      g.indices.length = 3 * TriangleCount.toNat ∧
      (∀ init : List Nat, init.length = 6 * ((m - 1) * (n - 1)) →
        BuildWavesGeometry.loop wm.ColumnCount
            (BuildWavesGeometry.quads wm.RowCount wm.ColumnCount) (init, 0) =
          some (g.indices, 6 * ((m - 1) * (n - 1)))) ∧
      (∀ v ∈ g.indices, v < m * n) ∧
      (∀ i j : Nat, i < m - 1 → j < n - 1 →
        g.indices[6 * (i * (n - 1) + j)]? = some (i * n + j) ∧
        g.indices[6 * (i * (n - 1) + j) + 1]? = some (i * n + j + 1) ∧
        g.indices[6 * (i * (n - 1) + j) + 2]? = some ((i + 1) * n + j) ∧
        g.indices[6 * (i * (n - 1) + j) + 3]? = some ((i + 1) * n + j) ∧
        g.indices[6 * (i * (n - 1) + j) + 4]? = some (i * n + j + 1) ∧
        g.indices[6 * (i * (n - 1) + j) + 5]? = some ((i + 1) * n + j + 1)) ∧
      mapFind "grid" g.geo.DrawArgs =
        some { IndexCount := 6 * ((m - 1) * (n - 1)), StartIndexLocation := 0,
               BaseVertexLocation := 0 } := by
  have htc : TriangleCount = ((2 * ((m - 1) * (n - 1)) : Nat) : Int) := by
    rw [htc0]
    push_cast [Nat.cast_sub hm, Nat.cast_sub hn]
    ring
  have hle : (m - 1) * (n - 1) ≤ m * n := Nat.mul_le_mul (Nat.sub_le _ _) (Nat.sub_le _ _)
  have hsize : (3 * TriangleCount).toNat = 6 * ((m - 1) * (n - 1)) := by
    rw [htc]; omega
  have hfull := loop_full m n hmn
  have hg : BuildWavesGeometry wm TriangleCount ib = some
      { vertices := []
        indices := (BuildWavesGeometry.quads (m : Int) (n : Int)).flatMap (quadIndices n)
        geo :=
          { Name := "waterGeo"
            VertexBufferGPU := none
            IndexBufferGPU := some ib
            DrawArgs := [("grid",
              { IndexCount := wrapUINT
                  ((BuildWavesGeometry.quads (m : Int) (n : Int)).flatMap (quadIndices n)).length
                StartIndexLocation := 0, BaseVertexLocation := 0 })] } } := by
    unfold BuildWavesGeometry
    have h1 : 0 ≤ 3 * TriangleCount ∧ 3 * TriangleCount < 2 ^ 31 := by
      rw [htc]; constructor <;> omega
    have h2 : wm.VertexCount < 65535 := by rw [hvc]; omega
    rw [if_neg (not_not.mpr h1), if_neg (not_not.mpr h2)]
    simp only [hrow, hcol, hsize]
    rw [hfull (List.replicate (6 * ((m - 1) * (n - 1))) 0) (by simp)]
  have hlen : ((BuildWavesGeometry.quads (m : Int) (n : Int)).flatMap (quadIndices n)).length =
      6 * ((m - 1) * (n - 1)) := by
    rw [List.length_flatMap]
    have : (List.map (List.length ∘ quadIndices n)
        (BuildWavesGeometry.quads (m : Int) (n : Int))) =
        List.replicate (BuildWavesGeometry.quads (m : Int) (n : Int)).length 6 := by
      rw [List.eq_replicate_iff]
      refine ⟨by simp, ?_⟩
      intro b hb
      simp only [List.mem_map] at hb
      obtain ⟨a, -, rfl⟩ := hb
      rfl
    rw [this, List.sum_replicate, quads_length]
    simp [Nat.mul_comm]
  refine ⟨_, hg, hlen, ?_, ?_, ?_, ?_, ?_⟩
  · dsimp only
    rw [hlen, htc]; omega
  · intro init hinit
    rw [hrow, hcol]
    exact hfull init hinit
  · intro v hv
    dsimp only at hv
    simp only [List.mem_flatMap] at hv
    obtain ⟨ij, hij, hv⟩ := hv
    obtain ⟨hi, hj⟩ := quads_mem hij
    exact quadIndices_lt hi hj v hv
  · intro i j hi hj
    dsimp only
    have h0 := quadIndices_getElem m n i j 0 hi hj (by omega)
    have h1 := quadIndices_getElem m n i j 1 hi hj (by omega)
    have h2 := quadIndices_getElem m n i j 2 hi hj (by omega)
    have h3 := quadIndices_getElem m n i j 3 hi hj (by omega)
    have h4 := quadIndices_getElem m n i j 4 hi hj (by omega)
    have h5 := quadIndices_getElem m n i j 5 hi hj (by omega)
    exact ⟨h0, h1, h2, h3, h4, h5⟩
  · dsimp only
    rw [hlen, wrapUINT_of_lt (by omega)]
    simp [mapFind]

/-- Witness of C24: the waves of the sample scene have two rows and two columns, four vertices
and two triangles; the index array is that of the single quad, `0, 1, 2, 2, 1, 3`. -/
theorem wave_index_generation_witness :
    ∃ g : BuiltGeometry, BuildWavesGeometry sampleWaves 2 ⟨1024⟩ = some g ∧
      g.indices.length = 6 ∧
      g.indices[0]? = some 0 ∧ g.indices[1]? = some 1 ∧ g.indices[2]? = some 2 ∧
      g.indices[3]? = some 2 ∧ g.indices[4]? = some 1 ∧ g.indices[5]? = some 3 :=
  match wave_index_generation sampleWaves 2 ⟨1024⟩ 2 2 (by decide) (by decide) (by decide)
      rfl rfl rfl rfl with
  | ⟨g, hg, hlen, _, _, _, hq, _⟩ =>
    ⟨g, hg, hlen, (hq 0 0 (by decide) (by decide)).1, (hq 0 0 (by decide) (by decide)).2.1,
      (hq 0 0 (by decide) (by decide)).2.2.1, (hq 0 0 (by decide) (by decide)).2.2.2.1,
      (hq 0 0 (by decide) (by decide)).2.2.2.2.1, (hq 0 0 (by decide) (by decide)).2.2.2.2.2⟩

/-- C25. Water is always dirty.  Every `Update` tick that returns is the chain of its steps in
which the water material has `NumFramesDirty = 3` after `AnimateMaterials` and after
`UpdateObjectCBs`, and `NumFramesDirty = 2` after `UpdateMaterialCBs`, after `UpdateMainPassCB`
and after `UpdateWaves`, that is at the end of the tick: the counter never reaches `0`.  The
material writes of the tick go to the material buffer of the selected slot and contain the write
of the water material's constants at the water material's index, which is what that buffer holds
there afterwards when the materials have pairwise distinct `MatCBIndex`.  From a well-formed
state every non-empty sequence of ticks returns and ends with the water counter `2`. -/
theorem water_always_dirty (wm : WavesModel W) (s : TreeBillboardsApp W) :
    (∀ inp r, Update wm s inp = some r →
      ∃ (cur : Nat) (fr fr' : FrameResource) (m0 : Material)
        (s1 s2 s3 s4 : TreeBillboardsApp W),
        AnimateMaterials { OnKeyboardInput s inp with
            mCurrFrameResourceIndex := cur, mCurrFrameResource := some cur } inp.gt = some s1 ∧
        UpdateObjectCBs s1 = some s2 ∧
        UpdateMaterialCBs s2 = some s3 ∧
        UpdateMainPassCB s3 inp.gt = some s4 ∧
        UpdateWaves wm s4 inp = some r.1 ∧
        mapFind "water" s.mMaterials = some m0 ∧
        (∀ x ∈ [s1, s2], ∃ m : Material, mapFind "water" x.mMaterials = some m ∧
          m.NumFramesDirty = 3) ∧
        (∀ x ∈ [s3, s4, r.1], ∃ m : Material, mapFind "water" x.mMaterials = some m ∧
          m.NumFramesDirty = 2 ∧ m.NumFramesDirty ≠ 0) ∧
        r.1.mCurrFrameResource = some cur ∧
        s.mFrameResources[cur]? = some fr ∧
        r.1.mFrameResources[cur]? = some fr' ∧
        UploadBuffer.CopyAll (matWrites s1.mMaterials) fr.MaterialCB = some fr'.MaterialCB ∧
        (m0.MatCBIndex, matConstants (AnimateMaterials.scroll inp.gt m0)) ∈
          matWrites s1.mMaterials ∧
        ((s.mMaterials.map fun x => x.2.MatCBIndex).Nodup →
          fr'.MaterialCB.mMappedData[m0.MatCBIndex]? =
            some (matConstants (AnimateMaterials.scroll inp.gt m0)))) ∧
    (UpdateReady wm s → ∀ inps : List TickInput, inps ≠ [] →
      ∃ (s' : TreeBillboardsApp W) (m : Material), runTicks wm s inps = some s' ∧
        mapFind "water" s'.mMaterials = some m ∧ m.NumFramesDirty = 2 ∧
        m.NumFramesDirty ≠ 0) := by
  constructor
  · rintro inp ⟨s', w⟩ h
    obtain ⟨fr0, s1, s2, s3, s4, hn0, hfr0, hw0, h1, h2, h3, h4, h5⟩ := Update_chain h
    obtain ⟨fr, waterMat, ocb, mcb, pcb, vb, p, ri, g, geo, hn, hfr, hw, hwm, hocb, hmcb, hpcb,
      hvb, -, -, -, -, hs'⟩ := Update_some h
    rw [hfr0] at hfr; cases hfr
    have hcur : ((Update.nextIndex s.mCurrFrameResourceIndex).toNat : Int) =
        Update.nextIndex s.mCurrFrameResourceIndex := Int.toNat_of_nonneg hn
    have hlt : (Update.nextIndex s.mCurrFrameResourceIndex).toNat < s.mFrameResources.length := by
      rw [List.getElem?_eq_some] at hfr0; exact hfr0.1
    obtain ⟨wm1, hwm1, hs1⟩ := AnimateMaterials_some h1
    simp only [OnKeyboardInput] at hwm1
    rw [hwm] at hwm1; cases hwm1
    obtain ⟨c2, f2, b2, -, -, hs2⟩ := UpdateObjectCBs_some h2
    obtain ⟨c3, f3, b3, -, -, hs3⟩ := UpdateMaterialCBs_some h3
    obtain ⟨c4, f4, b4, -, -, hs4⟩ := UpdateMainPassCB_some h4
    have hfind : mapFind "water"
        (mapStore "water" (AnimateMaterials.scroll inp.gt waterMat) s.mMaterials) =
        some (AnimateMaterials.scroll inp.gt waterMat) :=
      mapFind_mapStore_self _ _ _ (by rw [hwm]; rfl)
    have hm1 : mapFind "water" s1.mMaterials = some (AnimateMaterials.scroll inp.gt waterMat) := by
      rw [hs1]; exact hfind
    have hm2 : mapFind "water" s2.mMaterials = some (AnimateMaterials.scroll inp.gt waterMat) := by
      rw [hs2]; exact hm1
    have hm3 : mapFind "water" s3.mMaterials =
        some (tickMat (AnimateMaterials.scroll inp.gt waterMat)) := by
      rw [hs3]; dsimp only
      rw [mapFind_map, hm2]; rfl
    have hm4 : mapFind "water" s4.mMaterials =
        some (tickMat (AnimateMaterials.scroll inp.gt waterMat)) := by
      rw [hs4]; exact hm3
    have hm5 : mapFind "water" s'.mMaterials =
        some (tickMat (AnimateMaterials.scroll inp.gt waterMat)) := by
      rw [hs']; dsimp only
      rw [mapFind_map, hfind]; rfl
    have hd3 : (AnimateMaterials.scroll inp.gt waterMat).NumFramesDirty = 3 := rfl
    have hd2 : (tickMat (AnimateMaterials.scroll inp.gt waterMat)).NumFramesDirty = 2 := by
      simp [tickMat, AnimateMaterials.scroll, gNumFrameResources]
    have hidx : (mapStore "water" (AnimateMaterials.scroll inp.gt waterMat) s.mMaterials).map
        (fun x => x.2.MatCBIndex) = s.mMaterials.map (fun x => x.2.MatCBIndex) :=
      mapStore_map_of_eq (fun x : Material => x.MatCBIndex) "water"
        (AnimateMaterials.scroll inp.gt waterMat) waterMat rfl _ hwm
    have hmemw : (waterMat.MatCBIndex, matConstants (AnimateMaterials.scroll inp.gt waterMat)) ∈
        matWrites (mapStore "water" (AnimateMaterials.scroll inp.gt waterMat) s.mMaterials) := by
      simp only [matWrites, List.mem_map, List.mem_filter, decide_eq_true_eq]
      refine ⟨("water", AnimateMaterials.scroll inp.gt waterMat),
        ⟨mapFind_mem _ _ _ hfind, ?_⟩, rfl⟩
      simp [AnimateMaterials.scroll, gNumFrameResources]
    refine ⟨(Update.nextIndex s.mCurrFrameResourceIndex).toNat, fr0,
      { fr0 with ObjectCB := ocb, MaterialCB := mcb, PassCB := pcb, WavesVB := vb }, waterMat,
      s1, s2, s3, s4, ?_, h2, h3, h4, h5, hwm, ?_, ?_, ?_, hfr0, ?_, ?_, ?_, ?_⟩
    · rw [hcur]; exact h1
    · intro x hx
      simp only [List.mem_cons, List.mem_singleton, List.not_mem_nil, or_false] at hx
      rcases hx with rfl | rfl
      · exact ⟨_, hm1, hd3⟩
      · exact ⟨_, hm2, hd3⟩
    · intro x hx
      simp only [List.mem_cons, List.mem_singleton, List.not_mem_nil, or_false] at hx
      rcases hx with rfl | rfl | rfl
      · exact ⟨_, hm3, hd2, by rw [hd2]; decide⟩
      · exact ⟨_, hm4, hd2, by rw [hd2]; decide⟩
      · exact ⟨_, hm5, hd2, by rw [hd2]; decide⟩
    · rw [hs']
    · rw [hs']; dsimp only
      rw [List.getElem?_set_self hlt]
    · rw [hs1]; exact hmcb
    · rw [hs1]; exact hmemw
    · intro hnd
      exact CopyAll_written _ hmcb (matWrites_nodup (hidx ▸ hnd)) _ hmemw
  · intro hs inps hne
    obtain ⟨s', m, hrun, hm, hd⟩ := runTicks_water_dirty inps s hs hne
    exact ⟨s', m, hrun, hm, hd, by rw [hd]; decide⟩

/-- Witness of C25: three ticks of the sample scene return and leave the water counter at `2`. -/
theorem water_always_dirty_witness :
    UpdateReady sampleWaves sampleApp ∧
    ∃ (s' : TreeBillboardsApp (List ℚ)) (m : Material),
      runTicks sampleWaves sampleApp [sampleInput, sampleInput, sampleInput] = some s' ∧
      mapFind "water" s'.mMaterials = some m ∧ m.NumFramesDirty = 2 :=
  ⟨by decide,
    match (water_always_dirty sampleWaves sampleApp).2 (by decide)
      [sampleInput, sampleInput, sampleInput] (by simp) with
    | ⟨s', m, h, hm, hd, _⟩ => ⟨s', m, h, hm, hd⟩⟩

/-- C26. Order independence of the constant-buffer updates.  Let the materials have pairwise
distinct `MatCBIndex`.  For every traversal order of the material map (every permutation of its
entries) `UpdateMaterialCBs` returns exactly when it returns for the given order, and then it
leaves the same frame resources, hence the same buffer contents, and the same materials with the
same counters, in the order of the traversal; all else is equal.  Likewise `UpdateObjectCBs` for
every order of the render items when the `ObjCBIndex` are pairwise distinct. -/
theorem cb_update_order_independent (s : TreeBillboardsApp W) :
    (∀ mats2 : List (String × Material), mats2.Perm s.mMaterials →
      (s.mMaterials.map fun m => m.2.MatCBIndex).Nodup →
      (UpdateMaterialCBs { s with mMaterials := mats2 }).isSome = (UpdateMaterialCBs s).isSome ∧
      ∀ s' s2', UpdateMaterialCBs s = some s' →
        UpdateMaterialCBs { s with mMaterials := mats2 } = some s2' →
        s2'.mFrameResources = s'.mFrameResources ∧
        s2'.mMaterials.Perm s'.mMaterials ∧
        s'.mMaterials = s.mMaterials.map (fun e => (e.1, tickMat e.2)) ∧
        s2'.mMaterials = mats2.map (fun e => (e.1, tickMat e.2)) ∧
        s2' = { s' with mMaterials := s2'.mMaterials }) ∧
    (∀ items2 : List RenderItem, items2.Perm s.mAllRitems →
      (s.mAllRitems.map fun e => e.ObjCBIndex).Nodup →
      (UpdateObjectCBs { s with mAllRitems := items2 }).isSome = (UpdateObjectCBs s).isSome ∧
      ∀ s' s2', UpdateObjectCBs s = some s' →
        UpdateObjectCBs { s with mAllRitems := items2 } = some s2' →
        s2'.mFrameResources = s'.mFrameResources ∧
        s2'.mAllRitems.Perm s'.mAllRitems ∧
        s'.mAllRitems = s.mAllRitems.map tickItem ∧
        s2'.mAllRitems = items2.map tickItem ∧
        s2' = { s' with mAllRitems := s2'.mAllRitems }) := by
  constructor
  · intro mats2 hp hnd
    constructor
    · unfold UpdateMaterialCBs
      have hcf : TreeBillboardsApp.currFrameResource { s with mMaterials := mats2 } =
          s.currFrameResource := rfl
      rw [hcf]
      cases hc : s.currFrameResource with
      | none => rfl
      | some x =>
        obtain ⟨cur, fr⟩ := x
        simp only [UpdateMaterialCBs_loop_eq]
        have := CopyAll_isSome_perm (matWrites_perm hp) fr.MaterialCB
        cases h1 : UploadBuffer.CopyAll (matWrites mats2) fr.MaterialCB <;>
          cases h2 : UploadBuffer.CopyAll (matWrites s.mMaterials) fr.MaterialCB <;>
          simp_all
    · intro s' s2' h1 h2
      obtain ⟨cur, fr, cb, hc, hcb, rfl⟩ := UpdateMaterialCBs_some h1
      obtain ⟨cur2, fr2, cb2, hc2, hcb2, rfl⟩ := UpdateMaterialCBs_some h2
      have hcf : TreeBillboardsApp.currFrameResource { s with mMaterials := mats2 } =
          s.currFrameResource := rfl
      rw [hcf, hc] at hc2
      cases hc2
      dsimp only at hcb2 ⊢
      have hb := CopyAll_perm (matWrites_perm hp) (matWrites_nodup hnd) hcb hcb2
      subst hb
      exact ⟨rfl, hp.map _, rfl, rfl, rfl⟩
  · intro items2 hp hnd
    constructor
    · unfold UpdateObjectCBs
      have hcf : TreeBillboardsApp.currFrameResource { s with mAllRitems := items2 } =
          s.currFrameResource := rfl
      rw [hcf]
      cases hc : s.currFrameResource with
      | none => rfl
      | some x =>
        obtain ⟨cur, fr⟩ := x
        simp only [UpdateObjectCBs_loop_eq]
        have := CopyAll_isSome_perm (objWrites_perm hp) fr.ObjectCB
        cases h1 : UploadBuffer.CopyAll (objWrites items2) fr.ObjectCB <;>
          cases h2 : UploadBuffer.CopyAll (objWrites s.mAllRitems) fr.ObjectCB <;>
          simp_all
    · intro s' s2' h1 h2
      obtain ⟨cur, fr, cb, hc, hcb, rfl⟩ := UpdateObjectCBs_some h1
      obtain ⟨cur2, fr2, cb2, hc2, hcb2, rfl⟩ := UpdateObjectCBs_some h2
      have hcf : TreeBillboardsApp.currFrameResource { s with mAllRitems := items2 } =
          s.currFrameResource := rfl
      rw [hcf, hc] at hc2
      cases hc2
      dsimp only at hcb2 ⊢
      have hb := CopyAll_perm (objWrites_perm hp) (objWrites_nodup hnd) hcb hcb2
      subst hb
      exact ⟨rfl, hp.map _, rfl, rfl, rfl⟩

/-- Witness of C26: in the sample scene with slot `1` selected, `UpdateMaterialCBs` visiting
the water material before the grass material returns exactly when it returns in the given order,
and so does `UpdateObjectCBs` with the first two render items exchanged. -/
theorem cb_update_order_independent_witness :
    (UpdateMaterialCBs { sampleAppInFrame with
        mMaterials :=
          [ ("water", { Name := "water", MatCBIndex := 1, DiffuseSrvHeapIndex := 1 }),
            ("grass", { Name := "grass", MatCBIndex := 0, DiffuseSrvHeapIndex := 0 }) ] }).isSome =
      (UpdateMaterialCBs sampleAppInFrame).isSome ∧
    (UpdateObjectCBs { sampleAppInFrame with
        mAllRitems :=
          [ { ObjCBIndex := 2, Mat := some "grass", Geo := some "landGeo", IndexCount := 36,
              StartIndexLocation := 6, BaseVertexLocation := 4 },
            { ObjCBIndex := 1, Mat := some "grass", Geo := some "landGeo", IndexCount := 6 },
            { ObjCBIndex := 0, Mat := some "water", Geo := some "waterGeo",
              IndexCount := 6 } ] }).isSome =
      (UpdateObjectCBs sampleAppInFrame).isSome :=
  ⟨((cb_update_order_independent sampleAppInFrame).1 _ (List.Perm.swap _ _ []) (by decide)).1,
    ((cb_update_order_independent sampleAppInFrame).2 _ (List.Perm.swap _ _ _) (by decide)).1⟩

/-- C27. Tree-sprite vertices.  The sub-mesh `points` of `BuildTreeSpritesGeometry` has the index
count `16` over the indices `0 .. 15`, but the placement loop runs for `treeCount = 4` trees: it
assigns the vertices `0 .. 3`, each with `y = 10` and the size `(20, 20)` whatever `GetHillsHeight`
returns, and the vertices `4 .. 15`, which the sub-mesh references too, are never assigned. -/
theorem tree_sprite_vertices (fm : FloatMath) (RandF : Nat → ℚ → ℚ → ℚ)
    (vb ib : ID3D12Resource) :
    (BuildTreeSpritesGeometry fm RandF vb ib).indices = List.range 16 ∧
    mapFind "points" (BuildTreeSpritesGeometry fm RandF vb ib).geo.DrawArgs =
      some { IndexCount := 16, StartIndexLocation := 0, BaseVertexLocation := 0 } ∧
    (BuildTreeSpritesGeometry fm RandF vb ib).vertices =
      (List.range 4).map (fun i => some
        { Pos := ⟨RandF (2 * i) (-30) 68, 10, RandF (2 * i + 1) (-45) 55⟩, Size := ⟨20, 20⟩ }) ++
      List.replicate 12 none ∧
    (BuildTreeSpritesGeometry fm RandF vb ib).indices[4]? = some 4 ∧
    (BuildTreeSpritesGeometry fm RandF vb ib).vertices[4]? = some none := by
  refine ⟨rfl, ?_, ?_, rfl, ?_⟩
  · simp [BuildTreeSpritesGeometry, mapFind, wrapUINT]
  · simp [BuildTreeSpritesGeometry, BuildTreeSpritesGeometry.treeCount,
      BuildTreeSpritesGeometry.place, List.range_succ, List.replicate]
  · simp [BuildTreeSpritesGeometry, BuildTreeSpritesGeometry.treeCount,
      BuildTreeSpritesGeometry.place, List.range_succ, List.replicate]

/-- C28. Lights of the pass constants.  After the light assignments of `UpdateMainPassCB`,
`Lights[2]` has the direction `(0, −0.707, −0.707)`, the strength `(1.1, 0.0, 0.2)` (not the
`(0.05, 0.05, 0.05)` assigned to it earlier in the function) and the spot power `1.7`, its position
being as before; `Lights[3]` is the light it was with the position `(0, 10, 0)` and the direction
`(0, 0, 0)`, so its strength and its spot power are as before.  `UpdateMainPassCB`, when it
returns, leaves these pass constants in `mMainPassCB` and in entry `0` of the pass buffer of the
current frame resource. -/
theorem lights_two_and_three (s : TreeBillboardsApp W) (gt : GameTimer) :
    (UpdateMainPassCB.fill s gt).Lights 2 =
      { s.mMainPassCB.Lights 2 with
        Direction := ⟨0, -707 / 1000, -707 / 1000⟩
        Strength := ⟨11 / 10, 0, 2 / 10⟩
        SpotPower := 17 / 10 } ∧
    ((UpdateMainPassCB.fill s gt).Lights 2).Strength ≠ ⟨5 / 100, 5 / 100, 5 / 100⟩ ∧
    (UpdateMainPassCB.fill s gt).Lights 3 =
      { s.mMainPassCB.Lights 3 with Position := ⟨0, 10, 0⟩, Direction := ⟨0, 0, 0⟩ } ∧
    ((UpdateMainPassCB.fill s gt).Lights 3).Strength = (s.mMainPassCB.Lights 3).Strength ∧
    ((UpdateMainPassCB.fill s gt).Lights 3).SpotPower = (s.mMainPassCB.Lights 3).SpotPower ∧
    ∀ s', UpdateMainPassCB s gt = some s' →
      s'.mMainPassCB = UpdateMainPassCB.fill s gt ∧
      ∃ cur fr', s'.currFrameResource = some (cur, fr') ∧
        fr'.PassCB.mMappedData[0]? = some (UpdateMainPassCB.fill s gt) := by
  have h2 : (UpdateMainPassCB.fill s gt).Lights 2 =
      { s.mMainPassCB.Lights 2 with
        Direction := ⟨0, -707 / 1000, -707 / 1000⟩
        Strength := ⟨11 / 10, 0, 2 / 10⟩
        SpotPower := 17 / 10 } := by
    simp [UpdateMainPassCB.fill, setLight, Function.update]
  have h3 : (UpdateMainPassCB.fill s gt).Lights 3 =
      { s.mMainPassCB.Lights 3 with Position := ⟨0, 10, 0⟩, Direction := ⟨0, 0, 0⟩ } := by
    simp [UpdateMainPassCB.fill, setLight, Function.update]
  refine ⟨h2, ?_, h3, by rw [h3], by rw [h3], ?_⟩
  · rw [h2]
    intro h
    have := congrArg XMFLOAT3.x h
    norm_num at this
  · intro s' h
    obtain ⟨cur, fr, cb, hc, hcb, rfl⟩ := UpdateMainPassCB_some h
    refine ⟨rfl, cur, { fr with PassCB := cb }, ?_, ?_⟩
    · obtain ⟨hc1, hc2⟩ := currFrameResource_eq_some.mp hc
      apply currFrameResource_eq_some.mpr
      refine ⟨hc1, ?_⟩
      dsimp only
      rw [List.getElem?_set_self]
      rw [List.getElem?_eq_some] at hc2
      exact hc2.1
    · obtain ⟨hlt, rfl⟩ := CopyData_eq_some.mp hcb
      dsimp only
      rw [List.getElem?_set_self hlt]

/-- Witness of C28: in the sample scene with slot `1` selected `UpdateMainPassCB` returns, and
afterwards `Lights[2]` has the spot power `1.7` and `Lights[3]` the untouched strength
`(0.5, 0.5, 0.5)` of a default light. -/
theorem lights_two_and_three_witness :
    ∃ s', UpdateMainPassCB sampleAppInFrame sampleInput.gt = some s' ∧
      (s'.mMainPassCB.Lights 2).SpotPower = 17 / 10 ∧
      (s'.mMainPassCB.Lights 3).Strength = ⟨1 / 2, 1 / 2, 1 / 2⟩ :=
  have hc : sampleAppInFrame.currFrameResource = some (1, sampleFrameResource 131072) := rfl
  have hw : (sampleFrameResource 131072).PassCB.CopyData 0
      (UpdateMainPassCB.fill sampleAppInFrame sampleInput.gt) =
      some { (sampleFrameResource 131072).PassCB with
        mMappedData := [UpdateMainPassCB.fill sampleAppInFrame sampleInput.gt] } := by
    simp [UploadBuffer.CopyData, sampleFrameResource]
  have h := lights_two_and_three sampleAppInFrame sampleInput.gt
  ⟨_, UpdateMainPassCB_of hc hw, by
      rw [(h.2.2.2.2.2 _ (UpdateMainPassCB_of hc hw)).1, h.1],
    by
      rw [(h.2.2.2.2.2 _ (UpdateMainPassCB_of hc hw)).1, h.2.2.2.1]
      rfl⟩

/-- C29. Wave vertex upload.  `UpdateWaves` returns when a frame resource is selected whose wave
vertex buffer has room for `VertexCount` vertices and the waves render item has a geometry.  When
it returns, entry `i` of the selected slot's wave vertex buffer holds, for every
`i` in `[0, VertexCount)`, the position and the normal of wave vertex `i` (of the waves as this
call leaves them) with the texture coordinates `(0.5 + x / Width, 0.5 − z / Depth)`, the entries
from `VertexCount` on are as before, and the vertex buffer of the water geometry is that slot's
buffer.  For `Width > 0`, `Depth > 0`, `−Width/2 ≤ x ≤ Width/2` and `−Depth/2 ≤ z ≤ Depth/2`
both texture coordinates lie in `[0, 1]`. -/
theorem wave_vertex_upload (wm : WavesModel W) (s : TreeBillboardsApp W) (inp : TickInput) :
    (∀ (cur : Nat) (fr : FrameResource), s.currFrameResource = some (cur, fr) →
      wm.VertexCount.toNat ≤ fr.WavesVB.mMappedData.length →
      (((s.mWavesRitem.bind fun p => s.mAllRitems[p]?).bind fun ri => ri.Geo).bind
        fun g => mapFind g s.mGeometries).isSome = true →
      ∃ s', UpdateWaves wm s inp = some s') ∧
    (∀ s', UpdateWaves wm s inp = some s' →
      ∃ (cur : Nat) (fr fr' : FrameResource) (p : Nat) (ri : RenderItem) (g : String)
        (geo' : MeshGeometry),
        s.currFrameResource = some (cur, fr) ∧ s'.currFrameResource = some (cur, fr') ∧
        fr'.WavesVB.mMappedData.length = fr.WavesVB.mMappedData.length ∧
        (∀ i : Nat, (i : Int) < wm.VertexCount →
          fr'.WavesVB.mMappedData[i]? = some
            { Pos := wm.Position s'.mWaves i
              Normal := wm.Normal s'.mWaves i
              TexC := ⟨1 / 2 + (wm.Position s'.mWaves i).x / wm.Width,
                1 / 2 - (wm.Position s'.mWaves i).z / wm.Depth⟩ }) ∧
        (∀ i : Nat, wm.VertexCount ≤ (i : Int) →
          fr'.WavesVB.mMappedData[i]? = fr.WavesVB.mMappedData[i]?) ∧
        s'.mWavesRitem = some p ∧ s'.mAllRitems[p]? = some ri ∧ ri.Geo = some g ∧
        mapFind g s'.mGeometries = some geo' ∧
        geo'.VertexBufferGPU = some fr'.WavesVB.Resource) ∧
    (∀ (w : W) (i : Nat), 0 < wm.Width → 0 < wm.Depth →
      -wm.Width / 2 ≤ (wm.Position w i).x → (wm.Position w i).x ≤ wm.Width / 2 →
      -wm.Depth / 2 ≤ (wm.Position w i).z → (wm.Position w i).z ≤ wm.Depth / 2 →
      (0 ≤ (UpdateWaves.vertex wm w i).TexC.x ∧ (UpdateWaves.vertex wm w i).TexC.x ≤ 1) ∧
      (0 ≤ (UpdateWaves.vertex wm w i).TexC.y ∧ (UpdateWaves.vertex wm w i).TexC.y ≤ 1)) := by
  refine ⟨?_, ?_, ?_⟩
  · intro cur fr hc hlen hgeo
    obtain ⟨vb, hvb⟩ := CopyAll_isSome
      (UpdateWaves.writes wm (UpdateWaves.simulate wm s inp).2) fr.WavesVB (by
        intro x hx
        have := waveWrites_index hx
        omega)
    cases hp : s.mWavesRitem with
    | none => rw [hp] at hgeo; simp at hgeo
    | some p =>
      cases hri : s.mAllRitems[p]? with
      | none => rw [hp] at hgeo; simp [hri] at hgeo
      | some ri =>
        cases hg : ri.Geo with
        | none => rw [hp] at hgeo; simp [hri, hg] at hgeo
        | some g =>
          cases hge : mapFind g s.mGeometries with
          | none => rw [hp] at hgeo; simp [hri, hg, hge] at hgeo
          | some geo => exact ⟨_, UpdateWaves_of hc hvb hp hri hg hge⟩
  · intro s' h
    obtain ⟨cur, fr, vb, p, ri, g, geo, hc, hvb, hp, hri, hg, hgeo, rfl⟩ := UpdateWaves_some h
    obtain ⟨hl, hin, hout⟩ := waveWrites_entry hvb
    refine ⟨cur, fr, { fr with WavesVB := vb }, p, ri, g,
      { geo with VertexBufferGPU := some vb.Resource }, hc,
      currFrameResource_set hc _ rfl rfl, hl, ?_, ?_, hp, hri, hg, ?_, rfl⟩
    · intro i hi
      exact hin i (by omega)
    · intro i hi
      exact hout i (by omega)
    · dsimp only
      exact mapFind_mapStore_self _ _ _ (by rw [hgeo]; rfl)
  · intro w i hW hD hx1 hx2 hz1 hz2
    have a1 : (wm.Position w i).x / wm.Width ≤ 1 / 2 := by
      rw [div_le_iff₀ hW]; linarith
    have a2 : -(1 / 2) ≤ (wm.Position w i).x / wm.Width := by
      rw [le_div_iff₀ hW]; linarith
    have b1 : (wm.Position w i).z / wm.Depth ≤ 1 / 2 := by
      rw [div_le_iff₀ hD]; linarith
    have b2 : -(1 / 2) ≤ (wm.Position w i).z / wm.Depth := by
      rw [le_div_iff₀ hD]; linarith
    simp only [UpdateWaves.vertex]
    refine ⟨⟨?_, ?_⟩, ?_, ?_⟩ <;> linarith

/-- Witness of C29: in the sample scene with slot `1` selected `UpdateWaves` returns, entry `0`
of the slot's wave vertex buffer holds wave vertex `0`, and the texture coordinates of that
vertex, at the corner `x = −Width/2`, `z = Depth/2` of the grid, lie in `[0, 1]`. -/
theorem wave_vertex_upload_witness :
    (∃ s', UpdateWaves sampleWaves sampleAppInFrame sampleInput = some s' ∧
      ∃ (cur : Nat) (fr' : FrameResource), s'.currFrameResource = some (cur, fr') ∧
        fr'.WavesVB.mMappedData[0]? = some
          { Pos := sampleWaves.Position s'.mWaves 0
            Normal := sampleWaves.Normal s'.mWaves 0
            TexC := ⟨1 / 2 + (sampleWaves.Position s'.mWaves 0).x / sampleWaves.Width,
              1 / 2 - (sampleWaves.Position s'.mWaves 0).z / sampleWaves.Depth⟩ }) ∧
    (0 ≤ (UpdateWaves.vertex sampleWaves [0, 0, 0, 0] 0).TexC.x ∧
      (UpdateWaves.vertex sampleWaves [0, 0, 0, 0] 0).TexC.x ≤ 1) ∧
    (0 ≤ (UpdateWaves.vertex sampleWaves [0, 0, 0, 0] 0).TexC.y ∧
      (UpdateWaves.vertex sampleWaves [0, 0, 0, 0] 0).TexC.y ≤ 1) :=
  ⟨match (wave_vertex_upload sampleWaves sampleAppInFrame sampleInput).1 1
      (sampleFrameResource 131072) rfl (by decide) (by decide) with
    | ⟨s', h⟩ =>
      match (wave_vertex_upload sampleWaves sampleAppInFrame sampleInput).2.1 s' h with
      | ⟨cur, _, fr', _, _, _, _, _, hc, _, hin, _⟩ =>
        ⟨s', h, cur, fr', hc, hin 0 (by decide)⟩,
    (wave_vertex_upload sampleWaves sampleAppInFrame sampleInput).2.2 [0, 0, 0, 0] 0
      (by norm_num [sampleWaves]) (by norm_num [sampleWaves]) (by norm_num [sampleWaves])
      (by norm_num [sampleWaves]) (by norm_num [sampleWaves]) (by norm_num [sampleWaves])⟩

/-- C30. Normal is the height gradient.  Over the reals, with the real sine and cosine, the
function of `GetHillsHeight` is differentiable in `x` and in `z` at every point, and the vector
that `GetHillsNormal` computes before normalisation is `(−∂f/∂x, 1, −∂f/∂z)` for that function
`f(x, z) = 0.3·(z·sin(0.1·x) + x·cos(0.1·z))`. -/
theorem hills_normal_is_gradient (x z : ℝ) :
    HasDerivAt (fun t => GetHillsHeight Real.sin Real.cos t z)
      (-(GetHillsNormal.n Real.sin Real.cos x z).1) x ∧
    HasDerivAt (fun t => GetHillsHeight Real.sin Real.cos x t)
      (-(GetHillsNormal.n Real.sin Real.cos x z).2.2) z ∧
    GetHillsNormal.n Real.sin Real.cos x z =
      (-(deriv (fun t => GetHillsHeight Real.sin Real.cos t z) x), 1,
        -(deriv (fun t => GetHillsHeight Real.sin Real.cos x t) z)) ∧
    ∀ t u : ℝ, GetHillsHeight Real.sin Real.cos t u =
      0.3 * (u * Real.sin (0.1 * t) + t * Real.cos (0.1 * u)) := by
  have hx : HasDerivAt (fun t => GetHillsHeight Real.sin Real.cos t z)
      (-(GetHillsNormal.n Real.sin Real.cos x z).1) x := by
    unfold GetHillsHeight GetHillsNormal.n
    have h1 : HasDerivAt (fun t : ℝ => Real.sin (1 / 10 * t)) (Real.cos (1 / 10 * x) * (1 / 10)) x := by
      have := (Real.hasDerivAt_sin (1 / 10 * x)).comp x
        ((hasDerivAt_id x).const_mul (1 / 10 : ℝ))
      simpa using this
    have h2 : HasDerivAt (fun t : ℝ => z * Real.sin (1 / 10 * t) + t * Real.cos (1 / 10 * z))
        (z * (Real.cos (1 / 10 * x) * (1 / 10)) + 1 * Real.cos (1 / 10 * z)) x :=
      (h1.const_mul z).add ((hasDerivAt_id x).mul_const _)
    have h3 := h2.const_mul (3 / 10 : ℝ)
    convert h3 using 1
    ring
  have hz : HasDerivAt (fun t => GetHillsHeight Real.sin Real.cos x t)
      (-(GetHillsNormal.n Real.sin Real.cos x z).2.2) z := by
    unfold GetHillsHeight GetHillsNormal.n
    have h1 : HasDerivAt (fun t : ℝ => Real.cos (1 / 10 * t)) (-Real.sin (1 / 10 * z) * (1 / 10)) z := by
      have := (Real.hasDerivAt_cos (1 / 10 * z)).comp z
        ((hasDerivAt_id z).const_mul (1 / 10 : ℝ))
      simpa using this
    have h2 : HasDerivAt (fun t : ℝ => t * Real.sin (1 / 10 * x) + x * Real.cos (1 / 10 * t))
        (1 * Real.sin (1 / 10 * x) + x * (-Real.sin (1 / 10 * z) * (1 / 10))) z :=
      ((hasDerivAt_id z).mul_const _).add (h1.const_mul x)
    have h3 := h2.const_mul (3 / 10 : ℝ)
    convert h3 using 1
    ring
  refine ⟨hx, hz, ?_, ?_⟩
  · rw [hx.deriv, hz.deriv, neg_neg, neg_neg]
    rfl
  · intro t u
    unfold GetHillsHeight
    norm_num

end TreeBillboards
